import Mathlib

/-!
# JPL compiler: a shallow embedding of the lexer, parser, type resolver and code generator

The definitions below transcribe the C++ sources
(`lexer/lexer.h`, `lexer/lexer.cpp`, `parser/parser.cpp`, `typechecker/types.h`,
`typechecker/typechecker.cpp`, `assembly/assembly.cpp`,
`optimization/optimization.cpp`, `compiler.cpp`) as executable Lean functions.

Conventions of the embedding:
* `std::vector` is `List`; `std::unordered_map` is an association list whose
  keys are kept unique by the operations that write to it.
* The sizes of types (`unsigned int` in the source) are natural numbers below
  `2^32`: `calc_stack_size`, the member `stack_argument_size` and the offsets of
  `cg_tupleaccessexpr` are reduced modulo `2^32` wherever the source adds or
  subtracts them, and the start `int i = bytes_to_move - 8` of the copy loops
  is the 32-bit conversion `unsigned_to_int`.  The symbolic stack counter and
  every other counter and offset of the generator are integers that are not
  reduced: there the model agrees with the source as long as they stay below
  `2^31`.
* A float literal is kept as its text; `Parser.strtod` gives the `double` of
  the text and `Compiler.format_10e` the text that `sprintf("%.10e")` gives
  for it, both with exact arithmetic.
* A thrown exception is the `Except.error` result.
-/

namespace Typechecker

/-- The tag `ResolvedType::type_name` of `types.h`. -/
inductive TYPE_NAME where
  | INT | FLOAT | BOOL | ARRAY | TUPLE
deriving DecidableEq, Repr

/-- The class hierarchy `IntRType`, `FloatRType`, `BoolRType`, `ArrayRType`,
`TupleRType` of `types.h`. -/
inductive ResolvedType where
  | IntRType
  | FloatRType
  | BoolRType
  | ArrayRType (element_type : ResolvedType) (rank : Nat)
  | TupleRType (element_types : List ResolvedType)
deriving Repr, Inhabited

namespace ResolvedType

def type_name : ResolvedType → TYPE_NAME
  | IntRType => .INT
  | FloatRType => .FLOAT
  | BoolRType => .BOOL
  | ArrayRType _ _ => .ARRAY
  | TupleRType _ => .TUPLE

mutual
/-- The virtual `operator==`: the base-class version compares tags only,
`ArrayRType` and `TupleRType` override it. -/
def eq : ResolvedType → ResolvedType → Bool
  | IntRType, other => decide (TYPE_NAME.INT = other.type_name)
  | FloatRType, other => decide (TYPE_NAME.FLOAT = other.type_name)
  | BoolRType, other => decide (TYPE_NAME.BOOL = other.type_name)
  | ArrayRType element_type rank, other =>
    match other with
    | ArrayRType other_element_type other_rank =>
      let sameRank := decide (rank = other_rank)
      let sameElementType := eq element_type other_element_type
      sameRank && sameElementType
    | _ => false
  | TupleRType element_types, other =>
    match other with
    | TupleRType other_element_types =>
      if element_types.length ≠ other_element_types.length then false
      else eq_elements element_types other_element_types
    | _ => false
/-- The loop `for i: if (*first != *second) return false;` of
`TupleRType::operator==`; it is entered with vectors of equal size. -/
def eq_elements : List ResolvedType → List ResolvedType → Bool
  | [], _ => true
  | _ :: _, [] => false
  | first :: rest, second :: other_rest =>
    if !(eq first second) then false else eq_elements rest other_rest
end

/-- The function `typenameToString`. -/
def typenameToString : TYPE_NAME → String
  | .INT => "IntType"
  | .FLOAT => "FloatType"
  | .BOOL => "BoolType"
  | .ARRAY => "ArrayType"
  | .TUPLE => "TupleType"

mutual
/-- The virtual `toString` of the resolved types. -/
def toString : ResolvedType → String
  | IntRType => typenameToString .INT
  | FloatRType => typenameToString .FLOAT
  | BoolRType => typenameToString .BOOL
  | ArrayRType element_type rank =>
    typenameToString .ARRAY ++ " (" ++ toString element_type ++ ") " ++ ToString.toString rank
  | TupleRType element_types => typenameToString .TUPLE ++ toString_elements element_types
/-- The loop `types_str += " (" + element_type->toString() + ")"`. -/
def toString_elements : List ResolvedType → String
  | [] => ""
  | element_type :: rest => " (" ++ toString element_type ++ ")" ++ toString_elements rest
end

/-- The member `operator!=`, which calls the virtual `operator==`. -/
def ne (a b : ResolvedType) : Bool := !(a.eq b)

end ResolvedType
end Typechecker


namespace Parser
open Typechecker

/-- The structs `CPValue`, `IntValue` and `ArrayValue` of `parser.h`
(the constant-propagation annotation of an expression). -/
inductive CPValue where
  | NONE
  | INT (value : Int)
  | ARRAY (lengths : List CPValue)
deriving Repr, Inhabited

/-- The enum `CPValue::CPType`. -/
inductive CPType where
  | NONE | INT | ARRAY
deriving DecidableEq, Repr

def CPValue.type : CPValue → CPType
  | .NONE => .NONE
  | .INT _ => .INT
  | .ARRAY _ => .ARRAY

/-- The classes `VarArgumentNode` and `ArrayArgumentNode`. -/
inductive ArgumentNode where
  | VarArgumentNode (token_s : String)
  | ArrayArgumentNode (array_argument_name : String) (array_dimensions_names : List String)
deriving Repr, Inhabited

/-- The classes `ArgumentLValue` and `TupleLValueNode`, and the resolver's
`PseudoArgumentLValue` and `PseudoTupleLValue`, which derive from `LValue`. -/
inductive LValue where
  | ArgumentLValue (argument : ArgumentNode)
  | TupleLValueNode (lvalues : List LValue)
  | PseudoArgumentLValue (argument : ArgumentNode)
  | PseudoTupleLValue (lvalues : List LValue)
deriving Repr, Inhabited

inductive TypeNode where
  | IntTypeNode
  | BoolTypeNode
  | FloatTypeNode
  | VariableTypeNode (token_s : String)
  | ArrayTypeNode (array_type : TypeNode) (rank : Nat)
  | TupleTypeNode (tuple_types : List TypeNode)
deriving Repr, Inhabited

inductive BindingNode where
  | VarBindingNode (argument : ArgumentNode) (type : TypeNode)
  | TupleBindingNode (bindings : List BindingNode)
deriving Repr, Inhabited

inductive UnopType where
  | NEGATION | NOT
deriving DecidableEq, Repr

inductive BinopType where
  | PLUS | MINUS | TIMES | DIVIDE | MOD
  | LESS_THAN | GREATER_THAN | EQUALS | NOT_EQUALS
  | LESS_THAN_OR_EQUALS | GREATER_THAN_OR_EQUALS
  | AND | OR
deriving DecidableEq, Repr

/-- The two mutable slots every `ExprNode` carries: `resolvedType` (null until
the resolver fills it) and `cp` (a `NONE` value until constant propagation). -/
structure Slots where
  resolvedType : Option ResolvedType
  cp : CPValue
deriving Repr, Inhabited

/-- The slots of a freshly parsed node. -/
def Slots.fresh : Slots := ⟨none, .NONE⟩

/-- The expression classes of `parser.h`.  A float literal keeps its source
text, from which `strtod` gives its `double` value; a variable keeps its name
`token_s`. -/
inductive ExprNode where
  | IntExprNode (slots : Slots) (value : Int)
  | FloatExprNode (slots : Slots) (value : String)
  | TrueExprNode (slots : Slots)
  | FalseExprNode (slots : Slots)
  | VariableExprNode (slots : Slots) (token_s : String)
  | TupleLiteralExprNode (slots : Slots) (tuple_expressions : List ExprNode)
  | ArrayLiteralExprNode (slots : Slots) (array_expressions : List ExprNode)
  | TupleIndexExprNode (slots : Slots) (tuple_expression : ExprNode) (tuple_index : Int)
  | ArrayIndexExprNode (slots : Slots) (array_expression : ExprNode)
      (array_indices : List ExprNode)
  | CallExprNode (slots : Slots) (function_name : String) (arguments : List ExprNode)
  | UnopExprNode (slots : Slots) (operation : UnopType) (expression : ExprNode)
  | BinopExprNode (slots : Slots) (lhs : ExprNode) (operation : BinopType) (rhs : ExprNode)
  | IfExprNode (slots : Slots) (condition : ExprNode) (then_expr : ExprNode)
      (else_expr : ExprNode)
  | ArrayLoopExprNode (slots : Slots) (bounds : List (String × ExprNode))
      (loop_expression : ExprNode)
  | SumLoopExprNode (slots : Slots) (bounds : List (String × ExprNode))
      (loop_expression : ExprNode)
deriving Repr, Inhabited

namespace ExprNode

def slots : ExprNode → Slots
  | IntExprNode s _ => s
  | FloatExprNode s _ => s
  | TrueExprNode s => s
  | FalseExprNode s => s
  | VariableExprNode s _ => s
  | TupleLiteralExprNode s _ => s
  | ArrayLiteralExprNode s _ => s
  | TupleIndexExprNode s _ _ => s
  | ArrayIndexExprNode s _ _ => s
  | CallExprNode s _ _ => s
  | UnopExprNode s _ _ => s
  | BinopExprNode s _ _ _ => s
  | IfExprNode s _ _ _ => s
  | ArrayLoopExprNode s _ _ => s
  | SumLoopExprNode s _ _ => s

def set_slots (s : Slots) : ExprNode → ExprNode
  | IntExprNode _ v => IntExprNode s v
  | FloatExprNode _ v => FloatExprNode s v
  | TrueExprNode _ => TrueExprNode s
  | FalseExprNode _ => FalseExprNode s
  | VariableExprNode _ n => VariableExprNode s n
  | TupleLiteralExprNode _ es => TupleLiteralExprNode s es
  | ArrayLiteralExprNode _ es => ArrayLiteralExprNode s es
  | TupleIndexExprNode _ e i => TupleIndexExprNode s e i
  | ArrayIndexExprNode _ e is => ArrayIndexExprNode s e is
  | CallExprNode _ f as => CallExprNode s f as
  | UnopExprNode _ o e => UnopExprNode s o e
  | BinopExprNode _ l o r => BinopExprNode s l o r
  | IfExprNode _ c t e => IfExprNode s c t e
  | ArrayLoopExprNode _ bs e => ArrayLoopExprNode s bs e
  | SumLoopExprNode _ bs e => SumLoopExprNode s bs e

def resolvedType (e : ExprNode) : Option ResolvedType := e.slots.resolvedType

def cp (e : ExprNode) : CPValue := e.slots.cp

/-- The assignment `expr->resolvedType = rtype`. -/
def set_resolvedType (e : ExprNode) (rtype : ResolvedType) : ExprNode :=
  e.set_slots ⟨some rtype, e.slots.cp⟩

/-- The assignment `expr->cp = value`. -/
def set_cp (e : ExprNode) (value : CPValue) : ExprNode :=
  e.set_slots ⟨e.slots.resolvedType, value⟩

end ExprNode

/-- The statement classes; a `StringNode` is kept as the text its `getValue`
returns. -/
inductive StmtNode where
  | LetStmtNode (set_variable_name : LValue) (variable_expression : ExprNode)
  | AssertStmtNode (expression : ExprNode) (string : String)
  | ReturnStmtNode (expression : ExprNode)
deriving Repr, Inhabited

/-- The command classes; a `StringNode` is kept as the text its `getValue`
returns. -/
inductive CmdNode where
  | ReadCmdNode (fileName : String) (readInto : ArgumentNode)
  | WriteCmdNode (toSave : ExprNode) (fileName : String)
  | TypeCmdNode (variable_s : String) (type : TypeNode)
  | LetCmdNode (lvalue : LValue) (expression : ExprNode)
  | AssertCmdNode (expression : ExprNode) (string : String)
  | PrintCmdNode (string : String)
  | ShowCmdNode (expression : ExprNode)
  | TimeCmdNode (command : CmdNode)
  | FnCmd (function_name : String) (arguments : List BindingNode) (return_type : TypeNode)
      (function_contents : List StmtNode)
deriving Repr, Inhabited

end Parser


namespace Typechecker
open Parser

/-- The structs `VariableInfo`, `TypeInfo` and `FuncInfo` of `typechecker.h`. -/
inductive NameInfo where
  | VariableInfo (rtype : ResolvedType)
  | TypeInfo (stored_type : ResolvedType)
  | FuncInfo (return_type : ResolvedType) (arguments : List ResolvedType)
deriving Repr, Inhabited

/-- The class `TypeException`; the line, position and printed types of the
message are left out. -/
structure TypeException where
  message : String
deriving Repr, Inhabited, DecidableEq

/-- The member `Scope::symbol_table`, an `unordered_map` from names to infos. -/
abbrev SymbolTable := List (String × NameInfo)

/-- The table access `symbol_table[name]` guarded by `symbol_table.count(name) > 0`. -/
def SymbolTable.get? : SymbolTable → String → Option NameInfo
  | [], _ => none
  | (key, info) :: rest, name => if key = name then some info else SymbolTable.get? rest name

/-- The call `symbol_table.insert(std::make_pair(name, info))`, which leaves an
existing key untouched. -/
def SymbolTable.insert (table : SymbolTable) (name : String) (info : NameInfo) : SymbolTable :=
  match SymbolTable.get? table name with
  | some _ => table
  | none => table ++ [(name, info)]

/-- The class `Scope`: a symbol table and a `parent` pointer, null for the
root scope. -/
inductive Scope where
  | root (symbol_table : SymbolTable)
  | nested (symbol_table : SymbolTable) (parent : Scope)
deriving Repr, Inhabited

namespace Scope

def symbol_table : Scope → SymbolTable
  | root table => table
  | nested table _ => table

def createNestedScope (s : Scope) : Scope := nested [] s

/-- The symbol tables reachable from a scope through `parent`: its own table
first, the root's table last. -/
def tables : Scope → List SymbolTable
  | root table => [table]
  | nested table parent => table :: parent.tables

/-- A name is bound in a scope or in one of its ancestors when one of these
tables has it as a key. -/
def bound (s : Scope) (name : String) : Prop :=
  ∃ table ∈ s.tables, ∃ info, (name, info) ∈ table

/-- The method `Scope::lookup`: the info found, or `none` for `false`. -/
def lookup : Scope → String → Option NameInfo
  | root table, name => SymbolTable.get? table name
  | nested table parent, name =>
    match SymbolTable.get? table name with
    | some info => some info
    | none => parent.lookup name

/-- The scope after `symbol_table.insert` on its own table. -/
def insert : Scope → String → NameInfo → Scope
  | root table, name, info => root (SymbolTable.insert table name info)
  | nested table parent, name, info => nested (SymbolTable.insert table name info) parent

/-- The method `Scope::add`: the returned flag and the scope afterwards. -/
def add (s : Scope) (name : String) (info : NameInfo) : Bool × Scope :=
  match s.lookup name with
  | some _ => (false, s)
  | none => (true, s.insert name info)

/-- The loop of `Scope::add_argument` over the dimension names of an array
argument. -/
def add_dimensions : List String → Scope → Except TypeException Scope
  | [], s => pure s
  | dimension_name :: rest, s =>
    match s.add dimension_name (.VariableInfo .IntRType) with
    | (false, _) => throw ⟨"Caught argument dimension with already defined name"⟩
    | (true, s) => add_dimensions rest s

/-- The method `Scope::add_argument`. -/
def add_argument (s : Scope) (argument : ArgumentNode) (rtype : ResolvedType) :
    Except TypeException Scope :=
  match argument with
  | .VarArgumentNode token_s =>
    match s.add token_s (.VariableInfo rtype) with
    | (false, _) => throw ⟨"Caught argument with already defined name"⟩
    | (true, s) => pure s
  | .ArrayArgumentNode array_argument_name array_dimensions_names =>
    match rtype with
    | .ArrayRType _ rank =>
      if array_dimensions_names.length ≠ rank then
        throw ⟨"Caught an argument array rank mis-match"⟩
      else
        match s.add array_argument_name (.VariableInfo rtype) with
        | (false, _) => throw ⟨"Caught argument with already defined name"⟩
        | (true, s) => add_dimensions array_dimensions_names s
    | _ => throw ⟨"Caught an array argument assigned non-array type"⟩

mutual
/-- The method `Scope::add_lvalue`. -/
def add_lvalue : LValue → ResolvedType → Scope → Except TypeException Scope
  | .ArgumentLValue argument, rtype, s => s.add_argument argument rtype
  | .PseudoArgumentLValue argument, rtype, s => s.add_argument argument rtype
  | .TupleLValueNode lvalues, rtype, s =>
    match rtype with
    | .TupleRType element_types =>
      if lvalues.length ≠ element_types.length then
        throw ⟨"Caught tuple lvalue assinged a tuple type with a different number of elements"⟩
      else add_lvalues lvalues element_types s
    | _ => throw ⟨"Caught tuple lvalue assigned non-tuple type"⟩
  | .PseudoTupleLValue lvalues, rtype, s =>
    match rtype with
    | .TupleRType element_types =>
      if lvalues.length ≠ element_types.length then
        throw ⟨"Caught tuple lvalue assinged a tuple type with a different number of elements"⟩
      else add_lvalues lvalues element_types s
    | _ => throw ⟨"Caught tuple lvalue assigned non-tuple type"⟩
/-- The loop `add_lvalue(lvalues[i], element_types[i])`, entered with vectors
of equal size. -/
def add_lvalues : List LValue → List ResolvedType → Scope → Except TypeException Scope
  | [], _, s => pure s
  | _ :: _, [], s => pure s
  | sub_lvalue :: rest, sub_rtype :: rest_types, s => do
    let s ← add_lvalue sub_lvalue sub_rtype s
    add_lvalues rest rest_types s
end

end Scope

/-- The function `create_global_scope`. -/
def create_global_scope : Scope :=
  let global_scope := Scope.root []
  let global_scope := (global_scope.add "args" (.VariableInfo (.ArrayRType .IntRType 1))).2
  let global_scope := (global_scope.add "argnum" (.VariableInfo .IntRType)).2
  let global_scope := (global_scope.add "sqrt" (.FuncInfo .FloatRType [.FloatRType])).2
  let global_scope := (global_scope.add "exp" (.FuncInfo .FloatRType [.FloatRType])).2
  let global_scope := (global_scope.add "sin" (.FuncInfo .FloatRType [.FloatRType])).2
  let global_scope := (global_scope.add "cos" (.FuncInfo .FloatRType [.FloatRType])).2
  let global_scope := (global_scope.add "tan" (.FuncInfo .FloatRType [.FloatRType])).2
  let global_scope := (global_scope.add "asin" (.FuncInfo .FloatRType [.FloatRType])).2
  let global_scope := (global_scope.add "acos" (.FuncInfo .FloatRType [.FloatRType])).2
  let global_scope := (global_scope.add "atan" (.FuncInfo .FloatRType [.FloatRType])).2
  let global_scope := (global_scope.add "log" (.FuncInfo .FloatRType [.FloatRType])).2
  let global_scope :=
    (global_scope.add "pow" (.FuncInfo .FloatRType [.FloatRType, .FloatRType])).2
  let global_scope :=
    (global_scope.add "atan2" (.FuncInfo .FloatRType [.FloatRType, .FloatRType])).2
  let global_scope := (global_scope.add "to_int" (.FuncInfo .IntRType [.FloatRType])).2
  let global_scope := (global_scope.add "to_float" (.FuncInfo .FloatRType [.IntRType])).2
  global_scope

mutual
/-- The function `resolve_type`. -/
def resolve_type : TypeNode → Scope → Except TypeException ResolvedType
  | .IntTypeNode, _ => pure .IntRType
  | .FloatTypeNode, _ => pure .FloatRType
  | .BoolTypeNode, _ => pure .BoolRType
  | .VariableTypeNode token_s, scope =>
    match scope.lookup token_s with
    | none => throw ⟨"Undefined reference to type variable"⟩
    | some (.TypeInfo stored_type) => pure stored_type
    | some _ => throw ⟨"Reference to variable as a type value; but it isn't."⟩
  | .ArrayTypeNode array_type rank, scope => do
    let element_type ← resolve_type array_type scope
    pure (.ArrayRType element_type rank)
  | .TupleTypeNode tuple_types, scope => do
    let r_types ← resolve_types tuple_types scope
    pure (.TupleRType r_types)
/-- The loop `r_types.push_back(resolve_type(tuple_element_type, scope))`. -/
def resolve_types : List TypeNode → Scope → Except TypeException (List ResolvedType)
  | [], _ => pure []
  | tuple_element_type :: rest, scope => do
    let r_type ← resolve_type tuple_element_type scope
    let r_types ← resolve_types rest scope
    pure (r_type :: r_types)
end

end Typechecker


namespace Typechecker
open Parser

/-- The conversion of a `long` to `size_t` in the comparison
`element_types.size() <= tuple_index`. -/
def to_size_t (x : Int) : Int := x % 2 ^ 64

mutual
/-- The function `type_of`: the type computed for the node, and the node with
the `resolvedType` slots of its sub-expressions filled in (the slot of the node
itself is filled by the caller, as in the source). -/
def type_of : ExprNode → Scope → Except TypeException (ResolvedType × ExprNode)
  | .IntExprNode s value, _ => pure (.IntRType, .IntExprNode s value)
  | .FloatExprNode s value, _ => pure (.FloatRType, .FloatExprNode s value)
  | .TrueExprNode s, _ => pure (.BoolRType, .TrueExprNode s)
  | .FalseExprNode s, _ => pure (.BoolRType, .FalseExprNode s)
  | .BinopExprNode s lhs operation rhs, scope => do
    let (lhs_rtype, lhs) ← type_of lhs scope
    let (rhs_rtype, rhs) ← type_of rhs scope
    let result := ExprNode.BinopExprNode s (lhs.set_resolvedType lhs_rtype) operation
      (rhs.set_resolvedType rhs_rtype)
    match operation with
    | .PLUS | .MINUS | .TIMES | .DIVIDE | .MOD =>
      if lhs_rtype.ne rhs_rtype then
        throw ⟨"Types do not match for arithmetic operation."⟩
      else if lhs_rtype.type_name = .INT then pure (.IntRType, result)
      else if lhs_rtype.type_name = .FLOAT then pure (.FloatRType, result)
      else throw ⟨"No supported arithmetic operation. Expects two ints or floats."⟩
    | .LESS_THAN | .GREATER_THAN | .GREATER_THAN_OR_EQUALS | .LESS_THAN_OR_EQUALS =>
      if lhs_rtype.ne rhs_rtype then
        throw ⟨"Types do not match for comparison operation."⟩
      else
        let int_args := decide (lhs_rtype.type_name = .INT)
        let float_args := decide (lhs_rtype.type_name = .FLOAT)
        if !(int_args || float_args) then
          throw ⟨"No supported comparison operation. Expects two ints or floats."⟩
        else pure (.BoolRType, result)
    | .EQUALS | .NOT_EQUALS =>
      if lhs_rtype.ne rhs_rtype then
        throw ⟨"Types do not match for equality operation."⟩
      else
        let int_args := decide (lhs_rtype.type_name = .INT)
        let float_args := decide (lhs_rtype.type_name = .FLOAT)
        let bool_args := decide (lhs_rtype.type_name = .BOOL)
        if !(int_args || float_args || bool_args) then
          throw ⟨"No supported equality operation. Expects two ints, floats, or bools."⟩
        else pure (.BoolRType, result)
    | .AND | .OR =>
      if lhs_rtype.type_name ≠ .BOOL ∨ rhs_rtype.type_name ≠ .BOOL then
        throw ⟨"No supported boolean operation for given types. Expects two booleans."⟩
      else pure (.BoolRType, result)
  | .UnopExprNode s operation expression, scope => do
    let (expr_rtype, expression) ← type_of expression scope
    let result := ExprNode.UnopExprNode s operation (expression.set_resolvedType expr_rtype)
    match operation with
    | .NEGATION =>
      if expr_rtype.type_name = .INT then pure (.IntRType, result)
      else if expr_rtype.type_name = .FLOAT then pure (.FloatRType, result)
      else throw ⟨"No supported unary -. Expects an int or float."⟩
    | .NOT =>
      if expr_rtype.type_name ≠ .BOOL then
        throw ⟨"No supported unary !. Expects a boolean."⟩
      else pure (.BoolRType, result)
  | .TupleLiteralExprNode s tuple_expressions, scope => do
    let (expression_rtypes, tuple_expressions) ← type_of_tuple_expressions tuple_expressions scope
    pure (.TupleRType expression_rtypes, .TupleLiteralExprNode s tuple_expressions)
  | .ArrayLiteralExprNode s array_expressions, scope =>
    match array_expressions with
    | [] =>
      throw ⟨"Caught array literal expression with no elements. Unidentifyable subtype."⟩
    | first :: rest => do
      let (element_rtype, first) ← type_of first scope
      let first := first.set_resolvedType element_rtype
      let rest ← type_of_array_expressions element_rtype rest scope
      pure (.ArrayRType element_rtype 1, .ArrayLiteralExprNode s (first :: rest))
  | .IfExprNode s condition then_expr else_expr, scope => do
    let (condition_rtype, condition) ← type_of condition scope
    let (then_rtype, then_expr) ← type_of then_expr scope
    let (else_rtype, else_expr) ← type_of else_expr scope
    let result := ExprNode.IfExprNode s (condition.set_resolvedType condition_rtype)
      (then_expr.set_resolvedType then_rtype) (else_expr.set_resolvedType else_rtype)
    if condition_rtype.type_name ≠ .BOOL then
      throw ⟨"Caught if expression with non-boolean conditional expression type"⟩
    else if then_rtype.ne else_rtype then
      throw ⟨"Caught if expression with non-matching then else expressions."⟩
    else pure (then_rtype, result)
  | .TupleIndexExprNode s tuple_expression tuple_index, scope => do
    let (expr_rtype, tuple_expression) ← type_of tuple_expression scope
    let result := ExprNode.TupleIndexExprNode s (tuple_expression.set_resolvedType expr_rtype)
      tuple_index
    match expr_rtype with
    | .TupleRType element_types =>
      if (element_types.length : Int) ≤ to_size_t tuple_index ∨ tuple_index < 0 then
        throw ⟨"Caught indexing into a tuple at illegal index"⟩
      else
        match element_types.get? tuple_index.toNat with
        | some element_type => pure (element_type, result)
        | none => throw ⟨"Caught indexing into a tuple at illegal index"⟩
    | _ => throw ⟨"Caught tuple indexing into a non-tuple expression."⟩
  | .ArrayIndexExprNode s array_expression array_indices, scope => do
    let (expr_rtype, array_expression) ← type_of array_expression scope
    let array_expression := array_expression.set_resolvedType expr_rtype
    match expr_rtype with
    | .ArrayRType element_type rank =>
      if rank ≠ array_indices.length then
        throw ⟨"Caught indexing into an array with the wrong number of indices."⟩
      else do
        let array_indices ← type_of_array_indices array_indices scope
        pure (element_type, .ArrayIndexExprNode s array_expression array_indices)
    | _ => throw ⟨"Caught array indexing into a non-array expression."⟩
  | .VariableExprNode s token_s, scope =>
    match scope.lookup token_s with
    | none => throw ⟨"Undefined reference to variable"⟩
    | some (.VariableInfo rtype) => pure (rtype, .VariableExprNode s token_s)
    | some _ => throw ⟨"Reference to variable as an expression value; but it isn't."⟩
  | .ArrayLoopExprNode s bounds loop_expression, scope =>
    if bounds.length < 1 then throw ⟨"Caught array loop with no bounds."⟩
    else do
      let (typed_bounds, child_scope) ←
        type_of_loop_bounds bounds scope scope.createNestedScope
      let (array_rtype, loop_expression) ← type_of loop_expression child_scope
      let loop_expression := loop_expression.set_resolvedType array_rtype
      pure (.ArrayRType array_rtype bounds.length,
        .ArrayLoopExprNode s typed_bounds loop_expression)
  | .SumLoopExprNode s bounds loop_expression, scope =>
    if bounds.length < 1 then throw ⟨"Caught sum loop with no bounds."⟩
    else do
      let (typed_bounds, child_scope) ←
        type_of_loop_bounds bounds scope scope.createNestedScope
      let (sum_rtype, loop_expression) ← type_of loop_expression child_scope
      let loop_expression := loop_expression.set_resolvedType sum_rtype
      let result := ExprNode.SumLoopExprNode s typed_bounds loop_expression
      if sum_rtype.type_name = .INT then pure (.IntRType, result)
      else if sum_rtype.type_name = .FLOAT then pure (.FloatRType, result)
      else throw ⟨"Caught sum loop with non-numerical type. Expected an int or a float."⟩
  | .CallExprNode s function_name arguments, scope =>
    match scope.lookup function_name with
    | none => throw ⟨"Undefined reference to function"⟩
    | some (.FuncInfo return_type expected) =>
      if expected.length ≠ arguments.length then
        throw ⟨"Function called with the wrong number of arguments."⟩
      else do
        let arguments ← type_of_arguments expected arguments scope
        pure (return_type, .CallExprNode s function_name arguments)
    | some _ => throw ⟨"Referenced non-function as a function."⟩
/-- The loop over `tuple_expressions` in the tuple-literal case. -/
def type_of_tuple_expressions :
    List ExprNode → Scope → Except TypeException (List ResolvedType × List ExprNode)
  | [], _ => pure ([], [])
  | sub_expr :: rest, scope => do
    let (sub_expr_rtype, sub_expr) ← type_of sub_expr scope
    let (rtypes, rest) ← type_of_tuple_expressions rest scope
    pure (sub_expr_rtype :: rtypes, sub_expr.set_resolvedType sub_expr_rtype :: rest)
/-- The loop `for (int i = 1; i < element_count; i++)` of the array-literal case. -/
def type_of_array_expressions :
    ResolvedType → List ExprNode → Scope → Except TypeException (List ExprNode)
  | _, [], _ => pure []
  | element_rtype, element :: rest, scope => do
    let (_elmnt_rtype, element) ← type_of element scope
    let element := element.set_resolvedType _elmnt_rtype
    if element_rtype.ne _elmnt_rtype then
      throw ⟨"Caught array literal with mismatched element types."⟩
    else do
      let rest ← type_of_array_expressions element_rtype rest scope
      pure (element :: rest)
/-- The loop over `array_indices` in the array-index case. -/
def type_of_array_indices : List ExprNode → Scope → Except TypeException (List ExprNode)
  | [], _ => pure []
  | index_expr :: rest, scope => do
    let (index_expr_type, index_expr) ← type_of index_expr scope
    let index_expr := index_expr.set_resolvedType index_expr_type
    if index_expr_type.type_name ≠ .INT then
      throw ⟨"Caught indexing into an array with non-int index expression."⟩
    else do
      let rest ← type_of_array_indices rest scope
      pure (index_expr :: rest)
/-- The loop over the arguments in the call case, entered with vectors of
equal size. -/
def type_of_arguments :
    List ResolvedType → List ExprNode → Scope → Except TypeException (List ExprNode)
  | _, [], _ => pure []
  | [], argument :: rest, _ => pure (argument :: rest)
  | expected_type :: expected, argument :: rest, scope => do
    let (got_type, argument) ← type_of argument scope
    if expected_type.ne got_type then
      throw ⟨"Function called with an argument of the wrong type."⟩
    else do
      let rest ← type_of_arguments expected rest scope
      pure (argument.set_resolvedType got_type :: rest)
/-- The function `type_of_loop_bounds`, with the child scope under
construction as third argument: the bounds are typed in `scope`, the index
names are added to the child scope. -/
def type_of_loop_bounds : List (String × ExprNode) → Scope → Scope →
    Except TypeException (List (String × ExprNode) × Scope)
  | [], _, child_scope => pure ([], child_scope)
  | (index_name, sub_expr) :: rest, scope, child_scope => do
    let (bound_rtype, sub_expr) ← type_of sub_expr scope
    if bound_rtype.type_name ≠ .INT then
      throw ⟨"Caught loop iterating over non-int type"⟩
    else
      let sub_expr := sub_expr.set_resolvedType bound_rtype
      match child_scope.add index_name (.VariableInfo bound_rtype) with
      | (false, _) => throw ⟨"Caught loop iterating variable with already defined name"⟩
      | (true, child_scope) => do
        let (rest, child_scope) ← type_of_loop_bounds rest scope child_scope
        pure ((index_name, sub_expr) :: rest, child_scope)
end

end Typechecker


namespace Typechecker
open Parser

mutual
/-- The function `decompose_binding`: the pseudo lvalue and the resolved type
of a function parameter. -/
def decompose_binding : BindingNode → Scope → Except TypeException (LValue × ResolvedType)
  | .VarBindingNode argument type, scope => do
    let rtype ← resolve_type type scope
    pure (.PseudoArgumentLValue argument, rtype)
  | .TupleBindingNode bindings, scope => do
    let (sub_lvalues, sub_rtypes) ← decompose_bindings bindings scope
    pure (.PseudoTupleLValue sub_lvalues, .TupleRType sub_rtypes)
/-- The loop of `decompose_binding` over the bindings of a tuple binding. -/
def decompose_bindings :
    List BindingNode → Scope → Except TypeException (List LValue × List ResolvedType)
  | [], _ => pure ([], [])
  | u_binding :: rest, scope => do
    let (lvalue, rtype) ← decompose_binding u_binding scope
    let (sub_lvalues, sub_rtypes) ← decompose_bindings rest scope
    pure (lvalue :: sub_lvalues, rtype :: sub_rtypes)
end

/-- The function `typecheckStmt`: whether the statement was a return, the
annotated statement and the function scope afterwards. -/
def typecheckStmt (stmt : StmtNode) (scope : Scope) (return_type : ResolvedType) :
    Except TypeException (Bool × StmtNode × Scope) :=
  match stmt with
  | .LetStmtNode set_variable_name variable_expression => do
    let (rtype, variable_expression) ← type_of variable_expression scope
    let variable_expression := variable_expression.set_resolvedType rtype
    let scope ← scope.add_lvalue set_variable_name rtype
    pure (false, .LetStmtNode set_variable_name variable_expression, scope)
  | .AssertStmtNode expression string => do
    let (rtype, expression) ← type_of expression scope
    if rtype.type_name ≠ .BOOL then
      throw ⟨"Assert takes a boolean as its first argument."⟩
    else pure (false, .AssertStmtNode (expression.set_resolvedType rtype) string, scope)
  | .ReturnStmtNode expression => do
    let (rtype, expression) ← type_of expression scope
    if rtype.ne return_type then
      throw ⟨"Return type does not match type of function."⟩
    else pure (true, .ReturnStmtNode (expression.set_resolvedType rtype), scope)

/-- The parameter loop of the `fn` case of `typecheckCmd`: each binding is
decomposed in the enclosing scope and added to the function scope. -/
def typecheck_bindings : List BindingNode → Scope → Scope →
    Except TypeException (List ResolvedType × Scope)
  | [], _, function_scope => pure ([], function_scope)
  | u_binding :: rest, scope, function_scope => do
    let (lvalue, rtype) ← decompose_binding u_binding scope
    let function_scope ← function_scope.add_lvalue lvalue rtype
    let (arg_rtypes, function_scope) ← typecheck_bindings rest scope function_scope
    pure (rtype :: arg_rtypes, function_scope)

/-- The statement loop of the `fn` case of `typecheckCmd`. -/
def typecheck_stmts : List StmtNode → Scope → ResolvedType → Bool →
    Except TypeException (Bool × List StmtNode × Scope)
  | [], function_scope, _, has_return => pure (has_return, [], function_scope)
  | u_stmt :: rest, function_scope, return_type, has_return => do
    let (was_return, u_stmt, function_scope) ← typecheckStmt u_stmt function_scope return_type
    let (has_return, rest, function_scope) ←
      typecheck_stmts rest function_scope return_type (has_return || was_return)
    pure (has_return, u_stmt :: rest, function_scope)

/-- The function scope seen through its `parent` pointer after the enclosing
scope has changed to `scope`. -/
def reparent (function_scope scope : Scope) : Scope :=
  Scope.nested function_scope.symbol_table scope

/-- The function `typecheckCmd`: the annotated command and the scope
afterwards. -/
def typecheckCmd : CmdNode → Scope → Except TypeException (CmdNode × Scope)
  | .ShowCmdNode expression, scope => do
    let (rtype, expression) ← type_of expression scope
    pure (.ShowCmdNode (expression.set_resolvedType rtype), scope)
  | .ReadCmdNode fileName readInto, scope => do
    let tuple := ResolvedType.TupleRType [.FloatRType, .FloatRType, .FloatRType, .FloatRType]
    let array := ResolvedType.ArrayRType tuple 2
    let scope ← scope.add_argument readInto array
    pure (.ReadCmdNode fileName readInto, scope)
  | .WriteCmdNode toSave fileName, scope => do
    let (rtype, toSave) ← type_of toSave scope
    let result := CmdNode.WriteCmdNode (toSave.set_resolvedType rtype) fileName
    match rtype with
    | .ArrayRType (.TupleRType element_types) rank =>
      if element_types.length ≠ 4 then
        throw ⟨"Caught write with expression of non-4-float tuple array type"⟩
      else if element_types.any (fun tuple_subtype => tuple_subtype.type_name ≠ .FLOAT) then
        throw ⟨"Caught write with expression of non-4-float tuple array type"⟩
      else if rank ≠ 2 then
        throw ⟨"Caught write with expression of non-rank-2 4-float tuple array type"⟩
      else pure (result, scope)
    | .ArrayRType _ _ => throw ⟨"Caught write with expression of non-tuple array type"⟩
    | _ => throw ⟨"Caught write with expression of non-array type"⟩
  | .LetCmdNode lvalue expression, scope => do
    let (rtype, expression) ← type_of expression scope
    let expression := expression.set_resolvedType rtype
    let scope ← scope.add_lvalue lvalue rtype
    pure (.LetCmdNode lvalue expression, scope)
  | .AssertCmdNode expression string, scope => do
    let (rtype, expression) ← type_of expression scope
    if rtype.type_name ≠ .BOOL then
      throw ⟨"Assert takes a boolean as its first argument."⟩
    else pure (.AssertCmdNode (expression.set_resolvedType rtype) string, scope)
  | .PrintCmdNode string, scope => pure (.PrintCmdNode string, scope)
  | .TimeCmdNode command, scope => do
    let (command, scope) ← typecheckCmd command scope
    pure (.TimeCmdNode command, scope)
  | .TypeCmdNode variable_s type, scope => do
    let stored_type ← resolve_type type scope
    match scope.add variable_s (.TypeInfo stored_type) with
    | (false, _) => throw ⟨"Defined variable twice."⟩
    | (true, scope) => pure (.TypeCmdNode variable_s type, scope)
  | .FnCmd function_name arguments return_type_node function_contents, scope => do
    let function_scope := scope.createNestedScope
    let (arg_rtypes, function_scope) ← typecheck_bindings arguments scope function_scope
    let return_type ← resolve_type return_type_node scope
    match scope.add function_name (.FuncInfo return_type arg_rtypes) with
    | (false, _) => throw ⟨"Function was defined twice."⟩
    | (true, scope) => do
      let function_scope := reparent function_scope scope
      let (has_return, function_contents, _) ←
        typecheck_stmts function_contents function_scope return_type false
      let is_empty_tuple := return_type.eq (.TupleRType [])
      if (!is_empty_tuple) && (!has_return) then
        throw ⟨"Function has a non-\x7b\x7d return type, but never returns."⟩
      else pure (.FnCmd function_name arguments return_type_node function_contents, scope)

/-- The command loop of `typecheck`. -/
def typecheck_cmds : List CmdNode → Scope → Except TypeException (List CmdNode × Scope)
  | [], scope => pure ([], scope)
  | u_cmd :: rest, scope => do
    let (u_cmd, scope) ← typecheckCmd u_cmd scope
    let (rest, scope) ← typecheck_cmds rest scope
    pure (u_cmd :: rest, scope)

/-- The function `typecheck`: the annotated commands and the global scope. -/
def typecheck (commands : List CmdNode) : Except TypeException (List CmdNode × Scope) :=
  typecheck_cmds commands create_global_scope

end Typechecker


namespace Optimization
open Parser

/-- The member `ConstantPropagation::context`, an `unordered_map` from names
to shared `CPValue` pointers; a null entry is the same as no entry. -/
abbrev Context := List (String × CPValue)

/-- The read `context[name]`, `none` for a null pointer. -/
def Context.get? : Context → String → Option CPValue
  | [], _ => none
  | (key, value) :: rest, name => if key = name then some value else Context.get? rest name

/-- The assignment `context[name] = value`. -/
def Context.set : Context → String → CPValue → Context
  | [], name, value => [(name, value)]
  | (key, old) :: rest, name, value =>
    if key = name then (key, value) :: rest else (key, old) :: Context.set rest name value

/-- The constructor `ConstantPropagation::ConstantPropagation`. -/
def ConstantPropagation : Context :=
  Context.set (Context.set [] "argnum" .NONE) "args" (.ARRAY [.NONE])

mutual
/-- The dispatcher `ASTVisitor::visit_expr` with the overrides of
`ConstantPropagation`; expressions only read the context. -/
def visit_expr : ExprNode → Context → ExprNode
  | .IntExprNode s value, _ => .IntExprNode ⟨s.resolvedType, .INT value⟩ value
  | .FloatExprNode s value, _ => .FloatExprNode s value
  | .TrueExprNode s, _ => .TrueExprNode s
  | .FalseExprNode s, _ => .FalseExprNode s
  | .VariableExprNode s token_s, context =>
    match context.get? token_s with
    | some value => .VariableExprNode ⟨s.resolvedType, value⟩ token_s
    | none => .VariableExprNode s token_s
  | .TupleLiteralExprNode s tuple_expressions, context =>
    .TupleLiteralExprNode s (visit_exprs tuple_expressions context)
  | .ArrayLiteralExprNode s array_expressions, context =>
    let array_expressions := visit_exprs array_expressions context
    .ArrayLiteralExprNode ⟨s.resolvedType, .ARRAY [.INT array_expressions.length]⟩
      array_expressions
  | .TupleIndexExprNode s tuple_expression tuple_index, context =>
    .TupleIndexExprNode s (visit_expr tuple_expression context) tuple_index
  | .ArrayIndexExprNode s array_expression array_indices, context =>
    .ArrayIndexExprNode s (visit_expr array_expression context)
      (visit_exprs array_indices context)
  | .CallExprNode s function_name arguments, context =>
    .CallExprNode s function_name (visit_exprs arguments context)
  | .UnopExprNode s operation expression, context =>
    .UnopExprNode s operation (visit_expr expression context)
  | .BinopExprNode s lhs operation rhs, context =>
    .BinopExprNode s (visit_expr lhs context) operation (visit_expr rhs context)
  | .IfExprNode s condition then_expr else_expr, context =>
    .IfExprNode s (visit_expr condition context) (visit_expr then_expr context)
      (visit_expr else_expr context)
  | .ArrayLoopExprNode s bounds loop_expression, context =>
    let bounds := visit_bounds bounds context
    let array_lengths := bounds.map (fun u_bound => u_bound.2.cp)
    .ArrayLoopExprNode ⟨s.resolvedType, .ARRAY array_lengths⟩ bounds
      (visit_expr loop_expression context)
  | .SumLoopExprNode s bounds loop_expression, context =>
    .SumLoopExprNode s (visit_bounds bounds context) (visit_expr loop_expression context)
/-- The loops `for (auto& u_subexpr : ...) visit_expr(u_subexpr)`. -/
def visit_exprs : List ExprNode → Context → List ExprNode
  | [], _ => []
  | u_subexpr :: rest, context => visit_expr u_subexpr context :: visit_exprs rest context
/-- The loops `for (auto& u_bound : loop_expr->bounds) visit_expr(u_bound->second)`. -/
def visit_bounds : List (String × ExprNode) → Context → List (String × ExprNode)
  | [], _ => []
  | (index_name, bound) :: rest, context =>
    (index_name, visit_expr bound context) :: visit_bounds rest context
end

/-- The loop of `visit_let_cmd` that gives each dimension name the length
`array_value->lengths[i]`; reading past the end of `lengths` is undefined
behaviour, reported as an error. -/
def set_dimensions : List String → List CPValue → Context → Except String Context
  | [], _, context => pure context
  | _ :: _, [], _ => throw "lengths[i] read out of range"
  | dimension :: rest, dimension_cpv :: lengths, context =>
    set_dimensions rest lengths (context.set dimension dimension_cpv)

/-- The override `ConstantPropagation::visit_let_cmd`. -/
def visit_let_cmd (lvalue : LValue) (expression : ExprNode) (context : Context) :
    Except String (CmdNode × Context) :=
  let expression := visit_expr expression context
  match lvalue with
  | .ArgumentLValue (.VarArgumentNode token_s) =>
    pure (.LetCmdNode lvalue expression, context.set token_s expression.cp)
  | .ArgumentLValue (.ArrayArgumentNode array_argument_name array_dimensions_names) =>
    match expression.cp with
    | .ARRAY lengths => do
      let context ← set_dimensions array_dimensions_names lengths context
      pure (.LetCmdNode lvalue expression, context.set array_argument_name expression.cp)
    | _ => pure (.LetCmdNode lvalue expression, context)
  | _ => pure (.LetCmdNode lvalue expression, context)

/-- The override `ConstantPropagation::visit_let_stmt`.  Its two unchecked
`static_cast`s are undefined behaviour when the lvalue is not a plain
variable; that is reported as an error. -/
def visit_let_stmt (set_variable_name : LValue) (variable_expression : ExprNode)
    (context : Context) : Except String (StmtNode × Context) :=
  let variable_expression := visit_expr variable_expression context
  if variable_expression.cp.type = .INT then
    match set_variable_name with
    | .ArgumentLValue (.VarArgumentNode token_s) =>
      pure (.LetStmtNode set_variable_name variable_expression,
        context.set token_s variable_expression.cp)
    | _ => throw "static_cast of an lvalue that is not a variable argument"
  else pure (.LetStmtNode set_variable_name variable_expression, context)

/-- The dispatcher `ASTVisitor::visit_stmt`. -/
def visit_stmt (stmt : StmtNode) (context : Context) : Except String (StmtNode × Context) :=
  match stmt with
  | .LetStmtNode set_variable_name variable_expression =>
    visit_let_stmt set_variable_name variable_expression context
  | .AssertStmtNode expression string =>
    pure (.AssertStmtNode (visit_expr expression context) string, context)
  | .ReturnStmtNode expression =>
    pure (.ReturnStmtNode (visit_expr expression context), context)

/-- The loop of `ASTVisitor::visit_fn_cmd` over the function body. -/
def visit_stmts : List StmtNode → Context → Except String (List StmtNode × Context)
  | [], context => pure ([], context)
  | u_stmt :: rest, context => do
    let (u_stmt, context) ← visit_stmt u_stmt context
    let (rest, context) ← visit_stmts rest context
    pure (u_stmt :: rest, context)

/-- The dispatcher `ASTVisitor::visit_cmd` with the overrides of
`ConstantPropagation`. -/
def visit_cmd : CmdNode → Context → Except String (CmdNode × Context)
  | .ReadCmdNode fileName readInto, context =>
    let lengths := [CPValue.NONE, CPValue.NONE]
    match readInto with
    | .VarArgumentNode token_s =>
      pure (.ReadCmdNode fileName readInto, context.set token_s (.ARRAY lengths))
    | .ArrayArgumentNode array_argument_name _ =>
      pure (.ReadCmdNode fileName readInto, context.set array_argument_name (.ARRAY lengths))
  | .WriteCmdNode toSave fileName, context =>
    pure (.WriteCmdNode (visit_expr toSave context) fileName, context)
  | .TypeCmdNode variable_s type, context => pure (.TypeCmdNode variable_s type, context)
  | .LetCmdNode lvalue expression, context => visit_let_cmd lvalue expression context
  | .AssertCmdNode expression string, context =>
    pure (.AssertCmdNode (visit_expr expression context) string, context)
  | .PrintCmdNode string, context => pure (.PrintCmdNode string, context)
  | .ShowCmdNode expression, context =>
    pure (.ShowCmdNode (visit_expr expression context), context)
  | .TimeCmdNode command, context => do
    let (command, context) ← visit_cmd command context
    pure (.TimeCmdNode command, context)
  | .FnCmd function_name arguments return_type function_contents, context => do
    let (function_contents, context) ← visit_stmts function_contents context
    pure (.FnCmd function_name arguments return_type function_contents, context)

/-- The loop of `ASTVisitor::visit_all_cmds`, from a given context. -/
def visit_cmds : List CmdNode → Context → Except String (List CmdNode × Context)
  | [], context => pure ([], context)
  | u_cmd :: rest, context => do
    let (u_cmd, context) ← visit_cmd u_cmd context
    let (rest, context) ← visit_cmds rest context
    pure (u_cmd :: rest, context)

/-- The pass as the driver runs it: a fresh `ConstantPropagation` object and
`visit_all_cmds`. -/
def visit_all_cmds (cmds : List CmdNode) : Except String (List CmdNode) := do
  let (cmds, _) ← visit_cmds cmds ConstantPropagation
  pure cmds

end Optimization

namespace Parser

/-! ### The value of a float literal

The library calls `strtod` and `sprintf("%.10e")` on the decimal literals of
the language, with exact arithmetic on natural numbers. -/

/-- The quotient `numerator / denominator` rounded to the nearest integer, a
tie going to the even one. -/
def round_half_even (numerator denominator : Nat) : Nat :=
  let quotient := numerator / denominator
  let twice := 2 * (numerator % denominator)
  if twice < denominator then quotient
  else if twice > denominator then quotient + 1
  else if quotient % 2 = 0 then quotient else quotient + 1

/-- The number of binary digits of a positive number. -/
def bit_length (n : Nat) : Nat := (Nat.toDigits 2 n).length

/-- Whether `numerator / denominator` is at least `2 ^ power`. -/
def at_least_power_of_two (numerator denominator : Nat) (power : Int) : Bool :=
  if power ≥ 0 then decide (numerator ≥ denominator * 2 ^ power.toNat)
  else decide (numerator * 2 ^ (-power).toNat ≥ denominator)

/-- The quotient of `numerator / denominator` by `2 ^ power`, rounded to the
nearest integer, a tie going to the even one. -/
def round_to_unit (numerator denominator : Nat) (power : Int) : Nat :=
  if power ≥ 0 then round_half_even numerator (denominator * 2 ^ power.toNat)
  else round_half_even (numerator * 2 ^ (-power).toNat) denominator

/-- The library call `strtod(text, &end)` of glibc on a decimal literal
`digits.digits`, in the default rounding mode: the `double` that is returned,
as a significand and a power of two (`significand * 2 ^ exponent`), and
whether `errno` is set to `ERANGE`.  The value is rounded to the nearest
`double`, a tie going to the even significand.  `ERANGE` is set when the value
rounds to infinity, and when the result is not exact and the value, rounded to
53 bits with an unbounded exponent, lies below the smallest normal `double`
`2^-1022`.  For a value in `[2^-1023, 2^-1022)` glibc leaves the bit of weight
`2^-1076` out of the final rounding and of the test for exactness.  The result
`HUGE_VAL` of an overflow is given as `(0, 0)`; the parser does not use it.
Other forms of text are not interpreted. -/
def strtod (text : String) : (Nat × Int) × Bool :=
  let characters := text.toList
  let whole := characters.takeWhile Char.isDigit
  let after := characters.dropWhile Char.isDigit
  let fraction := if after.head? = some '.' then after.tail.takeWhile Char.isDigit else []
  let numerator : Nat :=
    (whole ++ fraction).foldl (fun value c => 10 * value + (c.toNat - '0'.toNat)) 0
  let denominator : Nat := 10 ^ fraction.length
  if numerator = 0 then ((0, 0), false)
  else
    let estimate : Int := (bit_length numerator : Int) - (bit_length denominator : Int)
    let exponent : Int :=
      if at_least_power_of_two numerator denominator estimate then estimate else estimate - 1
    let significand := round_to_unit numerator denominator (exponent - 52)
    if exponent ≥ 1024 ∨ (exponent = 1023 ∧ significand = 2 ^ 53) then ((0, 0), true)
    else if exponent < -1022 ∧ ¬ (exponent = -1023 ∧ significand = 2 ^ 53) then
      let scaled := numerator * ((2 ^ 134) ^ 8 * 16)
      let left_out : Nat :=
        if exponent = -1023 ∧ (scaled / denominator) % 2 = 1 then denominator else 0
      ((round_half_even (scaled - left_out) (4 * denominator), -1074),
        decide ((scaled - left_out) % (4 * denominator) ≠ 0))
    else ((significand, exponent - 52), false)

end Parser

namespace Compiler
open Typechecker

mutual
/-- The function `unsigned int calc_stack_size(...)` of `assembly.cpp`.  The
result is a 32-bit unsigned number: the array case `8 + 8 * rank` is converted
to `unsigned int` on return. -/
def calc_stack_size : ResolvedType → Nat
  | .IntRType => 8
  | .FloatRType => 8
  | .BoolRType => 8
  | .TupleRType element_types => calc_stack_size_sum element_types
  | .ArrayRType _ rank => (8 + 8 * rank) % 2 ^ 32
/-- The accumulation loop `sum_size += calc_stack_size(element_types[i])` on the
`unsigned int sum_size`: every addition is reduced modulo `2^32`, so the result
is the sum of the element sizes modulo `2^32` in whichever order they are
added. -/
def calc_stack_size_sum : List ResolvedType → Nat
  | [] => 0
  | t :: ts => (calc_stack_size t + calc_stack_size_sum ts) % 2 ^ 32
end

/-- The search `std::find(constants.begin(), constants.end(), constant)`, as the
index of the first match (`constants.length` stands for `constants.end()`). -/
def find (constants : List String) (constant : String) : Nat :=
  match constants with
  | [] => 0
  | c :: cs => if c = constant then 0 else find cs constant + 1

/-- The method `Assembly::add_constant_raw`, on the constant vector alone: the
returned label and the vector afterwards. -/
def add_constant_raw (constants : List String) (constant : String) : String × List String :=
  let const_number := find constants constant
  if const_number = constants.length then
    let constants := constants ++ [constant]
    ("const" ++ toString (constants.length - 1), constants)
  else
    ("const" ++ toString const_number, constants)


/-- The enum `CallingConvention::MemoryLocation`. -/
inductive MemoryLocation where
  | RDI | RSI | RDX | RCX | R8 | R9
  | XMM0 | XMM1 | XMM2 | XMM3 | XMM4 | XMM5 | XMM6 | XMM7
  | STACK | RAX
deriving DecidableEq, Repr, Inhabited

namespace MemoryLocation

/-- The integer value of the enumerator (`static_cast<int>(loc)`). -/
def as_int : MemoryLocation → Nat
  | RDI => 0 | RSI => 1 | RDX => 2 | RCX => 3 | R8 => 4 | R9 => 5
  | XMM0 => 6 | XMM1 => 7 | XMM2 => 8 | XMM3 => 9
  | XMM4 => 10 | XMM5 => 11 | XMM6 => 12 | XMM7 => 13
  | STACK => 14 | RAX => 15

/-- The conversion `static_cast<MemoryLocation>(n)`, used for `n < 14` only. -/
def from_int : Nat → MemoryLocation
  | 0 => RDI | 1 => RSI | 2 => RDX | 3 => RCX | 4 => R8 | 5 => R9
  | 6 => XMM0 | 7 => XMM1 | 8 => XMM2 | 9 => XMM3
  | 10 => XMM4 | 11 => XMM5 | 12 => XMM6 | 13 => XMM7
  | 14 => STACK | _ => RAX

end MemoryLocation

def R_REGISTER_COUNT : Nat := 6

def F_REGISTER_COUNT : Nat := 8

/-- The struct `CallingConvention::MemoryLocationData`. -/
structure MemoryLocationData where
  location : MemoryLocation
  argument_number : Nat
deriving DecidableEq, Repr, Inhabited

/-- The data members of the class `CallingConvention`.  The member
`return_location` is left unset by the constructor for a void return; `none`
stands for that. -/
structure CallingConvention where
  arg_signature : List ResolvedType
  ret_signature : ResolvedType
  return_location : Option MemoryLocation
  is_void_return : Bool
  argument_pop_order : List MemoryLocationData
  stack_argument_size : Nat
  return_size : Nat
deriving Repr, Inhabited

namespace CallingConvention

def is_integral (r_type : ResolvedType) : Bool :=
  r_type.type_name = .INT || r_type.type_name = .BOOL

def is_float (r_type : ResolvedType) : Bool :=
  r_type.type_name = .FLOAT

def is_agregate (r_type : ResolvedType) : Bool :=
  r_type.type_name = .TUPLE || r_type.type_name = .ARRAY

def is_void_return_type (r_type : ResolvedType) : Bool :=
  r_type.eq (.TupleRType [])

/-- The method `get_register_name`; it throws for `STACK`. -/
def get_register_name : MemoryLocation → Except String String
  | .RDI => pure "rdi" | .RSI => pure "rsi" | .RDX => pure "rdx" | .RCX => pure "rcx"
  | .R8 => pure "r8" | .R9 => pure "r9"
  | .XMM0 => pure "xmm0" | .XMM1 => pure "xmm1" | .XMM2 => pure "xmm2"
  | .XMM3 => pure "xmm3" | .XMM4 => pure "xmm4" | .XMM5 => pure "xmm5"
  | .XMM6 => pure "xmm6" | .XMM7 => pure "xmm7"
  | .RAX => pure "rax"
  | .STACK => throw "Asked for register name of a non-register data location."

def is_r_register (loc : MemoryLocation) : Bool :=
  let intval := loc.as_int
  (intval ≥ 0 && intval < R_REGISTER_COUNT) || intval = MemoryLocation.RAX.as_int

def is_f_register (loc : MemoryLocation) : Bool :=
  let intval := loc.as_int
  intval ≥ R_REGISTER_COUNT && intval < R_REGISTER_COUNT + F_REGISTER_COUNT

/-- The local variables of the constructor that its argument loop updates. -/
structure Locals where
  next_free_r_register : Nat
  next_free_f_register : Nat
  register_arguments : List MemoryLocationData
  stack : List MemoryLocationData
  stack_argument_size : Nat
deriving Repr, Inhabited

/-- One iteration of the argument loop of the constructor; the statement
`stack_argument_size += calc_stack_size(arg_type)` is on an `unsigned int`. -/
def place_argument (v : Locals) (i : Nat) (arg_type : ResolvedType) : Locals :=
  if is_integral arg_type && v.next_free_r_register < R_REGISTER_COUNT then
    ⟨v.next_free_r_register + 1, v.next_free_f_register,
      v.register_arguments ++ [⟨MemoryLocation.from_int v.next_free_r_register, i⟩],
      v.stack, v.stack_argument_size⟩
  else if is_float arg_type && v.next_free_f_register < F_REGISTER_COUNT then
    ⟨v.next_free_r_register, v.next_free_f_register + 1,
      v.register_arguments
        ++ [⟨MemoryLocation.from_int (R_REGISTER_COUNT + v.next_free_f_register), i⟩],
      v.stack, v.stack_argument_size⟩
  else
    ⟨v.next_free_r_register, v.next_free_f_register, v.register_arguments,
      v.stack ++ [⟨.STACK, i⟩], (v.stack_argument_size + calc_stack_size arg_type) % 2 ^ 32⟩

/-- The argument loop `for (int i = 0; i < arguments.size(); i++)`, from
index `i` on. -/
def place_arguments : List ResolvedType → Nat → Locals → Locals
  | [], _, v => v
  | arg_type :: rest, i, v => place_arguments rest (i + 1) (place_argument v i arg_type)

/-- The first part of the constructor, on the return type: the values of
`return_location`, `return_size` and `next_free_r_register` before the
argument loop. -/
def place_return (return_type : ResolvedType) : Option MemoryLocation × Nat × Nat :=
  if !is_void_return_type return_type then
    match return_type.type_name with
    | .INT | .BOOL => (some .RAX, 0, 0)
    | .FLOAT => (some .XMM0, 0, 0)
    | .ARRAY | .TUPLE => (some .STACK, calc_stack_size return_type, 1)
  else (none, 0, 0)

/-- The constructor `CallingConvention::CallingConvention`. -/
def create (arguments : List ResolvedType) (return_type : ResolvedType) : CallingConvention :=
  let v := place_arguments arguments 0 ⟨(place_return return_type).2.2, 0, [], [], 0⟩
  ⟨arguments, return_type, (place_return return_type).1, is_void_return_type return_type,
    v.register_arguments ++ v.stack, v.stack_argument_size, (place_return return_type).2.1⟩

/-- The location the convention gave to argument `i`: the entry of
`argument_pop_order` with that argument number. -/
def location_of (cc : CallingConvention) (i : Nat) : Option MemoryLocation :=
  (cc.argument_pop_order.find? (fun data => data.argument_number = i)).map (·.location)

/-- The number of arguments before position `i` that satisfy `p`. -/
def count_before (p : ResolvedType → Bool) (arguments : List ResolvedType) (i : Nat) : Nat :=
  ((arguments.take i).filter p).length

/-- The placement rule of the specification, for argument `i` of `arguments`
when `used_r` integer registers and `used_f` float registers are taken
beforehand: an Int or Bool gets the next unused register of rdi, rsi, rdx, rcx,
r8, r9, or the stack once six are used; a Float gets the next unused register
of xmm0..xmm7, or the stack once eight are used; a tuple or array gets the
stack. -/
def placement (used_r used_f : Nat) (arguments : List ResolvedType) (i : Nat) :
    MemoryLocation :=
  match arguments.get? i with
  | none => .STACK
  | some arg_type =>
    if is_integral arg_type then
      if used_r + count_before is_integral arguments i < 6 then
        MemoryLocation.from_int (used_r + count_before is_integral arguments i)
      else .STACK
    else if is_float arg_type then
      if used_f + count_before is_float arguments i < 8 then
        MemoryLocation.from_int (6 + (used_f + count_before is_float arguments i))
      else .STACK
    else .STACK

/-- The placements of the rule for a list whose first element is argument
number `i`. -/
def placements_from (used_r used_f : Nat) (arguments : List ResolvedType) (i : Nat) :
    List MemoryLocationData :=
  (List.range arguments.length).map
    (fun k => ⟨placement used_r used_f arguments k, i + k⟩)

/-- The stack size of argument `k` of a signature (0 past its end). -/
def argument_size (arguments : List ResolvedType) (k : Nat) : Nat :=
  match arguments.get? k with
  | some arg_type => calc_stack_size arg_type
  | none => 0

/-- The bytes of the arguments that the rule places on the stack. -/
def stack_bytes (used_r used_f : Nat) (arguments : List ResolvedType) : Nat :=
  ((List.range arguments.length).map
    (fun k =>
      if placement used_r used_f arguments k = .STACK then argument_size arguments k
      else 0)).sum

/-- The integer registers taken before the first argument: rdi, when the
return value is an array or a non-empty tuple. -/
def reserved (return_type : ResolvedType) : Nat :=
  match return_type with
  | .ArrayRType _ _ => 1
  | .TupleRType (_ :: _) => 1
  | _ => 0

/-- The placements of the specification for a whole argument list, in
argument order. -/
def placements (return_type : ResolvedType) (arguments : List ResolvedType) :
    List MemoryLocationData :=
  (List.range arguments.length).map
    (fun i => ⟨placement (reserved return_type) 0 arguments i, i⟩)

end CallingConvention


/-- One line of `AFunction::assembly_code`.  The lines that move `rsp` are
kept apart from the others; comment lines and trailing comments are not
emitted. -/
inductive Instr where
  | push (operand : String)
  | pop (operand : String)
  | sub_rsp (bytes : Int)
  | add_rsp (bytes : Int)
  | call (target : String)
  | ret
  | other (text : String)
deriving DecidableEq, Repr, Inhabited

/-- The class `StackDescription`. -/
structure StackDescription where
  temporaries : List (String × Int)
  stack_size : Int
  init_stack_size : Int
deriving Repr, Inhabited

namespace StackDescription

def create (_init_stack_size : Int) : StackDescription := ⟨[], _init_stack_size, _init_stack_size⟩

def get_stack_size (d : StackDescription) : Int := d.stack_size

def increment_stack_size (d : StackDescription) (inc : Int) : StackDescription :=
  ⟨d.temporaries, d.stack_size + inc, d.init_stack_size⟩

def decrement_stack_size (d : StackDescription) (dec : Int) : StackDescription :=
  ⟨d.temporaries, d.stack_size - dec, d.init_stack_size⟩

def get_size_of_temporaries (d : StackDescription) : Int := d.stack_size - d.init_stack_size

/-- The read of `temporaries[name]` when the key is present. -/
def temporary? : List (String × Int) → String → Option Int
  | [], _ => none
  | (key, offset) :: rest, name => if key = name then some offset else temporary? rest name

/-- The assignment `temporaries[name] = offset`. -/
def set_temporary : List (String × Int) → String → Int → List (String × Int)
  | [], name, offset => [(name, offset)]
  | (key, old) :: rest, name, offset =>
    if key = name then (key, offset) :: rest else (key, old) :: set_temporary rest name offset

def add_temporary (d : StackDescription) (name : String) (offset : Int) : StackDescription :=
  ⟨set_temporary d.temporaries name offset, d.stack_size, d.init_stack_size⟩

def has_temporary (d : StackDescription) (temporary_name : String) : Bool :=
  (temporary? d.temporaries temporary_name).isSome

/-- The method `get_offset`: `temporaries[temporary_name] + init_stack_size`.
The subscript of an `unordered_map` inserts a zero entry for a missing key, so
the description afterwards is returned as well. -/
def get_offset (d : StackDescription) (temporary_name : String) : Int × StackDescription :=
  match temporary? d.temporaries temporary_name with
  | some offset => (offset + d.init_stack_size, d)
  | none => (0 + d.init_stack_size, d.add_temporary temporary_name 0)

/-- The loop of `add_argument` over the dimension names: name `i` is bound
at `offset - 8 * i`. -/
def add_dimensions : List String → Int → Nat → StackDescription → StackDescription
  | [], _, _, d => d
  | name :: rest, offset, i, d =>
    add_dimensions rest offset (i + 1) (d.add_temporary name (offset - 8 * i))

/-- The method `StackDescription::add_argument`. -/
def add_argument (d : StackDescription) (argument : Parser.ArgumentNode) (offset : Int) :
    StackDescription :=
  match argument with
  | .VarArgumentNode token_s => d.add_temporary token_s offset
  | .ArrayArgumentNode array_argument_name array_dimensions_names =>
    (add_dimensions array_dimensions_names offset 0 d).add_temporary array_argument_name offset

mutual
/-- The method `StackDescription::add_lvalue`.  A tuple lvalue reads
`element_types[i]` through an unchecked cast; the resolver has made the type a
tuple of the same arity, and the model stops at the shorter list otherwise. -/
def add_lvalue : Parser.LValue → ResolvedType → Int → StackDescription → StackDescription
  | .ArgumentLValue argument, _, offset, d => d.add_argument argument offset
  | .PseudoArgumentLValue argument, _, offset, d => d.add_argument argument offset
  | .TupleLValueNode lvalues, r_type, offset, d =>
    match r_type with
    | .TupleRType element_types => add_lvalues lvalues element_types offset d
    | _ => d
  | .PseudoTupleLValue lvalues, r_type, offset, d =>
    match r_type with
    | .TupleRType element_types => add_lvalues lvalues element_types offset d
    | _ => d
/-- The loop `add_lvalue(sub_lvalue, sub_rtype, next_offset);
next_offset -= calc_stack_size(sub_rtype)`. -/
def add_lvalues :
    List Parser.LValue → List ResolvedType → Int → StackDescription → StackDescription
  | [], _, _, d => d
  | _ :: _, [], _, d => d
  | sub_lvalue :: rest, sub_rtype :: rest_types, next_offset, d =>
    add_lvalues rest rest_types (next_offset - calc_stack_size sub_rtype)
      (add_lvalue sub_lvalue sub_rtype next_offset d)
end

mutual
/-- The method `StackDescription::add_binding`, with the same unchecked cast
as `add_lvalue`. -/
def add_binding : Parser.BindingNode → ResolvedType → Int → StackDescription → StackDescription
  | .VarBindingNode argument _, _, offset, d => d.add_argument argument offset
  | .TupleBindingNode bindings, r_type, offset, d =>
    match r_type with
    | .TupleRType element_types => add_bindings bindings element_types offset d
    | _ => d
/-- The loop `add_binding(sub_binding, sub_type, sub_offset);
sub_offset -= calc_stack_size(sub_type)`. -/
def add_bindings :
    List Parser.BindingNode → List ResolvedType → Int → StackDescription → StackDescription
  | [], _, _, d => d
  | _ :: _, [], _, d => d
  | sub_binding :: rest, sub_type :: rest_types, sub_offset, d =>
    add_bindings rest rest_types (sub_offset - calc_stack_size sub_type)
      (add_binding sub_binding sub_type sub_offset d)
end

end StackDescription

/-- The data members of a finished `AFunction`: its name, its lines, the
`is_main` flag and its stack description.  The ghost field `calls` records,
for every emitted `call` line, the target and the value of
`stack_size.get_stack_size()` at the moment the line was pushed. -/
structure AFunction where
  name : String
  assembly_code : List Instr
  is_main : Bool
  stack_size : StackDescription
  calls : List (String × Int)
deriving Repr, Inhabited

/-- The class `Assembly`. -/
structure Assembly where
  functions : List AFunction
  constants : List String
  jump_count : Nat
  calling_conventions : List (String × CallingConvention)
  optimization_level : Nat
deriving Repr, Inhabited

/-- An `AFunction` under construction together with the two objects it
reaches through references: the shared `Assembly&` and the description
`global_stack` points to (`none` when it points to the function's own
`stack_size`, which is the case for `jpl_main`). -/
structure Generator where
  assembly : Assembly
  fn : AFunction
  global_stack : Option StackDescription
deriving Repr, Inhabited

/-- Code generation runs in a state monad over `Generator`; a thrown
`CompilerException` or a crash of the generator is the error. -/
abbrev CG := StateT Generator (Except String)

namespace Assembly

/-- The lookup `calling_conventions.find(name)`. -/
def find_calling_convention : List (String × CallingConvention) → String →
    Option CallingConvention
  | [], _ => none
  | (key, cc) :: rest, name => if key = name then some cc else find_calling_convention rest name

/-- The method `add_calling_convention`: `emplace` keeps an existing entry. -/
def add_calling_convention (a : Assembly) (function_name : String) (cc : CallingConvention) :
    Assembly :=
  match find_calling_convention a.calling_conventions function_name with
  | some _ => a
  | none =>
    ⟨a.functions, a.constants, a.jump_count, a.calling_conventions ++ [(function_name, cc)],
      a.optimization_level⟩

/-- The loop of the constructor over `scope.symbol_table`. -/
def add_conventions : SymbolTable → Assembly → Assembly
  | [], a => a
  | (function_name, .FuncInfo return_type arguments) :: rest, a =>
    add_conventions rest
      (a.add_calling_convention function_name (CallingConvention.create arguments return_type))
  | _ :: rest, a => add_conventions rest a

/-- The constructor `Assembly::Assembly(scope, _optimization_level)`. -/
def create (scope : Scope) (_optimization_level : Nat) : Assembly :=
  add_conventions scope.symbol_table ⟨[], [], 0, [], _optimization_level⟩

def add_function (a : Assembly) (function : AFunction) : Assembly :=
  ⟨a.functions ++ [function], a.constants, a.jump_count, a.calling_conventions,
    a.optimization_level⟩

end Assembly

/-- The line `assembly_code.push_back(...)`. -/
def push_back (line : Instr) : CG Unit :=
  modify fun g =>
    ⟨g.assembly, ⟨g.fn.name, g.fn.assembly_code ++ [line], g.fn.is_main, g.fn.stack_size,
      g.fn.calls⟩, g.global_stack⟩

/-- The line `assembly_code.push_back("call ...")`, which also fills the ghost
field `calls`. -/
def push_back_call (target : String) : CG Unit :=
  modify fun g =>
    ⟨g.assembly, ⟨g.fn.name, g.fn.assembly_code ++ [.call target], g.fn.is_main,
      g.fn.stack_size, g.fn.calls ++ [(target, g.fn.stack_size.get_stack_size)]⟩,
      g.global_stack⟩

/-- An update of the member `stack_size`. -/
def modify_stack (f : StackDescription → StackDescription) : CG Unit :=
  modify fun g =>
    ⟨g.assembly, ⟨g.fn.name, g.fn.assembly_code, g.fn.is_main, f g.fn.stack_size, g.fn.calls⟩,
      g.global_stack⟩

/-- The statements `stack_size += inc` and `stack_size.increment_stack_size(inc)`. -/
def increment_stack_size (inc : Int) : CG Unit := modify_stack (·.increment_stack_size inc)

/-- The statements `stack_size -= dec` and `stack_size.decrement_stack_size(dec)`. -/
def decrement_stack_size (dec : Int) : CG Unit := modify_stack (·.decrement_stack_size dec)

def get_stack_size : CG Int := do return (← get).fn.stack_size.get_stack_size

def get_size_of_temporaries : CG Int := do return (← get).fn.stack_size.get_size_of_temporaries

def get_optimization_level : CG Nat := do return (← get).assembly.optimization_level

/-- The call `stack_size.get_offset(name)` on the function's own description. -/
def get_offset (name : String) : CG Int := do
  let g ← get
  let (offset, d) := g.fn.stack_size.get_offset name
  set (Generator.mk g.assembly ⟨g.fn.name, g.fn.assembly_code, g.fn.is_main, d, g.fn.calls⟩
    g.global_stack)
  return offset

/-- The call `global_stack->get_offset(name)`. -/
def global_get_offset (name : String) : CG Int := do
  let g ← get
  match g.global_stack with
  | none => get_offset name
  | some global =>
    let (offset, d) := global.get_offset name
    set (Generator.mk g.assembly g.fn (some d))
    return offset

/-- An update of the shared `Assembly`. -/
def modify_assembly (f : Assembly → Assembly) : CG Unit :=
  modify fun g => ⟨f g.assembly, g.fn, g.global_stack⟩

/-- The method `Assembly::add_constant_raw` on the shared assembly. -/
def add_constant (constant : String) : CG String := do
  let g ← get
  let (label, constants) := add_constant_raw g.assembly.constants constant
  modify_assembly fun a =>
    ⟨a.functions, constants, a.jump_count, a.calling_conventions, a.optimization_level⟩
  return label

def add_constant_string (constant : String) : CG String :=
  add_constant ("db `" ++ constant ++ "`, 0")

def add_constant_int (constant : Int) : CG String :=
  add_constant ("dq " ++ toString constant)

/-- The decimal digits of `n`, with zeros in front up to `width` digits. -/
def pad_digits (width : Nat) (n : Nat) : List Char :=
  List.replicate (width - (Nat.toDigits 10 n).length) '0' ++ Nat.toDigits 10 n

/-- The conversion `%.10e` of `sprintf` on the `double`
`significand * 2 ^ exponent`: one digit, a point, ten digits, and the decimal
exponent with its sign and at least two digits.  The value is rounded to
eleven significant digits, a tie going to the even digit. -/
def format_10e (significand : Nat) (exponent : Int) : String :=
  if significand = 0 then "0.0000000000e+00"
  else
    let numerator := significand * 2 ^ exponent.toNat
    let denominator := 2 ^ (-exponent).toNat
    let decimal_exponent : Int :=
      if numerator ≥ denominator then
        ((Nat.toDigits 10 (numerator / denominator)).length : Int) - 1
      else
        let shift := (Nat.toDigits 10 denominator).length - (Nat.toDigits 10 numerator).length
        if numerator * 10 ^ shift ≥ denominator then -(shift : Int) else -((shift : Int) + 1)
    let rounded :=
      if decimal_exponent ≥ 10 then
        Parser.round_half_even numerator (denominator * 10 ^ (decimal_exponent - 10).toNat)
      else
        Parser.round_half_even (numerator * 10 ^ (10 - decimal_exponent).toNat) denominator
    let digits := if rounded = 10 ^ 11 then Nat.toDigits 10 (10 ^ 10) else Nat.toDigits 10 rounded
    let decimal_exponent := if rounded = 10 ^ 11 then decimal_exponent + 1 else decimal_exponent
    String.mk (digits.take 1 ++ ['.'] ++ digits.drop 1
      ++ ['e', if decimal_exponent < 0 then '-' else '+']
      ++ pad_digits 2 decimal_exponent.natAbs)

/-- The method `add_constant_float`: the constant is the text that
`sprintf("dq %.10e")` gives for the `double` of the literal.  The node keeps
the text of the literal; its member `value` is the `double` that `strtod`
gave for that text in the parser. -/
def add_constant_float (value : String) : CG String :=
  add_constant
    ("dq " ++ format_10e (Parser.strtod value).1.1 (Parser.strtod value).1.2)

/-- The method `Assembly::get_new_jump`. -/
def get_new_jump : CG String := do
  modify_assembly fun a =>
    ⟨a.functions, a.constants, a.jump_count + 1, a.calling_conventions, a.optimization_level⟩
  return ".jump" ++ toString (← get).assembly.jump_count

/-- The method `Assembly::get_calling_convention`. -/
def get_calling_convention (name : String) : CG CallingConvention := do
  match Assembly.find_calling_convention (← get).assembly.calling_conventions name with
  | some cc => return cc
  | none => throw ("Asked to access non-existant funciton " ++ name)

/-- The macro `FUNCTION_CALL_ALIGNMENT_CHECK`; the result is `needs_alignment`. -/
def FUNCTION_CALL_ALIGNMENT_CHECK (argument_size_on_stack : Int) : CG Bool := do
  let needs_alignment := decide (((← get_stack_size) + argument_size_on_stack) % 16 ≠ 0)
  if needs_alignment then
    push_back (.sub_rsp 8)
    increment_stack_size 8
  return needs_alignment

/-- The macro `FUNCTION_CALL_ALIGNMENT_CLOSE`. -/
def FUNCTION_CALL_ALIGNMENT_CLOSE (needs_alignment : Bool) : CG Unit := do
  if needs_alignment then
    push_back (.add_rsp 8)
    decrement_stack_size 8

/-- The method `under_32_bits`: `(x & ((1l << 31) - 1)) == x`. -/
def under_32_bits (x : Int) : Bool := Int.land x ((1 <<< 31) - 1) == x

/-- The loop `for (power = 0; (1l << power) < to_check; power++);` with a bound
on the iterations that no 64-bit value reaches. -/
def is_power_of_two_loop (to_check : Int) : Nat → Nat → Nat
  | 0, power => power
  | fuel + 1, power =>
    if ((1 : Int) <<< (power : Int)) < to_check then is_power_of_two_loop to_check fuel (power + 1)
    else power

/-- The method `is_power_of_two`: the returned flag and the value of the
reference parameter `power` afterwards. -/
def is_power_of_two (to_check : Int) (power : Nat) : Bool × Nat :=
  if to_check ≥ 0 && Int.land to_check (to_check - 1) == 0 then
    (true, is_power_of_two_loop to_check 64 0)
  else (false, power)

/-- The method `cg_push_constant_int`. -/
def cg_push_constant_int (constant_value : Int) : CG Unit := do
  let is_constant_under_32_bits := under_32_bits constant_value
  if (← get_optimization_level) > 0 && is_constant_under_32_bits then
    push_back (.push ("qword " ++ toString constant_value))
  else
    let const_name ← add_constant_int constant_value
    push_back (.other ("mov rax, [rel " ++ const_name ++ "]"))
    push_back (.push "rax")
  increment_stack_size 8

/-- The conversion of an `unsigned int` to `int`, which keeps the 32 bits: a
value from `2^31` on becomes negative.  It gives the start
`int i = bytes_to_move - 8` of the copy loops, where the difference is taken
in `unsigned int`. -/
def unsigned_to_int (value : Nat) : Int :=
  if value % 2 ^ 32 < 2 ^ 31 then ((value % 2 ^ 32 : Nat) : Int)
  else ((value % 2 ^ 32 : Nat) : Int) - 2 ^ 32

/-- The loop `for (int i = start; i >= 0; i -= 8)` of `move_bytes`, with a
bound on the iterations. -/
def move_bytes_loop (src dst : String) : Nat → Int → List Instr
  | 0, _ => []
  | fuel + 1, i =>
    if i ≥ 0 then
      [.other ("mov r10, [" ++ src ++ " + " ++ toString i ++ "]"),
        .other ("mov [" ++ dst ++ " + " ++ toString i ++ "], r10")]
        ++ move_bytes_loop src dst fuel (i - 8)
    else []

/-- The lines of the method `move_bytes(bytes_to_move, from, to)`. -/
def move_bytes_lines (bytes_to_move : Nat) (src dst : String) : List Instr :=
  move_bytes_loop src dst (bytes_to_move / 8 + 1) (unsigned_to_int (bytes_to_move + 2 ^ 32 - 8))

/-- A sequence of `push_back` calls. -/
def push_back_all : List Instr → CG Unit
  | [] => pure ()
  | line :: rest => do push_back line; push_back_all rest

def move_bytes (bytes_to_move : Nat) (src dst : String) : CG Unit :=
  push_back_all (move_bytes_lines bytes_to_move src dst)


/-- The dereference `expr->resolvedType`; a null slot crashes the generator. -/
def resolved (expr : Parser.ExprNode) : CG ResolvedType :=
  match expr.resolvedType with
  | some r_type => pure r_type
  | none => throw "resolvedType is null"

/-- A successful `tryCastExpr<Parser::IntExprNode>` and the literal's value. -/
def as_int_literal : Parser.ExprNode → Option Int
  | .IntExprNode _ value => some value
  | _ => none

/-- A successful `tryCastExpr<Parser::VariableExprNode>` and the name. -/
def as_variable : Parser.ExprNode → Option String
  | .VariableExprNode _ token_s => some token_s
  | _ => none

/-- The test `expr->cp->type == CPValue::INT` and the value of the `IntValue`. -/
def cp_int (expr : Parser.ExprNode) : Option Int :=
  match expr.cp with
  | .INT value => some value
  | _ => none

def cg_intexpr (value : Int) : CG Unit := cg_push_constant_int value

def cg_floatexpr (value : String) : CG Unit := do
  let const_name ← add_constant_float value
  push_back (.other ("mov rax, [rel " ++ const_name ++ "]"))
  push_back (.push "rax")
  increment_stack_size 8

def cg_trueexpr : CG Unit := cg_push_constant_int 1

def cg_falseexpr : CG Unit := cg_push_constant_int 0

/-- The lines `pop rax; neg|xor ...; push rax` with their counter updates. -/
def pop_apply_push (line : String) : CG Unit := do
  push_back (.pop "rax")
  decrement_stack_size 8
  push_back (.other line)
  push_back (.push "rax")
  increment_stack_size 8

/-- The method `cg_unopexpr`; `cg_expression` is the call `cg_expr(expr->expression)`. -/
def cg_unopexpr (cg_expression : CG Unit) (operation : Parser.UnopType)
    (expression : Parser.ExprNode) : CG Unit := do
  cg_expression
  match operation with
  | .NEGATION =>
    match (← resolved expression).type_name with
    | .INT => pop_apply_push "neg rax"
    | .FLOAT =>
      push_back (.other "movsd xmm1, [rsp]")
      push_back (.add_rsp 8)
      decrement_stack_size 8
      push_back (.other "pxor xmm0, xmm0")
      push_back (.other "subsd xmm0, xmm1")
      push_back (.sub_rsp 8)
      increment_stack_size 8
      push_back (.other "movsd [rsp], xmm0")
    | _ => throw "Unrecognized type for negation operation. Expected an int or float."
  | .NOT =>
    if (← resolved expression).type_name ≠ .BOOL then
      throw "Unrecognized type for not operation. Expected a boolean."
    else pop_apply_push "xor rax, 1"

/-- The tail of the macro `BINOP_GET_TWO_INT_ARGS` after the two `cg_expr` calls. -/
def pop_two_int_args : CG Unit := do
  push_back (.pop "rax")
  decrement_stack_size 8
  push_back (.pop "r10")
  decrement_stack_size 8

/-- The tail of the macro `BINOP_GET_TWO_FLOATS_ARGS` after the two `cg_expr` calls. -/
def pop_two_float_args : CG Unit := do
  push_back (.other "movsd xmm0, [rsp]")
  push_back (.add_rsp 8)
  decrement_stack_size 8
  push_back (.other "movsd xmm1, [rsp]")
  push_back (.add_rsp 8)
  decrement_stack_size 8

/-- The lines `push rax` and `stack_size += 8`. -/
def push_rax : CG Unit := do
  push_back (.push "rax")
  increment_stack_size 8

/-- The lines `sub rsp, 8`, `stack_size += 8` and `movsd [rsp], xmm0`. -/
def push_xmm0 : CG Unit := do
  push_back (.sub_rsp 8)
  increment_stack_size 8
  push_back (.other "movsd [rsp], xmm0")

/-- An arithmetic case of `cg_binopexpr` on `expr->resolvedType`: both
operands (right one first), then the integer or the SSE instruction. -/
def cg_arithmetic (cg_lhs cg_rhs : CG Unit) (type_name : TYPE_NAME)
    (int_line float_line : String) : CG Unit :=
  match type_name with
  | .INT => do
    cg_rhs; cg_lhs; pop_two_int_args
    push_back (.other int_line)
    push_rax
  | .FLOAT => do
    cg_rhs; cg_lhs; pop_two_float_args
    push_back (.other float_line)
    push_xmm0
  | _ => throw "Unrecognized type for arithmetic operation. Expected an int or float."

/-- A comparison case of `cg_binopexpr` on `expr->lhs->resolvedType`;
`bool_too` is set for `==` and `!=`, which also accept booleans. -/
def cg_comparison (cg_lhs cg_rhs : CG Unit) (type_name : TYPE_NAME) (bool_too : Bool)
    (set_line float_line float_register : String) : CG Unit :=
  let int_case : CG Unit := do
    cg_rhs; cg_lhs; pop_two_int_args
    push_back (.other "cmp rax, r10")
    push_back (.other set_line)
    push_back (.other "and rax, 1")
    push_rax
  match type_name with
  | .INT => int_case
  | .BOOL =>
    if bool_too then int_case
    else throw "Unrecognized type for comparison operation. Expected an int or float."
  | .FLOAT => do
    cg_rhs; cg_lhs; pop_two_float_args
    push_back (.other float_line)
    push_back (.other ("movq rax, " ++ float_register))
    push_back (.other "and rax, 1")
    push_rax
  | _ => throw "Unrecognized type for comparison operation. Expected an int or float."

/-- The zero-divisor check of the integer `/` and `%` cases. -/
def cg_check_divisor (message : String) : CG Unit := do
  push_back (.other "cmp r10, 0")
  let jump_name ← get_new_jump
  push_back (.other ("jne " ++ jump_name))
  let needs_alignment ← FUNCTION_CALL_ALIGNMENT_CHECK 0
  let error_message_constant ← add_constant_string message
  push_back (.other ("lea rdi, [rel " ++ error_message_constant ++ "]"))
  push_back_call "_fail_assertion"
  FUNCTION_CALL_ALIGNMENT_CLOSE needs_alignment
  push_back (.other (jump_name ++ ":"))

/-- The strength reduction tried by the integer `*` case, once at level 1
with the literal operands and once above level 1 with the `cp` values:
`true` when the method has returned.  The local `power` is uninitialised in
the source; it is read before being set only when `multiply_amount` is 0,
where its value does not matter. -/
def cg_times_shift (lhs_value rhs_value : Option Int) (cg_lhs cg_rhs : CG Unit) : CG Bool := do
  let mut power : Nat := 0
  let mut multiply_amount : Int := 0
  let mut optimized := false
  match lhs_value with
  | some value =>
    let (is_power, new_power) := is_power_of_two value power
    power := new_power
    if is_power && value ≠ 0 then
      multiply_amount := value
      if multiply_amount ≠ 0 then cg_rhs
      optimized := true
  | none => pure ()
  if !optimized then
    match rhs_value with
    | some value =>
      let (is_power, new_power) := is_power_of_two value power
      power := new_power
      if is_power && value ≠ 0 then
        multiply_amount := value
        if multiply_amount ≠ 0 then cg_lhs
        optimized := true
    | none => pure ()
  if optimized && power ≠ 0 then
    push_back (.pop "rax")
    decrement_stack_size 8
    push_back (.other ("shl rax, " ++ toString power))
    push_back (.push "rax")
    increment_stack_size 8
    return true
  else if power = 0 && multiply_amount = 1 then
    return true
  return false

/-- The integer `*` case of `cg_binopexpr`. -/
def cg_times_int (cg_lhs cg_rhs : CG Unit) (lhs rhs : Parser.ExprNode) : CG Unit := do
  let level ← get_optimization_level
  let returned ←
    if level = 1 then cg_times_shift (as_int_literal lhs) (as_int_literal rhs) cg_lhs cg_rhs
    else pure false
  if returned then return
  let returned ←
    if level > 1 then cg_times_shift (cp_int lhs) (cp_int rhs) cg_lhs cg_rhs
    else pure false
  if returned then return
  cg_rhs; cg_lhs; pop_two_int_args
  push_back (.other "imul rax, r10")
  push_rax

/-- The method `cg_shortcircuit`. -/
def cg_shortcircuit (cg_lhs cg_rhs : CG Unit) (operation : Parser.BinopType) : CG Unit := do
  let jmp ←
    match operation with
    | .AND => pure "je "
    | .OR => pure "jne "
    | _ => throw "Unrecognized short-circuit operation."
  cg_lhs
  push_back (.pop "rax")
  decrement_stack_size 8
  push_back (.other "cmp rax, 0")
  let rhs_skip_label ← get_new_jump
  push_back (.other (jmp ++ rhs_skip_label))
  cg_rhs
  push_back (.pop "rax")
  decrement_stack_size 8
  push_back (.other (rhs_skip_label ++ ":"))
  push_back (.push "rax")
  increment_stack_size 8

/-- The method `cg_binopexpr`; `cg_lhs` and `cg_rhs` are the calls
`cg_expr(expr->lhs)` and `cg_expr(expr->rhs)`. -/
def cg_binopexpr (cg_lhs cg_rhs : CG Unit) (slots : Parser.Slots) (lhs : Parser.ExprNode)
    (operation : Parser.BinopType) (rhs : Parser.ExprNode) : CG Unit := do
  let expr_type : CG TYPE_NAME :=
    match slots.resolvedType with
    | some r_type => pure r_type.type_name
    | none => throw "resolvedType is null"
  let lhs_type : CG TYPE_NAME := do return (← resolved lhs).type_name
  match operation with
  | .AND | .OR => cg_shortcircuit cg_lhs cg_rhs operation
  | .PLUS => cg_arithmetic cg_lhs cg_rhs (← expr_type) "add rax, r10" "addsd xmm0, xmm1"
  | .MINUS => cg_arithmetic cg_lhs cg_rhs (← expr_type) "sub rax, r10" "subsd xmm0, xmm1"
  | .TIMES =>
    match (← expr_type) with
    | .INT => cg_times_int cg_lhs cg_rhs lhs rhs
    | .FLOAT => do
      cg_rhs; cg_lhs; pop_two_float_args
      push_back (.other "mulsd xmm0, xmm1")
      push_xmm0
    | _ => throw "Unrecognized type for multiply operation. Expected an int or float."
  | .DIVIDE =>
    match (← expr_type) with
    | .INT => do
      cg_rhs; cg_lhs; pop_two_int_args
      cg_check_divisor "divide by zero"
      push_back (.other "cqo")
      push_back (.other "idiv r10")
      push_rax
    | .FLOAT => do
      cg_rhs; cg_lhs; pop_two_float_args
      push_back (.other "divsd xmm0, xmm1")
      push_xmm0
    | _ => throw "Unrecognized type for divide operation. Expected an int or float."
  | .MOD =>
    match (← expr_type) with
    | .INT => do
      cg_rhs; cg_lhs; pop_two_int_args
      cg_check_divisor "mod by zero"
      push_back (.other "cqo")
      push_back (.other "idiv r10")
      push_back (.other "mov rax, rdx")
      push_rax
    | .FLOAT => do
      cg_rhs; cg_lhs; pop_two_float_args
      push_back_call "_fmod"
      push_xmm0
    | _ => throw "Unrecognized type for mod operation. Expected an int or float."
  | .LESS_THAN =>
    cg_comparison cg_lhs cg_rhs (← lhs_type) false "setl al" "cmpltsd xmm0, xmm1" "xmm0"
  | .GREATER_THAN =>
    cg_comparison cg_lhs cg_rhs (← lhs_type) false "setg al" "cmpltsd xmm1, xmm0" "xmm1"
  | .EQUALS =>
    cg_comparison cg_lhs cg_rhs (← lhs_type) true "sete al" "cmpeqsd xmm0, xmm1" "xmm0"
  | .NOT_EQUALS =>
    cg_comparison cg_lhs cg_rhs (← lhs_type) true "setne al" "cmpneqsd xmm0, xmm1" "xmm0"
  | .LESS_THAN_OR_EQUALS =>
    cg_comparison cg_lhs cg_rhs (← lhs_type) false "setle al" "cmplesd xmm0, xmm1" "xmm0"
  | .GREATER_THAN_OR_EQUALS =>
    cg_comparison cg_lhs cg_rhs (← lhs_type) false "setge al" "cmplesd xmm1, xmm0" "xmm1"

/-- The loops `for (int i = size - 1; i >= 0; i--) cg_expr(expressions[i])`. -/
def cg_last_to_first : List (CG Unit) → CG Unit
  | [] => pure ()
  | cg_first :: rest => do cg_last_to_first rest; cg_first

/-- The method `cg_tupleexpr`. -/
def cg_tupleexpr (cg_tuple_expressions : List (CG Unit)) : CG Unit :=
  cg_last_to_first cg_tuple_expressions

/-- The copy loop of `cg_arrayexpr`, `for (int i = heap_size / 8 - 1; i >= 0; i--)`. -/
def copy_to_heap_lines : Nat → List Instr
  | 0 => []
  | i + 1 =>
    [.other ("mov r10, [rsp + " ++ toString (i * 8) ++ "]"),
      .other ("mov [rax + " ++ toString (i * 8) ++ "], r10")] ++ copy_to_heap_lines i

/-- The method `cg_arrayexpr`.  The product `heap_size` is an `unsigned int`
and is checked for overflow by the source, so it is reduced modulo `2^32`. -/
def cg_arrayexpr (slots : Parser.Slots) (cg_array_expressions : List (CG Unit)) : CG Unit := do
  let element_type ←
    match slots.resolvedType with
    | some (.ArrayRType element_type _) => pure element_type
    | _ => throw "resolvedType is not an array type"
  let element_size := calc_stack_size element_type
  let count := cg_array_expressions.length
  let heap_size := (element_size * count) % 2 ^ 32
  if element_size ≠ 0 && heap_size / element_size ≠ count then
    throw "Array literal was too big to store."
  cg_last_to_first cg_array_expressions
  push_back (.other ("mov  rdi, " ++ toString heap_size))
  let needs_alignment ← FUNCTION_CALL_ALIGNMENT_CHECK 0
  push_back_call "_jpl_alloc"
  FUNCTION_CALL_ALIGNMENT_CLOSE needs_alignment
  push_back_all (copy_to_heap_lines (heap_size / 8))
  push_back (.add_rsp heap_size)
  decrement_stack_size heap_size
  push_back (.push "rax")
  increment_stack_size 8
  push_back (.other ("mov rax, " ++ toString count))
  push_back (.push "rax")
  increment_stack_size 8

/-- The operand text `[rsp ]` or `[rsp + offset]` of `cg_tupleaccessexpr`. -/
def rsp_operand (offset : Nat) : String :=
  "[rsp " ++ (if offset = 0 then "" else "+ " ++ toString offset) ++ "]"

/-- The move loop of `cg_tupleaccessexpr`,
`for (int i = move_operations - 1; i >= 0; i--)`, with the `unsigned int`
offsets `initial_offset = element_offset + i * 8` and
`final_offset = stack_size_removed + i * 8`. -/
def move_element_lines (element_offset stack_size_removed : Nat) : Nat → List Instr
  | 0 => []
  | i + 1 =>
    [.other ("mov r10, " ++ rsp_operand ((element_offset + i * 8) % 2 ^ 32)),
      .other ("mov " ++ rsp_operand ((stack_size_removed + i * 8) % 2 ^ 32) ++ ", r10")]
      ++ move_element_lines element_offset stack_size_removed i

/-- The method `cg_tupleaccessexpr`; indexing `element_types` out of range
crashes the generator.  The locals `total_tuple_size`, `element_size`,
`element_offset` and `stack_size_removed` are `unsigned int`: the running sum
`element_offset += calc_stack_size(...)` and the difference
`total_tuple_size - element_size` are reduced modulo `2^32`. -/
def cg_tupleaccessexpr (cg_tuple_expression : CG Unit) (tuple_expression : Parser.ExprNode)
    (tuple_index : Int) : CG Unit := do
  cg_tuple_expression
  let tuple_type ← resolved tuple_expression
  let total_tuple_size := calc_stack_size tuple_type
  let element_types ←
    match tuple_type with
    | .TupleRType element_types => pure element_types
    | _ => throw "resolvedType is not a tuple type"
  let element_type ←
    match (if tuple_index < 0 then none else element_types.get? tuple_index.toNat) with
    | some element_type => pure element_type
    | none => throw "element_types read out of range"
  let element_size := calc_stack_size element_type
  let move_operations := element_size / 8
  let element_offset := calc_stack_size_sum (element_types.take tuple_index.toNat)
  let stack_size_removed := (total_tuple_size + 2 ^ 32 - element_size) % 2 ^ 32
  push_back_all (move_element_lines element_offset stack_size_removed move_operations)
  push_back (.add_rsp stack_size_removed)
  decrement_stack_size stack_size_removed

/-- The copy loop of `cg_variableexpr`, `for (int i = bytes_to_move - 8; i >= 0; i -= 8)`. -/
def copy_variable_loop (base : String) (offset : Int) : Nat → Int → List Instr
  | 0, _ => []
  | fuel + 1, i =>
    if i ≥ 0 then
      [.other ("mov r10, [" ++ base ++ " - " ++ toString offset ++ " + " ++ toString i ++ "]"),
        .other ("mov [rsp + " ++ toString i ++ "], r10")]
        ++ copy_variable_loop base offset fuel (i - 8)
    else []

/-- The method `cg_variableexpr`. -/
def cg_variableexpr (slots : Parser.Slots) (token_s : String) : CG Unit := do
  let propagated : Option Int :=
    match slots.cp with
    | .INT value => if under_32_bits value then some value else none
    | _ => none
  match (if (← get_optimization_level) > 1 then propagated else none) with
  | some value => cg_push_constant_int value
  | none =>
    let local_temporary := (← get).fn.stack_size.has_temporary token_s
    let offset ← if local_temporary then get_offset token_s else global_get_offset token_s
    let bytes_to_move ←
      match slots.resolvedType with
      | some r_type => pure (calc_stack_size r_type)
      | none => throw "resolvedType is null"
    push_back (.sub_rsp bytes_to_move)
    increment_stack_size bytes_to_move
    push_back_all (copy_variable_loop (if local_temporary then "rbp" else "r12") offset
      (bytes_to_move / 8 + 1) (unsigned_to_int (bytes_to_move + 2 ^ 32 - 8)))

/-- The call `CallingConvention::get_register_name(loc)` inside the generator. -/
def register_name (loc : MemoryLocation) : CG String :=
  match CallingConvention.get_register_name loc with
  | .ok name => pure name
  | .error message => throw message

/-- The evaluation loop of `cg_callexpr` over `argument_pop_order`, last entry
first; an index outside `expr->arguments` crashes the generator. -/
def cg_call_arguments (cg_arguments : List (CG Unit)) : List MemoryLocationData → CG Unit
  | [] => pure ()
  | data :: rest => do
    cg_call_arguments cg_arguments rest
    match cg_arguments.get? data.argument_number with
    | some cg_argument => cg_argument
    | none => throw "arguments read out of range"

/-- The loop of `cg_callexpr` that pops the register arguments; it stops at
the first stack argument. -/
def cg_call_pop_registers : List MemoryLocationData → CG Unit
  | [] => pure ()
  | memdata :: rest =>
    if CallingConvention.is_r_register memdata.location then do
      push_back (.pop (← register_name memdata.location))
      decrement_stack_size 8
      cg_call_pop_registers rest
    else if CallingConvention.is_f_register memdata.location then do
      push_back (.other ("movsd "
        ++ (← register_name memdata.location) ++ ", [rsp]"))
      push_back (.add_rsp 8)
      decrement_stack_size 8
      cg_call_pop_registers rest
    else pure ()

/-- The loop of `cg_callexpr` that frees the stack arguments after the call. -/
def cg_call_free_stack (arg_signature : List ResolvedType) : List MemoryLocationData → CG Unit
  | [] => pure ()
  | data :: rest => do
    if data.location = .STACK then
      match arg_signature.get? data.argument_number with
      | some arg_type =>
        let bytes_to_remove := calc_stack_size arg_type
        push_back (.add_rsp bytes_to_remove)
        decrement_stack_size bytes_to_remove
      | none => throw "arg_signature read out of range"
    cg_call_free_stack arg_signature rest

/-- The method `cg_callexpr`; `cg_arguments` holds the calls
`cg_expr(expr->arguments[i])`. -/
def cg_callexpr (function_name : String) (cg_arguments : List (CG Unit)) : CG Unit := do
  let cc ← get_calling_convention function_name
  let stack_return := !cc.is_void_return && cc.return_location = some .STACK
  if stack_return then
    push_back (.sub_rsp cc.return_size)
    increment_stack_size cc.return_size
  let needs_alignment ← FUNCTION_CALL_ALIGNMENT_CHECK cc.stack_argument_size
  cg_call_arguments cg_arguments cc.argument_pop_order
  cg_call_pop_registers cc.argument_pop_order
  if stack_return then
    let distance_from_return := cc.stack_argument_size + (if needs_alignment then 8 else 0)
    push_back (.other ("lea rdi, [rsp + " ++ toString distance_from_return ++ "]"))
  push_back_call ("_" ++ function_name)
  cg_call_free_stack cc.arg_signature cc.argument_pop_order
  FUNCTION_CALL_ALIGNMENT_CLOSE needs_alignment
  if !cc.is_void_return then
    match cc.return_location with
    | some return_location =>
      if CallingConvention.is_r_register return_location then
        push_back (.push (← register_name return_location))
        increment_stack_size 8
      if CallingConvention.is_f_register return_location then
        push_back (.sub_rsp 8)
        push_back (.other ("movsd [rsp], "
          ++ (← register_name return_location)))
        increment_stack_size 8
    | none => pure ()

/-- The method `cg_ifexpr`; the three generators are the calls `cg_expr` on
the condition and the two branches. -/
def cg_ifexpr (cg_condition cg_then cg_else : CG Unit) (slots : Parser.Slots)
    (then_expr else_expr : Parser.ExprNode) : CG Unit := do
  cg_condition
  let level ← get_optimization_level
  let one_zero (then_value else_value : Option Int) : Bool :=
    match then_value, else_value with
    | some then_value, some else_value => then_value = 1 && else_value = 0
    | _, _ => false
  if level = 1 then
    if one_zero (as_int_literal then_expr) (as_int_literal else_expr) then return
  else if level > 1 then
    if one_zero (cp_int then_expr) (cp_int else_expr) then return
  push_back (.pop "rax")
  decrement_stack_size 8
  push_back (.other "cmp rax, 0")
  let else_jump ← get_new_jump
  let end_jump ← get_new_jump
  push_back (.other ("je " ++ else_jump))
  cg_then
  push_back (.other ("jmp " ++ end_jump))
  let result_type ←
    match slots.resolvedType with
    | some r_type => pure r_type
    | none => throw "resolvedType is null"
  decrement_stack_size (calc_stack_size result_type)
  push_back (.other (else_jump ++ ":"))
  cg_else
  push_back (.other (end_jump ++ ":"))


/-- A call of the runtime's `_fail_assertion` between the alignment macros. -/
def cg_fail_assertion (message_constant : String) : CG Unit := do
  let needs_alignment ← FUNCTION_CALL_ALIGNMENT_CHECK 0
  push_back (.other ("lea rdi, [rel " ++ message_constant ++ "]"))
  push_back_call "_fail_assertion"
  FUNCTION_CALL_ALIGNMENT_CLOSE needs_alignment

/-- The bounds-check loop of `cg_arrayindexexpr`, from index `i` on, for
`remaining` indices. -/
def cg_check_indices (gap : Int) (neg_expt_const ovr_expt_const : String) : Nat → Nat → CG Unit
  | 0, _ => pure ()
  | remaining + 1, i => do
    let neg_good_jump ← get_new_jump
    let ovr_good_jump ← get_new_jump
    push_back (.other ("mov rax, [rsp + " ++ toString (i * 8) ++ "]"))
    push_back (.other "cmp rax, 0")
    push_back (.other ("jge " ++ neg_good_jump))
    cg_fail_assertion neg_expt_const
    push_back (.other (neg_good_jump ++ ":"))
    push_back (.other ("cmp rax, [rsp + " ++ toString ((i * 8 : Int) + gap) ++ "]"))
    push_back (.other ("jl " ++ ovr_good_jump))
    cg_fail_assertion ovr_expt_const
    push_back (.other (ovr_good_jump ++ ":"))
    cg_check_indices gap neg_expt_const ovr_expt_const remaining (i + 1)

/-- The lines `imul rax, [rsp + i*8 + gap]; add rax, [rsp + i*8]` for the
indices `i, i+1, ...` (`remaining` of them). -/
def index_multiply_lines (gap : Int) : Nat → Nat → List Instr
  | 0, _ => []
  | remaining + 1, i =>
    [.other ("imul rax, [rsp + " ++ toString ((i * 8 : Int) + gap) ++ "]"),
      .other ("add rax, [rsp + " ++ toString (i * 8) ++ "]")]
      ++ index_multiply_lines gap remaining (i + 1)

/-- The address loop of `cg_arrayindexexpr` above level 1 when the array has
an `ARRAY` cp value: a known length is multiplied in as a constant.  Reading
`lengths[i]` out of range crashes the generator. -/
def index_multiply_known (gap : Int) (lengths : List Parser.CPValue) :
    Nat → Nat → Except String (List Instr)
  | 0, _ => pure []
  | remaining + 1, i => do
    let index_value ←
      match lengths.get? i with
      | some index_value => pure index_value
      | none => throw "lengths read out of range"
    let multiply : Instr :=
      match index_value with
      | .INT mult_amount =>
        let (is_power, power) := is_power_of_two mult_amount 0
        if is_power then .other ("shl rax, " ++ toString power)
        else .other ("imul rax, " ++ toString mult_amount)
      | _ => .other ("imul rax, [rsp + " ++ toString ((i * 8 : Int) + gap) ++ "]")
    let rest ← index_multiply_known gap lengths remaining (i + 1)
    pure ([multiply, .other ("add rax, [rsp + " ++ toString (i * 8) ++ "]")] ++ rest)

/-- The loop `for (...) { add rsp, 8; stack_size -= 8; }` of `cg_arrayindexexpr`. -/
def cg_free_indices : Nat → CG Unit
  | 0 => pure ()
  | remaining + 1 => do
    push_back (.add_rsp 8)
    decrement_stack_size 8
    cg_free_indices remaining

/-- The line that scales `rax` by the element size. -/
def scale_line (level : Nat) (mult_amount : Nat) : Instr :=
  let (is_power, power) := is_power_of_two mult_amount 0
  if level > 0 && is_power then .other ("shl rax, " ++ toString power)
  else .other ("imul rax, " ++ toString mult_amount)

/-- The method `cg_arrayindexexpr`; `cg_array_expression` and `cg_array_indices`
are the calls `cg_expr` on the array and on each index.  The local `gap` is a
`long` initialised from an `unsigned int` difference, hence the reduction
modulo `2^32`. -/
def cg_arrayindexexpr (cg_array_expression : CG Unit) (cg_array_indices : List (CG Unit))
    (slots : Parser.Slots) (array_expression : Parser.ExprNode) : CG Unit := do
  let level ← get_optimization_level
  let array_cast := as_variable array_expression
  let optimize_array_copy := level > 0 && array_cast.isSome
  if !optimize_array_copy then cg_array_expression
  cg_last_to_first cg_array_indices
  let size := cg_array_indices.length
  let indices_size : Int := size * 8
  let gap : Int ←
    match (if optimize_array_copy then array_cast else none) with
    | some token_s => do
      let current ← get_stack_size
      let offset ← get_offset token_s
      pure ((current - offset) % 2 ^ 32)
    | none => pure indices_size
  let neg_expt_const ← add_constant_string "negative array index"
  let ovr_expt_const ← add_constant_string "index too large"
  cg_check_indices gap neg_expt_const ovr_expt_const size 0
  if level < 1 then
    push_back (.other "mov rax, 0")
    push_back_all (index_multiply_lines gap size 0)
  else
    match (if level = 1 then none else some array_expression.cp) with
    | some (.ARRAY lengths) =>
      push_back (.other "mov rax, [rsp]")
      match index_multiply_known gap lengths (size - 1) 1 with
      | .ok lines => push_back_all lines
      | .error message => throw message
    | _ =>
      push_back (.other "mov rax, [rsp]")
      push_back_all (index_multiply_lines gap (size - 1) 1)
  let result_type ←
    match slots.resolvedType with
    | some r_type => pure r_type
    | none => throw "resolvedType is null"
  let mult_amount := calc_stack_size result_type
  push_back (scale_line level mult_amount)
  push_back (.other ("add rax, [rsp + " ++ toString (indices_size + gap) ++ "]"))
  if !optimize_array_copy then cg_free_indices size
  else
    push_back (.add_rsp indices_size)
    decrement_stack_size indices_size
  if !optimize_array_copy then
    let array_size := calc_stack_size (← resolved array_expression)
    push_back (.add_rsp array_size)
    decrement_stack_size array_size
  push_back (.sub_rsp mult_amount)
  increment_stack_size mult_amount
  move_bytes mult_amount "rax" "rsp"

/-- The first loop of `cg_loopexpr`: each bound is evaluated and checked to
be positive, from the last bound to the first. -/
def cg_loop_bounds : List (CG Unit) → CG Unit
  | [] => pure ()
  | cg_bound :: rest => do
    cg_loop_bounds rest
    cg_bound
    let valid_jump ← get_new_jump
    push_back (.other "mov rax, [rsp]")
    push_back (.other "cmp rax, 0")
    push_back (.other ("jg " ++ valid_jump))
    let needs_alignment ← FUNCTION_CALL_ALIGNMENT_CHECK 0
    let invalid_bound_expt_const ← add_constant_string "non-positive loop bound"
    push_back (.other ("lea rdi, [rel " ++ invalid_bound_expt_const ++ "]"))
    push_back_call "_fail_assertion"
    FUNCTION_CALL_ALIGNMENT_CLOSE needs_alignment
    push_back (.other (valid_jump ++ ":"))

/-- The loop of `cg_loopexpr` that multiplies the bounds into `rdi` with an
overflow check, from index `i` on. -/
def cg_loop_heap_size : Nat → Nat → CG Unit
  | 0, _ => pure ()
  | remaining + 1, i => do
    let no_ovr_jump ← get_new_jump
    let ovr_expt_const ← add_constant_string "overflow computing array size"
    push_back (.other ("imul rdi, [rsp + " ++ toString (i * 8) ++ "]"))
    push_back (.other ("jno " ++ no_ovr_jump))
    cg_fail_assertion ovr_expt_const
    push_back (.other (no_ovr_jump ++ ":"))
    cg_loop_heap_size remaining (i + 1)

/-- The loop of `cg_loopexpr` that pushes a zero for each index variable and
registers it as a temporary, from the last bound to the first. -/
def cg_loop_indices : List (String × Parser.ExprNode) → CG Unit
  | [] => pure ()
  | (index_name, _) :: rest => do
    cg_loop_indices rest
    push_back (.other "mov rax, 0")
    push_back (.push "rax")
    increment_stack_size 8
    let offset ← get_size_of_temporaries
    modify_stack (·.add_temporary index_name offset)

/-- The storage-index loop of `cg_loopexpr` at level 1 and above, for the
bounds from index `i` on.  At level 1 the source reads
`bound_constant->value` without testing the cast, which dereferences a null
pointer for a bound that is not a literal: the generator crashes. -/
def loop_storage_lines (level : Nat) (element_size : Nat) (indices_size : Int) :
    List (String × Parser.ExprNode) → Nat → Except String (List Instr)
  | [], _ => pure []
  | (_, bound) :: rest, i => do
    let memory_line : Instr :=
      .other ("imul rax, [rsp + " ++ toString ((element_size + i * 8 : Int) + indices_size) ++ "]")
    let constant : Option Int ←
      if level = 1 then
        match as_int_literal bound with
        | some constant_value => pure (some constant_value)
        | none => throw "bound_constant is null"
      else pure (cp_int bound)
    let multiply : Instr :=
      match constant with
      | some constant_value =>
        let (is_power, power) := is_power_of_two constant_value 0
        if is_power then .other ("shl rax, " ++ toString power)
        else if under_32_bits constant_value then
          .other ("imul rax, " ++ toString constant_value)
        else memory_line
      | none => memory_line
    let lines ← loop_storage_lines level element_size indices_size rest (i + 1)
    pure ([multiply, .other ("add rax, [rsp + " ++ toString (element_size + i * 8) ++ "]")]
      ++ lines)

/-- The lines `imul rax, [rsp + element_size + i*8 + indices_size];
add rax, [rsp + element_size + i*8]` of `cg_loopexpr` at level 0. -/
def loop_storage_lines_plain (element_size : Nat) (indices_size : Int) : Nat → Nat → List Instr
  | 0, _ => []
  | remaining + 1, i =>
    [.other ("imul rax, [rsp + " ++ toString ((element_size + i * 8 : Int) + indices_size) ++ "]"),
      .other ("add rax, [rsp + " ++ toString (element_size + i * 8) ++ "]")]
      ++ loop_storage_lines_plain element_size indices_size remaining (i + 1)

/-- The index-increment loop of `cg_loopexpr`, from the last index to the first. -/
def loop_increment_lines (loop_body_jump : String) (indices_size : Int) : Nat → List Instr
  | 0 => []
  | i + 1 =>
    [.other ("add qword [rsp + " ++ toString (i * 8) ++ "], 1"),
      .other ("mov rax, [rsp + " ++ toString (i * 8) ++ "]"),
      .other ("cmp rax, [rsp + " ++ toString ((i * 8 : Int) + indices_size) ++ "]"),
      .other ("jl " ++ loop_body_jump)]
      ++ (if i ≠ 0 then [.other ("mov qword [rsp + " ++ toString (i * 8) ++ "], 0")] else [])
      ++ loop_increment_lines loop_body_jump indices_size i

/-- The method `cg_loopexpr`; `is_sum` is the cast to `SumLoopExprNode`,
`cg_bounds` and `cg_loop_expression` are the calls `cg_expr` on the bounds and
on the body. -/
def cg_loopexpr (is_sum : Bool) (slots : Parser.Slots)
    (bounds : List (String × Parser.ExprNode)) (cg_bounds : List (CG Unit))
    (cg_loop_expression : CG Unit) (loop_expression : Parser.ExprNode) : CG Unit := do
  let level ← get_optimization_level
  let mut sum_is_int := true
  if is_sum then
    push_back (.sub_rsp 8)
    increment_stack_size 8
    match slots.resolvedType with
    | some r_type => sum_is_int := decide (r_type.type_name = .INT)
    | none => throw "resolvedType is null"
  else
    push_back (.sub_rsp 8)
    increment_stack_size 8
  cg_loop_bounds cg_bounds
  let size := bounds.length
  let indices_size : Int := size * 8
  if is_sum then
    push_back (.other "mov rax, 0")
    push_back (.other ("mov [rsp + " ++ toString (size * 8) ++ "], rax"))
  else
    let element_size := calc_stack_size (← resolved loop_expression)
    push_back (.other ("mov rdi, " ++ toString element_size))
    cg_loop_heap_size size 0
    let needs_alignment ← FUNCTION_CALL_ALIGNMENT_CHECK 0
    push_back_call "_jpl_alloc"
    FUNCTION_CALL_ALIGNMENT_CLOSE needs_alignment
    push_back (.other ("mov [rsp + " ++ toString indices_size ++ "], rax"))
  cg_loop_indices bounds
  let loop_body_jump ← get_new_jump
  push_back (.other (loop_body_jump ++ ":"))
  cg_loop_expression
  if is_sum then
    if sum_is_int then
      push_back (.pop "rax")
      decrement_stack_size 8
      push_back (.other ("add [rsp + " ++ toString (indices_size * 2) ++ "], rax"))
    else
      push_back (.other "movsd xmm0, [rsp]")
      push_back (.add_rsp 8)
      decrement_stack_size 8
      push_back (.other ("addsd xmm0, [rsp + " ++ toString (indices_size * 2) ++ "]"))
      push_back (.other ("movsd [rsp + " ++ toString (indices_size * 2) ++ "], xmm0"))
  else
    let element_size := calc_stack_size (← resolved loop_expression)
    if level < 1 then
      push_back (.other "mov rax, 0")
      push_back_all (loop_storage_lines_plain element_size indices_size size 0)
    else
      push_back (.other ("mov rax, [rsp + " ++ toString element_size ++ "]"))
      match loop_storage_lines level element_size indices_size (bounds.drop 1) 1 with
      | .ok lines => push_back_all lines
      | .error message => throw message
    push_back (scale_line level element_size)
    push_back (.other ("add rax, [rsp + "
      ++ toString ((element_size : Int) + indices_size * 2) ++ "]"))
    move_bytes element_size "rsp" "rax"
    push_back (.add_rsp element_size)
    decrement_stack_size element_size
  push_back_all (loop_increment_lines loop_body_jump indices_size size)
  push_back (.add_rsp indices_size)
  decrement_stack_size indices_size
  if is_sum then
    push_back (.add_rsp indices_size)
    decrement_stack_size indices_size

mutual
/-- The dispatcher `cg_expr`. -/
def cg_expr : Parser.ExprNode → CG Unit
  | .IntExprNode _ value => cg_intexpr value
  | .FloatExprNode _ value => cg_floatexpr value
  | .TrueExprNode _ => cg_trueexpr
  | .FalseExprNode _ => cg_falseexpr
  | .UnopExprNode _ operation expression =>
    cg_unopexpr (cg_expr expression) operation expression
  | .BinopExprNode slots lhs operation rhs =>
    cg_binopexpr (cg_expr lhs) (cg_expr rhs) slots lhs operation rhs
  | .TupleLiteralExprNode _ tuple_expressions => cg_tupleexpr (cg_exprs tuple_expressions)
  | .ArrayLiteralExprNode slots array_expressions =>
    cg_arrayexpr slots (cg_exprs array_expressions)
  | .TupleIndexExprNode _ tuple_expression tuple_index =>
    cg_tupleaccessexpr (cg_expr tuple_expression) tuple_expression tuple_index
  | .ArrayIndexExprNode slots array_expression array_indices =>
    cg_arrayindexexpr (cg_expr array_expression) (cg_exprs array_indices) slots array_expression
  | .VariableExprNode slots token_s => cg_variableexpr slots token_s
  | .CallExprNode _ function_name arguments => cg_callexpr function_name (cg_exprs arguments)
  | .IfExprNode slots condition then_expr else_expr =>
    cg_ifexpr (cg_expr condition) (cg_expr then_expr) (cg_expr else_expr) slots then_expr
      else_expr
  | .ArrayLoopExprNode slots bounds loop_expression =>
    cg_loopexpr false slots bounds (cg_bounds bounds) (cg_expr loop_expression) loop_expression
  | .SumLoopExprNode slots bounds loop_expression =>
    cg_loopexpr true slots bounds (cg_bounds bounds) (cg_expr loop_expression) loop_expression
/-- The calls `cg_expr(expressions[i])`, one per element. -/
def cg_exprs : List Parser.ExprNode → List (CG Unit)
  | [] => []
  | expr :: rest => cg_expr expr :: cg_exprs rest
/-- The calls `cg_expr(expr->bounds[i]->second)`, one per bound. -/
def cg_bounds : List (String × Parser.ExprNode) → List (CG Unit)
  | [] => []
  | (_, bound) :: rest => cg_expr bound :: cg_bounds rest
end


/-- The method `add_function_return_code`. -/
def add_function_return_code (cc : CallingConvention) : CG Unit := do
  if !cc.is_void_return then
    if cc.return_location = some .RAX then
      push_back (.pop "rax")
      decrement_stack_size 8
    else if cc.return_location = some .XMM0 then
      push_back (.other "movsd xmm0, [rsp]")
      push_back (.add_rsp 8)
      decrement_stack_size 8
    else
      let offset ← get_offset "$return"
      push_back (.other ("mov rax, [rbp - " ++ toString offset ++ "]"))
      move_bytes cc.return_size "rsp" "rax"
  push_back (.add_rsp (← get_size_of_temporaries))
  push_back (.pop "rbp")
  push_back .ret

def cg_letstmt (set_variable_name : Parser.LValue) (variable_expression : Parser.ExprNode) :
    CG Unit := do
  cg_expr variable_expression
  let r_type ← resolved variable_expression
  let offset ← get_size_of_temporaries
  modify_stack (StackDescription.add_lvalue set_variable_name r_type offset)

def cg_returnstmt (expression : Parser.ExprNode) (cc : CallingConvention) : CG Unit := do
  cg_expr expression
  add_function_return_code cc

/-- The methods `cg_assertstmt` and `cg_assertcmd`, which have the same body. -/
def cg_assert (expression : Parser.ExprNode) (string : String) : CG Unit := do
  cg_expr expression
  push_back (.pop "rax")
  decrement_stack_size 8
  push_back (.other "cmp rax, 0")
  let jump_name ← get_new_jump
  push_back (.other ("jne " ++ jump_name))
  let needs_alignment ← FUNCTION_CALL_ALIGNMENT_CHECK 0
  let error_message_constant ← add_constant_string string
  push_back (.other ("lea rdi, [rel " ++ error_message_constant ++ "]"))
  push_back_call "_fail_assertion"
  FUNCTION_CALL_ALIGNMENT_CLOSE needs_alignment
  push_back (.other (jump_name ++ ":"))

/-- The method `cg_stmt`: whether the statement was a return. -/
def cg_stmt (stmt : Parser.StmtNode) (cc : CallingConvention) : CG Bool :=
  match stmt with
  | .LetStmtNode set_variable_name variable_expression => do
    cg_letstmt set_variable_name variable_expression
    return false
  | .ReturnStmtNode expression => do
    cg_returnstmt expression cc
    return true
  | .AssertStmtNode expression string => do
    cg_assert expression string
    return false

/-- The parameter loop of the constructor `AFunction(FnCmd*, ...)`: a register
argument is pushed and bound at the current frame size, a stack argument is
bound at `stack_args_dist_from_rbp`, which starts at -16. -/
def cg_bind_arguments (arguments : List Parser.BindingNode) (arg_signature : List ResolvedType) :
    List MemoryLocationData → Int → CG Unit
  | [], _ => pure ()
  | data :: rest, stack_args_dist_from_rbp => do
    let binding_node ←
      match arguments.get? data.argument_number with
      | some binding_node => pure binding_node
      | none => throw "arguments read out of range"
    let binding_type ←
      match arg_signature.get? data.argument_number with
      | some binding_type => pure binding_type
      | none => throw "arg_signature read out of range"
    if CallingConvention.is_r_register data.location then
      push_back (.push (← register_name data.location))
      increment_stack_size 8
      let offset ← get_size_of_temporaries
      modify_stack (StackDescription.add_binding binding_node binding_type offset)
      cg_bind_arguments arguments arg_signature rest stack_args_dist_from_rbp
    else if CallingConvention.is_f_register data.location then
      push_back (.sub_rsp 8)
      increment_stack_size 8
      push_back (.other ("movsd [rsp], " ++ (← register_name data.location)))
      let offset ← get_size_of_temporaries
      modify_stack (StackDescription.add_binding binding_node binding_type offset)
      cg_bind_arguments arguments arg_signature rest stack_args_dist_from_rbp
    else
      modify_stack
        (StackDescription.add_binding binding_node binding_type stack_args_dist_from_rbp)
      cg_bind_arguments arguments arg_signature rest
        (stack_args_dist_from_rbp - calc_stack_size binding_type)

/-- The statement loop of the constructor:
`had_return = cg_stmt(stmt.get(), cc) || had_return`. -/
def cg_stmts (cc : CallingConvention) : List Parser.StmtNode → Bool → CG Bool
  | [], had_return => pure had_return
  | stmt :: rest, had_return => do
    let was_return ← cg_stmt stmt cc
    cg_stmts cc rest (was_return || had_return)

/-- The body of the constructor `AFunction(FnCmd*, Assembly&, StackDescription*)`,
run on a generator whose function part is freshly initialised. -/
def cg_function_body (function_name : String) (arguments : List Parser.BindingNode)
    (function_contents : List Parser.StmtNode) : CG Unit := do
  let cc ← get_calling_convention function_name
  if !cc.is_void_return && cc.return_location = some .STACK then
    push_back (.push "rdi")
    increment_stack_size 8
    let offset ← get_size_of_temporaries
    modify_stack (·.add_temporary "$return" offset)
  cg_bind_arguments arguments cc.arg_signature cc.argument_pop_order (-16)
  let had_return ← cg_stmts cc function_contents false
  if !had_return then add_function_return_code cc

/-- The method `cg_fncmd`: a new `AFunction` is constructed for the command,
sharing the assembly and the global stack description, and is added to the
assembly. -/
def cg_fncmd (function_name : String) (arguments : List Parser.BindingNode)
    (function_contents : List Parser.StmtNode) : CG Unit := do
  let g ← get
  let global := g.global_stack.getD g.fn.stack_size
  let sub : Generator :=
    ⟨g.assembly, ⟨function_name, [], false, StackDescription.create 0, []⟩, some global⟩
  match (cg_function_body function_name arguments function_contents).run sub with
  | .error message => throw message
  | .ok (_, sub) =>
    let global := sub.global_stack.getD global
    let assembly := sub.assembly.add_function sub.fn
    match g.global_stack with
    | none =>
      set (Generator.mk assembly
        ⟨g.fn.name, g.fn.assembly_code, g.fn.is_main, global, g.fn.calls⟩ none)
    | some _ => set (Generator.mk assembly g.fn (some global))

def cg_showcmd (expression : Parser.ExprNode) : CG Unit := do
  let r_type ← resolved expression
  let argument_size_on_stack := calc_stack_size r_type
  let needs_alignment ← FUNCTION_CALL_ALIGNMENT_CHECK argument_size_on_stack
  cg_expr expression
  let expression_type := "(" ++ r_type.toString ++ ")"
  let expression_constant_name ← add_constant_string expression_type
  push_back (.other ("lea rdi, [rel " ++ expression_constant_name ++ "]"))
  push_back (.other "lea rsi, [rsp]")
  push_back_call "_show"
  push_back (.add_rsp argument_size_on_stack)
  decrement_stack_size argument_size_on_stack
  FUNCTION_CALL_ALIGNMENT_CLOSE needs_alignment

def cg_letcmd (lvalue : Parser.LValue) (expression : Parser.ExprNode) : CG Unit := do
  cg_expr expression
  let r_type ← resolved expression
  let offset ← get_size_of_temporaries
  modify_stack (StackDescription.add_lvalue lvalue r_type offset)

def cg_readcmd (fileName : String) (readInto : Parser.ArgumentNode) : CG Unit := do
  let r_tuple := ResolvedType.TupleRType [.FloatRType, .FloatRType, .FloatRType, .FloatRType]
  let r_pict := ResolvedType.ArrayRType r_tuple 2
  let return_size_on_stack := calc_stack_size r_pict
  increment_stack_size return_size_on_stack
  push_back (.sub_rsp return_size_on_stack)
  push_back (.other "lea rdi, [rsp]")
  let needs_alignment ← FUNCTION_CALL_ALIGNMENT_CHECK 0
  let const_name ← add_constant_string fileName
  push_back (.other ("lea rsi, [rel " ++ const_name ++ "]"))
  push_back_call "_read_image"
  FUNCTION_CALL_ALIGNMENT_CLOSE needs_alignment
  let offset ← get_size_of_temporaries
  modify_stack (·.add_argument readInto offset)

def cg_printcmd (string : String) : CG Unit := do
  let message_const ← add_constant_string string
  push_back (.other ("lea rdi, [rel " ++ message_const ++ "]"))
  let needs_alignment ← FUNCTION_CALL_ALIGNMENT_CHECK 0
  push_back_call "_print"
  FUNCTION_CALL_ALIGNMENT_CLOSE needs_alignment

def cg_writecmd (toSave : Parser.ExprNode) (fileName : String) : CG Unit := do
  let size_of_image_on_stack : Int := 24
  let needs_alignment ← FUNCTION_CALL_ALIGNMENT_CHECK size_of_image_on_stack
  cg_expr toSave
  let filename_const ← add_constant_string fileName
  push_back (.other ("lea rdi, [rel " ++ filename_const ++ "]"))
  push_back_call "_write_image"
  push_back (.add_rsp size_of_image_on_stack)
  decrement_stack_size size_of_image_on_stack
  FUNCTION_CALL_ALIGNMENT_CLOSE needs_alignment

/-- A call of the runtime's `_get_time` or `_print_time` between the
alignment macros. -/
def cg_aligned_call (target : String) : CG Unit := do
  let needs_alignment ← FUNCTION_CALL_ALIGNMENT_CHECK 0
  push_back_call target
  FUNCTION_CALL_ALIGNMENT_CLOSE needs_alignment

/-- The method `cg_cmd` with `cg_timecmd` inlined, since the two call each
other. -/
def cg_cmd : Parser.CmdNode → CG Unit
  | .ShowCmdNode expression => cg_showcmd expression
  | .LetCmdNode lvalue expression => cg_letcmd lvalue expression
  | .ReadCmdNode fileName readInto => cg_readcmd fileName readInto
  | .FnCmd function_name arguments _ function_contents =>
    cg_fncmd function_name arguments function_contents
  | .AssertCmdNode expression string => cg_assert expression string
  | .TypeCmdNode _ _ => pure ()
  | .PrintCmdNode string => cg_printcmd string
  | .WriteCmdNode toSave fileName => cg_writecmd toSave fileName
  | .TimeCmdNode command => do
    cg_aligned_call "_get_time"
    push_back (.sub_rsp 8)
    increment_stack_size 8
    push_back (.other "movsd [rsp], xmm0")
    let start_offset ← get_stack_size
    cg_cmd command
    cg_aligned_call "_get_time"
    push_back (.sub_rsp 8)
    increment_stack_size 8
    push_back (.other "movsd [rsp], xmm0")
    push_back (.other "movsd xmm0, [rsp]")
    push_back (.add_rsp 8)
    decrement_stack_size 8
    let end_offset ← get_stack_size
    push_back (.other ("movsd xmm1, [rsp + " ++ toString ((end_offset - start_offset) % 2 ^ 32)
      ++ "]"))
    push_back (.other "subsd xmm0, xmm1")
    cg_aligned_call "_print_time"

/-- The driver loop `for (auto& command : tree) main_function->cg_cmd(command)`. -/
def cg_cmds : List Parser.CmdNode → CG Unit
  | [] => pure ()
  | command :: rest => do cg_cmd command; cg_cmds rest

/-- The constructor `AFunction(Assembly&)` of `jpl_main`. -/
def main_function (assembly : Assembly) : Generator :=
  ⟨assembly,
    ⟨"jpl_main", [], true,
      ((StackDescription.create 8).add_temporary "argnum" (-24)).add_temporary "args" (-24), []⟩,
    none⟩

/-- The method `AFunction::toString` as a list of lines: the prologue, the
body and, for `jpl_main`, the epilogue. -/
def AFunction.toString (f : AFunction) : List Instr :=
  [.other (f.name ++ ":"), .other ("_" ++ f.name ++ ":"), .push "rbp", .other "mov rbp, rsp"]
    ++ (if f.is_main then [.push "r12", .other "mov r12, rbp"] else [])
    ++ f.assembly_code
    ++ (if f.is_main then
          (if f.stack_size.get_size_of_temporaries ≠ 0 then
            [.add_rsp f.stack_size.get_size_of_temporaries] else [])
          ++ [.pop "r12", .pop "rbp", .ret]
        else [])

/-- The code-generation part of `main` in `compiler.cpp`: the assembly built
from the global scope, `jpl_main` generated from the commands and added last. -/
def generate (scope : Scope) (tree : List Parser.CmdNode) (op_level : Nat) :
    Except String Assembly := do
  let assembly := Assembly.create scope op_level
  let (_, g) ← (cg_cmds tree).run (main_function assembly)
  pure (g.assembly.add_function g.fn)

/-- The pipeline of `main` after parsing: type resolution, constant
propagation above level 1, code generation. -/
def compile (tree : List Parser.CmdNode) (op_level : Nat) : Except String Assembly := do
  let (tree, scope) ←
    match typecheck tree with
    | .ok result => pure result
    | .error e => throw e.message
  let tree ← if op_level > 1 then Optimization.visit_all_cmds tree else pure tree
  generate scope tree op_level


/-- The program of the two commands
`fn f() : int {` / `let x = 5` / `return x` / `}` and
`fn g() : {int, int} {` / `let x = {1, 2}` / `return x` / `}`,
where `/` is a line break, as the parser builds it. -/
def two_scopes_program : List Parser.CmdNode :=
  [ .FnCmd "f" [] .IntTypeNode
      [ .LetStmtNode (.ArgumentLValue (.VarArgumentNode "x")) (.IntExprNode .fresh 5),
        .ReturnStmtNode (.VariableExprNode .fresh "x") ],
    .FnCmd "g" [] (.TupleTypeNode [.IntTypeNode, .IntTypeNode])
      [ .LetStmtNode (.ArgumentLValue (.VarArgumentNode "x"))
          (.TupleLiteralExprNode .fresh [.IntExprNode .fresh 1, .IntExprNode .fresh 2]),
        .ReturnStmtNode (.VariableExprNode .fresh "x") ] ]

/-- The reference to `x` in `return x` of `g`, with the annotations the
resolver and the constant-propagation pass give it in `two_scopes_program`. -/
def propagated_reference : Parser.ExprNode :=
  .VariableExprNode ⟨some (.TupleRType [.IntRType, .IntRType]), .INT 5⟩ "x"

/-- The statements of a function definition. -/
def function_contents_of : Parser.CmdNode → List Parser.StmtNode
  | .FnCmd _ _ _ function_contents => function_contents
  | _ => []

/-- The type resolver followed by the constant-propagation pass, as the
driver runs them at optimization level 2. -/
def resolve_and_propagate (tree : List Parser.CmdNode) : Except String (List Parser.CmdNode) :=
  match typecheck tree with
  | .ok (tree, _) => Optimization.visit_all_cmds tree
  | .error e => throw e.message

/-- The program `show 1.0 % 2.0` as the parser builds it. -/
def float_mod_program : List Parser.CmdNode :=
  [ .ShowCmdNode
      (.BinopExprNode .fresh (.FloatExprNode .fresh "1.0") .MOD (.FloatExprNode .fresh "2.0")) ]

/-- The ghost records of the `call` lines of every function of an assembly. -/
def calls_of (a : Assembly) : List (String × Int) :=
  (a.functions.map (·.calls)).flatten

/-- The bytes by which a line moves the stack pointer downwards: what the
symbolic counter should add for it. -/
def Instr.pushed_bytes : Instr → Int
  | .push _ => 8
  | .pop _ => -8
  | .sub_rsp bytes => bytes
  | .add_rsp bytes => -bytes
  | _ => 0

/-- The bytes a sequence of lines leaves pushed when run from top to bottom. -/
def pushed_bytes (lines : List Instr) : Int := (lines.map Instr.pushed_bytes).sum

/-- The type `t_n` of the commands `type t0 = int[,...,]`, an array type of
rank 1023, and `type t1 = {t0, t0, t0, t0, t0, t0, t0, t0}`, and so on up to
`type t_n`, each a tuple of eight elements of the type before it. -/
def wide_type : Nat → ResolvedType
  | 0 => .ArrayRType .IntRType 1023
  | n + 1 => .TupleRType (List.replicate 8 (wide_type n))

/-- The mnemonics of the conditional jumps that the generator emits. -/
def conditional_jumps : List String := ["je", "jne", "jl", "jge", "jg", "jno"]

/-- The jump a line makes, if it is one: whether the jump is conditional, and
the label it goes to. -/
def Instr.jump? : Instr → Option (Bool × String)
  | .other text =>
    let mnemonic := String.mk (text.data.takeWhile (fun c => c ≠ ' '))
    let target := String.mk ((text.data.dropWhile (fun c => c ≠ ' ')).drop 1)
    if mnemonic = "jmp" then some (false, target)
    else if mnemonic ∈ conditional_jumps then some (true, target)
    else none
  | _ => none

/-- The lines that follow the line `label:`. -/
def lines_after (label : String) : List Instr → List Instr
  | [] => []
  | line :: rest => if line = .other (label ++ ":") then rest else lines_after label rest

/-- The lines that the processor runs through in the body `code` of a
function, from `lines` on and up to the first `ret`: a `jmp` goes on at its
label, and a conditional jump goes on at its label or at the next line as the
list `taken` says for the conditional jumps in the order they are met (at the
next line once the list is used up).  A `call` comes back to the next line.
At most `steps` lines are followed. -/
def executed_lines (code : List Instr) : Nat → List Bool → List Instr → List Instr
  | 0, _, _ => []
  | _ + 1, _, [] => []
  | steps + 1, taken, line :: rest =>
    if line = .ret then [line]
    else
      match line.jump? with
      | some (false, target) =>
        line :: executed_lines code steps taken (lines_after target code)
      | some (true, target) =>
        match taken with
        | true :: later => line :: executed_lines code steps later (lines_after target code)
        | false :: later => line :: executed_lines code steps later rest
        | [] => line :: executed_lines code steps [] rest
      | none => line :: executed_lines code steps taken rest

end Compiler


/-! ## The annotated tree, and the parser -/

namespace Typechecker
open Parser

/-- A scope whose own symbol table has the given entries appended; its
ancestors are the same. -/
def Scope.extend : Scope → SymbolTable → Scope
  | .root table, entries => .root (table ++ entries)
  | .nested table parent, entries => .nested (table ++ entries) parent

end Typechecker

namespace Parser

mutual
/-- Every expression node of the tree has its `resolvedType` slot set. -/
def ExprNode.all_resolved : ExprNode → Bool
  | .IntExprNode s _ => s.resolvedType.isSome
  | .FloatExprNode s _ => s.resolvedType.isSome
  | .TrueExprNode s => s.resolvedType.isSome
  | .FalseExprNode s => s.resolvedType.isSome
  | .VariableExprNode s _ => s.resolvedType.isSome
  | .TupleLiteralExprNode s tuple_expressions =>
    s.resolvedType.isSome && ExprNode.all_resolved_list tuple_expressions
  | .ArrayLiteralExprNode s array_expressions =>
    s.resolvedType.isSome && ExprNode.all_resolved_list array_expressions
  | .TupleIndexExprNode s tuple_expression _ =>
    s.resolvedType.isSome && tuple_expression.all_resolved
  | .ArrayIndexExprNode s array_expression array_indices =>
    s.resolvedType.isSome && array_expression.all_resolved &&
      ExprNode.all_resolved_list array_indices
  | .CallExprNode s _ arguments => s.resolvedType.isSome && ExprNode.all_resolved_list arguments
  | .UnopExprNode s _ expression => s.resolvedType.isSome && expression.all_resolved
  | .BinopExprNode s lhs _ rhs => s.resolvedType.isSome && lhs.all_resolved && rhs.all_resolved
  | .IfExprNode s condition then_expr else_expr =>
    s.resolvedType.isSome && condition.all_resolved && then_expr.all_resolved &&
      else_expr.all_resolved
  | .ArrayLoopExprNode s bounds loop_expression =>
    s.resolvedType.isSome && ExprNode.all_resolved_bounds bounds && loop_expression.all_resolved
  | .SumLoopExprNode s bounds loop_expression =>
    s.resolvedType.isSome && ExprNode.all_resolved_bounds bounds && loop_expression.all_resolved
/-- Every expression node of every tree of a list has its slot set. -/
def ExprNode.all_resolved_list : List ExprNode → Bool
  | [] => true
  | e :: rest => e.all_resolved && ExprNode.all_resolved_list rest
/-- Every expression node of every bound of a loop has its slot set. -/
def ExprNode.all_resolved_bounds : List (String × ExprNode) → Bool
  | [] => true
  | (_, e) :: rest => e.all_resolved && ExprNode.all_resolved_bounds rest
end

/-- Every expression node of a statement has its `resolvedType` slot set. -/
def StmtNode.all_resolved : StmtNode → Bool
  | .LetStmtNode _ variable_expression => variable_expression.all_resolved
  | .AssertStmtNode expression _ => expression.all_resolved
  | .ReturnStmtNode expression => expression.all_resolved

/-- Every expression node reachable from a command, through the statements of
a function body and through a timed command, has its `resolvedType` slot set. -/
def CmdNode.all_resolved : CmdNode → Bool
  | .ReadCmdNode _ _ => true
  | .WriteCmdNode toSave _ => toSave.all_resolved
  | .TypeCmdNode _ _ => true
  | .LetCmdNode _ expression => expression.all_resolved
  | .AssertCmdNode expression _ => expression.all_resolved
  | .PrintCmdNode _ => true
  | .ShowCmdNode expression => expression.all_resolved
  | .TimeCmdNode command => command.all_resolved
  | .FnCmd _ _ _ function_contents => function_contents.all StmtNode.all_resolved

end Parser

namespace Lexer

/-- The enum `TokenType` of `lexer.h`. -/
inductive TokenType where
  | ARRAY | ASSERT | BOOL | ELSE | FALSE | FLOAT | FN | IF | IMAGE | INT | LET | PRINT
  | READ | RETURN | SHOW | SUM | THEN | TIME | TO | TRUE | TYPE | WRITE
  | COLON | LCURLY | RCURLY | LPAREN | RPAREN | COMMA | LSQUARE | RSQUARE | EQUALS
  | STRING | INTVAL | FLOATVAL | VARIABLE | OP | NEWLINE | END_OF_FILE | NONE
deriving DecidableEq, Repr, Inhabited

/-- The struct `token` of `lexer.h`; the line and character numbers, which
only error messages use, are left out. -/
structure token where
  type : TokenType
  text : String
deriving DecidableEq, Repr, Inhabited

/-- The function `tokenTypeToString`. -/
def tokenTypeToString : TokenType → String
  | .ARRAY => "ARRAY" | .ASSERT => "ASSERT" | .BOOL => "BOOL" | .ELSE => "ELSE"
  | .FALSE => "FALSE" | .FLOAT => "FLOAT" | .FN => "FN" | .IF => "IF" | .IMAGE => "IMAGE"
  | .INT => "INT" | .LET => "LET" | .PRINT => "PRINT" | .READ => "READ"
  | .RETURN => "RETURN" | .SHOW => "SHOW" | .SUM => "SUM" | .THEN => "THEN"
  | .TIME => "TIME" | .TO => "TO" | .TRUE => "TRUE" | .TYPE => "TYPE" | .WRITE => "WRITE"
  | .COLON => "COLON" | .LCURLY => "LCURLY" | .RCURLY => "RCURLY" | .LPAREN => "LPAREN"
  | .RPAREN => "RPAREN" | .COMMA => "COMMA" | .LSQUARE => "LSQUARE" | .RSQUARE => "RSQUARE"
  | .EQUALS => "EQUALS" | .STRING => "STRING" | .INTVAL => "INTVAL"
  | .FLOATVAL => "FLOATVAL" | .VARIABLE => "VARIABLE" | .OP => "OP"
  | .NEWLINE => "NEWLINE" | .END_OF_FILE => "END_OF_FILE" | .NONE => ""

end Lexer

namespace Lexer

/-! ### The lexer

The lexer works on the characters from the pointer `source` on, here a list of
characters; the counters `line` and `pos`, which only messages use, are not
kept.  A pattern of `std::regex` is modelled by a function that gives the
length of the match `regex_search` finds at the start of the text, following
the ECMAScript rules of greedy repetition and ordered alternatives; every
pattern of the lexer but `newline_check` is anchored by `^`.  A
`LexerException` is the `Except.error` result with the fixed text of its
message.  The loops take a budget of rounds; each round takes at least one
character, and a run that uses the budget up ends in the error
`out_of_budget`, which no run of the source corresponds to. -/

/-- The error of a run that used up its budget of rounds. -/
def out_of_budget : String := "budget of rounds used up"

/-- Whether the text starts with the given characters. -/
def starts_with : List Char → List Char → Bool
  | [], _ => true
  | _ :: _, [] => false
  | c :: word, d :: source => c = d && starts_with word source

/-- The class `[a-zA-Z0-9_]`. -/
def is_word_character (c : Char) : Bool := c.isAlpha || c.isDigit || c = '_'

/-- The pattern `^word(?![a-zA-Z0-9_])` of the table `KEYWORDS`. -/
def match_keyword (word : String) (source : List Char) : Option Nat :=
  if starts_with word.toList source &&
      !((source.drop word.length).head?.any is_word_character) then
    some word.length
  else none

/-- The table `KEYWORDS`, each pattern by its word. -/
def KEYWORDS : List (String × TokenType) :=
  [("array", .ARRAY), ("assert", .ASSERT), ("bool", .BOOL), ("else", .ELSE),
    ("false", .FALSE), ("float", .FLOAT), ("fn", .FN), ("if", .IF), ("image", .IMAGE),
    ("int", .INT), ("let", .LET), ("print", .PRINT), ("read", .READ), ("return", .RETURN),
    ("show", .SHOW), ("sum", .SUM), ("then", .THEN), ("time", .TIME), ("to", .TO),
    ("true", .TRUE), ("type", .TYPE), ("write", .WRITE)]

/-- A pattern `^text` or `^text(?!c)` of the table `OPERATORS`: the text and
the character of the negative look-ahead. -/
def match_operator (text : String) (not_followed_by : Option Char) (source : List Char) :
    Option Nat :=
  if starts_with text.toList source &&
      (not_followed_by = none || (source.drop text.length).head? ≠ not_followed_by) then
    some text.length
  else none

/-- The table `OPERATORS`, in its order. -/
def OPERATORS : List (String × Option Char) :=
  [("==", none), (">=", none), ("<=", none), (">", none), ("<", none), ("!=", none),
    ("+", none), ("-", none), ("*", some '/'), ("/", some '*'), ("%", none), ("&&", none),
    ("||", none), ("!", none)]

/-- The table `OTHER`, each pattern `^text` by its text. -/
def OTHER : List (String × TokenType) :=
  [(":", .COLON), (",", .COMMA), ("=", .EQUALS), ("(", .LPAREN), ("[", .LSQUARE),
    ("\x7b", .LCURLY), (")", .RPAREN), ("]", .RSQUARE), ("\x7d", .RCURLY)]

/-- The function `lexRegex` for a pattern anchored at the start of the text:
`matched` is the length of the match, `none` when the search fails. -/
def lexRegex (source : List Char) (matched : Option Nat) (token_type : TokenType)
    (error_message : String) : Except String (token × List Char) :=
  match matched with
  | none => throw error_message
  | some length => pure (⟨token_type, String.mk (source.take length)⟩, source.drop length)

/-- The loop of `lexAllKeywords` over the table. -/
def lex_keywords : List (String × TokenType) → List Char → Except String (token × List Char)
  | [], _ => throw "Could not lex token as any keyword."
  | (word, token_type) :: rest, source =>
    match lexRegex source (match_keyword word source) token_type "Could not lex token as keyword." with
    | .ok ret => pure ret
    | .error _ => lex_keywords rest source

/-- The function `lexAllKeywords`. -/
def lexAllKeywords (source : List Char) : Except String (token × List Char) :=
  lex_keywords KEYWORDS source

/-- The first loop of `lexAllSymbols`, over `OPERATORS`. -/
def lex_operators : List (String × Option Char) → List Char → Option (token × List Char)
  | [], _ => none
  | (text, not_followed_by) :: rest, source =>
    match lexRegex source (match_operator text not_followed_by source) .OP
        "Could not lex token as operator." with
    | .ok ret => some ret
    | .error _ => lex_operators rest source

/-- The second loop of `lexAllSymbols`, over `OTHER`. -/
def lex_others : List (String × TokenType) → List Char → Option (token × List Char)
  | [], _ => none
  | (text, token_type) :: rest, source =>
    match lexRegex source (match_operator text none source) token_type
        "Could not lex token as keyword." with
    | .ok ret => some ret
    | .error _ => lex_others rest source

/-- The function `lexAllSymbols`. -/
def lexAllSymbols (source : List Char) : Except String (token × List Char) :=
  match lex_operators OPERATORS source with
  | some ret => pure ret
  | none =>
    match lex_others OTHER source with
    | some ret => pure ret
    | none => throw "Could not lex token as any symbol."

/-- The pattern `^"[^\n"]*"` of `lexString`. -/
def match_string (source : List Char) : Option Nat :=
  match source with
  | '"' :: rest =>
    let body := rest.takeWhile (fun c => c ≠ '\n' && c ≠ '"')
    if (rest.drop body.length).head? = some '"' then some (body.length + 2) else none
  | _ => none

/-- The function `lexString`. -/
def lexString (source : List Char) : Except String (token × List Char) :=
  lexRegex source (match_string source) .STRING "Could not lex token as string value."

/-- The pattern `^[0-9]+\.[0-9]*|^\.[0-9]+` of `lexFloatVal`. -/
def match_float (source : List Char) : Option Nat :=
  let whole := source.takeWhile Char.isDigit
  let after := source.drop whole.length
  if whole ≠ [] && after.head? = some '.' then
    some (whole.length + 1 + (after.tail.takeWhile Char.isDigit).length)
  else if source.head? = some '.' && source.tail.takeWhile Char.isDigit ≠ [] then
    some (1 + (source.tail.takeWhile Char.isDigit).length)
  else none

/-- The function `lexFloatVal`. -/
def lexFloatVal (source : List Char) : Except String (token × List Char) :=
  lexRegex source (match_float source) .FLOATVAL "Could not lex token as float value."

/-- The pattern `^[\d]+(?![\.\d])` of `lexIntVal`: the digits cannot be
followed by a point, and giving a digit back leaves a digit after the match. -/
def match_int (source : List Char) : Option Nat :=
  let whole := source.takeWhile Char.isDigit
  if whole ≠ [] && (source.drop whole.length).head? ≠ some '.' then some whole.length
  else none

/-- The function `lexIntVal`. -/
def lexIntVal (source : List Char) : Except String (token × List Char) :=
  lexRegex source (match_int source) .INTVAL "Could not lex token as int value"

/-- The pattern `^[a-zA-Z_][a-zA-Z0-9_\.]*` of `lexVariable`. -/
def match_variable (source : List Char) : Option Nat :=
  match source with
  | c :: rest =>
    if c.isAlpha || c = '_' then
      some (1 + (rest.takeWhile (fun d => is_word_character d || d = '.')).length)
    else none
  | [] => none

/-- The function `lexVariable`. -/
def lexVariable (source : List Char) : Except String (token × List Char) :=
  lexRegex source (match_variable source) .VARIABLE "Could not lex token as variable."

/-- The alternative `\/\/.*\n` of the pattern `white_space`; on the characters
`lexPreprocess` lets through, `.` is every character but the newline. -/
def match_line_comment (source : List Char) : Option Nat :=
  match source with
  | '/' :: '/' :: rest =>
    let body := rest.takeWhile (fun c => c ≠ '\n')
    if (rest.drop body.length).head? = some '\n' then some (body.length + 3) else none
  | _ => none

/-- The characters the greedy repetition `([^\*]|\*[^\/])*` takes.  A round
takes a character other than `*`, or a `*` with the character after it when
that is not `/`; no round can start where the text goes on with `*/`, so giving
rounds back never helps the match of `\*\/` that follows. -/
def match_comment_body : List Char → Nat
  | '*' :: c :: rest => if c = '/' then 0 else 2 + match_comment_body rest
  | ['*'] => 0
  | _ :: rest => 1 + match_comment_body rest
  | [] => 0

/-- The alternative `\/\*([^\*]|\*[^\/])*\*\/` of the pattern `white_space`. -/
def match_block_comment (source : List Char) : Option Nat :=
  match source with
  | '/' :: '*' :: rest =>
    let body := match_comment_body rest
    if starts_with ['*', '/'] (rest.drop body) then some (body + 4) else none
  | _ => none

/-- One round of the repetition of the pattern `white_space`: the first of
the alternatives newline, continued line, space, line comment, block comment
that matches. -/
def match_white_space_round (source : List Char) : Option Nat :=
  if starts_with ['\n'] source then some 1
  else if starts_with ['\\', '\n'] source then some 2
  else if starts_with [' '] source then some 1
  else
    match match_line_comment source with
    | some length => some length
    | none => match_block_comment source

/-- The pattern `white_space`, a greedy repetition of rounds, with a budget
of rounds. -/
def match_white_space : Nat → List Char → Except String Nat
  | 0, _ => throw out_of_budget
  | budget + 1, source =>
    match match_white_space_round source with
    | none => pure 0
    | some length => do
      let more ← match_white_space budget (source.drop length)
      pure (length + more)

/-- The part `([^\*]|\*[^/])*\n([^\*]|\*[^/])*\*/` of the last alternative of
`newline_check` after the opening `/*`: the newline has to stand where a round
of the repetition starts, and `seen` tells that one did. -/
def match_comment_with_newline : Bool → List Char → Bool
  | seen, '*' :: c :: rest => if c = '/' then seen else match_comment_with_newline seen rest
  | _, ['*'] => false
  | seen, c :: rest => match_comment_with_newline (seen || c = '\n') rest
  | _, [] => false

/-- Whether one of the alternatives `[^\\]\n`, `//.*\n` and
`/\*([^\*]|\*[^/])*\n([^\*]|\*[^/])*\*/` of `newline_check` matches at the
start of the text. -/
def newline_check_here (text : List Char) : Bool :=
  (match text with
    | c :: '\n' :: _ => c ≠ '\\'
    | _ => false) ||
  (match text with
    | '/' :: '/' :: rest => rest.contains '\n'
    | _ => false) ||
  (match text with
    | '/' :: '*' :: rest => match_comment_with_newline false rest
    | _ => false)

/-- The search of `newline_check` from every position of the text for the
alternatives that are not anchored. -/
def newline_check_search : List Char → Bool
  | [] => false
  | c :: rest => newline_check_here (c :: rest) || newline_check_search rest

/-- The search `regex_search(cm.str().c_str(), _, newline_check)`; the
alternative `^\n` matches at the start only. -/
def newline_check (text : List Char) : Bool :=
  starts_with ['\n'] text || newline_check_search text

/-- The function `lexWhitespace`. -/
def lexWhitespace (source : List Char) : Except String (token × List Char) := do
  let length ← match_white_space (source.length + 1) source
  let contains_newline := length ≠ 0 && newline_check (source.take length)
  if contains_newline then pure (⟨.NEWLINE, "\n"⟩, source.drop length)
  else pure (⟨.NONE, ""⟩, source.drop length)

/-- The function `lexToken`: the functions of `SUB_LEX_FUNCTIONS` in their
order, the first that does not throw. -/
def lexToken (source : List Char) : Except String (token × List Char) :=
  match lexAllKeywords source with
  | .ok ret => pure ret
  | .error _ =>
  match lexAllSymbols source with
  | .ok ret => pure ret
  | .error _ =>
  match lexString source with
  | .ok ret => pure ret
  | .error _ =>
  match lexFloatVal source with
  | .ok ret => pure ret
  | .error _ =>
  match lexIntVal source with
  | .ok ret => pure ret
  | .error _ =>
  match lexVariable source with
  | .ok ret => pure ret
  | .error _ => throw "Could not recognize token."

/-- The function `lexPreprocess`: every character matches `[\n -~]`. -/
def lexPreprocess (source : List Char) : Except String Unit :=
  if source.all (fun c => c = '\n' || (' ' ≤ c && c ≤ '~')) then pure ()
  else throw "Not all characters supported."

/-- The function `getNextSegment`: the characters before the first space or
newline. -/
def getNextSegment (start : List Char) : List Char :=
  start.takeWhile (fun c => !(c = ' ' || c = '\n'))

/-- The loop `while(segmover != segment + segment_size)` of `lexAll`, which
lexes a segment on its own. -/
def lex_segment : Nat → List Char → Except String (List token)
  | _, [] => pure []
  | 0, _ :: _ => throw out_of_budget
  | budget + 1, c :: segmover => do
    let (ret, rest) ← lexToken (c :: segmover)
    let more ← lex_segment budget rest
    pure (ret :: more)

/-- The loop `while (source_pointer != end)` of `lexAll`. -/
def lex_segments : Nat → List Char → Except String (List token)
  | _, [] => pure []
  | 0, _ :: _ => throw out_of_budget
  | budget + 1, c :: source_pointer => do
    let segment := getNextSegment (c :: source_pointer)
    let tokens ← lex_segment segment.length segment
    let (ret, rest) ← lexWhitespace ((c :: source_pointer).drop segment.length)
    let more ← lex_segments budget rest
    pure (tokens ++ (if ret.type ≠ .NONE then [ret] else []) ++ more)

/-- The function `lexAll` on a source without NUL characters. -/
def lexAll (source : String) : Except String (List token) := do
  lexPreprocess source.toList
  let (ret, source_pointer) ← lexWhitespace source.toList
  let tokens ← lex_segments source.length source_pointer
  pure ((if ret.type ≠ .NONE then [ret] else []) ++ tokens ++ [⟨.END_OF_FILE, ""⟩])

/-- The loop `while (source_pointer != source_copy + source_len)` of
`lexPrintAll`: a token and then white space, on the whole source. -/
def lex_print_tokens : Nat → List Char → Except String (List token)
  | _, [] => pure []
  | 0, _ :: _ => throw out_of_budget
  | budget + 1, c :: source_pointer => do
    let (ret, rest) ← lexToken (c :: source_pointer)
    let (space, rest) ← lexWhitespace rest
    let more ← lex_print_tokens budget rest
    pure (ret :: (if space.type ≠ .NONE then [space] else []) ++ more)

/-- The function `lexPrintAll` on a source without NUL characters: the tokens
it prints when it ends with "Compilation succeeded", an error when it ends
with "Compilation failed". -/
def lexPrintAll (source : String) : Except String (List token) := do
  lexPreprocess source.toList
  let (ret, source_pointer) ← lexWhitespace source.toList
  let tokens ← lex_print_tokens source.length source_pointer
  pure ((if ret.type ≠ .NONE then [ret] else []) ++ tokens ++ [⟨.END_OF_FILE, ""⟩])

end Lexer

namespace Parser
open Lexer

/-! ### The parser

The parser's state is the vector `tokens` and the index `token_index`; the
model carries the tokens from `token_index` on, so that reading past the end is
the empty list and the statement `token_index--` after a consumed token goes
back to the list before it.  A `ParserException` is the `Except.error` result;
its message is the fixed text of the source's message, without the header of
line, position and token type and without the values appended to it (the text
of a literal, the number of tokens).  The string `token_s` of a node is kept
where it is the node's name (a variable, an argument, a type name); elsewhere
`token_s`, and `line` and `pos` everywhere, which only messages and comments in
the output use, are not kept.  The recursive functions take a recursion budget that every call lowers by one;
a run that uses it up ends in the error `out_of_fuel`, which no run of the
source corresponds to, and a result other than that error is the result of
the source.  A parse function returns its node and the remaining tokens. -/

/-- The error of a run that used up its recursion budget. -/
def out_of_fuel : String := "recursion budget used up"

/-- The function `peekToken` at `token_index`. -/
def peekToken : List token → Except String TokenType
  | [] => throw "Tried to query a token when there were none left"
  | next :: _ => pure next.type

/-- The call `consumeToken(token_index++, expected_token_type)`. -/
def consumeToken (expected_token_type : TokenType) : List token → Except String (token × List token)
  | [] =>
    throw ("Expected to see a " ++ tokenTypeToString expected_token_type
      ++ " token when there were none left")
  | token_of_interest :: rest =>
    if token_of_interest.type ≠ expected_token_type then
      throw ("Expected token of type " ++ tokenTypeToString expected_token_type
        ++ ", but got a token of type " ++ tokenTypeToString token_of_interest.type ++ ".")
    else pure (token_of_interest, rest)

/-- The value of `LONG_MAX` for the 64-bit `long` of the target. -/
def LONG_MAX : Int := 2 ^ 63 - 1

/-- The library call `strtol(text, &end, 10)`: the value and whether `errno`
is set to `ERANGE`.  Leading white space and a sign are skipped and the longest
run of digits is read; a value out of the range of `long` is clamped. -/
def strtol (text : String) : Int × Bool :=
  let characters := text.toList.dropWhile
    (fun c => c = ' ' || c = '\t' || c = '\n' || c = '\x0b' || c = '\x0c' || c = '\r')
  let negative := characters.head? = some '-'
  let characters :=
    if characters.head? = some '-' ∨ characters.head? = some '+' then characters.tail
    else characters
  let digits := characters.takeWhile Char.isDigit
  let magnitude : Int := digits.foldl (fun value c => 10 * value + (c.toNat - '0'.toNat : Nat)) 0
  if negative then
    if magnitude > LONG_MAX + 1 then (-(LONG_MAX + 1), true) else (-magnitude, false)
  else
    if magnitude > LONG_MAX then (LONG_MAX, true) else (magnitude, false)

/-- The function `castStringToInt`.  The test `errno == ERANGE` is taken to
see the `errno` of this call of `strtol`; `isnan` of a `long` is false. -/
def castStringToInt (text : String) : Except String Int :=
  let (value, range_error) := strtol text
  if range_error then throw "Int was too big to parse." else pure value

/-- Whether the call `strtod(begin, &end)` of the constructor
`FloatExprNode()` sets `errno` to `ERANGE`; the test `errno == ERANGE` is
taken to see the `errno` of this call. -/
def strtod_range_error (text : String) : Bool := (strtod text).2

/-- The method `StringNode::getValue`, `token_s.substr(1, token_s.length() - 2)`:
the text without its first and last character.  The text of a `STRING` token
holds both quotes; on the empty text, where `substr` throws, the model gives
the empty text. -/
def getValue (token_s : String) : String := (token_s.drop 1).take (token_s.length - 2)

/-- The constructor `StringNode()`; the node is kept as the value `getValue`
gives for it. -/
def new_StringNode (tokens : List token) : Except String (String × List token) := do
  let (t, rest) ← consumeToken .STRING tokens
  pure (getValue t.text, rest)

/-- The constructor `IntExprNode()`. -/
def new_IntExprNode (tokens : List token) : Except String (ExprNode × List token) := do
  let (t, rest) ← consumeToken .INTVAL tokens
  let value ← castStringToInt t.text
  pure (.IntExprNode .fresh value, rest)

/-- The constructor `FloatExprNode()`; `isnan` of the value of a decimal
literal is false. -/
def new_FloatExprNode (tokens : List token) : Except String (ExprNode × List token) := do
  let (t, rest) ← consumeToken .FLOATVAL tokens
  if strtod_range_error t.text then throw "Float was too big to parse."
  else pure (.FloatExprNode .fresh t.text, rest)

/-- The constructor `TrueExprNode()`. -/
def new_TrueExprNode (tokens : List token) : Except String (ExprNode × List token) := do
  let (_, rest) ← consumeToken .TRUE tokens
  pure (.TrueExprNode .fresh, rest)

/-- The constructor `FalseExprNode()`. -/
def new_FalseExprNode (tokens : List token) : Except String (ExprNode × List token) := do
  let (_, rest) ← consumeToken .FALSE tokens
  pure (.FalseExprNode .fresh, rest)

/-- The constructor `VariableExprNode()`. -/
def new_VariableExprNode (tokens : List token) : Except String (ExprNode × List token) := do
  let (t, rest) ← consumeToken .VARIABLE tokens
  pure (.VariableExprNode .fresh t.text, rest)

/-- The constructor `TupleIndexExprNode(head)`. -/
def new_TupleIndexExprNode (head : ExprNode) (tokens : List token) : Except String (ExprNode × List token) := do
  let (_, rest) ← consumeToken .LCURLY tokens
  let (intval, rest) ← consumeToken .INTVAL rest
  let tuple_index ← castStringToInt intval.text
  let (_, rest) ← consumeToken .RCURLY rest
  pure (.TupleIndexExprNode .fresh head tuple_index, rest)

/-- The method `UnopExprNode::tokenToUnopType`, which reads `text[0]`. -/
def tokenToUnopType (toConvert : token) : Except String UnopType :=
  if toConvert.text.get 0 = '-' then pure .NEGATION
  else if toConvert.text.get 0 = '!' then pure .NOT
  else throw "Could not recognize character as a unary operator."

/-- The method `BinopExprNode::tokenToBinopType`. -/
def tokenToBinopType (toConvert : token) : Except String BinopType :=
  let text := toConvert.text
  if text = "+" then pure .PLUS
  else if text = "-" then pure .MINUS
  else if text = "*" then pure .TIMES
  else if text = "/" then pure .DIVIDE
  else if text = "%" then pure .MOD
  else if text = "<" then pure .LESS_THAN
  else if text = ">" then pure .GREATER_THAN
  else if text = "==" then pure .EQUALS
  else if text = "!=" then pure .NOT_EQUALS
  else if text = "<=" then pure .LESS_THAN_OR_EQUALS
  else if text = ">=" then pure .GREATER_THAN_OR_EQUALS
  else if text = "&&" then pure .AND
  else if text = "||" then pure .OR
  else throw "Could not convert text as a binary operator."

/-- The constructor `BinopExprNode(_lhs, binop_token, _rhs)`. -/
def new_BinopExprNode (_lhs : ExprNode) (binop_token : token) (_rhs : ExprNode) :
    Except String ExprNode := do
  let operation ← tokenToBinopType binop_token
  pure (.BinopExprNode .fresh _lhs operation _rhs)

mutual
/-- The function `parseExpr`. -/
def parseExpr : Nat → List token → Except String (ExprNode × List token)
  | 0, _ => throw out_of_fuel
  | fuel + 1, tokens => parseBoolopExpr fuel tokens
/-- The function `parseBoolopExpr`. -/
def parseBoolopExpr : Nat → List token → Except String (ExprNode × List token)
  | 0, _ => throw out_of_fuel
  | fuel + 1, tokens => do
    let (head, rest) ← parseComparisonExpr fuel tokens
    parseBoolopExprCont fuel head rest
/-- The function `parseBoolopExprCont`. -/
def parseBoolopExprCont : Nat → ExprNode → List token → Except String (ExprNode × List token)
  | 0, _, _ => throw out_of_fuel
  | fuel + 1, head, tokens => do
    let tokenType ← peekToken tokens
    if tokenType ≠ .OP then pure (head, tokens)
    else do
      let (binop_token, rest) ← consumeToken .OP tokens
      let is_boolop := binop_token.text = "&&" || binop_token.text = "||"
      if !is_boolop then pure (head, tokens)
      else do
        let (_rhs, rest) ← parseComparisonExpr fuel rest
        let fullexpr ← new_BinopExprNode head binop_token _rhs
        parseBoolopExprCont fuel fullexpr rest
/-- The function `parseComparisonExpr`. -/
def parseComparisonExpr : Nat → List token → Except String (ExprNode × List token)
  | 0, _ => throw out_of_fuel
  | fuel + 1, tokens => do
    let (head, rest) ← parseAddExpr fuel tokens
    parseComparisonExprCont fuel head rest
/-- The function `parseComparisonExprCont`. -/
def parseComparisonExprCont :
    Nat → ExprNode → List token → Except String (ExprNode × List token)
  | 0, _, _ => throw out_of_fuel
  | fuel + 1, head, tokens => do
    let tokenType ← peekToken tokens
    if tokenType ≠ .OP then pure (head, tokens)
    else do
      let (binop_token, rest) ← consumeToken .OP tokens
      let is_lt := binop_token.text = "<" || binop_token.text = "<="
      let is_gt := binop_token.text = ">" || binop_token.text = ">="
      let is_equ := binop_token.text = "==" || binop_token.text = "!="
      if !(is_lt || is_gt || is_equ) then pure (head, tokens)
      else do
        let (_rhs, rest) ← parseAddExpr fuel rest
        let fullexpr ← new_BinopExprNode head binop_token _rhs
        parseComparisonExprCont fuel fullexpr rest
/-- The function `parseAddExpr`. -/
def parseAddExpr : Nat → List token → Except String (ExprNode × List token)
  | 0, _ => throw out_of_fuel
  | fuel + 1, tokens => do
    let (head, rest) ← parseMultExpr fuel tokens
    parseAddExprCont fuel head rest
/-- The function `parseAddExprCont`, which switches on `text[0]`. -/
def parseAddExprCont : Nat → ExprNode → List token → Except String (ExprNode × List token)
  | 0, _, _ => throw out_of_fuel
  | fuel + 1, head, tokens => do
    let tokenType ← peekToken tokens
    if tokenType ≠ .OP then pure (head, tokens)
    else do
      let (binop_token, rest) ← consumeToken .OP tokens
      if binop_token.text.get 0 = '+' ∨ binop_token.text.get 0 = '-' then do
        let (_rhs, rest) ← parseMultExpr fuel rest
        let fullexpr ← new_BinopExprNode head binop_token _rhs
        parseAddExprCont fuel fullexpr rest
      else pure (head, tokens)
/-- The function `parseMultExpr`. -/
def parseMultExpr : Nat → List token → Except String (ExprNode × List token)
  | 0, _ => throw out_of_fuel
  | fuel + 1, tokens => do
    let (head, rest) ← parseUnopExpr fuel tokens
    parseMultExprCont fuel head rest
/-- The function `parseMultExprCont`, which switches on `text[0]`. -/
def parseMultExprCont : Nat → ExprNode → List token → Except String (ExprNode × List token)
  | 0, _, _ => throw out_of_fuel
  | fuel + 1, head, tokens => do
    let tokenType ← peekToken tokens
    if tokenType ≠ .OP then pure (head, tokens)
    else do
      let (binop_token, rest) ← consumeToken .OP tokens
      if binop_token.text.get 0 = '*' ∨ binop_token.text.get 0 = '/' ∨
          binop_token.text.get 0 = '%' then do
        let (_rhs, rest) ← parseUnopExpr fuel rest
        let fullexpr ← new_BinopExprNode head binop_token _rhs
        parseMultExprCont fuel fullexpr rest
      else pure (head, tokens)
/-- The function `parseUnopExpr`. -/
def parseUnopExpr : Nat → List token → Except String (ExprNode × List token)
  | 0, _ => throw out_of_fuel
  | fuel + 1, tokens => do
    let tokenType ← peekToken tokens
    if tokenType ≠ .OP then parseBaseExpr fuel tokens
    else new_UnopExprNode fuel tokens
/-- The constructor `UnopExprNode()`. -/
def new_UnopExprNode : Nat → List token → Except String (ExprNode × List token)
  | 0, _ => throw out_of_fuel
  | fuel + 1, tokens => do
    let (unop_token, rest) ← consumeToken .OP tokens
    let operation ← tokenToUnopType unop_token
    let (expr, rest) ← parseUnopExpr fuel rest
    pure (.UnopExprNode .fresh operation expr, rest)
/-- The function `parseBaseExpr`. -/
def parseBaseExpr : Nat → List token → Except String (ExprNode × List token)
  | 0, _ => throw out_of_fuel
  | fuel + 1, tokens => do
    let (head, rest) ← parseBaseExprHead fuel tokens
    parseBaseExprCont fuel head rest
/-- The function `parseBaseExprHead`. -/
def parseBaseExprHead : Nat → List token → Except String (ExprNode × List token)
  | 0, _ => throw out_of_fuel
  | fuel + 1, tokens => do
    let tokenType ← peekToken tokens
    match tokenType with
    | .INTVAL => new_IntExprNode tokens
    | .FLOATVAL => new_FloatExprNode tokens
    | .TRUE => new_TrueExprNode tokens
    | .FALSE => new_FalseExprNode tokens
    | .VARIABLE => do
      let (variable_token, rest) ← consumeToken .VARIABLE tokens
      parseBaseExprVarCont fuel variable_token rest
    | .LPAREN => do
      let (_, rest) ← consumeToken .LPAREN tokens
      let (expr, rest) ← parseExpr fuel rest
      let (_, rest) ← consumeToken .RPAREN rest
      pure (expr, rest)
    | .LCURLY => new_TupleLiteralExprNode fuel tokens
    | .LSQUARE => new_ArrayLiteralExprNode fuel tokens
    | .IF => new_IfExprNode fuel tokens
    | .ARRAY => new_ArrayLoopExprNode fuel tokens
    | .SUM => new_SumLoopExprNode fuel tokens
    | _ =>
      throw ("Failed to parse an expression; got a " ++ tokenTypeToString tokenType
        ++ " token instead.")
/-- The function `parseBaseExprVarCont`, entered after the variable token has
been consumed; `tokens` are the tokens after it. -/
def parseBaseExprVarCont :
    Nat → token → List token → Except String (ExprNode × List token)
  | 0, _, _ => throw out_of_fuel
  | fuel + 1, variable_token, tokens =>
    if variable_token.type ≠ .VARIABLE then throw "Expected a token of type VARIABLE"
    else do
      let tokenType ← peekToken tokens
      match tokenType with
      | .LPAREN => new_CallExprNode fuel variable_token tokens
      | _ => new_VariableExprNode (variable_token :: tokens)
/-- The function `parseBaseExprCont`. -/
def parseBaseExprCont : Nat → ExprNode → List token → Except String (ExprNode × List token)
  | 0, _, _ => throw out_of_fuel
  | fuel + 1, head, tokens => do
    let tokenType ← peekToken tokens
    match tokenType with
    | .LCURLY => do
      let (indexed, rest) ← new_TupleIndexExprNode head tokens
      parseBaseExprCont fuel indexed rest
    | .LSQUARE => do
      let (indexed, rest) ← new_ArrayIndexExprNode fuel head tokens
      parseBaseExprCont fuel indexed rest
    | _ => pure (head, tokens)
/-- The loop `while (peekToken(token_index) != closing)` of the constructors
of a tuple literal, an array literal, an array index and a call: an
expression, then a comma unless the closing token follows. -/
def parse_expressions : TokenType → Nat → List token →
    Except String (List ExprNode × List token)
  | _, 0, _ => throw out_of_fuel
  | closing, fuel + 1, tokens => do
    let tokenType ← peekToken tokens
    if tokenType = closing then pure ([], tokens)
    else do
      let (u_type, rest) ← parseExpr fuel tokens
      let tokenType ← peekToken rest
      if tokenType ≠ closing then do
        let (_, rest) ← consumeToken .COMMA rest
        let (more, rest) ← parse_expressions closing fuel rest
        pure (u_type :: more, rest)
      else do
        let (more, rest) ← parse_expressions closing fuel rest
        pure (u_type :: more, rest)
/-- The constructor `TupleLiteralExprNode()`. -/
def new_TupleLiteralExprNode : Nat → List token → Except String (ExprNode × List token)
  | 0, _ => throw out_of_fuel
  | fuel + 1, tokens => do
    let (_, rest) ← consumeToken .LCURLY tokens
    let (tuple_expressions, rest) ← parse_expressions .RCURLY fuel rest
    let (_, rest) ← consumeToken .RCURLY rest
    pure (.TupleLiteralExprNode .fresh tuple_expressions, rest)
/-- The constructor `ArrayLiteralExprNode()`. -/
def new_ArrayLiteralExprNode : Nat → List token → Except String (ExprNode × List token)
  | 0, _ => throw out_of_fuel
  | fuel + 1, tokens => do
    let (_, rest) ← consumeToken .LSQUARE tokens
    let (array_expressions, rest) ← parse_expressions .RSQUARE fuel rest
    let (_, rest) ← consumeToken .RSQUARE rest
    pure (.ArrayLiteralExprNode .fresh array_expressions, rest)
/-- The constructor `ArrayIndexExprNode(head)`. -/
def new_ArrayIndexExprNode :
    Nat → ExprNode → List token → Except String (ExprNode × List token)
  | 0, _, _ => throw out_of_fuel
  | fuel + 1, head, tokens => do
    let (_, rest) ← consumeToken .LSQUARE tokens
    let (array_indices, rest) ← parse_expressions .RSQUARE fuel rest
    let (_, rest) ← consumeToken .RSQUARE rest
    pure (.ArrayIndexExprNode .fresh head array_indices, rest)
/-- The constructor `CallExprNode(variable)`. -/
def new_CallExprNode : Nat → token → List token → Except String (ExprNode × List token)
  | 0, _, _ => throw out_of_fuel
  | fuel + 1, variable_token, tokens =>
    if variable_token.type ≠ .VARIABLE then throw "Expected a token of type VARIABLE"
    else do
      let (_, rest) ← consumeToken .LPAREN tokens
      let (arguments, rest) ← parse_expressions .RPAREN fuel rest
      let (_, rest) ← consumeToken .RPAREN rest
      pure (.CallExprNode .fresh variable_token.text arguments, rest)
/-- The constructor `IfExprNode()`. -/
def new_IfExprNode : Nat → List token → Except String (ExprNode × List token)
  | 0, _ => throw out_of_fuel
  | fuel + 1, tokens => do
    let (_, rest) ← consumeToken .IF tokens
    let (_condition, rest) ← parseExpr fuel rest
    let (_, rest) ← consumeToken .THEN rest
    let (_then_expr, rest) ← parseExpr fuel rest
    let (_, rest) ← consumeToken .ELSE rest
    let (_else_expr, rest) ← parseExpr fuel rest
    pure (.IfExprNode .fresh _condition _then_expr _else_expr, rest)
/-- The loop of `LoopExprNode::parseBounds`. -/
def parse_bounds : Nat → List token → Except String (List (String × ExprNode) × List token)
  | 0, _ => throw out_of_fuel
  | fuel + 1, tokens => do
    let tokenType ← peekToken tokens
    if tokenType = .RSQUARE then pure ([], tokens)
    else do
      let (var_token, rest) ← consumeToken .VARIABLE tokens
      let (_, rest) ← consumeToken .COLON rest
      let (u_expr, rest) ← parseExpr fuel rest
      let tokenType ← peekToken rest
      if tokenType ≠ .RSQUARE then do
        let (_, rest) ← consumeToken .COMMA rest
        let tokenType ← peekToken rest
        if tokenType = .RSQUARE then throw " Trailing comma detected."
        else do
          let (more, rest) ← parse_bounds fuel rest
          pure ((var_token.text, u_expr) :: more, rest)
      else do
        let (more, rest) ← parse_bounds fuel rest
        pure ((var_token.text, u_expr) :: more, rest)
/-- The method `LoopExprNode::parseBounds`. -/
def parseBounds : Nat → List token → Except String (List (String × ExprNode) × List token)
  | 0, _ => throw out_of_fuel
  | fuel + 1, tokens => do
    let (_, rest) ← consumeToken .LSQUARE tokens
    let (bounds, rest) ← parse_bounds fuel rest
    let (_, rest) ← consumeToken .RSQUARE rest
    pure (bounds, rest)
/-- The constructor `ArrayLoopExprNode()`. -/
def new_ArrayLoopExprNode : Nat → List token → Except String (ExprNode × List token)
  | 0, _ => throw out_of_fuel
  | fuel + 1, tokens => do
    let (_, rest) ← consumeToken .ARRAY tokens
    let (bounds, rest) ← parseBounds fuel rest
    let (_loop_expression, rest) ← parseExpr fuel rest
    pure (.ArrayLoopExprNode .fresh bounds _loop_expression, rest)
/-- The constructor `SumLoopExprNode()`. -/
def new_SumLoopExprNode : Nat → List token → Except String (ExprNode × List token)
  | 0, _ => throw out_of_fuel
  | fuel + 1, tokens => do
    let (_, rest) ← consumeToken .SUM tokens
    let (bounds, rest) ← parseBounds fuel rest
    let (_loop_expression, rest) ← parseExpr fuel rest
    pure (.SumLoopExprNode .fresh bounds _loop_expression, rest)
end

/-- The method `BinopExprNode::binopTypeToString`. -/
def binopTypeToString : BinopType → String
  | .PLUS => "+"
  | .MINUS => "-"
  | .TIMES => "*"
  | .DIVIDE => "/"
  | .MOD => "%"
  | .LESS_THAN => "<"
  | .GREATER_THAN => ">"
  | .EQUALS => "=="
  | .NOT_EQUALS => "!="
  | .LESS_THAN_OR_EQUALS => "<="
  | .GREATER_THAN_OR_EQUALS => ">="
  | .AND => "&&"
  | .OR => "||"

/-- The loop of the constructor `ArrayTypeNode(head)`: a comma for every
further dimension until the closing bracket. -/
def parse_rank : Nat → Nat → List token → Except String (Nat × List token)
  | 0, _, _ => throw out_of_fuel
  | fuel + 1, rank, tokens => do
    let tokenType ← peekToken tokens
    if tokenType = .RSQUARE then pure (rank, tokens)
    else do
      let (_, rest) ← consumeToken .COMMA tokens
      parse_rank fuel (rank + 1) rest

/-- The constructor `ArrayTypeNode(head)`. -/
def new_ArrayTypeNode (fuel : Nat) (head : TypeNode) (tokens : List token) :
    Except String (TypeNode × List token) := do
  let (_, rest) ← consumeToken .LSQUARE tokens
  let (rank, rest) ← parse_rank fuel 1 rest
  let (_, rest) ← consumeToken .RSQUARE rest
  pure (.ArrayTypeNode head rank, rest)

mutual
/-- The function `parseType`. -/
def parseType : Nat → List token → Except String (TypeNode × List token)
  | 0, _ => throw out_of_fuel
  | fuel + 1, tokens => do
    let (head, rest) ← parseTypeHead fuel tokens
    parseTypeCont fuel head rest
/-- The function `parseTypeHead`. -/
def parseTypeHead : Nat → List token → Except String (TypeNode × List token)
  | 0, _ => throw out_of_fuel
  | fuel + 1, tokens => do
    let tokenType ← peekToken tokens
    match tokenType with
    | .INT => do
      let (_, rest) ← consumeToken .INT tokens
      pure (.IntTypeNode, rest)
    | .BOOL => do
      let (_, rest) ← consumeToken .BOOL tokens
      pure (.BoolTypeNode, rest)
    | .FLOAT => do
      let (_, rest) ← consumeToken .FLOAT tokens
      pure (.FloatTypeNode, rest)
    | .VARIABLE => do
      let (t, rest) ← consumeToken .VARIABLE tokens
      pure (.VariableTypeNode t.text, rest)
    | .LCURLY => new_TupleTypeNode fuel tokens
    | _ =>
      throw ("Failed to parse a type; got a " ++ tokenTypeToString tokenType
        ++ " token instead.")
/-- The function `parseTypeCont`. -/
def parseTypeCont : Nat → TypeNode → List token → Except String (TypeNode × List token)
  | 0, _, _ => throw out_of_fuel
  | fuel + 1, t, tokens => do
    let tokenType ← peekToken tokens
    match tokenType with
    | .LSQUARE => do
      let (array, rest) ← new_ArrayTypeNode fuel t tokens
      parseTypeCont fuel array rest
    | _ => pure (t, tokens)
/-- The constructor `TupleTypeNode()`. -/
def new_TupleTypeNode : Nat → List token → Except String (TypeNode × List token)
  | 0, _ => throw out_of_fuel
  | fuel + 1, tokens => do
    let (_, rest) ← consumeToken .LCURLY tokens
    let (tuple_types, rest) ← parse_types fuel rest
    let (_, rest) ← consumeToken .RCURLY rest
    pure (.TupleTypeNode tuple_types, rest)
/-- The loop of the constructor `TupleTypeNode()`. -/
def parse_types : Nat → List token → Except String (List TypeNode × List token)
  | 0, _ => throw out_of_fuel
  | fuel + 1, tokens => do
    let tokenType ← peekToken tokens
    if tokenType = .RCURLY then pure ([], tokens)
    else do
      let (u_type, rest) ← parseType fuel tokens
      let tokenType ← peekToken rest
      if tokenType ≠ .RCURLY then do
        let (_, rest) ← consumeToken .COMMA rest
        let (more, rest) ← parse_types fuel rest
        pure (u_type :: more, rest)
      else do
        let (more, rest) ← parse_types fuel rest
        pure (u_type :: more, rest)
end

/-- The constructor `VarArgumentNode()`. -/
def new_VarArgumentNode (tokens : List token) : Except String (ArgumentNode × List token) := do
  let (t, rest) ← consumeToken .VARIABLE tokens
  pure (.VarArgumentNode t.text, rest)

/-- The loop of the constructor `ArrayArgumentNode(variable)`. -/
def parse_dimensions : Nat → List token → Except String (List String × List token)
  | 0, _ => throw out_of_fuel
  | fuel + 1, tokens => do
    let tokenType ← peekToken tokens
    if tokenType = .RSQUARE then pure ([], tokens)
    else do
      let (dimension_var, rest) ← consumeToken .VARIABLE tokens
      let tokenType ← peekToken rest
      if tokenType ≠ .RSQUARE then do
        let (_, rest) ← consumeToken .COMMA rest
        let (more, rest) ← parse_dimensions fuel rest
        pure (dimension_var.text :: more, rest)
      else do
        let (more, rest) ← parse_dimensions fuel rest
        pure (dimension_var.text :: more, rest)

/-- The constructor `ArrayArgumentNode(variable)`. -/
def new_ArrayArgumentNode (fuel : Nat) (variable_token : token) (tokens : List token) :
    Except String (ArgumentNode × List token) :=
  if variable_token.type ≠ .VARIABLE then throw "Expected a token of type VARIABLE"
  else do
    let (_, rest) ← consumeToken .LSQUARE tokens
    let (array_dimensions_names, rest) ← parse_dimensions fuel rest
    let (_, rest) ← consumeToken .RSQUARE rest
    pure (.ArrayArgumentNode variable_token.text array_dimensions_names, rest)

/-- The function `parseArgument`. -/
def parseArgument (fuel : Nat) (tokens : List token) :
    Except String (ArgumentNode × List token) := do
  let (variable_token, rest) ← consumeToken .VARIABLE tokens
  let tokenType ← peekToken rest
  match tokenType with
  | .LSQUARE => new_ArrayArgumentNode fuel variable_token rest
  | _ => new_VarArgumentNode tokens

mutual
/-- The function `parseLValue`; the constructor `ArgumentLValue()` is the call
of `parseArgument`. -/
def parseLValue : Nat → List token → Except String (LValue × List token)
  | 0, _ => throw out_of_fuel
  | fuel + 1, tokens => do
    let tokenType ← peekToken tokens
    match tokenType with
    | .LCURLY => new_TupleLValueNode fuel tokens
    | _ => do
      let (argument, rest) ← parseArgument fuel tokens
      pure (.ArgumentLValue argument, rest)
/-- The constructor `TupleLValueNode()`. -/
def new_TupleLValueNode : Nat → List token → Except String (LValue × List token)
  | 0, _ => throw out_of_fuel
  | fuel + 1, tokens => do
    let (_, rest) ← consumeToken .LCURLY tokens
    let (lvalues, rest) ← parse_lvalues fuel rest
    let (_, rest) ← consumeToken .RCURLY rest
    pure (.TupleLValueNode lvalues, rest)
/-- The loop of the constructor `TupleLValueNode()`. -/
def parse_lvalues : Nat → List token → Except String (List LValue × List token)
  | 0, _ => throw out_of_fuel
  | fuel + 1, tokens => do
    let tokenType ← peekToken tokens
    if tokenType = .RCURLY then pure ([], tokens)
    else do
      let (u_lvalue, rest) ← parseLValue fuel tokens
      let tokenType ← peekToken rest
      if tokenType ≠ .RCURLY then do
        let (_, rest) ← consumeToken .COMMA rest
        let (more, rest) ← parse_lvalues fuel rest
        pure (u_lvalue :: more, rest)
      else do
        let (more, rest) ← parse_lvalues fuel rest
        pure (u_lvalue :: more, rest)
end

/-- The constructor `VarBindingNode()`. -/
def new_VarBindingNode (fuel : Nat) (tokens : List token) :
    Except String (BindingNode × List token) := do
  let (arg, rest) ← parseArgument fuel tokens
  let (_, rest) ← consumeToken .COLON rest
  let (t, rest) ← parseType fuel rest
  pure (.VarBindingNode arg t, rest)

mutual
/-- The function `parseBinding`. -/
def parseBinding : Nat → List token → Except String (BindingNode × List token)
  | 0, _ => throw out_of_fuel
  | fuel + 1, tokens => do
    let tokenType ← peekToken tokens
    match tokenType with
    | .VARIABLE => new_VarBindingNode fuel tokens
    | .LCURLY => new_TupleBindingNode fuel tokens
    | _ =>
      throw ("Failed to parse a binding; got a " ++ tokenTypeToString tokenType
        ++ " token instead.")
/-- The constructor `TupleBindingNode()`. -/
def new_TupleBindingNode : Nat → List token → Except String (BindingNode × List token)
  | 0, _ => throw out_of_fuel
  | fuel + 1, tokens => do
    let (_, rest) ← consumeToken .LCURLY tokens
    let (bindings, rest) ← parse_bindings .RCURLY fuel rest
    let (_, rest) ← consumeToken .RCURLY rest
    pure (.TupleBindingNode bindings, rest)
/-- The loop of the constructors `TupleBindingNode()` and `FnCmd()`: a
binding, then a comma unless the closing token follows. -/
def parse_bindings : TokenType → Nat → List token →
    Except String (List BindingNode × List token)
  | _, 0, _ => throw out_of_fuel
  | closing, fuel + 1, tokens => do
    let tokenType ← peekToken tokens
    if tokenType = closing then pure ([], tokens)
    else do
      let (u_binding, rest) ← parseBinding fuel tokens
      let tokenType ← peekToken rest
      if tokenType ≠ closing then do
        let (_, rest) ← consumeToken .COMMA rest
        let (more, rest) ← parse_bindings closing fuel rest
        pure (u_binding :: more, rest)
      else do
        let (more, rest) ← parse_bindings closing fuel rest
        pure (u_binding :: more, rest)
end

/-- The constructor `LetStmtNode()`. -/
def new_LetStmtNode (fuel : Nat) (tokens : List token) :
    Except String (StmtNode × List token) := do
  let (_, rest) ← consumeToken .LET tokens
  let (lvalue, rest) ← parseLValue fuel rest
  let (_, rest) ← consumeToken .EQUALS rest
  let (expr, rest) ← parseExpr fuel rest
  pure (.LetStmtNode lvalue expr, rest)

/-- The constructor `AssertStmtNode()`. -/
def new_AssertStmtNode (fuel : Nat) (tokens : List token) :
    Except String (StmtNode × List token) := do
  let (_, rest) ← consumeToken .ASSERT tokens
  let (_expression, rest) ← parseExpr fuel rest
  let (_, rest) ← consumeToken .COMMA rest
  let (_string, rest) ← new_StringNode rest
  pure (.AssertStmtNode _expression _string, rest)

/-- The constructor `ReturnStmtNode()`. -/
def new_ReturnStmtNode (fuel : Nat) (tokens : List token) :
    Except String (StmtNode × List token) := do
  let (_, rest) ← consumeToken .RETURN tokens
  let (expr, rest) ← parseExpr fuel rest
  pure (.ReturnStmtNode expr, rest)

/-- The function `parseStmt`. -/
def parseStmt (fuel : Nat) (tokens : List token) : Except String (StmtNode × List token) := do
  let tokenType ← peekToken tokens
  match tokenType with
  | .LET => new_LetStmtNode fuel tokens
  | .ASSERT => new_AssertStmtNode fuel tokens
  | .RETURN => new_ReturnStmtNode fuel tokens
  | _ =>
    throw ("Failed to parse a statement; got a " ++ tokenTypeToString tokenType
      ++ " token instead.")

/-- The constructor `ReadCmdNode()`. -/
def new_ReadCmdNode (fuel : Nat) (tokens : List token) :
    Except String (CmdNode × List token) := do
  let (_, rest) ← consumeToken .READ tokens
  let (_, rest) ← consumeToken .IMAGE rest
  let (_fileName, rest) ← new_StringNode rest
  let (_, rest) ← consumeToken .TO rest
  let (_readInto, rest) ← parseArgument fuel rest
  pure (.ReadCmdNode _fileName _readInto, rest)

/-- The constructor `WriteCmdNode()`. -/
def new_WriteCmdNode (fuel : Nat) (tokens : List token) :
    Except String (CmdNode × List token) := do
  let (_, rest) ← consumeToken .WRITE tokens
  let (_, rest) ← consumeToken .IMAGE rest
  let (_toSave, rest) ← parseExpr fuel rest
  let (_, rest) ← consumeToken .TO rest
  let (_fileName, rest) ← new_StringNode rest
  pure (.WriteCmdNode _toSave _fileName, rest)

/-- The constructor `TypeCmdNode()`. -/
def new_TypeCmdNode (fuel : Nat) (tokens : List token) :
    Except String (CmdNode × List token) := do
  let (_, rest) ← consumeToken .TYPE tokens
  let (_variable, rest) ← consumeToken .VARIABLE rest
  let (_, rest) ← consumeToken .EQUALS rest
  let (_type, rest) ← parseType fuel rest
  pure (.TypeCmdNode _variable.text _type, rest)

/-- The constructor `LetCmdNode()`. -/
def new_LetCmdNode (fuel : Nat) (tokens : List token) :
    Except String (CmdNode × List token) := do
  let (_, rest) ← consumeToken .LET tokens
  let (_lvalue, rest) ← parseLValue fuel rest
  let (_, rest) ← consumeToken .EQUALS rest
  let (_expression, rest) ← parseExpr fuel rest
  pure (.LetCmdNode _lvalue _expression, rest)

/-- The constructor `AssertCmdNode()`. -/
def new_AssertCmdNode (fuel : Nat) (tokens : List token) :
    Except String (CmdNode × List token) := do
  let (_, rest) ← consumeToken .ASSERT tokens
  let (_expression, rest) ← parseExpr fuel rest
  let (_, rest) ← consumeToken .COMMA rest
  let (_string, rest) ← new_StringNode rest
  pure (.AssertCmdNode _expression _string, rest)

/-- The constructor `PrintCmdNode()`. -/
def new_PrintCmdNode (tokens : List token) : Except String (CmdNode × List token) := do
  let (_, rest) ← consumeToken .PRINT tokens
  let (_string, rest) ← new_StringNode rest
  pure (.PrintCmdNode _string, rest)

/-- The constructor `ShowCmdNode()`. -/
def new_ShowCmdNode (fuel : Nat) (tokens : List token) :
    Except String (CmdNode × List token) := do
  let (_, rest) ← consumeToken .SHOW tokens
  let (_expression, rest) ← parseExpr fuel rest
  pure (.ShowCmdNode _expression, rest)

/-- The statement loop of the constructor `FnCmd()`: a statement and a
`NEWLINE` token until the closing brace. -/
def parse_stmts : Nat → List token → Except String (List StmtNode × List token)
  | 0, _ => throw out_of_fuel
  | fuel + 1, tokens => do
    let tokenType ← peekToken tokens
    if tokenType = .RCURLY then pure ([], tokens)
    else do
      let (u_stmt, rest) ← parseStmt fuel tokens
      let (_, rest) ← consumeToken .NEWLINE rest
      let (more, rest) ← parse_stmts fuel rest
      pure (u_stmt :: more, rest)

/-- The constructor `FnCmd()`. -/
def new_FnCmd (fuel : Nat) (tokens : List token) : Except String (CmdNode × List token) := do
  let (_, rest) ← consumeToken .FN tokens
  let (variable_token, rest) ← consumeToken .VARIABLE rest
  let (_, rest) ← consumeToken .LPAREN rest
  let (arguments, rest) ← parse_bindings .RPAREN fuel rest
  let (_, rest) ← consumeToken .RPAREN rest
  let (_, rest) ← consumeToken .COLON rest
  let (type, rest) ← parseType fuel rest
  let (_, rest) ← consumeToken .LCURLY rest
  let (_, rest) ← consumeToken .NEWLINE rest
  let (function_contents, rest) ← parse_stmts fuel rest
  let (_, rest) ← consumeToken .RCURLY rest
  pure (.FnCmd variable_token.text arguments type function_contents, rest)

/-- The function `parseCmd`; the `TIME` case is the constructor
`TimeCmdNode()`. -/
def parseCmd : Nat → List token → Except String (CmdNode × List token)
  | 0, _ => throw out_of_fuel
  | fuel + 1, tokens => do
    let tokenType ← peekToken tokens
    match tokenType with
    | .READ => new_ReadCmdNode fuel tokens
    | .WRITE => new_WriteCmdNode fuel tokens
    | .TYPE => new_TypeCmdNode fuel tokens
    | .LET => new_LetCmdNode fuel tokens
    | .ASSERT => new_AssertCmdNode fuel tokens
    | .PRINT => new_PrintCmdNode tokens
    | .SHOW => new_ShowCmdNode fuel tokens
    | .TIME => do
      let (_, rest) ← consumeToken .TIME tokens
      let (cmd, rest) ← parseCmd fuel rest
      pure (.TimeCmdNode cmd, rest)
    | .FN => new_FnCmd fuel tokens
    | _ =>
      throw ("Failed to parse a command; got a " ++ tokenTypeToString tokenType
        ++ " token instead.")

/-- The loop of `parseAllTokens`: until the `END_OF_FILE` token, a command
and then a `NEWLINE` token. -/
def parse_cmds : Nat → List token → Except String (List CmdNode × List token)
  | 0, _ => throw out_of_fuel
  | fuel + 1, tokens => do
    let tokenType ← peekToken tokens
    if tokenType = .END_OF_FILE then pure ([], tokens)
    else do
      let (unique_ast, rest) ← parseCmd fuel tokens
      let (_, rest) ← consumeToken .NEWLINE rest
      let (more, rest) ← parse_cmds fuel rest
      pure (unique_ast :: more, rest)

/-- The function `parseAllTokens`, run from `token_index = 0`. -/
def parseAllTokens (fuel : Nat) (tokens : List token) : Except String (List CmdNode) := do
  let tokenType ← peekToken tokens
  let tokens ←
    if tokenType = .NEWLINE then do
      let (_, rest) ← consumeToken .NEWLINE tokens
      pure rest
    else pure tokens
  let (treeNodes, _) ← parse_cmds fuel tokens
  pure treeNodes

/-- The function `parse`. -/
def parse (fuel : Nat) (_tokens : List token) : Except String (List CmdNode) :=
  parseAllTokens fuel _tokens

/-- The precedence level the specification gives a binary operator:
`* / %` above `+ -` above the comparisons above `&& ||`. -/
def spec_precedence_level : BinopType → Nat
  | .TIMES | .DIVIDE | .MOD => 4
  | .PLUS | .MINUS => 3
  | .LESS_THAN | .GREATER_THAN | .EQUALS | .NOT_EQUALS
  | .LESS_THAN_OR_EQUALS | .GREATER_THAN_OR_EQUALS => 2
  | .AND | .OR => 1

end Parser

/-! ### The driver

The function `main` of `compiler.cpp` without its flags: the lexer, the
parser, and then the type resolver, the constant-propagation pass and the code
generator. -/

/-- The calls `Lexer::lexAll(source_c)` and `Parser::parse(v)` of `main`; the
parser runs on a budget of `fuel` steps. -/
def front_end (fuel : Nat) (source : String) : Except String (List Parser.CmdNode) := do
  let v ← Lexer.lexAll source
  Parser.parse fuel v

/-- The function `main` on a source text at an optimization level. -/
def compile_source (fuel : Nat) (source : String) (op_level : Nat) :
    Except String Compiler.Assembly := do
  let tree ← front_end fuel source
  Compiler.compile tree op_level

/-- The body lines of the function of an assembly with a given name. -/
def lines_of (name : String) (a : Compiler.Assembly) : List Compiler.Instr :=
  match a.functions.find? (fun f => f.name == name) with
  | some f => f.assembly_code
  | none => []

/-- The offset at which the stack description of the function of an assembly
with a given name holds a temporary, once the function is generated. -/
def offset_of (function_name temporary_name : String) (a : Compiler.Assembly) : Option Int :=
  match a.functions.find? (fun f => f.name == function_name) with
  | some f => Compiler.StackDescription.temporary? f.stack_size.temporaries temporary_name
  | none => none

/-- The branch `-t` of `main`: the front end and then the type resolver, which
gives the annotated tree that is printed. -/
def resolve_source (fuel : Nat) (source : String) : Except String (List Parser.CmdNode) := do
  let tree ← front_end fuel source
  match Typechecker.typecheck tree with
  | .ok (tree, _) => pure tree
  | .error e => throw e.message

/-- The texts of the tokens other than NEWLINE and END_OF_FILE, one after the
other. -/
def token_texts (tokens : List Lexer.token) : String :=
  String.join ((tokens.filter
    (fun t => !(t.type == .NEWLINE || t.type == .END_OF_FILE))).map (·.text))

/-! ## Properties of the resolved types and of scopes -/

namespace Typechecker
open Parser

namespace ResolvedType

mutual
theorem eq_iff : ∀ a b : ResolvedType, a.eq b = true ↔ a = b
  | IntRType, b => by cases b <;> simp [eq, type_name]
  | FloatRType, b => by cases b <;> simp [eq, type_name]
  | BoolRType, b => by cases b <;> simp [eq, type_name]
  | ArrayRType e r, b => by
    cases b with
    | ArrayRType e' r' =>
      simp only [eq, Bool.and_eq_true, decide_eq_true_eq, ArrayRType.injEq]
      rw [eq_iff e e']; exact And.comm
    | _ => simp [eq]
  | TupleRType ts, b => by
    cases b with
    | TupleRType ts' =>
      simp only [eq, TupleRType.injEq]
      by_cases h : ts.length = ts'.length
      · simp only [h, ne_eq, not_true_eq_false, ↓reduceIte]
        exact eq_elements_iff ts ts' h
      · simp only [ne_eq, h, not_false_eq_true, ↓reduceIte, Bool.false_eq_true, false_iff]
        intro hh; exact h (by rw [hh])
    | _ => simp [eq]
theorem eq_elements_iff : ∀ ts ts' : List ResolvedType, ts.length = ts'.length →
    (eq_elements ts ts' = true ↔ ts = ts')
  | [], ts', h => by
    cases ts' with
    | nil => simp [eq_elements]
    | cons _ _ => simp at h
  | t :: ts, [], h => by simp at h
  | t :: ts, t' :: ts', h => by
    have h' : ts.length = ts'.length := by simpa using h
    simp only [eq_elements, List.cons.injEq]
    by_cases ht : t.eq t' = true
    · simp only [ht, Bool.not_true, Bool.false_eq_true, ↓reduceIte]
      rw [eq_elements_iff ts ts' h']
      have := (eq_iff t t').1 ht
      simp [this]
    · have hne : ¬ t = t' := fun hh => ht ((eq_iff t t').2 hh)
      simp [ht, hne]
end

/-- C9: `operator==` on resolved types is reflexive, symmetric and transitive,
and it holds exactly when the two types have the same tag, the same rank and
equal element types (arrays), or the same arity and pairwise equal element
types (tuples); that is, exactly when the two types are the same tree. -/
theorem eq_equivalence :
    (∀ a : ResolvedType, a.eq a = true) ∧
    (∀ a b : ResolvedType, a.eq b = true → b.eq a = true) ∧
    (∀ a b c : ResolvedType, a.eq b = true → b.eq c = true → a.eq c = true) ∧
    (∀ a b : ResolvedType, a.eq b = true ↔ a = b) ∧
    (∀ a b : ResolvedType, a.eq b = true → a.type_name = b.type_name) ∧
    (∀ a b : ResolvedType, a.type_name = b.type_name →
      (a.type_name = .INT ∨ a.type_name = .FLOAT ∨ a.type_name = .BOOL) → a.eq b = true) ∧
    (∀ (e e' : ResolvedType) (r r' : Nat),
      (ArrayRType e r).eq (ArrayRType e' r') = true ↔ r = r' ∧ e.eq e' = true) ∧
    (∀ ts ts' : List ResolvedType,
      (TupleRType ts).eq (TupleRType ts') = true ↔
        ts.length = ts'.length ∧
        ∀ i (h : i < ts.length) (h' : i < ts'.length),
          (ts.get ⟨i, h⟩).eq (ts'.get ⟨i, h'⟩) = true) := by
  refine ⟨fun a => (eq_iff a a).2 rfl, fun a b h => (eq_iff b a).2 ((eq_iff a b).1 h).symm,
    fun a b c h₁ h₂ => (eq_iff a c).2 (((eq_iff a b).1 h₁).trans ((eq_iff b c).1 h₂)),
    eq_iff, fun a b h => by rw [(eq_iff a b).1 h], ?_, ?_, ?_⟩
  · intro a b h ha
    apply (eq_iff a b).2
    cases a <;> cases b <;> simp_all [type_name]
  · intro e e' r r'
    rw [eq_iff, eq_iff]
    constructor
    · intro h; cases h; exact ⟨rfl, rfl⟩
    · rintro ⟨h₁, h₂⟩; rw [h₁, h₂]
  · intro ts ts'
    rw [eq_iff]
    constructor
    · intro h; cases h
      exact ⟨rfl, fun i h _ => (eq_iff _ _).2 rfl⟩
    · rintro ⟨hlen, hall⟩
      congr 1
      apply List.ext_get hlen
      intro i h h'
      exact (eq_iff _ _).1 (hall i h h')

end ResolvedType

theorem SymbolTable.get?_isSome_iff (t : SymbolTable) (n : String) :
    (SymbolTable.get? t n).isSome = true ↔ ∃ info, (n, info) ∈ t := by
  induction t with
  | nil => simp [SymbolTable.get?]
  | cons kv rest ih =>
    obtain ⟨k, v⟩ := kv
    simp only [SymbolTable.get?]
    by_cases h : k = n
    · subst h; simp
    · simp only [h, ↓reduceIte, ih, List.mem_cons, Prod.mk.injEq]
      constructor
      · rintro ⟨info, hi⟩; exact ⟨info, Or.inr hi⟩
      · rintro ⟨info, hi | hi⟩
        · exact absurd hi.1.symm h
        · exact ⟨info, hi⟩

theorem SymbolTable.get?_eq_none_iff (t : SymbolTable) (n : String) :
    SymbolTable.get? t n = none ↔ ¬ ∃ info, (n, info) ∈ t := by
  rw [← SymbolTable.get?_isSome_iff]
  cases SymbolTable.get? t n <;> simp

theorem SymbolTable.get?_append_new (t : SymbolTable) (n : String) (i : NameInfo)
    (h : SymbolTable.get? t n = none) : SymbolTable.get? (t ++ [(n, i)]) n = some i := by
  induction t with
  | nil => simp [SymbolTable.get?]
  | cons kv rest ih =>
    obtain ⟨k, v⟩ := kv
    simp only [SymbolTable.get?] at h
    by_cases hk : k = n
    · simp [hk] at h
    · simp only [hk, ↓reduceIte] at h
      simp [SymbolTable.get?, hk, ih h]

theorem Scope.lookup_isSome_iff (s : Scope) (n : String) :
    (s.lookup n).isSome = true ↔ s.bound n := by
  induction s with
  | root t =>
    simp only [Scope.lookup, Scope.bound, Scope.tables, List.mem_singleton, exists_eq_left]
    exact SymbolTable.get?_isSome_iff t n
  | nested t p ih =>
    simp only [Scope.lookup, Scope.bound, Scope.tables, List.mem_cons, exists_eq_or_imp]
    cases h : SymbolTable.get? t n with
    | some info =>
      have := (SymbolTable.get?_isSome_iff t n).1 (by simp [h])
      simp [this]
    | none =>
      have hn := (SymbolTable.get?_eq_none_iff t n).1 h
      simp only [ih, Scope.bound]
      constructor
      · intro hp; exact Or.inr hp
      · rintro (hh | hh)
        · exact absurd hh hn
        · exact hh

theorem Scope.add_fst_false_iff (s : Scope) (n : String) (i : NameInfo) :
    (s.add n i).1 = false ↔ s.bound n := by
  rw [← Scope.lookup_isSome_iff]
  simp only [Scope.add]
  cases s.lookup n <;> simp

theorem Scope.add_of_bound (s : Scope) (n : String) (i : NameInfo) (h : s.bound n) :
    s.add n i = (false, s) := by
  have := (Scope.lookup_isSome_iff s n).2 h
  simp only [Scope.add]
  cases hl : s.lookup n with
  | none => simp [hl] at this
  | some _ => rfl

theorem Scope.lookup_none_own (s : Scope) (n : String) (h : s.lookup n = none) :
    SymbolTable.get? s.symbol_table n = none := by
  cases s with
  | root t => simpa [Scope.lookup, Scope.symbol_table] using h
  | nested t p =>
    simp only [Scope.lookup] at h
    simp only [Scope.symbol_table]
    cases ht : SymbolTable.get? t n with
    | none => rfl
    | some _ => simp [ht] at h

theorem Scope.add_of_not_bound (s : Scope) (n : String) (i : NameInfo) (h : ¬ s.bound n) :
    (s.add n i).1 = true ∧
    (s.add n i).2.tables = (s.symbol_table ++ [(n, i)]) :: s.tables.tail ∧
    (s.add n i).2.lookup n = some i := by
  have hl : s.lookup n = none := by
    have := (Scope.lookup_isSome_iff s n).not.2 h
    cases hh : s.lookup n with
    | none => rfl
    | some _ => simp [hh] at this
  have hown := Scope.lookup_none_own s n hl
  simp only [Scope.add, hl]
  cases s with
  | root t =>
    simp only [Scope.symbol_table] at hown
    simp [Scope.insert, SymbolTable.insert, hown, Scope.tables, Scope.symbol_table, Scope.lookup,
      SymbolTable.get?_append_new t n i hown]
  | nested t p =>
    simp only [Scope.symbol_table] at hown
    simp [Scope.insert, SymbolTable.insert, hown, Scope.tables, Scope.symbol_table, Scope.lookup,
      SymbolTable.get?_append_new t n i hown]

theorem typecheckCmd_let_bound (s : Scope) (n : String) (e : ExprNode) (h : s.bound n) :
    ∃ err, typecheckCmd (.LetCmdNode (.ArgumentLValue (.VarArgumentNode n)) e) s = .error err := by
  simp only [typecheckCmd]
  cases ht : type_of e s with
  | error err => exact ⟨err, rfl⟩
  | ok r =>
    obtain ⟨rtype, e'⟩ := r
    refine ⟨⟨"Caught argument with already defined name"⟩, ?_⟩
    simp only [bind, Except.bind, Scope.add_lvalue, Scope.add_argument,
      Scope.add_of_bound s n _ h]

theorem typecheckStmt_let_bound (s : Scope) (n : String) (e : ExprNode) (r : ResolvedType)
    (h : s.bound n) :
    ∃ err, typecheckStmt (.LetStmtNode (.ArgumentLValue (.VarArgumentNode n)) e) s r
      = .error err := by
  simp only [typecheckStmt]
  cases ht : type_of e s with
  | error err => exact ⟨err, rfl⟩
  | ok r =>
    obtain ⟨rtype, e'⟩ := r
    refine ⟨⟨"Caught argument with already defined name"⟩, ?_⟩
    simp only [bind, Except.bind, Scope.add_lvalue, Scope.add_argument,
      Scope.add_of_bound s n _ h]

/-- C10: `Scope::add(n, i)` returns false, leaving the scope and its ancestors
unchanged, exactly when `n` is bound in the scope or in an ancestor; otherwise
it appends the binding of `n` to `i` to the scope's own table only, and a
lookup of `n` from the scope then finds `i`.  Consequently a `let` command or
statement that introduces a variable already bound in the current or an
enclosing scope is a type error, as in `let x = 1` followed by `let x = 2`. -/
theorem Scope.add_fails_iff_bound (s : Scope) (n : String) (i : NameInfo) :
    ((s.add n i).1 = false ↔ s.bound n) ∧
    (s.bound n → s.add n i = (false, s)) ∧
    (¬ s.bound n →
      (s.add n i).1 = true ∧
      (s.add n i).2.tables = (s.symbol_table ++ [(n, i)]) :: s.tables.tail ∧
      (s.add n i).2.lookup n = some i) ∧
    (s.bound n → ∀ e : ExprNode,
      (∃ err, typecheckCmd (.LetCmdNode (.ArgumentLValue (.VarArgumentNode n)) e) s
        = .error err) ∧
      (∀ return_type, ∃ err,
        typecheckStmt (.LetStmtNode (.ArgumentLValue (.VarArgumentNode n)) e) s return_type
          = .error err)) ∧
    typecheck
        [ .LetCmdNode (.ArgumentLValue (.VarArgumentNode "x")) (.IntExprNode .fresh 1),
          .LetCmdNode (.ArgumentLValue (.VarArgumentNode "x")) (.IntExprNode .fresh 2) ]
      = .error ⟨"Caught argument with already defined name"⟩ :=
  ⟨Scope.add_fst_false_iff s n i, Scope.add_of_bound s n i, Scope.add_of_not_bound s n i,
    fun h e => ⟨typecheckCmd_let_bound s n e h, fun r => typecheckStmt_let_bound s n e r h⟩,
    rfl⟩

/-- The theorem `Scope.add_fails_iff_bound` at the global scope, where `sqrt`
is bound and `x` is not. -/
theorem Scope.add_fails_iff_bound_witness :
    create_global_scope.bound "sqrt" ∧
    create_global_scope.add "sqrt" (.VariableInfo .IntRType) = (false, create_global_scope) ∧
    ¬ create_global_scope.bound "x" ∧
    (create_global_scope.add "x" (.VariableInfo .IntRType)).2.lookup "x"
      = some (.VariableInfo .IntRType) := by
  have hb : create_global_scope.bound "sqrt" :=
    (Scope.lookup_isSome_iff _ _).1 (by rfl)
  have hn : ¬ create_global_scope.bound "x" := fun h => by
    have := (Scope.lookup_isSome_iff _ _).2 h
    revert this
    decide
  exact ⟨hb, (Scope.add_fails_iff_bound _ "sqrt" _).2.1 hb, hn,
    ((Scope.add_fails_iff_bound _ "x" _).2.2.1 hn).2.2⟩

end Typechecker

namespace Typechecker
namespace ResolvedType

/-! ### The printed form of a resolved type -/

theorem digitChar_digit (m : Nat) (h : m < 10) :
    (Nat.digitChar m).isDigit = true ∧ (Nat.digitChar m).toNat - 48 = m := by
  interval_cases m <;> exact ⟨by decide, by decide⟩

/-- The digits `Nat.toDigitsCore` puts in front of the accumulator: decimal
digit characters whose value is the number. -/
theorem toDigitsCore_spec : ∀ (fuel n : Nat) (ds : List Char), n < fuel →
    ∃ digits : List Char, Nat.toDigitsCore 10 fuel n ds = digits ++ ds ∧
      (∀ c ∈ digits, c.isDigit = true) ∧
      digits.foldl (fun acc c => acc * 10 + (c.toNat - 48)) 0 = n := by
  intro fuel
  induction fuel with
  | zero => intro n ds h; omega
  | succ fuel ih =>
    intro n ds h
    have hd := digitChar_digit (n % 10) (Nat.mod_lt _ (by decide))
    by_cases h0 : n / 10 = 0
    · refine ⟨[Nat.digitChar (n % 10)], ?_, ?_, ?_⟩
      · simp [Nat.toDigitsCore, h0]
      · intro c hc
        simp only [List.mem_singleton] at hc
        rw [hc]; exact hd.1
      · simp only [List.foldl_cons, List.foldl_nil, hd.2]
        omega
    · obtain ⟨digits, heq, hall, hval⟩ :=
        ih (n / 10) (Nat.digitChar (n % 10) :: ds) (by omega)
      refine ⟨digits ++ [Nat.digitChar (n % 10)], ?_, ?_, ?_⟩
      · simp [Nat.toDigitsCore, h0, heq]
      · intro c hc
        rcases List.mem_append.1 hc with hc | hc
        · exact hall c hc
        · simp only [List.mem_singleton] at hc
          rw [hc]; exact hd.1
      · simp only [List.foldl_append, List.foldl_cons, List.foldl_nil, hval, hd.2]
        omega

/-- The characters of `toString n` for a natural number `n`. -/
theorem toString_nat_spec (n : Nat) :
    (∀ c ∈ (ToString.toString n).data, c.isDigit = true) ∧
    (ToString.toString n).data.foldl (fun acc c => acc * 10 + (c.toNat - 48)) 0 = n := by
  obtain ⟨digits, heq, hall, hval⟩ := toDigitsCore_spec (n + 1) n [] (by omega)
  have hdata : (ToString.toString n).data = digits := by
    show (Nat.repr n).data = digits
    simp [Nat.repr, Nat.toDigits, heq, List.asString]
  rw [hdata]
  exact ⟨hall, hval⟩

/-- The digits in front of a text that is empty or starts with a closing
parenthesis are the longest run of digits at its start. -/
theorem takeWhile_digits (digits rest : List Char) (hall : ∀ c ∈ digits, c.isDigit = true)
    (hrest : rest = [] ∨ ∃ tail, rest = ')' :: tail) :
    (digits ++ rest).takeWhile Char.isDigit = digits := by
  induction digits with
  | nil =>
    rcases hrest with rfl | ⟨tail, rfl⟩
    · rfl
    · simp [List.takeWhile]
  | cons c digits ih =>
    have hc := hall c (List.mem_cons_self _ _)
    simp only [List.cons_append, List.takeWhile_cons, hc, if_true]
    rw [ih (fun x hx => hall x (List.mem_cons_of_mem _ hx))]

/-- Two printed ranks, each followed by the end of the text or by a closing
parenthesis, are equal only for equal ranks. -/
theorem toString_nat_inj (n m : Nat) (x y : List Char)
    (hx : x = [] ∨ ∃ tail, x = ')' :: tail) (hy : y = [] ∨ ∃ tail, y = ')' :: tail)
    (h : (ToString.toString n).data ++ x = (ToString.toString m).data ++ y) :
    n = m ∧ x = y := by
  have hn := toString_nat_spec n
  have hm := toString_nat_spec m
  have hdigits : (ToString.toString n).data = (ToString.toString m).data := by
    rw [← takeWhile_digits _ x hn.1 hx, ← takeWhile_digits _ y hm.1 hy, h]
  refine ⟨?_, ?_⟩
  · rw [← hn.2, ← hm.2, hdigits]
  · rw [hdigits] at h
    exact List.append_cancel_left h

theorem toString_Int_data : (toString IntRType).data = ['I', 'n', 't', 'T', 'y', 'p', 'e'] :=
  rfl

theorem toString_Float_data :
    (toString FloatRType).data = ['F', 'l', 'o', 'a', 't', 'T', 'y', 'p', 'e'] := rfl

theorem toString_Bool_data :
    (toString BoolRType).data = ['B', 'o', 'o', 'l', 'T', 'y', 'p', 'e'] := rfl

theorem toString_Array_data (element_type : ResolvedType) (rank : Nat) :
    (toString (ArrayRType element_type rank)).data =
      ['A', 'r', 'r', 'a', 'y', 'T', 'y', 'p', 'e', ' ', '('] ++
        ((toString element_type).data ++ (')' :: ' ' :: (ToString.toString rank).data)) := by
  simp only [toString, typenameToString, String.data_append]
  simp

theorem toString_Tuple_data (element_types : List ResolvedType) :
    (toString (TupleRType element_types)).data =
      ['T', 'u', 'p', 'l', 'e', 'T', 'y', 'p', 'e'] ++
        (toString_elements element_types).data := by
  simp only [toString, typenameToString, String.data_append]

theorem toString_elements_cons_data (element_type : ResolvedType) (rest : List ResolvedType) :
    (toString_elements (element_type :: rest)).data =
      ' ' :: '(' :: ((toString element_type).data ++ (')' :: (toString_elements rest).data)) := by
  simp only [toString_elements, String.data_append]
  simp

mutual
/-- The printed form of a type followed by the end of the text or by a closing
parenthesis determines the type and what follows. -/
theorem toString_append_inj : ∀ (a b : ResolvedType) (x y : List Char),
    (x = [] ∨ ∃ tail, x = ')' :: tail) → (y = [] ∨ ∃ tail, y = ')' :: tail) →
    (toString a).data ++ x = (toString b).data ++ y → a = b ∧ x = y
  | IntRType, b, x, y, _, _, h => by
    cases b with
    | IntRType => exact ⟨rfl, List.append_cancel_left h⟩
    | FloatRType => rw [toString_Int_data, toString_Float_data] at h; simp at h
    | BoolRType => rw [toString_Int_data, toString_Bool_data] at h; simp at h
    | ArrayRType e r => rw [toString_Int_data, toString_Array_data] at h; simp at h
    | TupleRType es => rw [toString_Int_data, toString_Tuple_data] at h; simp at h
  | FloatRType, b, x, y, _, _, h => by
    cases b with
    | IntRType => rw [toString_Int_data, toString_Float_data] at h; simp at h
    | FloatRType => exact ⟨rfl, List.append_cancel_left h⟩
    | BoolRType => rw [toString_Float_data, toString_Bool_data] at h; simp at h
    | ArrayRType e r => rw [toString_Float_data, toString_Array_data] at h; simp at h
    | TupleRType es => rw [toString_Float_data, toString_Tuple_data] at h; simp at h
  | BoolRType, b, x, y, _, _, h => by
    cases b with
    | IntRType => rw [toString_Int_data, toString_Bool_data] at h; simp at h
    | FloatRType => rw [toString_Float_data, toString_Bool_data] at h; simp at h
    | BoolRType => exact ⟨rfl, List.append_cancel_left h⟩
    | ArrayRType e r => rw [toString_Bool_data, toString_Array_data] at h; simp at h
    | TupleRType es => rw [toString_Bool_data, toString_Tuple_data] at h; simp at h
  | ArrayRType element_type rank, b, x, y, hx, hy, h => by
    cases b with
    | IntRType => rw [toString_Int_data, toString_Array_data] at h; simp at h
    | FloatRType => rw [toString_Float_data, toString_Array_data] at h; simp at h
    | BoolRType => rw [toString_Bool_data, toString_Array_data] at h; simp at h
    | TupleRType es => rw [toString_Tuple_data, toString_Array_data] at h; simp at h
    | ArrayRType e r =>
      rw [toString_Array_data, toString_Array_data] at h
      simp only [List.append_assoc, List.cons_append, List.nil_append, List.cons.injEq,
        true_and] at h
      obtain ⟨he, hrest⟩ := toString_append_inj element_type e _ _
        (Or.inr ⟨_, rfl⟩) (Or.inr ⟨_, rfl⟩) h
      simp only [List.cons_append, List.cons.injEq, true_and] at hrest
      obtain ⟨hr, hxy⟩ := toString_nat_inj rank r x y hx hy hrest
      exact ⟨by rw [he, hr], hxy⟩
  | TupleRType element_types, b, x, y, hx, hy, h => by
    cases b with
    | IntRType => rw [toString_Int_data, toString_Tuple_data] at h; simp at h
    | FloatRType => rw [toString_Float_data, toString_Tuple_data] at h; simp at h
    | BoolRType => rw [toString_Bool_data, toString_Tuple_data] at h; simp at h
    | ArrayRType e r => rw [toString_Tuple_data, toString_Array_data] at h; simp at h
    | TupleRType es =>
      rw [toString_Tuple_data, toString_Tuple_data] at h
      simp only [List.append_assoc, List.cons_append, List.nil_append, List.cons.injEq,
        true_and] at h
      obtain ⟨hes, hxy⟩ := toString_elements_append_inj element_types es x y hx hy h
      exact ⟨by rw [hes], hxy⟩
/-- The printed elements of a tuple followed by the end of the text or by a
closing parenthesis determine the element types and what follows. -/
theorem toString_elements_append_inj : ∀ (as bs : List ResolvedType) (x y : List Char),
    (x = [] ∨ ∃ tail, x = ')' :: tail) → (y = [] ∨ ∃ tail, y = ')' :: tail) →
    (toString_elements as).data ++ x = (toString_elements bs).data ++ y → as = bs ∧ x = y
  | [], bs, x, y, hx, _, h => by
    cases bs with
    | nil => exact ⟨rfl, by simpa [toString_elements] using h⟩
    | cons b bs =>
      rw [toString_elements_cons_data] at h
      simp only [toString_elements, List.nil_append, List.cons_append] at h
      rcases hx with rfl | ⟨tail, rfl⟩
      · simp at h
      · simp at h
  | a :: as, bs, x, y, hx, hy, h => by
    cases bs with
    | nil =>
      rw [toString_elements_cons_data] at h
      simp only [toString_elements, List.nil_append, List.cons_append] at h
      rcases hy with rfl | ⟨tail, rfl⟩
      · simp at h
      · simp at h
    | cons b bs =>
      rw [toString_elements_cons_data, toString_elements_cons_data] at h
      simp only [List.cons_append, List.cons.injEq, true_and, List.append_assoc] at h
      obtain ⟨hab, hrest⟩ := toString_append_inj a b _ _
        (Or.inr ⟨_, rfl⟩) (Or.inr ⟨_, rfl⟩) h
      simp only [List.cons.injEq, true_and] at hrest
      obtain ⟨hrec, hxy⟩ := toString_elements_append_inj as bs x y hx hy hrest
      exact ⟨by rw [hab, hrec], hxy⟩
end

/-- C36: `ResolvedType::toString` is injective: two resolved types, arrays of
any rank and tuples of any arity nested in any way, with the same printed form
are the same type. -/
theorem toString_injective : Function.Injective toString := by
  intro a b h
  have h' : (toString a).data ++ [] = (toString b).data ++ [] := by rw [h]
  exact (toString_append_inj a b [] [] (Or.inl rfl) (Or.inl rfl) h').1

end ResolvedType
end Typechecker

/-! ## Properties of the type resolver -/

namespace Typechecker
open Parser

theorem ResolvedType.type_name_INT_iff (T : ResolvedType) :
    T.type_name = .INT ↔ T = .IntRType := by
  cases T <;> simp [ResolvedType.type_name]

theorem ResolvedType.type_name_FLOAT_iff (T : ResolvedType) :
    T.type_name = .FLOAT ↔ T = .FloatRType := by
  cases T <;> simp [ResolvedType.type_name]

theorem ResolvedType.type_name_BOOL_iff (T : ResolvedType) :
    T.type_name = .BOOL ↔ T = .BoolRType := by
  cases T <;> simp [ResolvedType.type_name]

theorem ResolvedType.ne_eq_false_iff (a b : ResolvedType) : a.ne b = false ↔ a = b := by
  simp [ResolvedType.ne, ResolvedType.eq_iff]

theorem ResolvedType.ne_eq_true_iff (a b : ResolvedType) : a.ne b = true ↔ a ≠ b := by
  rw [ne_eq, ← ResolvedType.eq_iff]
  simp [ResolvedType.ne]

/-- The arithmetic case of `type_of` once both operands have been typed. -/
theorem type_of_arithmetic_run (s : Slots) (lhs rhs lhs' rhs' : ExprNode) (operation : BinopType)
    (scope : Scope) (L R : ResolvedType)
    (hop : operation = .PLUS ∨ operation = .MINUS ∨ operation = .TIMES ∨
      operation = .DIVIDE ∨ operation = .MOD)
    (hl : type_of lhs scope = .ok (L, lhs')) (hr : type_of rhs scope = .ok (R, rhs')) :
    type_of (.BinopExprNode s lhs operation rhs) scope =
      if L.ne R then .error ⟨"Types do not match for arithmetic operation."⟩
      else if L.type_name = .INT then
        .ok (.IntRType,
          .BinopExprNode s (lhs'.set_resolvedType L) operation (rhs'.set_resolvedType R))
      else if L.type_name = .FLOAT then
        .ok (.FloatRType,
          .BinopExprNode s (lhs'.set_resolvedType L) operation (rhs'.set_resolvedType R))
      else .error ⟨"No supported arithmetic operation. Expects two ints or floats."⟩ := by
  rcases hop with h | h | h | h | h <;> subst h <;>
    simp only [type_of, hl, hr, bind, Except.bind, pure, Except.pure, throw, throwThe,
      MonadExceptOf.throw]

/-- C11: for an arithmetic operator, once the operands have types `L` and `R`,
`type_of` succeeds exactly when `L = R` and `L` is Int or Float, the result
type is then `L` (and the operands are annotated with their types); in every
other case it fails with a type error.  So `1 + true` and the sum of two equal
tuples are type errors. -/
theorem type_of_arithmetic (s : Slots) (lhs rhs lhs' rhs' : ExprNode) (operation : BinopType)
    (scope : Scope) (L R : ResolvedType)
    (hop : operation = .PLUS ∨ operation = .MINUS ∨ operation = .TIMES ∨
      operation = .DIVIDE ∨ operation = .MOD)
    (hl : type_of lhs scope = .ok (L, lhs')) (hr : type_of rhs scope = .ok (R, rhs')) :
    ((∃ T e, type_of (.BinopExprNode s lhs operation rhs) scope = .ok (T, e)) ↔
      (L = R ∧ (L = .IntRType ∨ L = .FloatRType))) ∧
    (L = R ∧ (L = .IntRType ∨ L = .FloatRType) →
      type_of (.BinopExprNode s lhs operation rhs) scope =
        .ok (L, .BinopExprNode s (lhs'.set_resolvedType L) operation
          (rhs'.set_resolvedType R))) ∧
    (¬ (L = R ∧ (L = .IntRType ∨ L = .FloatRType)) →
      ∃ err, type_of (.BinopExprNode s lhs operation rhs) scope = .error err) := by
  have hrun := type_of_arithmetic_run s lhs rhs lhs' rhs' operation scope L R hop hl hr
  have hok : L = R ∧ (L = .IntRType ∨ L = .FloatRType) →
      type_of (.BinopExprNode s lhs operation rhs) scope =
        .ok (L, .BinopExprNode s (lhs'.set_resolvedType L) operation
          (rhs'.set_resolvedType R)) := by
    rintro ⟨hLR, hL | hL⟩ <;> subst hLR <;> subst hL <;> rw [hrun] <;>
      simp [ResolvedType.ne, ResolvedType.eq, ResolvedType.type_name]
  have herr : ¬ (L = R ∧ (L = .IntRType ∨ L = .FloatRType)) →
      ∃ err, type_of (.BinopExprNode s lhs operation rhs) scope = .error err := by
    intro hn
    rw [hrun]
    by_cases hne : L.ne R = true
    · exact ⟨_, by rw [if_pos hne]⟩
    · have hLR : L = R := by
        by_contra h
        exact hne ((ResolvedType.ne_eq_true_iff L R).2 h)
      have hI : ¬ L.type_name = .INT := fun h =>
        hn ⟨hLR, Or.inl ((ResolvedType.type_name_INT_iff L).1 h)⟩
      have hF : ¬ L.type_name = .FLOAT := fun h =>
        hn ⟨hLR, Or.inr ((ResolvedType.type_name_FLOAT_iff L).1 h)⟩
      exact ⟨_, by rw [if_neg hne, if_neg hI, if_neg hF]⟩
  refine ⟨⟨?_, fun h => ⟨_, _, hok h⟩⟩, hok, herr⟩
  rintro ⟨T, e, h⟩
  by_contra hn
  obtain ⟨err, he⟩ := herr hn
  rw [he] at h
  cases h

/-- The theorem `type_of_arithmetic` at `1 + 2`, `1 + true` and `{1} + {1}`
in the global scope. -/
theorem type_of_arithmetic_witness :
    type_of (.BinopExprNode .fresh (.IntExprNode .fresh 1) .PLUS (.IntExprNode .fresh 2))
        create_global_scope =
      .ok (.IntRType, .BinopExprNode .fresh ((ExprNode.IntExprNode .fresh 1).set_resolvedType
        .IntRType) .PLUS ((ExprNode.IntExprNode .fresh 2).set_resolvedType .IntRType)) ∧
    (∃ err, type_of (.BinopExprNode .fresh (.IntExprNode .fresh 1) .PLUS (.TrueExprNode .fresh))
        create_global_scope = .error err) ∧
    (∃ err, type_of (.BinopExprNode .fresh
          (.TupleLiteralExprNode .fresh [.IntExprNode .fresh 1]) .PLUS
          (.TupleLiteralExprNode .fresh [.IntExprNode .fresh 1]))
        create_global_scope = .error err) :=
  ⟨(type_of_arithmetic .fresh (.IntExprNode .fresh 1) (.IntExprNode .fresh 2)
      (.IntExprNode .fresh 1) (.IntExprNode .fresh 2) .PLUS create_global_scope
      .IntRType .IntRType (Or.inl rfl) rfl rfl).2.1 ⟨rfl, Or.inl rfl⟩,
    (type_of_arithmetic .fresh (.IntExprNode .fresh 1) (.TrueExprNode .fresh)
      (.IntExprNode .fresh 1) (.TrueExprNode .fresh) .PLUS create_global_scope
      .IntRType .BoolRType (Or.inl rfl) rfl rfl).2.2 (by simp),
    (type_of_arithmetic .fresh (.TupleLiteralExprNode .fresh [.IntExprNode .fresh 1])
      (.TupleLiteralExprNode .fresh [.IntExprNode .fresh 1])
      (.TupleLiteralExprNode .fresh [(ExprNode.IntExprNode .fresh 1).set_resolvedType .IntRType])
      (.TupleLiteralExprNode .fresh [(ExprNode.IntExprNode .fresh 1).set_resolvedType .IntRType])
      .PLUS create_global_scope
      (.TupleRType [.IntRType]) (.TupleRType [.IntRType])
      (Or.inl rfl) rfl rfl).2.2 (by simp)⟩

/-- The argument loop of the call case succeeds exactly when every argument
has a type and that type is the expected one. -/
theorem type_of_arguments_isOk_iff (scope : Scope) :
    ∀ (expected : List ResolvedType) (arguments : List ExprNode),
      expected.length = arguments.length →
      ((∃ r, type_of_arguments expected arguments scope = .ok r) ↔
        List.Forall₂ (fun p a => ∃ T e, type_of a scope = .ok (T, e) ∧ p = T)
          expected arguments)
  | [], [], _ => by simp [type_of_arguments, pure, Except.pure]
  | [], _ :: _, h => by simp at h
  | _ :: _, [], h => by simp at h
  | p :: ps, a :: as, h => by
    have ih := type_of_arguments_isOk_iff scope ps as (by simpa using h)
    rw [List.forall₂_cons, ← ih]
    cases ha : type_of a scope with
    | error err =>
      simp [type_of_arguments, ha, bind, Except.bind]
    | ok r =>
      obtain ⟨T, e⟩ := r
      by_cases hne : p.ne T = true
      · have : p ≠ T := (ResolvedType.ne_eq_true_iff p T).1 hne
        simp [type_of_arguments, ha, bind, Except.bind, hne, this, throw, throwThe,
          MonadExceptOf.throw]
      · have hpT : p = T := by
          by_contra h'
          exact hne ((ResolvedType.ne_eq_true_iff p T).2 h')
        subst hpT
        have hne' : p.ne p = false := by simpa using hne
        cases hrest : type_of_arguments ps as scope with
        | error err =>
          simp [type_of_arguments, ha, bind, Except.bind, hne', hrest]
        | ok rest =>
          simp [type_of_arguments, ha, bind, Except.bind, hne', hrest, pure, Except.pure]

/-- C12: `type_of` succeeds on the call `f(a1, ..., an)` exactly when `f`
resolves through the scope chain to a function info `FuncInfo ret ps` whose
parameter list has the length of the argument list and every argument has a
type, equal to the corresponding parameter type; the result type is then
`ret`.  An unbound name, a name bound to a variable or to a type, a wrong
argument count and a wrong argument type are type errors. -/
theorem type_of_call (s : Slots) (function_name : String) (arguments : List ExprNode)
    (scope : Scope) :
    ((∃ T e, type_of (.CallExprNode s function_name arguments) scope = .ok (T, e)) ↔
      ∃ ret ps, scope.lookup function_name = some (.FuncInfo ret ps) ∧
        ps.length = arguments.length ∧
        List.Forall₂ (fun p a => ∃ T e, type_of a scope = .ok (T, e) ∧ p = T) ps arguments) ∧
    (∀ T e, type_of (.CallExprNode s function_name arguments) scope = .ok (T, e) →
      ∃ ps, scope.lookup function_name = some (.FuncInfo T ps)) ∧
    (¬ scope.bound function_name →
      type_of (.CallExprNode s function_name arguments) scope =
        .error ⟨"Undefined reference to function"⟩) ∧
    (∀ rtype, (scope.lookup function_name = some (.VariableInfo rtype) ∨
        scope.lookup function_name = some (.TypeInfo rtype)) →
      type_of (.CallExprNode s function_name arguments) scope =
        .error ⟨"Referenced non-function as a function."⟩) ∧
    (∀ ret ps, scope.lookup function_name = some (.FuncInfo ret ps) →
      ps.length ≠ arguments.length →
      type_of (.CallExprNode s function_name arguments) scope =
        .error ⟨"Function called with the wrong number of arguments."⟩) := by
  have hcases : ∀ ret ps, scope.lookup function_name = some (.FuncInfo ret ps) →
      ps.length = arguments.length →
      type_of (.CallExprNode s function_name arguments) scope =
        (type_of_arguments ps arguments scope).map
          (fun typed => (ret, ExprNode.CallExprNode s function_name typed)) := by
    intro ret ps hl hlen
    simp only [type_of, hl, hlen, ne_eq, not_true_eq_false, ↓reduceIte]
    cases type_of_arguments ps arguments scope <;> rfl
  refine ⟨⟨?_, ?_⟩, ?_, ?_, ?_, ?_⟩
  · rintro ⟨T, e, h⟩
    cases hl : scope.lookup function_name with
    | none => simp [type_of, hl, throw, throwThe, MonadExceptOf.throw] at h
    | some info =>
      cases info with
      | VariableInfo r => simp [type_of, hl, throw, throwThe, MonadExceptOf.throw] at h
      | TypeInfo r => simp [type_of, hl, throw, throwThe, MonadExceptOf.throw] at h
      | FuncInfo ret ps =>
        by_cases hlen : ps.length = arguments.length
        · refine ⟨ret, ps, rfl, hlen, ?_⟩
          rw [hcases ret ps hl hlen] at h
          apply (type_of_arguments_isOk_iff scope ps arguments hlen).1
          cases hr : type_of_arguments ps arguments scope with
          | error err => rw [hr] at h; cases h
          | ok r => exact ⟨r, rfl⟩
        · simp [type_of, hl, hlen, throw, throwThe, MonadExceptOf.throw] at h
  · rintro ⟨ret, ps, hl, hlen, hall⟩
    obtain ⟨r, hr⟩ := (type_of_arguments_isOk_iff scope ps arguments hlen).2 hall
    exact ⟨ret, _, by rw [hcases ret ps hl hlen, hr]; rfl⟩
  · intro T e h
    cases hl : scope.lookup function_name with
    | none => simp [type_of, hl, throw, throwThe, MonadExceptOf.throw] at h
    | some info =>
      cases info with
      | VariableInfo r => simp [type_of, hl, throw, throwThe, MonadExceptOf.throw] at h
      | TypeInfo r => simp [type_of, hl, throw, throwThe, MonadExceptOf.throw] at h
      | FuncInfo ret ps =>
        by_cases hlen : ps.length = arguments.length
        · rw [hcases ret ps hl hlen] at h
          cases hr : type_of_arguments ps arguments scope with
          | error err => rw [hr] at h; cases h
          | ok r =>
            rw [hr] at h
            simp only [Except.map] at h
            cases h
            exact ⟨ps, rfl⟩
        · simp [type_of, hl, hlen, throw, throwThe, MonadExceptOf.throw] at h
  · intro hb
    have hl : scope.lookup function_name = none := by
      cases hl : scope.lookup function_name with
      | none => rfl
      | some info =>
        exact absurd ((Scope.lookup_isSome_iff scope function_name).1 (by simp [hl])) hb
    simp [type_of, hl, throw, throwThe, MonadExceptOf.throw]
  · rintro rtype (hl | hl) <;> simp [type_of, hl, throw, throwThe, MonadExceptOf.throw]
  · intro ret ps hl hlen
    simp [type_of, hl, hlen, throw, throwThe, MonadExceptOf.throw]

theorem Scope.extend_nil (s : Scope) : s.extend [] = s := by
  cases s <;> simp [Scope.extend]

theorem Scope.extend_extend (s : Scope) (a b : SymbolTable) :
    (s.extend a).extend b = s.extend (a ++ b) := by
  cases s <;> simp [Scope.extend]

theorem Scope.symbol_table_extend (s : Scope) (a : SymbolTable) :
    (s.extend a).symbol_table = s.symbol_table ++ a := by
  cases s <;> rfl

theorem Scope.tables_extend (s : Scope) (a : SymbolTable) :
    (s.extend a).tables = (s.symbol_table ++ a) :: s.tables.tail := by
  cases s <;> rfl

theorem Scope.bound_extend (s : Scope) (a : SymbolTable) (n : String) :
    (s.extend a).bound n ↔ s.bound n ∨ n ∈ a.map Prod.fst := by
  cases s with
  | root t =>
    simp only [Scope.bound, Scope.extend, Scope.tables, List.mem_singleton, exists_eq_left,
      List.mem_append, List.mem_map, Prod.exists, exists_and_right, exists_eq_right]
    constructor
    · rintro ⟨i, h | h⟩
      · exact Or.inl ⟨i, h⟩
      · exact Or.inr ⟨i, h⟩
    · rintro (⟨i, h⟩ | ⟨i, h⟩)
      · exact ⟨i, Or.inl h⟩
      · exact ⟨i, Or.inr h⟩
  | nested t p =>
    simp only [Scope.bound, Scope.extend, Scope.tables, List.mem_cons, exists_eq_or_imp,
      List.mem_append, List.mem_map, Prod.exists, exists_and_right, exists_eq_right]
    constructor
    · rintro (⟨i, h | h⟩ | h)
      · exact Or.inl (Or.inl ⟨i, h⟩)
      · exact Or.inr ⟨i, h⟩
      · exact Or.inl (Or.inr h)
    · rintro ((⟨i, h⟩ | h) | ⟨i, h⟩)
      · exact Or.inl ⟨i, Or.inl h⟩
      · exact Or.inr h
      · exact Or.inl ⟨i, Or.inr h⟩

/-- Adding an unbound name appends one entry to the scope's own table. -/
theorem Scope.add_eq_extend (s : Scope) (n : String) (i : NameInfo) (h : ¬ s.bound n) :
    s.add n i = (true, s.extend [(n, i)]) := by
  have hl : s.lookup n = none := by
    have := (Scope.lookup_isSome_iff s n).not.2 h
    cases hh : s.lookup n with
    | none => rfl
    | some _ => simp [hh] at this
  have hown := Scope.lookup_none_own s n hl
  simp only [Scope.add, hl]
  cases s with
  | root t =>
    simp only [Scope.symbol_table] at hown
    simp [Scope.insert, SymbolTable.insert, hown, Scope.extend]
  | nested t p =>
    simp only [Scope.symbol_table] at hown
    simp [Scope.insert, SymbolTable.insert, hown, Scope.extend]

/-- The dimension loop of `add_argument` succeeds exactly when the names are
pairwise distinct and unbound, and then appends one integer variable a name. -/
theorem Scope.add_dimensions_spec :
    ∀ (dims : List String) (s : Scope),
      (∀ s', Scope.add_dimensions dims s = .ok s' →
        s' = s.extend (dims.map (fun d => (d, NameInfo.VariableInfo .IntRType)))) ∧
      ((∃ s', Scope.add_dimensions dims s = .ok s') ↔
        dims.Nodup ∧ ∀ d ∈ dims, ¬ s.bound d)
  | [], s => by
    simp [Scope.add_dimensions, pure, Except.pure, Scope.extend_nil]
  | d :: rest, s => by
    by_cases hb : s.bound d
    · have hadd := Scope.add_of_bound s d (.VariableInfo .IntRType) hb
      constructor
      · intro s' h
        simp [Scope.add_dimensions, hadd, throw, throwThe, MonadExceptOf.throw] at h
      · constructor
        · rintro ⟨s', h⟩
          simp [Scope.add_dimensions, hadd, throw, throwThe, MonadExceptOf.throw] at h
        · rintro ⟨_, h⟩
          exact absurd hb (h d (List.mem_cons_self _ _))
    · have hadd := Scope.add_eq_extend s d (.VariableInfo .IntRType) hb
      obtain ⟨ih1, ih2⟩ := Scope.add_dimensions_spec rest
        (s.extend [(d, .VariableInfo .IntRType)])
      have hrun : Scope.add_dimensions (d :: rest) s =
          Scope.add_dimensions rest (s.extend [(d, .VariableInfo .IntRType)]) := by
        simp [Scope.add_dimensions, hadd]
      constructor
      · intro s' h
        rw [hrun] at h
        rw [ih1 s' h, Scope.extend_extend]
        rfl
      · rw [hrun, ih2, List.nodup_cons]
        simp only [Scope.bound_extend, List.map_cons, List.map_nil, List.mem_singleton,
          not_or, List.mem_cons, forall_eq_or_imp, List.not_mem_nil, or_false]
        constructor
        · rintro ⟨hnd, hall⟩
          exact ⟨⟨fun hmem => (hall d hmem).2 rfl, hnd⟩, hb, fun x hx => (hall x hx).1⟩
        · rintro ⟨⟨hnot, hnd⟩, _, hall⟩
          exact ⟨hnd, fun x hx => ⟨hall x hx, fun hxd => hnot (hxd ▸ hx)⟩⟩

/-- C17: `Scope::add_argument` on the array argument `a[d1, ..., dn]` and the
type `T` succeeds exactly when `T` is an array type of rank `n`, the names
`a, d1, ..., dn` are pairwise distinct and none of them is bound in the scope
or an ancestor.  On success the scope's own table gains exactly the `n + 1`
entries `a : Variable T` and `di : Variable Int`, in that order, and its
ancestors are unchanged. -/
theorem Scope.add_argument_array (s : Scope) (array_argument_name : String)
    (array_dimensions_names : List String) (rtype : ResolvedType) :
    ((∃ s', s.add_argument (.ArrayArgumentNode array_argument_name array_dimensions_names)
        rtype = .ok s') ↔
      (∃ element_type, rtype = .ArrayRType element_type array_dimensions_names.length) ∧
      (array_argument_name :: array_dimensions_names).Nodup ∧
      ∀ n ∈ array_argument_name :: array_dimensions_names, ¬ s.bound n) ∧
    (∀ s', s.add_argument (.ArrayArgumentNode array_argument_name array_dimensions_names)
        rtype = .ok s' →
      s' = s.extend ((array_argument_name, .VariableInfo rtype) ::
        array_dimensions_names.map (fun d => (d, NameInfo.VariableInfo .IntRType))) ∧
      s'.symbol_table = s.symbol_table ++ ((array_argument_name, .VariableInfo rtype) ::
        array_dimensions_names.map (fun d => (d, NameInfo.VariableInfo .IntRType))) ∧
      s'.tables.tail = s.tables.tail ∧
      s'.symbol_table.length = s.symbol_table.length + (array_dimensions_names.length + 1)) := by
  have key : ∀ element_type rank, rtype = .ArrayRType element_type rank →
      array_dimensions_names.length = rank → ¬ s.bound array_argument_name →
      s.add_argument (.ArrayArgumentNode array_argument_name array_dimensions_names) rtype =
        Scope.add_dimensions array_dimensions_names
          (s.extend [(array_argument_name, .VariableInfo rtype)]) := by
    intro element_type rank hT hlen hb
    subst hT
    simp [Scope.add_argument, hlen, Scope.add_eq_extend s array_argument_name _ hb]
  have hfail : ∀ s', s.add_argument
      (.ArrayArgumentNode array_argument_name array_dimensions_names) rtype = .ok s' →
      (∃ element_type, rtype = .ArrayRType element_type array_dimensions_names.length) ∧
        ¬ s.bound array_argument_name := by
    intro s' h
    cases rtype with
    | ArrayRType element_type rank =>
      by_cases hlen : array_dimensions_names.length = rank
      · by_cases hb : s.bound array_argument_name
        · simp [Scope.add_argument, hlen, Scope.add_of_bound s array_argument_name _ hb,
            throw, throwThe, MonadExceptOf.throw] at h
        · exact ⟨⟨element_type, by rw [hlen]⟩, hb⟩
      · simp [Scope.add_argument, hlen, throw, throwThe, MonadExceptOf.throw] at h
    | _ => simp [Scope.add_argument, throw, throwThe, MonadExceptOf.throw] at h
  obtain ⟨hd1, hd2⟩ := Scope.add_dimensions_spec array_dimensions_names
    (s.extend [(array_argument_name, .VariableInfo rtype)])
  constructor
  · constructor
    · rintro ⟨s', h⟩
      obtain ⟨⟨element_type, hT⟩, hb⟩ := hfail s' h
      rw [key element_type _ hT rfl hb] at h
      obtain ⟨hnd, hall⟩ := hd2.1 ⟨s', h⟩
      refine ⟨⟨element_type, hT⟩, ?_, ?_⟩
      · rw [List.nodup_cons]
        refine ⟨fun hmem => ?_, hnd⟩
        exact hall _ hmem ((Scope.bound_extend _ _ _).2 (Or.inr (by simp)))
      · intro n hn
        rcases List.mem_cons.1 hn with rfl | hn
        · exact hb
        · exact fun hbn => hall n hn ((Scope.bound_extend _ _ _).2 (Or.inl hbn))
    · rintro ⟨⟨element_type, hT⟩, hnd, hall⟩
      have hb := hall array_argument_name (List.mem_cons_self _ _)
      rw [key element_type _ hT rfl hb]
      rw [List.nodup_cons] at hnd
      apply hd2.2
      refine ⟨hnd.2, fun d hd hbd => ?_⟩
      rcases (Scope.bound_extend _ _ _).1 hbd with h | h
      · exact hall d (List.mem_cons_of_mem _ hd) h
      · simp only [List.map_cons, List.map_nil, List.mem_singleton] at h
        exact hnd.1 (h ▸ hd)
  · intro s' h
    obtain ⟨⟨element_type, hT⟩, hb⟩ := hfail s' h
    rw [key element_type _ hT rfl hb] at h
    have hs' := hd1 s' h
    rw [Scope.extend_extend] at hs'
    refine ⟨hs', ?_, ?_, ?_⟩
    · rw [hs', Scope.symbol_table_extend]; rfl
    · rw [hs', Scope.tables_extend]; rfl
    · rw [hs', Scope.symbol_table_extend]; simp

theorem Scope.bound_createNestedScope (s : Scope) (n : String) :
    s.createNestedScope.bound n ↔ s.bound n := by
  simp [Scope.bound, Scope.createNestedScope, Scope.tables]

/-- The bound loop of a comprehension succeeds exactly when every bound has
type Int in the enclosing scope and the index names are pairwise distinct and
unbound in the child scope; it appends one integer variable an index. -/
theorem type_of_loop_bounds_spec (scope : Scope) :
    ∀ (bounds : List (String × ExprNode)) (child : Scope),
      (∀ typed child', type_of_loop_bounds bounds scope child = .ok (typed, child') →
        child' = child.extend
          (bounds.map (fun b => (b.1, NameInfo.VariableInfo .IntRType)))) ∧
      ((∃ r, type_of_loop_bounds bounds scope child = .ok r) ↔
        (∀ b ∈ bounds, ∃ e, type_of b.2 scope = .ok (.IntRType, e)) ∧
        (bounds.map Prod.fst).Nodup ∧ ∀ x ∈ bounds.map Prod.fst, ¬ child.bound x)
  | [], child => by
    simp [type_of_loop_bounds, pure, Except.pure, Scope.extend_nil]
  | (x, b) :: rest, child => by
    cases hb : type_of b scope with
    | error err =>
      constructor
      · intro typed child' h
        simp [type_of_loop_bounds, hb, bind, Except.bind] at h
      · constructor
        · rintro ⟨r, h⟩
          simp [type_of_loop_bounds, hb, bind, Except.bind] at h
        · rintro ⟨h, _⟩
          obtain ⟨e, he⟩ := h (x, b) (List.mem_cons_self _ _)
          rw [hb] at he; cases he
    | ok r =>
      obtain ⟨T, b'⟩ := r
      by_cases hT : T.type_name = .INT
      · have hT' := (ResolvedType.type_name_INT_iff T).1 hT
        subst hT'
        by_cases hbound : child.bound x
        · have hadd := Scope.add_of_bound child x (.VariableInfo .IntRType) hbound
          constructor
          · intro typed child' h
            simp [type_of_loop_bounds, hb, bind, Except.bind, ResolvedType.type_name, hadd,
              throw, throwThe, MonadExceptOf.throw] at h
          · constructor
            · rintro ⟨r, h⟩
              simp [type_of_loop_bounds, hb, bind, Except.bind, ResolvedType.type_name, hadd,
                throw, throwThe, MonadExceptOf.throw] at h
            · rintro ⟨_, _, h⟩
              exact absurd hbound (h x (by simp))
        · have hadd := Scope.add_eq_extend child x (.VariableInfo .IntRType) hbound
          obtain ⟨ih1, ih2⟩ := type_of_loop_bounds_spec scope rest
            (child.extend [(x, .VariableInfo .IntRType)])
          have hrun : type_of_loop_bounds ((x, b) :: rest) scope child =
              (type_of_loop_bounds rest scope (child.extend [(x, .VariableInfo .IntRType)])).map
                (fun r => ((x, b'.set_resolvedType .IntRType) :: r.1, r.2)) := by
            simp only [type_of_loop_bounds, hb, bind, Except.bind, ResolvedType.type_name,
              ne_eq, not_true_eq_false, ↓reduceIte, hadd]
            cases type_of_loop_bounds rest scope (child.extend [(x, .VariableInfo .IntRType)])
              <;> rfl
          constructor
          · intro typed child' h
            rw [hrun] at h
            cases hr : type_of_loop_bounds rest scope
                (child.extend [(x, .VariableInfo .IntRType)]) with
            | error err => rw [hr] at h; cases h
            | ok r =>
              obtain ⟨typed_rest, child_rest⟩ := r
              have := ih1 typed_rest child_rest hr
              rw [hr] at h
              simp only [Except.map] at h
              cases h
              rw [this, Scope.extend_extend]
              rfl
          · have hiff : (∃ r, type_of_loop_bounds ((x, b) :: rest) scope child = .ok r) ↔
                ∃ r, type_of_loop_bounds rest scope
                  (child.extend [(x, .VariableInfo .IntRType)]) = .ok r := by
              rw [hrun]
              cases type_of_loop_bounds rest scope
                (child.extend [(x, .VariableInfo .IntRType)]) <;> simp [Except.map]
            rw [hiff, ih2]
            simp only [List.mem_cons, forall_eq_or_imp, List.map_cons, List.nodup_cons,
              Scope.bound_extend, List.map_nil, List.mem_singleton, not_or, List.not_mem_nil,
              or_false]
            constructor
            · rintro ⟨hall, hnd, hfresh⟩
              exact ⟨⟨⟨b', hb⟩, hall⟩, ⟨fun hmem => (hfresh x hmem).2 rfl, hnd⟩, hbound,
                fun y hy => (hfresh y hy).1⟩
            · rintro ⟨⟨_, hall⟩, ⟨hnot, hnd⟩, _, hfresh⟩
              exact ⟨hall, hnd, fun y hy => ⟨hfresh y hy, fun hyx => hnot (hyx ▸ hy)⟩⟩
      · have hT' : T ≠ .IntRType := fun h => hT ((ResolvedType.type_name_INT_iff T).2 h)
        constructor
        · intro typed child' h
          simp [type_of_loop_bounds, hb, bind, Except.bind, hT, throw, throwThe,
            MonadExceptOf.throw] at h
        · constructor
          · rintro ⟨r, h⟩
            simp [type_of_loop_bounds, hb, bind, Except.bind, hT, throw, throwThe,
              MonadExceptOf.throw] at h
          · rintro ⟨h, _⟩
            obtain ⟨e, he⟩ := h (x, b) (List.mem_cons_self _ _)
            rw [hb] at he
            cases he
            exact absurd rfl hT'

/-- C13: `type_of` gives the comprehension `array[x1 : b1, ..., xk : bk] body`
the type `R` exactly when `k ≥ 1`, every bound has type Int in the enclosing
scope, the index names are pairwise distinct and none is bound in the
enclosing scope chain, and the body has a type `T`, with `R = Array(T, k)`, in
the child scope whose own table binds each index to an integer variable.  A
bound that is not an integer, as in `array[i : 1.5] i`, is a type error. -/
theorem type_of_array_loop (s : Slots) (bounds : List (String × ExprNode))
    (loop_expression : ExprNode) (scope : Scope) (R : ResolvedType) :
    ((∃ e, type_of (.ArrayLoopExprNode s bounds loop_expression) scope = .ok (R, e)) ↔
      1 ≤ bounds.length ∧
      (∀ b ∈ bounds, ∃ e, type_of b.2 scope = .ok (.IntRType, e)) ∧
      (bounds.map Prod.fst).Nodup ∧
      (∀ x ∈ bounds.map Prod.fst, ¬ scope.bound x) ∧
      ∃ T e, type_of loop_expression
          (Scope.nested (bounds.map (fun b => (b.1, NameInfo.VariableInfo .IntRType))) scope) =
            .ok (T, e) ∧
        R = .ArrayRType T bounds.length) ∧
    (∀ b ∈ bounds, ∀ T e, type_of b.2 scope = .ok (T, e) → T ≠ .IntRType →
      ∃ err, type_of (.ArrayLoopExprNode s bounds loop_expression) scope = .error err) ∧
    type_of (.ArrayLoopExprNode .fresh [("i", .FloatExprNode .fresh "1.5")]
        (.VariableExprNode .fresh "i")) create_global_scope =
      .error ⟨"Caught loop iterating over non-int type"⟩ := by
  obtain ⟨hb1, hb2⟩ := type_of_loop_bounds_spec scope bounds scope.createNestedScope
  have hchild : scope.createNestedScope.extend
      (bounds.map (fun b => (b.1, NameInfo.VariableInfo .IntRType))) =
      Scope.nested (bounds.map (fun b => (b.1, NameInfo.VariableInfo .IntRType))) scope := by
    simp [Scope.createNestedScope, Scope.extend]
  have hiff : (∃ e, type_of (.ArrayLoopExprNode s bounds loop_expression) scope = .ok (R, e)) ↔
      1 ≤ bounds.length ∧
      (∀ b ∈ bounds, ∃ e, type_of b.2 scope = .ok (.IntRType, e)) ∧
      (bounds.map Prod.fst).Nodup ∧
      (∀ x ∈ bounds.map Prod.fst, ¬ scope.bound x) ∧
      ∃ T e, type_of loop_expression
          (Scope.nested (bounds.map (fun b => (b.1, NameInfo.VariableInfo .IntRType))) scope) =
            .ok (T, e) ∧
        R = .ArrayRType T bounds.length := by
    by_cases hlen : bounds.length < 1
    · constructor
      · rintro ⟨e, h⟩
        simp [type_of, hlen, throw, throwThe, MonadExceptOf.throw] at h
      · rintro ⟨h, _⟩; omega
    · cases hr : type_of_loop_bounds bounds scope scope.createNestedScope with
      | error err =>
        constructor
        · rintro ⟨e, h⟩
          simp [type_of, hlen, hr, bind, Except.bind] at h
        · rintro ⟨_, h1, h2, h3, _⟩
          obtain ⟨r, hr'⟩ := hb2.2 ⟨h1, h2, fun x hx =>
            fun hbx => h3 x hx ((Scope.bound_createNestedScope scope x).1 hbx)⟩
          rw [hr] at hr'; cases hr'
      | ok r =>
        obtain ⟨typed, child⟩ := r
        have hc := hb1 typed child hr
        rw [hchild] at hc
        obtain ⟨h1, h2, h3⟩ := hb2.1 ⟨_, hr⟩
        have h3' : ∀ x ∈ bounds.map Prod.fst, ¬ scope.bound x := fun x hx hbx =>
          h3 x hx ((Scope.bound_createNestedScope scope x).2 hbx)
        subst hc
        cases hbody : type_of loop_expression
            (Scope.nested (bounds.map (fun b => (b.1, NameInfo.VariableInfo .IntRType))) scope)
          with
        | error err =>
          constructor
          · rintro ⟨e, h⟩
            simp [type_of, hlen, hr, hbody, bind, Except.bind] at h
          · rintro ⟨_, _, _, _, T, e, h, _⟩
            cases h
        | ok rb =>
          obtain ⟨T, body'⟩ := rb
          have hrun : type_of (.ArrayLoopExprNode s bounds loop_expression) scope =
              .ok (.ArrayRType T bounds.length,
                .ArrayLoopExprNode s typed (body'.set_resolvedType T)) := by
            simp [type_of, hlen, hr, hbody, bind, Except.bind, pure, Except.pure]
          constructor
          · rintro ⟨e, h⟩
            rw [hrun] at h
            cases h
            exact ⟨by omega, h1, h2, h3', T, body', rfl, rfl⟩
          · rintro ⟨_, _, _, _, T', e, h, hR⟩
            cases h
            exact ⟨_, by rw [hrun, hR]⟩
  refine ⟨hiff, ?_, rfl⟩
  intro b hb T e hbt hT
  cases hrun : type_of (.ArrayLoopExprNode s bounds loop_expression) scope with
  | error err => exact ⟨err, rfl⟩
  | ok r =>
    exfalso
    obtain ⟨R', e'⟩ := r
    by_cases hlen : bounds.length < 1
    · simp [type_of, hlen, throw, throwThe, MonadExceptOf.throw] at hrun
    · cases hr : type_of_loop_bounds bounds scope scope.createNestedScope with
      | error err => simp [type_of, hlen, hr, bind, Except.bind] at hrun
      | ok r =>
        obtain ⟨e2, he2⟩ := (hb2.1 ⟨_, hr⟩).1 b hb
        rw [hbt] at he2
        cases he2
        exact hT rfl

/-- A statement that type-checks is reported as a return exactly when it is a
return statement. -/
theorem typecheckStmt_was_return (stmt stmt' : StmtNode) (scope scope' : Scope)
    (return_type : ResolvedType) (was_return : Bool)
    (h : typecheckStmt stmt scope return_type = .ok (was_return, stmt', scope')) :
    was_return = true ↔ ∃ e, stmt = .ReturnStmtNode e := by
  cases stmt with
  | LetStmtNode lv e =>
    simp only [typecheckStmt, bind, Except.bind] at h
    cases h1 : type_of e scope with
    | error err => rw [h1] at h; cases h
    | ok r =>
      obtain ⟨T, e'⟩ := r
      rw [h1] at h
      simp only at h
      cases h2 : Scope.add_lvalue lv T scope with
      | error err => rw [h2] at h; cases h
      | ok s2 =>
        rw [h2] at h
        simp only [pure, Except.pure] at h
        cases h
        simp
  | AssertStmtNode e str =>
    simp only [typecheckStmt, bind, Except.bind] at h
    cases h1 : type_of e scope with
    | error err => rw [h1] at h; cases h
    | ok r =>
      obtain ⟨T, e'⟩ := r
      rw [h1] at h
      simp only at h
      split at h
      · cases h
      · simp only [pure, Except.pure] at h
        cases h
        simp
  | ReturnStmtNode e =>
    simp only [typecheckStmt, bind, Except.bind] at h
    cases h1 : type_of e scope with
    | error err => rw [h1] at h; cases h
    | ok r =>
      obtain ⟨T, e'⟩ := r
      rw [h1] at h
      simp only at h
      split at h
      · cases h
      · simp only [pure, Except.pure] at h
        cases h
        simp

/-- The flag computed by the statement loop: the initial flag, or some
statement is a return. -/
theorem typecheck_stmts_has_return (return_type : ResolvedType) :
    ∀ (stmts stmts' : List StmtNode) (scope scope' : Scope) (init has_return : Bool),
      typecheck_stmts stmts scope return_type init = .ok (has_return, stmts', scope') →
      (has_return = true ↔ init = true ∨ ∃ stmt ∈ stmts, ∃ e, stmt = .ReturnStmtNode e)
  | [], _, _, _, init, has_return, h => by
    simp only [typecheck_stmts, pure, Except.pure] at h
    cases h
    simp
  | stmt :: rest, stmts', scope, scope', init, has_return, h => by
    simp only [typecheck_stmts, bind, Except.bind] at h
    cases h1 : typecheckStmt stmt scope return_type with
    | error err => rw [h1] at h; cases h
    | ok r =>
      obtain ⟨was_return, stmt', scope1⟩ := r
      rw [h1] at h
      simp only at h
      cases h2 : typecheck_stmts rest scope1 return_type (init || was_return) with
      | error err => rw [h2] at h; cases h
      | ok r2 =>
        obtain ⟨hr2, rest', scope2⟩ := r2
        have ih := typecheck_stmts_has_return return_type rest rest' scope1 scope2 _ _ h2
        have hw := typecheckStmt_was_return stmt stmt' scope scope1 return_type was_return h1
        rw [h2] at h
        simp only [pure, Except.pure] at h
        cases h
        rw [ih, Bool.or_eq_true, hw]
        simp only [List.mem_cons, exists_eq_or_imp]
        tauto

/-- C14: for a function definition whose bindings and return type resolve,
whose name can be added to the scope and whose body statements type-check,
`typecheckCmd` rejects the definition for a missing return exactly when the
resolved return type is not the empty tuple and no top-level statement of the
body is a return; otherwise the definition is accepted, in particular when the
return type is the empty tuple and the body has no return. -/
theorem typecheckCmd_fn_missing_return (function_name : String)
    (arguments : List BindingNode) (return_type_node : TypeNode)
    (function_contents typed_contents : List StmtNode) (scope scope' : Scope)
    (arg_rtypes : List ResolvedType) (function_scope final_scope : Scope)
    (return_type : ResolvedType) (has_return : Bool)
    (hb : typecheck_bindings arguments scope scope.createNestedScope =
      .ok (arg_rtypes, function_scope))
    (hr : resolve_type return_type_node scope = .ok return_type)
    (ha : scope.add function_name (.FuncInfo return_type arg_rtypes) = (true, scope'))
    (hs : typecheck_stmts function_contents (reparent function_scope scope') return_type false =
      .ok (has_return, typed_contents, final_scope)) :
    (typecheckCmd (.FnCmd function_name arguments return_type_node function_contents) scope =
        .error ⟨"Function has a non-\x7b\x7d return type, but never returns."⟩ ↔
      return_type ≠ .TupleRType [] ∧
        ∀ stmt ∈ function_contents, ∀ e, stmt ≠ .ReturnStmtNode e) ∧
    (¬ (return_type ≠ .TupleRType [] ∧
        ∀ stmt ∈ function_contents, ∀ e, stmt ≠ .ReturnStmtNode e) →
      typecheckCmd (.FnCmd function_name arguments return_type_node function_contents) scope =
        .ok (.FnCmd function_name arguments return_type_node typed_contents, scope')) ∧
    (return_type = .TupleRType [] →
      (∀ stmt ∈ function_contents, ∀ e, stmt ≠ .ReturnStmtNode e) →
      typecheckCmd (.FnCmd function_name arguments return_type_node function_contents) scope =
        .ok (.FnCmd function_name arguments return_type_node typed_contents, scope')) := by
  have hflag := typecheck_stmts_has_return return_type function_contents typed_contents
    (reparent function_scope scope') final_scope false has_return hs
  have hrun : typecheckCmd (.FnCmd function_name arguments return_type_node function_contents)
      scope =
      if (!(return_type.eq (.TupleRType []))) && (!has_return) then
        .error ⟨"Function has a non-\x7b\x7d return type, but never returns."⟩
      else .ok (.FnCmd function_name arguments return_type_node typed_contents, scope') := by
    simp only [typecheckCmd, hb, hr, ha, hs, bind, Except.bind, pure, Except.pure, throw,
      throwThe, MonadExceptOf.throw]
  have hcond : ((!(return_type.eq (.TupleRType []))) && (!has_return)) = true ↔
      (return_type ≠ .TupleRType [] ∧
        ∀ stmt ∈ function_contents, ∀ e, stmt ≠ .ReturnStmtNode e) := by
    rw [Bool.and_eq_true, Bool.not_eq_true', Bool.not_eq_true', ← Bool.not_eq_true,
      ← Bool.not_eq_true, ResolvedType.eq_iff, hflag]
    simp only [Bool.false_eq_true, false_or, not_exists, not_and, ne_eq]
  have hacc : ¬ (return_type ≠ .TupleRType [] ∧
        ∀ stmt ∈ function_contents, ∀ e, stmt ≠ .ReturnStmtNode e) →
      typecheckCmd (.FnCmd function_name arguments return_type_node function_contents) scope =
        .ok (.FnCmd function_name arguments return_type_node typed_contents, scope') := by
    intro hn
    rw [hrun, if_neg (fun h => hn (hcond.1 h))]
  refine ⟨⟨?_, ?_⟩, hacc, fun h _ => hacc (fun hh => hh.1 h)⟩
  · intro h
    by_contra hn
    rw [hacc hn] at h
    cases h
  · intro h
    rw [hrun, if_pos (hcond.2 h)]

/-- The theorem `typecheckCmd_fn_missing_return` at the definitions
`fn f() : int` and `fn f() : {}`, each with the body `assert true, "x"`: the first
is rejected for its missing return, the second is accepted. -/
theorem typecheckCmd_fn_missing_return_witness :
    typecheckCmd (.FnCmd "f" [] .IntTypeNode [.AssertStmtNode (.TrueExprNode .fresh) "x"])
        create_global_scope =
      .error ⟨"Function has a non-\x7b\x7d return type, but never returns."⟩ ∧
    typecheckCmd (.FnCmd "f" [] (.TupleTypeNode [])
          [.AssertStmtNode (.TrueExprNode .fresh) "x"]) create_global_scope =
      .ok (.FnCmd "f" [] (.TupleTypeNode [])
          [.AssertStmtNode ((ExprNode.TrueExprNode .fresh).set_resolvedType .BoolRType) "x"],
        (create_global_scope.add "f" (.FuncInfo (.TupleRType []) [])).2) :=
  ⟨(typecheckCmd_fn_missing_return "f" [] .IntTypeNode
      [.AssertStmtNode (.TrueExprNode .fresh) "x"]
      [.AssertStmtNode ((ExprNode.TrueExprNode .fresh).set_resolvedType .BoolRType) "x"]
      create_global_scope (create_global_scope.add "f" (.FuncInfo .IntRType [])).2 []
      create_global_scope.createNestedScope
      (reparent create_global_scope.createNestedScope
        (create_global_scope.add "f" (.FuncInfo .IntRType [])).2)
      .IntRType false rfl rfl rfl rfl).1.2
      ⟨by simp, by simp⟩,
    (typecheckCmd_fn_missing_return "f" [] (.TupleTypeNode [])
      [.AssertStmtNode (.TrueExprNode .fresh) "x"]
      [.AssertStmtNode ((ExprNode.TrueExprNode .fresh).set_resolvedType .BoolRType) "x"]
      create_global_scope (create_global_scope.add "f" (.FuncInfo (.TupleRType []) [])).2 []
      create_global_scope.createNestedScope
      (reparent create_global_scope.createNestedScope
        (create_global_scope.add "f" (.FuncInfo (.TupleRType []) [])).2)
      (.TupleRType []) false rfl rfl rfl rfl).2.2 rfl (by simp)⟩

theorem four_floats_iff (element_types : List ResolvedType) :
    (element_types.length = 4 ∧
      element_types.any (fun tuple_subtype => tuple_subtype.type_name ≠ .FLOAT) = false) ↔
    element_types = [.FloatRType, .FloatRType, .FloatRType, .FloatRType] := by
  constructor
  · rintro ⟨hlen, hall⟩
    match element_types, hlen with
    | [a, b, c, d], _ =>
      simp only [List.any_cons, List.any_nil, Bool.or_false, Bool.or_eq_false_iff,
        decide_eq_false_iff_not, ne_eq, not_not, ResolvedType.type_name_FLOAT_iff] at hall
      obtain ⟨ha, hb, hc, hd⟩ := hall
      rw [ha, hb, hc, hd]
  · rintro rfl
    simp [ResolvedType.type_name]

/-- C15: once the expression of `write image e to f` has type `T`, the
command type-checks exactly when `T` is the type of an array of rank 2 of
tuples of four floats, that is, when `T` is structurally equal to the image
type; the scope is unchanged and the expression is annotated with `T`. -/
theorem typecheckCmd_write (toSave toSave' : ExprNode) (fileName : String) (scope : Scope)
    (T : ResolvedType) (h : type_of toSave scope = .ok (T, toSave')) :
    ((∃ r, typecheckCmd (.WriteCmdNode toSave fileName) scope = .ok r) ↔
      T = .ArrayRType (.TupleRType [.FloatRType, .FloatRType, .FloatRType, .FloatRType]) 2) ∧
    ((∃ r, typecheckCmd (.WriteCmdNode toSave fileName) scope = .ok r) ↔
      T.eq (.ArrayRType (.TupleRType [.FloatRType, .FloatRType, .FloatRType, .FloatRType]) 2)
        = true) ∧
    (T = .ArrayRType (.TupleRType [.FloatRType, .FloatRType, .FloatRType, .FloatRType]) 2 →
      typecheckCmd (.WriteCmdNode toSave fileName) scope =
        .ok (.WriteCmdNode (toSave'.set_resolvedType T) fileName, scope)) ∧
    (T ≠ .ArrayRType (.TupleRType [.FloatRType, .FloatRType, .FloatRType, .FloatRType]) 2 →
      ∃ err, typecheckCmd (.WriteCmdNode toSave fileName) scope = .error err) := by
  have hok : T = .ArrayRType (.TupleRType [.FloatRType, .FloatRType, .FloatRType, .FloatRType]) 2 →
      typecheckCmd (.WriteCmdNode toSave fileName) scope =
        .ok (.WriteCmdNode (toSave'.set_resolvedType T) fileName, scope) := by
    rintro rfl
    simp [typecheckCmd, h, bind, Except.bind, pure, Except.pure, ResolvedType.type_name]
  have herr : T ≠ .ArrayRType (.TupleRType [.FloatRType, .FloatRType, .FloatRType, .FloatRType]) 2 →
      ∃ err, typecheckCmd (.WriteCmdNode toSave fileName) scope = .error err := by
    intro hne
    cases T with
    | IntRType => exact ⟨_, by simp [typecheckCmd, h, bind, Except.bind]; rfl⟩
    | FloatRType => exact ⟨_, by simp [typecheckCmd, h, bind, Except.bind]; rfl⟩
    | BoolRType => exact ⟨_, by simp [typecheckCmd, h, bind, Except.bind]; rfl⟩
    | TupleRType ts => exact ⟨_, by simp [typecheckCmd, h, bind, Except.bind]; rfl⟩
    | ArrayRType e rank =>
      cases e with
      | IntRType => exact ⟨_, by simp [typecheckCmd, h, bind, Except.bind]; rfl⟩
      | FloatRType => exact ⟨_, by simp [typecheckCmd, h, bind, Except.bind]; rfl⟩
      | BoolRType => exact ⟨_, by simp [typecheckCmd, h, bind, Except.bind]; rfl⟩
      | ArrayRType e' r' => exact ⟨_, by simp [typecheckCmd, h, bind, Except.bind]; rfl⟩
      | TupleRType ts =>
        by_cases hlen : ts.length = 4
        · by_cases hany : ts.any (fun tuple_subtype => tuple_subtype.type_name ≠ .FLOAT) = true
          · exact ⟨_, by
              simp only [typecheckCmd, h, bind, Except.bind, hlen, ne_eq, not_true_eq_false,
                ↓reduceIte, hany]
              rfl⟩
          · have hts := (four_floats_iff ts).1 ⟨hlen, by simpa using hany⟩
            have hrank : rank ≠ 2 := by
              intro hr; apply hne; rw [hts, hr]
            exact ⟨_, by
              simp only [typecheckCmd, h, bind, Except.bind, hlen, ne_eq, not_true_eq_false,
                ↓reduceIte, hany, hrank, Bool.false_eq_true, not_false_eq_true]
              rfl⟩
        · exact ⟨_, by
            simp only [typecheckCmd, h, bind, Except.bind, hlen, ne_eq, not_false_eq_true,
              ↓reduceIte]
            rfl⟩
  have hiff : (∃ r, typecheckCmd (.WriteCmdNode toSave fileName) scope = .ok r) ↔
      T = .ArrayRType (.TupleRType [.FloatRType, .FloatRType, .FloatRType, .FloatRType]) 2 := by
    constructor
    · rintro ⟨r, hr⟩
      by_contra hne
      obtain ⟨err, he⟩ := herr hne
      rw [he] at hr; cases hr
    · intro hT; exact ⟨_, hok hT⟩
  exact ⟨hiff, by rw [ResolvedType.eq_iff]; exact hiff, hok, herr⟩

/-- The theorem `typecheckCmd_write` at a variable `img` read from an image
file, which is accepted, and at the literal `1`, which is rejected. -/
theorem typecheckCmd_write_witness :
    typecheckCmd (.WriteCmdNode (.VariableExprNode .fresh "img") "out.png")
        (Scope.root [("img", .VariableInfo
          (.ArrayRType (.TupleRType [.FloatRType, .FloatRType, .FloatRType, .FloatRType]) 2))]) =
      .ok (.WriteCmdNode ((ExprNode.VariableExprNode .fresh "img").set_resolvedType
          (.ArrayRType (.TupleRType [.FloatRType, .FloatRType, .FloatRType, .FloatRType]) 2))
          "out.png",
        Scope.root [("img", .VariableInfo
          (.ArrayRType (.TupleRType [.FloatRType, .FloatRType, .FloatRType, .FloatRType]) 2))]) ∧
    (∃ err, typecheckCmd (.WriteCmdNode (.IntExprNode .fresh 1) "out.png")
        create_global_scope = .error err) :=
  ⟨(typecheckCmd_write (.VariableExprNode .fresh "img") (.VariableExprNode .fresh "img")
      "out.png"
      (Scope.root [("img", .VariableInfo
        (.ArrayRType (.TupleRType [.FloatRType, .FloatRType, .FloatRType, .FloatRType]) 2))])
      (.ArrayRType (.TupleRType [.FloatRType, .FloatRType, .FloatRType, .FloatRType]) 2)
      rfl).2.2.1 rfl,
    (typecheckCmd_write (.IntExprNode .fresh 1) (.IntExprNode .fresh 1)
      "out.png" create_global_scope .IntRType rfl).2.2.2 (by simp)⟩

theorem ExprNode.set_slots_set_slots (e : ExprNode) (a b : Slots) :
    (e.set_slots a).set_slots b = e.set_slots b := by
  cases e <;> rfl

theorem ExprNode.slots_set_slots (e : ExprNode) (a : Slots) : (e.set_slots a).slots = a := by
  cases e <;> rfl

theorem ExprNode.set_resolvedType_twice (e : ExprNode) (T : ResolvedType) :
    (e.set_resolvedType T).set_resolvedType T = e.set_resolvedType T := by
  simp [ExprNode.set_resolvedType, ExprNode.set_slots_set_slots, ExprNode.slots_set_slots]

/-- What the resolver's result for a sub-expression gives once the parent has
stored the computed type in its slot: typing it again gives the same type and
the same tree, and every slot of the tree is set. -/
theorem stable_child (scope : Scope) (T : ResolvedType) (c : ExprNode)
    (h : ∀ σ : Slots, type_of (c.set_slots σ) scope = .ok (T, c.set_slots σ) ∧
      (σ.resolvedType.isSome = true → (c.set_slots σ).all_resolved = true)) :
    type_of (c.set_resolvedType T) scope = .ok (T, c.set_resolvedType T) ∧
    (c.set_resolvedType T).all_resolved = true :=
  ⟨(h ⟨some T, c.slots.cp⟩).1, (h ⟨some T, c.slots.cp⟩).2 rfl⟩

set_option maxHeartbeats 1000000 in
mutual
theorem type_of_stable : ∀ (e : ExprNode) (scope : Scope) (T : ResolvedType) (e' : ExprNode),
    type_of e scope = .ok (T, e') →
    ∀ σ : Slots, type_of (e'.set_slots σ) scope = .ok (T, e'.set_slots σ) ∧
      (σ.resolvedType.isSome = true → (e'.set_slots σ).all_resolved = true)
  | .IntExprNode s v, scope, T, e', h, σ => by
    simp only [type_of, pure, Except.pure] at h
    cases h
    exact ⟨rfl, fun h => h⟩
  | .FloatExprNode s v, scope, T, e', h, σ => by
    simp only [type_of, pure, Except.pure] at h
    cases h
    exact ⟨rfl, fun h => h⟩
  | .TrueExprNode s, scope, T, e', h, σ => by
    simp only [type_of, pure, Except.pure] at h
    cases h
    exact ⟨rfl, fun h => h⟩
  | .FalseExprNode s, scope, T, e', h, σ => by
    simp only [type_of, pure, Except.pure] at h
    cases h
    exact ⟨rfl, fun h => h⟩
  | .VariableExprNode s n, scope, T, e', h, σ => by
    simp only [type_of] at h
    cases hl : scope.lookup n with
    | none => simp [hl, throw, throwThe, MonadExceptOf.throw] at h
    | some info =>
      cases info with
      | VariableInfo r =>
        simp only [hl, pure, Except.pure] at h
        cases h
        exact ⟨by simp [ExprNode.set_slots, type_of, hl, pure, Except.pure], fun h => h⟩
      | TypeInfo r => simp [hl, throw, throwThe, MonadExceptOf.throw] at h
      | FuncInfo r ps => simp [hl, throw, throwThe, MonadExceptOf.throw] at h
  | .BinopExprNode s lhs op rhs, scope, T, e', h, σ => by
    simp only [type_of, bind, Except.bind] at h
    cases hl : type_of lhs scope with
    | error err => simp [hl] at h
    | ok rl =>
      obtain ⟨Tl, l'⟩ := rl
      cases hr : type_of rhs scope with
      | error err => simp [hl, hr] at h
      | ok rr =>
        obtain ⟨Tr, r'⟩ := rr
        obtain ⟨il1, il2⟩ := stable_child scope Tl l' (type_of_stable lhs scope Tl l' hl)
        obtain ⟨ir1, ir2⟩ := stable_child scope Tr r' (type_of_stable rhs scope Tr r' hr)
        simp only [hl, hr] at h
        cases op <;> simp only at h <;> (repeat' split at h) <;>
          first
          | (cases h; done)
          | (simp only [pure, Except.pure, throw, throwThe, MonadExceptOf.throw] at h
             cases h
             simp [ExprNode.set_slots, type_of, il1, ir1, il2, ir2, bind, Except.bind,
               ExprNode.set_resolvedType_twice, ExprNode.all_resolved, pure, Except.pure, *])
  | .UnopExprNode s op expression, scope, T, e', h, σ => by
    simp only [type_of, bind, Except.bind] at h
    cases hc : type_of expression scope with
    | error err => simp [hc] at h
    | ok rc =>
      obtain ⟨Tc, c'⟩ := rc
      obtain ⟨ic1, ic2⟩ := stable_child scope Tc c' (type_of_stable expression scope Tc c' hc)
      simp only [hc] at h
      cases op <;> simp only at h <;> (repeat' split at h) <;>
        first
        | (cases h; done)
        | (simp only [pure, Except.pure, throw, throwThe, MonadExceptOf.throw] at h
           cases h
           simp [ExprNode.set_slots, type_of, ic1, ic2, bind, Except.bind,
             ExprNode.set_resolvedType_twice, ExprNode.all_resolved, pure, Except.pure, *])
  | .IfExprNode s condition then_expr else_expr, scope, T, e', h, σ => by
    simp only [type_of, bind, Except.bind] at h
    cases hc : type_of condition scope with
    | error err => simp [hc] at h
    | ok rc =>
      obtain ⟨Tc, c'⟩ := rc
      cases ht : type_of then_expr scope with
      | error err => simp [hc, ht] at h
      | ok rt =>
        obtain ⟨Tt, t'⟩ := rt
        cases hel : type_of else_expr scope with
        | error err => simp [hc, ht, hel] at h
        | ok rel =>
          obtain ⟨Te, el'⟩ := rel
          obtain ⟨ic1, ic2⟩ := stable_child scope Tc c' (type_of_stable condition scope Tc c' hc)
          obtain ⟨it1, it2⟩ := stable_child scope Tt t' (type_of_stable then_expr scope Tt t' ht)
          obtain ⟨ie1, ie2⟩ := stable_child scope Te el'
            (type_of_stable else_expr scope Te el' hel)
          simp only [hc, ht, hel] at h
          (repeat' split at h) <;>
            first
            | (cases h; done)
            | (simp only [pure, Except.pure, throw, throwThe, MonadExceptOf.throw] at h
               cases h
               simp [ExprNode.set_slots, type_of, ic1, ic2, it1, it2, ie1, ie2, bind, Except.bind,
                 ExprNode.set_resolvedType_twice, ExprNode.all_resolved, pure, Except.pure, *])
  | .TupleIndexExprNode s tuple_expression tuple_index, scope, T, e', h, σ => by
    simp only [type_of, bind, Except.bind] at h
    cases hc : type_of tuple_expression scope with
    | error err => simp [hc] at h
    | ok rc =>
      obtain ⟨Tc, c'⟩ := rc
      obtain ⟨ic1, ic2⟩ := stable_child scope Tc c'
        (type_of_stable tuple_expression scope Tc c' hc)
      simp only [hc] at h
      (repeat' split at h) <;>
        first
        | (cases h; done)
        | (simp only [pure, Except.pure, throw, throwThe, MonadExceptOf.throw] at h
           cases h
           rename_i heq
           simp only [List.get?_eq_getElem?] at heq
           simp [ExprNode.set_slots, type_of, ic1, ic2, bind, Except.bind,
             ExprNode.set_resolvedType_twice, ExprNode.all_resolved, pure, Except.pure, *])
  | .TupleLiteralExprNode s tuple_expressions, scope, T, e', h, σ => by
    simp only [type_of, bind, Except.bind] at h
    cases hc : type_of_tuple_expressions tuple_expressions scope with
    | error err => simp [hc] at h
    | ok rc =>
      obtain ⟨Ts, es'⟩ := rc
      obtain ⟨ic1, ic2⟩ := type_of_tuple_expressions_stable tuple_expressions scope Ts es' hc
      simp only [hc, pure, Except.pure] at h
      cases h
      simp [ExprNode.set_slots, type_of, ic1, ic2, bind, Except.bind, ExprNode.all_resolved,
        pure, Except.pure]
  | .ArrayLiteralExprNode s array_expressions, scope, T, e', h, σ => by
    cases array_expressions with
    | nil => simp [type_of, throw, throwThe, MonadExceptOf.throw] at h
    | cons first rest =>
      simp only [type_of, bind, Except.bind] at h
      cases hc : type_of first scope with
      | error err => simp [hc] at h
      | ok rc =>
        obtain ⟨Tc, c'⟩ := rc
        cases hrest : type_of_array_expressions Tc rest scope with
        | error err => simp [hc, hrest] at h
        | ok rest' =>
          obtain ⟨ic1, ic2⟩ := stable_child scope Tc c' (type_of_stable first scope Tc c' hc)
          obtain ⟨ir1, ir2⟩ := type_of_array_expressions_stable Tc rest scope rest' hrest
          simp only [hc, hrest, pure, Except.pure] at h
          cases h
          simp [ExprNode.set_slots, type_of, ic1, ic2, ir1, ir2, bind, Except.bind,
            ExprNode.set_resolvedType_twice, ExprNode.all_resolved,
            ExprNode.all_resolved_list, pure, Except.pure]
  | .ArrayIndexExprNode s array_expression array_indices, scope, T, e', h, σ => by
    simp only [type_of, bind, Except.bind] at h
    cases hc : type_of array_expression scope with
    | error err => simp [hc] at h
    | ok rc =>
      obtain ⟨Tc, c'⟩ := rc
      obtain ⟨ic1, ic2⟩ := stable_child scope Tc c'
        (type_of_stable array_expression scope Tc c' hc)
      simp only [hc] at h
      cases Tc with
      | ArrayRType element_type rank =>
        simp only at h
        by_cases hrank : rank = array_indices.length
        · subst hrank
          cases hi : type_of_array_indices array_indices scope with
          | error err => simp [hi] at h
          | ok is' =>
            obtain ⟨ii1, ii2, ii3⟩ := type_of_array_indices_stable array_indices scope is' hi
            simp only [ne_eq, not_true_eq_false, ↓reduceIte, hi, pure, Except.pure] at h
            cases h
            simp [ExprNode.set_slots, type_of, ic1, ic2, ii1, ii2, ii3, bind,
              Except.bind, ExprNode.set_resolvedType_twice, ExprNode.all_resolved, pure,
              Except.pure]
        · simp [hrank, throw, throwThe, MonadExceptOf.throw] at h
      | _ => simp [throw, throwThe, MonadExceptOf.throw] at h
  | .CallExprNode s function_name arguments, scope, T, e', h, σ => by
    simp only [type_of] at h
    cases hl : scope.lookup function_name with
    | none => simp [hl, throw, throwThe, MonadExceptOf.throw] at h
    | some info =>
      cases info with
      | VariableInfo r => simp [hl, throw, throwThe, MonadExceptOf.throw] at h
      | TypeInfo r => simp [hl, throw, throwThe, MonadExceptOf.throw] at h
      | FuncInfo ret ps =>
        simp only [hl] at h
        by_cases hlen : ps.length = arguments.length
        · cases ha : type_of_arguments ps arguments scope with
          | error err => simp [hlen, ha, bind, Except.bind] at h
          | ok as' =>
            obtain ⟨ia1, ia2, ia3⟩ := type_of_arguments_stable ps arguments scope as' ha
            simp only [hlen, ne_eq, not_true_eq_false, ↓reduceIte, ha, bind, Except.bind, pure,
              Except.pure] at h
            cases h
            simp [ExprNode.set_slots, type_of, hl, hlen, ia1, ia2 hlen, ia3, bind, Except.bind,
              ExprNode.all_resolved, pure, Except.pure]
        · simp [hlen, throw, throwThe, MonadExceptOf.throw] at h
  | .ArrayLoopExprNode s bounds loop_expression, scope, T, e', h, σ => by
    simp only [type_of] at h
    by_cases hlen : bounds.length < 1
    · simp [hlen, throw, throwThe, MonadExceptOf.throw] at h
    · simp only [hlen, ↓reduceIte, bind, Except.bind] at h
      cases hb : type_of_loop_bounds bounds scope scope.createNestedScope with
      | error err => simp [hb] at h
      | ok rb =>
        obtain ⟨typed, child⟩ := rb
        cases hc : type_of loop_expression child with
        | error err => simp [hb, hc] at h
        | ok rc =>
          obtain ⟨Tc, c'⟩ := rc
          obtain ⟨ib1, ib2, ib3⟩ := type_of_loop_bounds_stable bounds scope
            scope.createNestedScope typed child hb
          obtain ⟨ic1, ic2⟩ := stable_child child Tc c'
            (type_of_stable loop_expression child Tc c' hc)
          simp only [hb, hc, pure, Except.pure] at h
          cases h
          simp [ExprNode.set_slots, type_of, ib1, ib2, ib3, ic1, ic2, hlen, bind, Except.bind,
            ExprNode.set_resolvedType_twice, ExprNode.all_resolved, pure, Except.pure]
  | .SumLoopExprNode s bounds loop_expression, scope, T, e', h, σ => by
    simp only [type_of] at h
    by_cases hlen : bounds.length < 1
    · simp [hlen, throw, throwThe, MonadExceptOf.throw] at h
    · simp only [hlen, ↓reduceIte, bind, Except.bind] at h
      cases hb : type_of_loop_bounds bounds scope scope.createNestedScope with
      | error err => simp [hb] at h
      | ok rb =>
        obtain ⟨typed, child⟩ := rb
        cases hc : type_of loop_expression child with
        | error err => simp [hb, hc] at h
        | ok rc =>
          obtain ⟨Tc, c'⟩ := rc
          obtain ⟨ib1, ib2, ib3⟩ := type_of_loop_bounds_stable bounds scope
            scope.createNestedScope typed child hb
          obtain ⟨ic1, ic2⟩ := stable_child child Tc c'
            (type_of_stable loop_expression child Tc c' hc)
          simp only [hb, hc] at h
          (repeat' split at h) <;>
            first
            | (cases h; done)
            | (simp only [pure, Except.pure, throw, throwThe, MonadExceptOf.throw] at h
               cases h
               simp [ExprNode.set_slots, type_of, ib1, ib2, ib3, ic1, ic2, hlen, bind, Except.bind,
                 ExprNode.set_resolvedType_twice, ExprNode.all_resolved, pure, Except.pure, *])
termination_by structural e => e
theorem type_of_tuple_expressions_stable :
    ∀ (es : List ExprNode) (scope : Scope) (Ts : List ResolvedType) (es' : List ExprNode),
      type_of_tuple_expressions es scope = .ok (Ts, es') →
      type_of_tuple_expressions es' scope = .ok (Ts, es') ∧
        ExprNode.all_resolved_list es' = true
  | [], scope, Ts, es', h => by
    simp only [type_of_tuple_expressions, pure, Except.pure] at h
    cases h
    exact ⟨rfl, rfl⟩
  | e :: rest, scope, Ts, es', h => by
    simp only [type_of_tuple_expressions, bind, Except.bind] at h
    cases hc : type_of e scope with
    | error err => simp [hc] at h
    | ok rc =>
      obtain ⟨Tc, c'⟩ := rc
      cases hrest : type_of_tuple_expressions rest scope with
      | error err => simp [hc, hrest] at h
      | ok rr =>
        obtain ⟨Trest, rest'⟩ := rr
        obtain ⟨ic1, ic2⟩ := stable_child scope Tc c' (type_of_stable e scope Tc c' hc)
        obtain ⟨ir1, ir2⟩ := type_of_tuple_expressions_stable rest scope Trest rest' hrest
        simp only [hc, hrest, pure, Except.pure] at h
        cases h
        simp [type_of_tuple_expressions, ic1, ic2, ir1, ir2, bind, Except.bind,
          ExprNode.set_resolvedType_twice, ExprNode.all_resolved_list, pure, Except.pure]
termination_by structural es => es
theorem type_of_array_expressions_stable :
    ∀ (element_rtype : ResolvedType) (es : List ExprNode) (scope : Scope) (es' : List ExprNode),
      type_of_array_expressions element_rtype es scope = .ok es' →
      type_of_array_expressions element_rtype es' scope = .ok es' ∧
        ExprNode.all_resolved_list es' = true
  | element_rtype, [], scope, es', h => by
    simp only [type_of_array_expressions, pure, Except.pure] at h
    cases h
    exact ⟨rfl, rfl⟩
  | element_rtype, e :: rest, scope, es', h => by
    simp only [type_of_array_expressions, bind, Except.bind] at h
    cases hc : type_of e scope with
    | error err => simp [hc] at h
    | ok rc =>
      obtain ⟨Tc, c'⟩ := rc
      obtain ⟨ic1, ic2⟩ := stable_child scope Tc c' (type_of_stable e scope Tc c' hc)
      simp only [hc] at h
      by_cases hne : element_rtype.ne Tc = true
      · simp [hne, throw, throwThe, MonadExceptOf.throw] at h
      · cases hrest : type_of_array_expressions element_rtype rest scope with
        | error err => simp [hne, hrest] at h
        | ok rest' =>
          obtain ⟨ir1, ir2⟩ := type_of_array_expressions_stable element_rtype rest scope rest'
            hrest
          simp only [hne, Bool.false_eq_true, ↓reduceIte, hrest, pure, Except.pure] at h
          cases h
          simp [type_of_array_expressions, ic1, ic2, ir1, ir2, hne, bind, Except.bind,
            ExprNode.set_resolvedType_twice, ExprNode.all_resolved_list, pure, Except.pure]
termination_by structural _ es => es
theorem type_of_array_indices_stable :
    ∀ (es : List ExprNode) (scope : Scope) (es' : List ExprNode),
      type_of_array_indices es scope = .ok es' →
      type_of_array_indices es' scope = .ok es' ∧
        ExprNode.all_resolved_list es' = true ∧ es'.length = es.length
  | [], scope, es', h => by
    simp only [type_of_array_indices, pure, Except.pure] at h
    cases h
    exact ⟨rfl, rfl, rfl⟩
  | e :: rest, scope, es', h => by
    simp only [type_of_array_indices, bind, Except.bind] at h
    cases hc : type_of e scope with
    | error err => simp [hc] at h
    | ok rc =>
      obtain ⟨Tc, c'⟩ := rc
      obtain ⟨ic1, ic2⟩ := stable_child scope Tc c' (type_of_stable e scope Tc c' hc)
      simp only [hc] at h
      by_cases hne : Tc.type_name = .INT
      · cases hrest : type_of_array_indices rest scope with
        | error err => simp [hne, hrest] at h
        | ok rest' =>
          obtain ⟨ir1, ir2, ir3⟩ := type_of_array_indices_stable rest scope rest' hrest
          simp only [hne, ne_eq, not_true_eq_false, ↓reduceIte, hrest, pure, Except.pure] at h
          cases h
          simp [type_of_array_indices, ic1, ic2, ir1, ir2, ir3, hne, bind, Except.bind,
            ExprNode.set_resolvedType_twice, ExprNode.all_resolved_list, pure, Except.pure]
      · simp [hne, throw, throwThe, MonadExceptOf.throw] at h
termination_by structural es => es
theorem type_of_arguments_stable :
    ∀ (expected : List ResolvedType) (es : List ExprNode) (scope : Scope) (es' : List ExprNode),
      type_of_arguments expected es scope = .ok es' →
      type_of_arguments expected es' scope = .ok es' ∧
        (expected.length = es.length → ExprNode.all_resolved_list es' = true) ∧
        es'.length = es.length
  | _, [], scope, es', h => by
    simp only [type_of_arguments, pure, Except.pure] at h
    cases h
    exact ⟨by simp [type_of_arguments, pure, Except.pure], fun _ => rfl, rfl⟩
  | [], e :: rest, scope, es', h => by
    simp only [type_of_arguments, pure, Except.pure] at h
    cases h
    exact ⟨rfl, fun hl => by simp at hl, rfl⟩
  | p :: ps, e :: rest, scope, es', h => by
    simp only [type_of_arguments, bind, Except.bind] at h
    cases hc : type_of e scope with
    | error err => simp [hc] at h
    | ok rc =>
      obtain ⟨Tc, c'⟩ := rc
      obtain ⟨ic1, ic2⟩ := stable_child scope Tc c' (type_of_stable e scope Tc c' hc)
      simp only [hc] at h
      by_cases hne : p.ne Tc = true
      · simp [hne, throw, throwThe, MonadExceptOf.throw] at h
      · cases hrest : type_of_arguments ps rest scope with
        | error err => simp [hne, hrest] at h
        | ok rest' =>
          obtain ⟨ir1, ir2, ir3⟩ := type_of_arguments_stable ps rest scope rest' hrest
          simp only [hne, Bool.false_eq_true, ↓reduceIte, hrest, pure, Except.pure] at h
          cases h
          refine ⟨?_, ?_, ?_⟩
          · simp [type_of_arguments, ic1, ir1, hne, bind, Except.bind,
              ExprNode.set_resolvedType_twice, pure, Except.pure]
          · intro hl
            simp [ExprNode.all_resolved_list, ic2, ir2 (by simpa using hl)]
          · simp [ir3]
termination_by structural _ es => es
theorem type_of_loop_bounds_stable :
    ∀ (bounds : List (String × ExprNode)) (scope child : Scope)
      (typed : List (String × ExprNode)) (child' : Scope),
      type_of_loop_bounds bounds scope child = .ok (typed, child') →
      type_of_loop_bounds typed scope child = .ok (typed, child') ∧
        ExprNode.all_resolved_bounds typed = true ∧ typed.length = bounds.length
  | [], scope, child, typed, child', h => by
    simp only [type_of_loop_bounds, pure, Except.pure] at h
    cases h
    exact ⟨rfl, rfl, rfl⟩
  | (x, e) :: rest, scope, child, typed, child', h => by
    simp only [type_of_loop_bounds, bind, Except.bind] at h
    cases hc : type_of e scope with
    | error err => simp [hc] at h
    | ok rc =>
      obtain ⟨Tc, c'⟩ := rc
      obtain ⟨ic1, ic2⟩ := stable_child scope Tc c' (type_of_stable e scope Tc c' hc)
      simp only [hc] at h
      by_cases hne : Tc.type_name = .INT
      · simp only [hne, ne_eq, not_true_eq_false, ↓reduceIte] at h
        cases hadd : child.add x (.VariableInfo Tc) with
        | mk flag child1 =>
          cases flag with
          | false => simp [hadd, throw, throwThe, MonadExceptOf.throw] at h
          | true =>
            simp only [hadd] at h
            cases hrest : type_of_loop_bounds rest scope child1 with
            | error err => simp [hrest] at h
            | ok rr =>
              obtain ⟨rest', child2⟩ := rr
              obtain ⟨ir1, ir2, ir3⟩ := type_of_loop_bounds_stable rest scope child1 rest' child2
                hrest
              simp only [hrest, pure, Except.pure] at h
              cases h
              simp [type_of_loop_bounds, ic1, ic2, ir1, ir2, ir3, hne, hadd, bind, Except.bind,
                ExprNode.set_resolvedType_twice, ExprNode.all_resolved_bounds, pure,
                Except.pure]
      · simp [hne, throw, throwThe, MonadExceptOf.throw] at h
termination_by structural bounds => bounds
end

theorem typecheckStmt_stable (stmt stmt' : StmtNode) (scope scope' : Scope)
    (return_type : ResolvedType) (was_return : Bool)
    (h : typecheckStmt stmt scope return_type = .ok (was_return, stmt', scope')) :
    typecheckStmt stmt' scope return_type = .ok (was_return, stmt', scope') ∧
      stmt'.all_resolved = true := by
  cases stmt with
  | LetStmtNode lv e =>
    simp only [typecheckStmt, bind, Except.bind] at h
    cases hc : type_of e scope with
    | error err => simp [hc] at h
    | ok rc =>
      obtain ⟨Tc, c'⟩ := rc
      obtain ⟨ic1, ic2⟩ := stable_child scope Tc c' (type_of_stable e scope Tc c' hc)
      cases hadd : Scope.add_lvalue lv Tc scope with
      | error err => simp [hc, hadd] at h
      | ok s2 =>
        simp only [hc, hadd, pure, Except.pure] at h
        cases h
        simp [typecheckStmt, ic1, ic2, hadd, bind, Except.bind, pure, Except.pure,
          ExprNode.set_resolvedType_twice, StmtNode.all_resolved]
  | AssertStmtNode e str =>
    simp only [typecheckStmt, bind, Except.bind] at h
    cases hc : type_of e scope with
    | error err => simp [hc] at h
    | ok rc =>
      obtain ⟨Tc, c'⟩ := rc
      obtain ⟨ic1, ic2⟩ := stable_child scope Tc c' (type_of_stable e scope Tc c' hc)
      simp only [hc] at h
      split at h
      · cases h
      · simp only [pure, Except.pure] at h
        cases h
        simp [typecheckStmt, ic1, ic2, bind, Except.bind, pure, Except.pure,
          ExprNode.set_resolvedType_twice, StmtNode.all_resolved, *]
  | ReturnStmtNode e =>
    simp only [typecheckStmt, bind, Except.bind] at h
    cases hc : type_of e scope with
    | error err => simp [hc] at h
    | ok rc =>
      obtain ⟨Tc, c'⟩ := rc
      obtain ⟨ic1, ic2⟩ := stable_child scope Tc c' (type_of_stable e scope Tc c' hc)
      simp only [hc] at h
      split at h
      · cases h
      · simp only [pure, Except.pure] at h
        cases h
        simp [typecheckStmt, ic1, ic2, bind, Except.bind, pure, Except.pure,
          ExprNode.set_resolvedType_twice, StmtNode.all_resolved, *]

theorem typecheck_stmts_stable (return_type : ResolvedType) :
    ∀ (stmts stmts' : List StmtNode) (scope scope' : Scope) (init has_return : Bool),
      typecheck_stmts stmts scope return_type init = .ok (has_return, stmts', scope') →
      typecheck_stmts stmts' scope return_type init = .ok (has_return, stmts', scope') ∧
        stmts'.all StmtNode.all_resolved = true
  | [], _, _, _, init, has_return, h => by
    simp only [typecheck_stmts, pure, Except.pure] at h
    cases h
    exact ⟨rfl, rfl⟩
  | stmt :: rest, stmts', scope, scope', init, has_return, h => by
    simp only [typecheck_stmts, bind, Except.bind] at h
    cases h1 : typecheckStmt stmt scope return_type with
    | error err => simp [h1] at h
    | ok r =>
      obtain ⟨was_return, stmt', scope1⟩ := r
      cases h2 : typecheck_stmts rest scope1 return_type (init || was_return) with
      | error err => simp [h1, h2] at h
      | ok r2 =>
        obtain ⟨hr2, rest', scope2⟩ := r2
        obtain ⟨is1, is2⟩ := typecheckStmt_stable stmt stmt' scope scope1 return_type
          was_return h1
        obtain ⟨ir1, ir2⟩ := typecheck_stmts_stable return_type rest rest' scope1 scope2 _ _ h2
        simp only [h1, h2, pure, Except.pure] at h
        cases h
        simp [typecheck_stmts, is1, is2, ir1, ir2, bind, Except.bind, pure, Except.pure]

theorem typecheckCmd_stable : ∀ (cmd cmd' : CmdNode) (scope scope' : Scope),
    typecheckCmd cmd scope = .ok (cmd', scope') →
    typecheckCmd cmd' scope = .ok (cmd', scope') ∧ cmd'.all_resolved = true
  | .ShowCmdNode e, cmd', scope, scope', h => by
    simp only [typecheckCmd, bind, Except.bind] at h
    cases hc : type_of e scope with
    | error err => simp [hc] at h
    | ok rc =>
      obtain ⟨Tc, c'⟩ := rc
      obtain ⟨ic1, ic2⟩ := stable_child scope Tc c' (type_of_stable e scope Tc c' hc)
      simp only [hc, pure, Except.pure] at h
      cases h
      simp [typecheckCmd, ic1, ic2, bind, Except.bind, pure, Except.pure,
        ExprNode.set_resolvedType_twice, CmdNode.all_resolved]
  | .ReadCmdNode f a, cmd', scope, scope', h => by
    simp only [typecheckCmd, bind, Except.bind] at h
    split at h
    · cases h
    · simp only [pure, Except.pure] at h
      cases h
      simp [typecheckCmd, bind, Except.bind, pure, Except.pure, CmdNode.all_resolved, *]
  | .WriteCmdNode e f, cmd', scope, scope', h => by
    have h0 := h
    simp only [typecheckCmd, bind, Except.bind] at h
    cases hc : type_of e scope with
    | error err => simp [hc] at h
    | ok rc =>
      obtain ⟨Tc, c'⟩ := rc
      obtain ⟨ic1, ic2⟩ := stable_child scope Tc c' (type_of_stable e scope Tc c' hc)
      simp only [hc] at h
      have hsame : typecheckCmd (.WriteCmdNode (c'.set_resolvedType Tc) f) scope =
          typecheckCmd (.WriteCmdNode e f) scope := by
        simp only [typecheckCmd, hc, ic1, bind, Except.bind, ExprNode.set_resolvedType_twice]
      have hcmd : cmd' = .WriteCmdNode (c'.set_resolvedType Tc) f := by
        (repeat' split at h) <;>
          first
          | (cases h; done)
          | (simp only [pure, Except.pure] at h
             cases h
             rfl)
      subst hcmd
      exact ⟨hsame.trans h0, by simpa [CmdNode.all_resolved] using ic2⟩
  | .LetCmdNode lv e, cmd', scope, scope', h => by
    simp only [typecheckCmd, bind, Except.bind] at h
    cases hc : type_of e scope with
    | error err => simp [hc] at h
    | ok rc =>
      obtain ⟨Tc, c'⟩ := rc
      obtain ⟨ic1, ic2⟩ := stable_child scope Tc c' (type_of_stable e scope Tc c' hc)
      cases hadd : Scope.add_lvalue lv Tc scope with
      | error err => simp [hc, hadd] at h
      | ok s2 =>
        simp only [hc, hadd, pure, Except.pure] at h
        cases h
        simp [typecheckCmd, ic1, ic2, hadd, bind, Except.bind, pure, Except.pure,
          ExprNode.set_resolvedType_twice, CmdNode.all_resolved]
  | .AssertCmdNode e str, cmd', scope, scope', h => by
    simp only [typecheckCmd, bind, Except.bind] at h
    cases hc : type_of e scope with
    | error err => simp [hc] at h
    | ok rc =>
      obtain ⟨Tc, c'⟩ := rc
      obtain ⟨ic1, ic2⟩ := stable_child scope Tc c' (type_of_stable e scope Tc c' hc)
      simp only [hc] at h
      split at h
      · cases h
      · simp only [pure, Except.pure] at h
        cases h
        simp [typecheckCmd, ic1, ic2, bind, Except.bind, pure, Except.pure,
          ExprNode.set_resolvedType_twice, CmdNode.all_resolved, *]
  | .PrintCmdNode str, cmd', scope, scope', h => by
    simp only [typecheckCmd, pure, Except.pure] at h
    cases h
    exact ⟨rfl, rfl⟩
  | .TimeCmdNode c, cmd', scope, scope', h => by
    simp only [typecheckCmd, bind, Except.bind] at h
    cases hc : typecheckCmd c scope with
    | error err => simp [hc] at h
    | ok rc =>
      obtain ⟨c', s1⟩ := rc
      obtain ⟨ic1, ic2⟩ := typecheckCmd_stable c c' scope s1 hc
      simp only [hc, pure, Except.pure] at h
      cases h
      simp [typecheckCmd, ic1, ic2, bind, Except.bind, pure, Except.pure,
        CmdNode.all_resolved]
  | .TypeCmdNode v t, cmd', scope, scope', h => by
    simp only [typecheckCmd, bind, Except.bind] at h
    (repeat' split at h) <;>
      first
      | (cases h; done)
      | (simp only [pure, Except.pure, throw, throwThe, MonadExceptOf.throw] at h
         cases h
         simp [typecheckCmd, bind, Except.bind, pure, Except.pure, CmdNode.all_resolved, *])
  | .FnCmd name args rt body, cmd', scope, scope', h => by
    simp only [typecheckCmd, bind, Except.bind] at h
    cases hb : typecheck_bindings args scope scope.createNestedScope with
    | error err => simp [hb] at h
    | ok rb =>
      obtain ⟨arg_rtypes, fscope⟩ := rb
      cases hr : resolve_type rt scope with
      | error err => simp [hb, hr] at h
      | ok return_type =>
        cases hadd : scope.add name (.FuncInfo return_type arg_rtypes) with
        | mk flag s1 =>
          cases flag with
          | false => simp [hb, hr, hadd, throw, throwThe, MonadExceptOf.throw] at h
          | true =>
            cases hs : typecheck_stmts body (reparent fscope s1) return_type false with
            | error err => simp [hb, hr, hadd, hs] at h
            | ok rs =>
              obtain ⟨has_return, body', fs2⟩ := rs
              obtain ⟨is1, is2⟩ := typecheck_stmts_stable return_type body body'
                (reparent fscope s1) fs2 false has_return hs
              simp only [hb, hr, hadd, hs] at h
              split at h
              · cases h
              · simp only [pure, Except.pure] at h
                cases h
                simp [typecheckCmd, hb, hr, hadd, is1, is2, bind, Except.bind, pure,
                  Except.pure, CmdNode.all_resolved, *]

theorem typecheck_cmds_stable :
    ∀ (cmds cmds' : List CmdNode) (scope scope' : Scope),
      typecheck_cmds cmds scope = .ok (cmds', scope') →
      typecheck_cmds cmds' scope = .ok (cmds', scope') ∧
        ∀ c ∈ cmds', c.all_resolved = true
  | [], _, _, _, h => by
    simp only [typecheck_cmds, pure, Except.pure] at h
    cases h
    exact ⟨rfl, by simp⟩
  | cmd :: rest, cmds', scope, scope', h => by
    simp only [typecheck_cmds, bind, Except.bind] at h
    cases h1 : typecheckCmd cmd scope with
    | error err => simp [h1] at h
    | ok r =>
      obtain ⟨cmd', scope1⟩ := r
      cases h2 : typecheck_cmds rest scope1 with
      | error err => simp [h1, h2] at h
      | ok r2 =>
        obtain ⟨rest', scope2⟩ := r2
        obtain ⟨ic1, ic2⟩ := typecheckCmd_stable cmd cmd' scope scope1 h1
        obtain ⟨ir1, ir2⟩ := typecheck_cmds_stable rest rest' scope1 scope2 h2
        simp only [h1, h2, pure, Except.pure] at h
        cases h
        refine ⟨by simp [typecheck_cmds, ic1, ir1, bind, Except.bind, pure, Except.pure], ?_⟩
        intro c hc
        rcases List.mem_cons.1 hc with rfl | hc
        · exact ic2
        · exact ir2 c hc

/-- C16: when `typecheck` succeeds on a command list, every expression node
reachable from the annotated commands (sub-expressions, call arguments, array
indices, loop bounds and bodies, expressions of function-body statements and of
timed commands) has its `resolvedType` slot set, and running the resolver
again over the annotated commands writes the same types into the same slots:
it returns the annotated commands and the scope unchanged.  For an expression,
the node annotated with the type `type_of` returned stores that type, `type_of`
computes that type for it again, and all its slots are set. -/
theorem typecheck_annotates (commands commands' : List CmdNode) (scope : Scope)
    (h : typecheck commands = .ok (commands', scope)) :
    (∀ c ∈ commands', c.all_resolved = true) ∧
    typecheck commands' = .ok (commands', scope) ∧
    (∀ (e e' : ExprNode) (expression_scope : Scope) (T : ResolvedType),
      type_of e expression_scope = .ok (T, e') →
      (e'.set_resolvedType T).resolvedType = some T ∧
      type_of (e'.set_resolvedType T) expression_scope = .ok (T, e'.set_resolvedType T) ∧
      (e'.set_resolvedType T).all_resolved = true) := by
  obtain ⟨h1, h2⟩ := typecheck_cmds_stable commands commands' create_global_scope scope h
  refine ⟨h2, h1, ?_⟩
  intro e e' expression_scope T he
  obtain ⟨i1, i2⟩ := stable_child expression_scope T e'
    (type_of_stable e expression_scope T e' he)
  exact ⟨by simp [ExprNode.set_resolvedType, ExprNode.resolvedType, ExprNode.slots_set_slots],
    i1, i2⟩

/-- The theorem `typecheck_annotates` at the program `let x = 1`, `show x + 2`. -/
theorem typecheck_annotates_witness :
    typecheck
        [ .LetCmdNode (.ArgumentLValue (.VarArgumentNode "x")) (.IntExprNode .fresh 1),
          .ShowCmdNode (.BinopExprNode .fresh (.VariableExprNode .fresh "x") .PLUS
            (.IntExprNode .fresh 2)) ] =
      .ok ([ .LetCmdNode (.ArgumentLValue (.VarArgumentNode "x"))
              (.IntExprNode ⟨some .IntRType, .NONE⟩ 1),
            .ShowCmdNode (.BinopExprNode ⟨some .IntRType, .NONE⟩
              (.VariableExprNode ⟨some .IntRType, .NONE⟩ "x") .PLUS
              (.IntExprNode ⟨some .IntRType, .NONE⟩ 2)) ],
        create_global_scope.extend [("x", .VariableInfo .IntRType)]) ∧
    typecheck
        [ .LetCmdNode (.ArgumentLValue (.VarArgumentNode "x"))
            (.IntExprNode ⟨some .IntRType, .NONE⟩ 1),
          .ShowCmdNode (.BinopExprNode ⟨some .IntRType, .NONE⟩
            (.VariableExprNode ⟨some .IntRType, .NONE⟩ "x") .PLUS
            (.IntExprNode ⟨some .IntRType, .NONE⟩ 2)) ] =
      .ok ([ .LetCmdNode (.ArgumentLValue (.VarArgumentNode "x"))
              (.IntExprNode ⟨some .IntRType, .NONE⟩ 1),
            .ShowCmdNode (.BinopExprNode ⟨some .IntRType, .NONE⟩
              (.VariableExprNode ⟨some .IntRType, .NONE⟩ "x") .PLUS
              (.IntExprNode ⟨some .IntRType, .NONE⟩ 2)) ],
        create_global_scope.extend [("x", .VariableInfo .IntRType)]) :=
  ⟨rfl,
    (typecheck_annotates
      [ .LetCmdNode (.ArgumentLValue (.VarArgumentNode "x")) (.IntExprNode .fresh 1),
        .ShowCmdNode (.BinopExprNode .fresh (.VariableExprNode .fresh "x") .PLUS
          (.IntExprNode .fresh 2)) ]
      [ .LetCmdNode (.ArgumentLValue (.VarArgumentNode "x"))
          (.IntExprNode ⟨some .IntRType, .NONE⟩ 1),
        .ShowCmdNode (.BinopExprNode ⟨some .IntRType, .NONE⟩
          (.VariableExprNode ⟨some .IntRType, .NONE⟩ "x") .PLUS
          (.IntExprNode ⟨some .IntRType, .NONE⟩ 2)) ]
      (create_global_scope.extend [("x", .VariableInfo .IntRType)]) rfl).2.1⟩

end Typechecker

/-! ## Properties of the code generator -/

namespace Compiler
open Typechecker Parser

theorem calc_stack_size_sum_eq (ts : List ResolvedType) :
    calc_stack_size_sum ts = (ts.map calc_stack_size).sum % 2 ^ 32 := by
  induction ts with
  | nil => simp [calc_stack_size_sum]
  | cons t ts ih =>
    simp only [calc_stack_size_sum, ih, List.map_cons, List.sum_cons]
    omega

mutual
theorem calc_stack_size_dvd : ∀ T : ResolvedType, 8 ∣ calc_stack_size T
  | .IntRType => by simp [calc_stack_size]
  | .FloatRType => by simp [calc_stack_size]
  | .BoolRType => by simp [calc_stack_size]
  | .TupleRType ts => by simp only [calc_stack_size]; exact calc_stack_size_sum_dvd ts
  | .ArrayRType _ r => by simp only [calc_stack_size]; omega
theorem calc_stack_size_sum_dvd : ∀ ts : List ResolvedType, 8 ∣ calc_stack_size_sum ts
  | [] => by simp [calc_stack_size_sum]
  | t :: ts => by
    simp only [calc_stack_size_sum]
    have h1 := calc_stack_size_dvd t
    have h2 := calc_stack_size_sum_dvd ts
    omega
end

theorem calc_stack_size_sum_lt (ts : List ResolvedType) : calc_stack_size_sum ts < 2 ^ 32 := by
  cases ts with
  | nil => simp [calc_stack_size_sum]
  | cons t ts => simp only [calc_stack_size_sum]; omega

theorem calc_stack_size_lt (T : ResolvedType) : calc_stack_size T < 2 ^ 32 := by
  cases T with
  | TupleRType ts => simp only [calc_stack_size]; exact calc_stack_size_sum_lt ts
  | ArrayRType e r => simp only [calc_stack_size]; omega
  | _ => simp [calc_stack_size]

/-- The size of a tuple of `count` elements of one type. -/
theorem calc_stack_size_sum_replicate (count : Nat) (T : ResolvedType) :
    calc_stack_size_sum (List.replicate count T) = (count * calc_stack_size T) % 2 ^ 32 := by
  rw [calc_stack_size_sum_eq]
  simp

/-- The size of the type `wide_type n` is `2 ^ (13 + 3 * n)` modulo `2 ^ 32`. -/
theorem calc_stack_size_wide_type (n : Nat) :
    calc_stack_size (wide_type n) = 2 ^ (13 + 3 * n) % 2 ^ 32 := by
  induction n with
  | zero => simp [wide_type, calc_stack_size]
  | succ n ih =>
    simp only [wide_type, calc_stack_size, calc_stack_size_sum_replicate, ih]
    have e : 2 ^ (13 + 3 * (n + 1)) = 8 * 2 ^ (13 + 3 * n) := by
      rw [show 13 + 3 * (n + 1) = (13 + 3 * n) + 3 by ring, pow_add]; ring
    rw [e]
    omega

/-- C7, counterexample: the type `t7` of the commands
`type t0 = int[,...,]` (rank 1023), `type t1 = {t0, t0, t0, t0, t0, t0, t0, t0}`,
..., `type t7 = {t6, t6, t6, t6, t6, t6, t6, t6}` is a tuple of eight elements
of size `2^31` each: the sum of the sizes of its element types is `2^34`, and
`calc_stack_size` gives 0 for it. -/
theorem calc_stack_size_wraps :
    wide_type 7 = .TupleRType (List.replicate 8 (wide_type 6)) ∧
    calc_stack_size (wide_type 6) = 2 ^ 31 ∧
    ((List.replicate 8 (wide_type 6)).map calc_stack_size).sum = 2 ^ 34 ∧
    calc_stack_size (wide_type 7) = 0 := by
  refine ⟨rfl, ?_, ?_, ?_⟩
  · rw [calc_stack_size_wide_type]; norm_num
  · simp only [List.map_replicate, List.sum_replicate, calc_stack_size_wide_type]; norm_num
  · rw [calc_stack_size_wide_type]; norm_num

/-- C7, as amended: `calc_stack_size`, an `unsigned int`, is 8 for Int, Float
and Bool; for a tuple it is the sum of the sizes of the element types reduced
modulo `2^32` (0 for the empty tuple), which is the sum itself whenever the sum
is below `2^32`; for an array it is `8 + 8 * rank` reduced modulo `2^32`, which
is `8 + 8 * rank` itself whenever `rank < 2^29 - 1`; it is a multiple of 8 and
below `2^32` for every resolved type. -/
theorem calc_stack_size_modulo :
    calc_stack_size .IntRType = 8 ∧ calc_stack_size .FloatRType = 8 ∧
    calc_stack_size .BoolRType = 8 ∧
    (∀ ts, calc_stack_size (.TupleRType ts) = (ts.map calc_stack_size).sum % 2 ^ 32) ∧
    (∀ ts, (ts.map calc_stack_size).sum < 2 ^ 32 →
      calc_stack_size (.TupleRType ts) = (ts.map calc_stack_size).sum) ∧
    calc_stack_size (.TupleRType []) = 0 ∧
    (∀ e r, calc_stack_size (.ArrayRType e r) = (8 + 8 * r) % 2 ^ 32) ∧
    (∀ e r, r < 2 ^ 29 - 1 → calc_stack_size (.ArrayRType e r) = 8 + 8 * r) ∧
    (∀ T, 8 ∣ calc_stack_size T) ∧
    (∀ T, calc_stack_size T < 2 ^ 32) := by
  refine ⟨rfl, rfl, rfl, ?_, ?_, rfl, ?_, ?_, calc_stack_size_dvd, calc_stack_size_lt⟩
  · intro ts; simp only [calc_stack_size]; exact calc_stack_size_sum_eq ts
  · intro ts h
    simp only [calc_stack_size]
    rw [calc_stack_size_sum_eq, Nat.mod_eq_of_lt h]
  · intro e r; simp only [calc_stack_size]
  · intro e r h
    simp only [calc_stack_size]
    omega

/-- The theorem `calc_stack_size_modulo` at the tuple type `{int, float[,]}`
and at the array type `float[,]`: the sizes are 32 and 24. -/
theorem calc_stack_size_modulo_witness :
    calc_stack_size (.TupleRType [.IntRType, .ArrayRType .FloatRType 2]) =
      ([ResolvedType.IntRType, .ArrayRType .FloatRType 2].map calc_stack_size).sum ∧
    calc_stack_size (.ArrayRType .FloatRType 2) = 8 + 8 * 2 :=
  ⟨calc_stack_size_modulo.2.2.2.2.1 [.IntRType, .ArrayRType .FloatRType 2] (by decide),
    calc_stack_size_modulo.2.2.2.2.2.2.2.1 .FloatRType 2 (by decide)⟩

theorem find_le (cs : List String) (d : String) : find cs d ≤ cs.length := by
  induction cs with
  | nil => simp [find]
  | cons c cs ih => simp only [find]; split <;> simp; omega

theorem find_lt_iff_mem (cs : List String) (d : String) : find cs d < cs.length ↔ d ∈ cs := by
  induction cs with
  | nil => simp [find]
  | cons c cs ih =>
    simp only [find]
    by_cases h : c = d
    · simp [h]
    · simp only [h, ↓reduceIte, List.length_cons, Nat.add_lt_add_iff_right, ih, List.mem_cons]
      constructor
      · intro hm; exact Or.inr hm
      · rintro (hm | hm)
        · exact absurd hm.symm h
        · exact hm

theorem find_get (cs : List String) (d : String) (h : find cs d < cs.length) :
    cs.get ⟨find cs d, h⟩ = d := by
  induction cs with
  | nil => simp at h
  | cons c cs ih =>
    by_cases hc : c = d
    · simp [find, hc]
    · simp only [find, hc, ↓reduceIte, List.length_cons, Nat.add_lt_add_iff_right] at h
      simp only [find, hc, ↓reduceIte, List.get_eq_getElem, List.getElem_cons_succ]
      simpa using ih h

theorem find_first (cs : List String) (d : String) (k : Nat) (hk : k < find cs d)
    (h : k < cs.length) : cs.get ⟨k, h⟩ ≠ d := by
  induction cs generalizing k with
  | nil => simp at h
  | cons c cs ih =>
    by_cases hc : c = d
    · simp [find, hc] at hk
    · simp only [find, hc, ↓reduceIte] at hk
      cases k with
      | zero => simpa using hc
      | succ k =>
        simp only [List.length_cons, Nat.add_lt_add_iff_right] at h
        simpa using ih k (by omega) h

theorem find_append_of_mem (cs : List String) (d x : String) (h : d ∈ cs) :
    find (cs ++ [x]) d = find cs d := by
  induction cs with
  | nil => simp at h
  | cons c cs ih =>
    by_cases hc : c = d
    · simp [find, hc]
    · have : d ∈ cs := by
        rcases List.mem_cons.1 h with h | h
        · exact absurd h.symm hc
        · exact h
      simp [find, hc, ih this]

theorem find_append_self (cs : List String) (d : String) (h : d ∉ cs) :
    find (cs ++ [d]) d = cs.length := by
  induction cs with
  | nil => simp [find]
  | cons c cs ih =>
    have hc : ¬ c = d := fun hh => h (by simp [hh])
    have hd : d ∉ cs := fun hh => h (by simp [hh])
    simp [find, hc, ih hd]

theorem add_constant_raw_of_mem (cs : List String) (d : String) (h : d ∈ cs) :
    add_constant_raw cs d = ("const" ++ toString (find cs d), cs) := by
  have := (find_lt_iff_mem cs d).2 h
  simp [add_constant_raw, Nat.ne_of_lt this]

theorem add_constant_raw_of_not_mem (cs : List String) (d : String) (h : d ∉ cs) :
    add_constant_raw cs d = ("const" ++ toString cs.length, cs ++ [d]) := by
  have h1 : ¬ find cs d < cs.length := fun hh => h ((find_lt_iff_mem cs d).1 hh)
  have h2 : find cs d = cs.length := by have := find_le cs d; omega
  simp [add_constant_raw, h2]

/-- C8: `add_constant_raw d` returns the label `const` followed by the index
of the first occurrence of `d` in the resulting pool; adding `d` once more
returns the same label and leaves the pool unchanged; adding `d` changes
neither the index nor the label of a directive already in the pool, and adding
a directive already in the pool leaves the pool as it is. -/
theorem add_constant_raw_dedup (constants : List String) (d : String) :
    (add_constant_raw constants d).1
        = "const" ++ toString (find (add_constant_raw constants d).2 d) ∧
    (∃ h : find (add_constant_raw constants d).2 d < (add_constant_raw constants d).2.length,
        (add_constant_raw constants d).2.get ⟨find (add_constant_raw constants d).2 d, h⟩ = d) ∧
    (∀ k (hk : k < (add_constant_raw constants d).2.length),
        k < find (add_constant_raw constants d).2 d →
        (add_constant_raw constants d).2.get ⟨k, hk⟩ ≠ d) ∧
    add_constant_raw (add_constant_raw constants d).2 d = add_constant_raw constants d ∧
    (∀ d', d' ∈ constants →
        find (add_constant_raw constants d).2 d' = find constants d' ∧
        (add_constant_raw (add_constant_raw constants d).2 d').1
          = (add_constant_raw constants d').1 ∧
        (add_constant_raw constants d').2 = constants) := by
  by_cases h : d ∈ constants
  · rw [add_constant_raw_of_mem constants d h]
    refine ⟨rfl, ⟨(find_lt_iff_mem _ _).2 h, find_get _ _ _⟩, ?_, ?_, ?_⟩
    · intro k hk hlt; exact find_first _ _ k hlt hk
    · exact add_constant_raw_of_mem constants d h
    · intro d' hd'
      exact ⟨rfl, rfl, by rw [add_constant_raw_of_mem constants d' hd']⟩
  · rw [add_constant_raw_of_not_mem constants d h]
    have hm : d ∈ constants ++ [d] := by simp
    refine ⟨?_, ⟨(find_lt_iff_mem _ _).2 hm, find_get _ _ _⟩, ?_, ?_, ?_⟩
    · simp only [find_append_self constants d h]
    · intro k hk hlt; exact find_first _ _ k hlt hk
    · rw [add_constant_raw_of_mem _ d hm, find_append_self constants d h]
    · intro d' hd'
      have hm' : d' ∈ constants ++ [d] := by simp [hd']
      refine ⟨find_append_of_mem _ _ _ hd', ?_, by rw [add_constant_raw_of_mem constants d' hd']⟩
      rw [add_constant_raw_of_mem _ d' hm', add_constant_raw_of_mem _ d' hd',
        find_append_of_mem _ _ _ hd']

namespace CallingConvention

theorem from_int_ne_STACK_r (n : Nat) (h : n < 6) : MemoryLocation.from_int n ≠ .STACK := by
  interval_cases n <;> simp [MemoryLocation.from_int]

theorem from_int_ne_STACK_f (n : Nat) (h : n < 8) : MemoryLocation.from_int (6 + n) ≠ .STACK := by
  interval_cases n <;> simp [MemoryLocation.from_int]

theorem is_float_of_integral (t : ResolvedType) (h : is_integral t = true) : is_float t = false := by
  cases t <;> simp_all [is_integral, is_float, ResolvedType.type_name]

theorem count_before_zero (p : ResolvedType → Bool) (ts : List ResolvedType) :
    count_before p ts 0 = 0 := by simp [count_before]

theorem count_before_succ (p : ResolvedType → Bool) (t : ResolvedType) (ts : List ResolvedType)
    (k : Nat) :
    count_before p (t :: ts) (k + 1) = (if p t then 1 else 0) + count_before p ts k := by
  simp only [count_before, List.take_succ_cons, List.filter_cons]
  split
  · simp only [List.length_cons]; omega
  · simp

theorem placements_from_cons (used_r used_f : Nat) (t : ResolvedType) (ts : List ResolvedType) (i : Nat) :
    placements_from used_r used_f (t :: ts) i =
      ⟨placement used_r used_f (t :: ts) 0, i⟩ ::
        (List.range ts.length).map
          (fun k => ⟨placement used_r used_f (t :: ts) (k + 1), i + 1 + k⟩) := by
  simp only [placements_from, List.length_cons, List.range_succ_eq_map, List.map_cons, List.map_map,
    Nat.add_zero, List.cons.injEq, true_and]
  apply List.map_congr_left
  intro k _
  simp only [Function.comp, Nat.succ_eq_add_one, MemoryLocationData.mk.injEq, true_and]
  omega

theorem placement_succ_int_reg (nr nf : Nat) (t : ResolvedType) (ts : List ResolvedType) (k : Nat)
    (ht : is_integral t = true) :
    placement nr nf (t :: ts) (k + 1) = placement (nr + 1) nf ts k := by
  have hf := is_float_of_integral t ht
  simp only [placement, List.get?_cons_succ, count_before_succ, ht, hf, ↓reduceIte]
  cases ts.get? k with
  | none => rfl
  | some a =>
    simp only [Bool.false_eq_true, ↓reduceIte, Nat.zero_add]
    have e : nr + (1 + count_before is_integral ts k) = nr + 1 + count_before is_integral ts k := by
      omega
    rw [e]

theorem placement_succ_int_full (nr nf : Nat) (t : ResolvedType) (ts : List ResolvedType) (k : Nat)
    (ht : is_integral t = true) (hr : ¬ nr < 6) :
    placement nr nf (t :: ts) (k + 1) = placement nr nf ts k := by
  have hf := is_float_of_integral t ht
  simp only [placement, List.get?_cons_succ, count_before_succ, ht, hf, ↓reduceIte]
  cases ts.get? k with
  | none => rfl
  | some a =>
    simp only [Bool.false_eq_true, ↓reduceIte, Nat.zero_add]
    have h1 : ¬ nr + (1 + count_before is_integral ts k) < 6 := by omega
    have h2 : ¬ nr + count_before is_integral ts k < 6 := by omega
    simp [h1, h2]

theorem placement_succ_float_reg (nr nf : Nat) (t : ResolvedType) (ts : List ResolvedType) (k : Nat)
    (ht : is_integral t = false) (hf : is_float t = true) :
    placement nr nf (t :: ts) (k + 1) = placement nr (nf + 1) ts k := by
  simp only [placement, List.get?_cons_succ, count_before_succ, ht, hf, ↓reduceIte]
  cases ts.get? k with
  | none => rfl
  | some a =>
    simp only [Bool.false_eq_true, ↓reduceIte, Nat.zero_add]
    have e : nf + (1 + count_before is_float ts k) = nf + 1 + count_before is_float ts k := by
      omega
    rw [e]

theorem placement_succ_float_full (nr nf : Nat) (t : ResolvedType) (ts : List ResolvedType)
    (k : Nat) (ht : is_integral t = false) (hf : is_float t = true) (hn : ¬ nf < 8) :
    placement nr nf (t :: ts) (k + 1) = placement nr nf ts k := by
  simp only [placement, List.get?_cons_succ, count_before_succ, ht, hf, ↓reduceIte]
  cases ts.get? k with
  | none => rfl
  | some a =>
    simp only [Bool.false_eq_true, ↓reduceIte, Nat.zero_add]
    have h1 : ¬ nf + (1 + count_before is_float ts k) < 8 := by omega
    have h2 : ¬ nf + count_before is_float ts k < 8 := by omega
    simp [h1, h2]

theorem placement_succ_other (nr nf : Nat) (t : ResolvedType) (ts : List ResolvedType) (k : Nat)
    (ht : is_integral t = false) (hf : is_float t = false) :
    placement nr nf (t :: ts) (k + 1) = placement nr nf ts k := by
  simp only [placement, List.get?_cons_succ, count_before_succ, ht, hf, ↓reduceIte]
  simp


theorem placement_zero (nr nf : Nat) (t : ResolvedType) (ts : List ResolvedType) :
    placement nr nf (t :: ts) 0 =
      if is_integral t then (if nr < 6 then MemoryLocation.from_int nr else .STACK)
      else if is_float t then (if nf < 8 then MemoryLocation.from_int (6 + nf) else .STACK)
      else .STACK := by
  simp [placement, count_before_zero]

theorem stack_bytes_cons (nr nf : Nat) (t : ResolvedType) (ts : List ResolvedType) :
    stack_bytes nr nf (t :: ts) =
      (if placement nr nf (t :: ts) 0 = .STACK then calc_stack_size t else 0) +
        ((List.range ts.length).map
          (fun k =>
            if placement nr nf (t :: ts) (k + 1) = .STACK then argument_size ts k
            else 0)).sum := by
  simp only [stack_bytes, List.length_cons, List.range_succ_eq_map, List.map_cons, List.map_map,
    List.sum_cons, argument_size, List.get?_cons_zero]
  congr 1

theorem place_arguments_spec (ts : List ResolvedType) :
    ∀ (i : Nat) (v : Locals), v.stack_argument_size < 2 ^ 32 →
      (place_arguments ts i v).register_arguments =
          v.register_arguments ++
            (placements_from v.next_free_r_register v.next_free_f_register ts i).filter
              (fun d => d.location ≠ .STACK) ∧
      (place_arguments ts i v).stack =
          v.stack ++
            (placements_from v.next_free_r_register v.next_free_f_register ts i).filter
              (fun d => d.location = .STACK) ∧
      (place_arguments ts i v).stack_argument_size =
          (v.stack_argument_size +
            stack_bytes v.next_free_r_register v.next_free_f_register ts) % 2 ^ 32 := by
  induction ts with
  | nil =>
    intro i v hv
    simp only [place_arguments, placements_from, stack_bytes, List.length_nil, List.range_zero,
      List.map_nil, List.filter_nil, List.append_nil, List.sum_nil, Nat.add_zero, true_and]
    exact (Nat.mod_eq_of_lt hv).symm
  | cons t ts ih =>
    intro i v hv
    obtain ⟨nr, nf, regs, stk, sz⟩ := v
    simp only at hv
    have hmod : (sz + calc_stack_size t) % 2 ^ 32 < 2 ^ 32 := Nat.mod_lt _ (by norm_num)
    simp only [place_arguments]
    by_cases hi : is_integral t = true
    · by_cases hr : nr < 6
      · have hp : place_argument ⟨nr, nf, regs, stk, sz⟩ i t =
            ⟨nr + 1, nf, regs ++ [⟨MemoryLocation.from_int nr, i⟩], stk, sz⟩ := by
          simp [place_argument, hi, hr, R_REGISTER_COUNT]
        have h0 : placement nr nf (t :: ts) 0 = MemoryLocation.from_int nr := by
          simp [placement_zero, hi, hr]
        have hne := from_int_ne_STACK_r nr hr
        obtain ⟨h1, h2, h3⟩ := ih (i + 1) ⟨nr + 1, nf, regs ++ [⟨MemoryLocation.from_int nr, i⟩], stk, sz⟩ hv
        rw [hp, h1, h2, h3, placements_from_cons, stack_bytes_cons, h0]
        simp only [placement_succ_int_reg nr nf t ts _ hi, List.filter_cons, hne, ne_eq,
          not_false_eq_true, decide_True, ↓reduceIte, decide_False, Bool.false_eq_true,
          List.append_assoc, List.singleton_append, Nat.zero_add]
        exact ⟨rfl, rfl, rfl⟩
      · have hf := is_float_of_integral t hi
        have hp : place_argument ⟨nr, nf, regs, stk, sz⟩ i t =
            ⟨nr, nf, regs, stk ++ [⟨.STACK, i⟩], (sz + calc_stack_size t) % 2 ^ 32⟩ := by
          simp [place_argument, hi, hr, hf, R_REGISTER_COUNT]
        have h0 : placement nr nf (t :: ts) 0 = .STACK := by
          simp [placement_zero, hi, hr]
        obtain ⟨h1, h2, h3⟩ := ih (i + 1) ⟨nr, nf, regs, stk ++ [⟨.STACK, i⟩], (sz + calc_stack_size t) % 2 ^ 32⟩ hmod
        rw [hp, h1, h2, h3, placements_from_cons, stack_bytes_cons, h0]
        simp only [placement_succ_int_full nr nf t ts _ hi hr, List.filter_cons, ne_eq,
          not_true_eq_false, decide_False, Bool.false_eq_true, ↓reduceIte, decide_True,
          List.append_assoc, List.singleton_append]
        refine ⟨rfl, rfl, ?_⟩
        simp only [stack_bytes]; omega
    · have hi' : is_integral t = false := by simpa using hi
      by_cases hf : is_float t = true
      · by_cases hn : nf < 8
        · have hp : place_argument ⟨nr, nf, regs, stk, sz⟩ i t =
              ⟨nr, nf + 1, regs ++ [⟨MemoryLocation.from_int (6 + nf), i⟩], stk, sz⟩ := by
            simp [place_argument, hi', hf, hn, R_REGISTER_COUNT, F_REGISTER_COUNT]
          have h0 : placement nr nf (t :: ts) 0 = MemoryLocation.from_int (6 + nf) := by
            simp [placement_zero, hi', hf, hn]
          have hne := from_int_ne_STACK_f nf hn
          obtain ⟨h1, h2, h3⟩ :=
            ih (i + 1) ⟨nr, nf + 1, regs ++ [⟨MemoryLocation.from_int (6 + nf), i⟩], stk, sz⟩ hv
          rw [hp, h1, h2, h3, placements_from_cons, stack_bytes_cons, h0]
          simp only [placement_succ_float_reg nr nf t ts _ hi' hf, List.filter_cons, hne, ne_eq,
            not_false_eq_true, decide_True, ↓reduceIte, decide_False, Bool.false_eq_true,
            List.append_assoc, List.singleton_append, Nat.zero_add]
          exact ⟨rfl, rfl, rfl⟩
        · have hp : place_argument ⟨nr, nf, regs, stk, sz⟩ i t =
              ⟨nr, nf, regs, stk ++ [⟨.STACK, i⟩], (sz + calc_stack_size t) % 2 ^ 32⟩ := by
            simp [place_argument, hi', hf, hn, F_REGISTER_COUNT]
          have h0 : placement nr nf (t :: ts) 0 = .STACK := by
            simp [placement_zero, hi', hf, hn]
          obtain ⟨h1, h2, h3⟩ :=
            ih (i + 1) ⟨nr, nf, regs, stk ++ [⟨.STACK, i⟩], (sz + calc_stack_size t) % 2 ^ 32⟩ hmod
          rw [hp, h1, h2, h3, placements_from_cons, stack_bytes_cons, h0]
          simp only [placement_succ_float_full nr nf t ts _ hi' hf hn, List.filter_cons, ne_eq,
            not_true_eq_false, decide_False, Bool.false_eq_true, ↓reduceIte, decide_True,
            List.append_assoc, List.singleton_append]
          refine ⟨rfl, rfl, ?_⟩
          simp only [stack_bytes]; omega
      · have hf' : is_float t = false := by simpa using hf
        have hp : place_argument ⟨nr, nf, regs, stk, sz⟩ i t =
            ⟨nr, nf, regs, stk ++ [⟨.STACK, i⟩], (sz + calc_stack_size t) % 2 ^ 32⟩ := by
          simp [place_argument, hi', hf']
        have h0 : placement nr nf (t :: ts) 0 = .STACK := by
          simp [placement_zero, hi', hf']
        obtain ⟨h1, h2, h3⟩ :=
          ih (i + 1) ⟨nr, nf, regs, stk ++ [⟨.STACK, i⟩], (sz + calc_stack_size t) % 2 ^ 32⟩ hmod
        rw [hp, h1, h2, h3, placements_from_cons, stack_bytes_cons, h0]
        simp only [placement_succ_other nr nf t ts _ hi' hf', List.filter_cons, ne_eq,
          not_true_eq_false, decide_False, Bool.false_eq_true, ↓reduceIte, decide_True,
          List.append_assoc, List.singleton_append]
        refine ⟨rfl, rfl, ?_⟩
        simp only [stack_bytes]; omega

theorem is_void_return_type_iff (r : ResolvedType) :
    is_void_return_type r = true ↔ r = .TupleRType [] := by
  cases r with
  | TupleRType ts =>
    cases ts with
    | nil => simp [is_void_return_type, ResolvedType.eq, ResolvedType.eq_elements]
    | cons t ts => simp [is_void_return_type, ResolvedType.eq]
  | _ => simp [is_void_return_type, ResolvedType.eq, ResolvedType.type_name]

theorem placements_eq (ret : ResolvedType) (args : List ResolvedType) :
    placements ret args = placements_from (reserved ret) 0 args 0 := by
  simp [placements, placements_from]

theorem create_eq (args : List ResolvedType) (ret : ResolvedType) :
    (create args ret).argument_pop_order =
        (placements ret args).filter (fun d => d.location ≠ .STACK) ++
          (placements ret args).filter (fun d => d.location = .STACK) ∧
    (create args ret).stack_argument_size = stack_bytes (reserved ret) 0 args % 2 ^ 32 := by
  have hres : (place_return ret).2.2 = reserved ret := by
    cases ret with
    | TupleRType ts =>
      cases ts with
      | nil =>
        simp [place_return, is_void_return_type, ResolvedType.eq, ResolvedType.eq_elements,
          reserved]
      | cons t ts =>
        simp [place_return, is_void_return_type, ResolvedType.eq, reserved,
          ResolvedType.type_name]
    | _ =>
      simp [place_return, is_void_return_type, ResolvedType.eq, ResolvedType.type_name, reserved]
  obtain ⟨h1, h2, h3⟩ := place_arguments_spec args 0 ⟨reserved ret, 0, [], [], 0⟩ (by norm_num)
  simp only [create, hres, placements_eq]
  rw [h1, h2, h3]
  simp

theorem find?_of_mem_nodup (l : List MemoryLocationData) (d : MemoryLocationData)
    (hn : (l.map (·.argument_number)).Nodup) (hd : d ∈ l) :
    l.find? (fun data => data.argument_number = d.argument_number) = some d := by
  induction l with
  | nil => simp at hd
  | cons a l ih =>
    simp only [List.map_cons, List.nodup_cons, List.mem_map, not_exists, not_and] at hn
    rcases List.mem_cons.1 hd with h | h
    · subst h; simp
    · have hne : ¬ a.argument_number = d.argument_number := fun hh => hn.1 d h hh.symm
      simp only [List.find?_cons, hne, decide_False]
      exact ih hn.2 h

theorem pop_order_numbers (args : List ResolvedType) (ret : ResolvedType) :
    ((create args ret).argument_pop_order.map (·.argument_number)).Perm
      (List.range args.length) := by
  rw [(create_eq args ret).1]
  have hp := List.filter_append_perm (fun d : MemoryLocationData => decide (d.location ≠ .STACK))
    (placements ret args)
  have hfun : (fun d : MemoryLocationData => !decide (d.location ≠ .STACK)) =
      (fun d : MemoryLocationData => decide (d.location = .STACK)) := by
    funext d; simp
  rw [hfun] at hp
  have := hp.map (·.argument_number)
  refine this.trans ?_
  have hid : (placements ret args).map (·.argument_number) = List.range args.length := by
    simp only [placements, List.map_map]
    exact List.map_id'' (fun _ => rfl) _
  rw [hid]

theorem location_of_create (args : List ResolvedType) (ret : ResolvedType) (i : Nat)
    (hi : i < args.length) :
    (create args ret).location_of i = some (placement (reserved ret) 0 args i) := by
  have hn : ((create args ret).argument_pop_order.map (·.argument_number)).Nodup :=
    (pop_order_numbers args ret).nodup_iff.2 (List.nodup_range _)
  have hmem : (⟨placement (reserved ret) 0 args i, i⟩ : MemoryLocationData) ∈
      (create args ret).argument_pop_order := by
    rw [(create_eq args ret).1]
    have hL : (⟨placement (reserved ret) 0 args i, i⟩ : MemoryLocationData) ∈
        placements ret args := by
      simp only [placements, List.mem_map, List.mem_range]
      exact ⟨i, hi, rfl⟩
    by_cases hs : placement (reserved ret) 0 args i = .STACK
    · exact List.mem_append_right _ (List.mem_filter.2 ⟨hL, by simp [hs]⟩)
    · exact List.mem_append_left _ (List.mem_filter.2 ⟨hL, by simp [hs]⟩)
  have := find?_of_mem_nodup _ _ hn hmem
  simp only [location_of]
  simp only at this
  rw [this]; rfl

theorem placement_ne_RDI (nf : Nat) (args : List ResolvedType) (i : Nat) :
    placement 1 nf args i ≠ .RDI := by
  simp only [placement]
  cases args.get? i with
  | none => simp
  | some t =>
    simp only
    split
    · split
      · rename_i h
        generalize count_before is_integral args i = c at h
        have hc : c < 5 := by omega
        interval_cases c <;> simp [MemoryLocation.from_int]
      · simp
    · split
      · split
        · rename_i h
          generalize nf + count_before is_float args i = c at h
          interval_cases c <;> simp [MemoryLocation.from_int]
        · simp
      · simp

/-- C4, counterexample: for a function of two arguments of the type `t6` of
the commands `type t0 = int[,...,]` (rank 1023),
`type t1 = {t0, t0, t0, t0, t0, t0, t0, t0}`, ..., `type t6 = {t5, ..., t5}`,
both arguments are placed on the stack and have size `2^31` each, so the sum
of their sizes is `2^32`, and `stack_argument_size` is 0. -/
theorem stack_argument_size_wraps :
    (create [wide_type 6, wide_type 6] .IntRType).argument_pop_order =
      [⟨.STACK, 0⟩, ⟨.STACK, 1⟩] ∧
    calc_stack_size (wide_type 6) = 2 ^ 31 ∧
    calc_stack_size (wide_type 6) + calc_stack_size (wide_type 6) = 2 ^ 32 ∧
    (create [wide_type 6, wide_type 6] .IntRType).stack_argument_size = 0 := by
  have h6 : calc_stack_size (wide_type 6) = 2 ^ 31 := by
    rw [calc_stack_size_wide_type]; norm_num
  refine ⟨by rfl, h6, by rw [h6]; norm_num, ?_⟩
  have hi : is_integral (wide_type 6) = false := rfl
  have hf : is_float (wide_type 6) = false := rfl
  simp [create, place_arguments, place_argument, hi, hf, h6]

/-- C4, as amended: the calling convention built from an argument list and a
return type places argument `i` where `placement` says: an Int or Bool argument
in the register of rdi, rsi, rdx, rcx, r8, r9 numbered by the count of integral
arguments before it (plus one when rdi is reserved for an aggregate return
slot), or on the stack once that number reaches six; a Float argument in the
register of xmm0..xmm7 numbered by the count of Float arguments before it, or
on the stack once that count reaches eight; a Tuple or Array argument on the
stack.  The pop order lists the register arguments and then the stack
arguments, each in argument order, and `stack_argument_size`, an
`unsigned int`, is the sum of `calc_stack_size` over exactly the arguments
placed on the stack, reduced modulo `2^32`: the sum itself whenever it is
below `2^32`. -/
theorem argument_placement (arguments : List ResolvedType)
    (return_type : ResolvedType) :
    (∀ i, i < arguments.length →
      (create arguments return_type).location_of i
        = some (placement (reserved return_type) 0 arguments i)) ∧
    (create arguments return_type).argument_pop_order =
      (placements return_type arguments).filter (fun d => d.location ≠ .STACK) ++
        (placements return_type arguments).filter (fun d => d.location = .STACK) ∧
    (create arguments return_type).stack_argument_size
      = ((List.range arguments.length).map
          (fun i =>
            if placement (reserved return_type) 0 arguments i = .STACK then
              argument_size arguments i
            else 0)).sum % 2 ^ 32 ∧
    (((List.range arguments.length).map
          (fun i =>
            if placement (reserved return_type) 0 arguments i = .STACK then
              argument_size arguments i
            else 0)).sum < 2 ^ 32 →
      (create arguments return_type).stack_argument_size
        = ((List.range arguments.length).map
            (fun i =>
              if placement (reserved return_type) 0 arguments i = .STACK then
                argument_size arguments i
              else 0)).sum) ∧
    (∀ i arg_type, arguments.get? i = some arg_type →
      (is_integral arg_type = true →
        placement (reserved return_type) 0 arguments i =
          if reserved return_type + count_before is_integral arguments i < 6 then
            MemoryLocation.from_int (reserved return_type + count_before is_integral arguments i)
          else .STACK) ∧
      (is_float arg_type = true →
        placement (reserved return_type) 0 arguments i =
          if count_before is_float arguments i < 8 then
            MemoryLocation.from_int (6 + count_before is_float arguments i)
          else .STACK) ∧
      (is_agregate arg_type = true →
        placement (reserved return_type) 0 arguments i = .STACK)) ∧
    [0, 1, 2, 3, 4, 5].map MemoryLocation.from_int = [.RDI, .RSI, .RDX, .RCX, .R8, .R9] ∧
    [6, 7, 8, 9, 10, 11, 12, 13].map MemoryLocation.from_int
      = [.XMM0, .XMM1, .XMM2, .XMM3, .XMM4, .XMM5, .XMM6, .XMM7] := by
  refine ⟨fun i hi => location_of_create arguments return_type i hi,
    (create_eq arguments return_type).1, (create_eq arguments return_type).2, ?_, ?_, rfl, rfl⟩
  · intro h
    rw [(create_eq arguments return_type).2]
    exact Nat.mod_eq_of_lt h
  intro i arg_type hget
  refine ⟨?_, ?_, ?_⟩
  · intro h; simp only [placement, hget, h, ↓reduceIte]
  · intro h
    have hi : is_integral arg_type = false := by
      cases arg_type <;> simp_all [is_integral, is_float, ResolvedType.type_name]
    simp only [placement, hget, h, hi, Bool.false_eq_true, ↓reduceIte, Nat.zero_add]
  · intro h
    have hi : is_integral arg_type = false := by
      cases arg_type <;> simp_all [is_integral, is_agregate, ResolvedType.type_name]
    have hf : is_float arg_type = false := by
      cases arg_type <;> simp_all [is_float, is_agregate, ResolvedType.type_name]
    simp only [placement, hget, hf, hi, Bool.false_eq_true, ↓reduceIte]

/-- The theorem `argument_placement` at nine arguments, seven of them
integral: the seventh integral argument and the tuple go on the stack. -/
theorem argument_placement_witness :
    (create [.IntRType, .FloatRType, .TupleRType [.IntRType, .IntRType], .BoolRType, .IntRType,
        .IntRType, .IntRType, .IntRType, .IntRType] .IntRType).location_of 8 = some .STACK ∧
    (create [.IntRType, .FloatRType, .TupleRType [.IntRType, .IntRType], .BoolRType, .IntRType,
        .IntRType, .IntRType, .IntRType, .IntRType] .IntRType).location_of 3 = some .RSI ∧
    (create [.IntRType, .FloatRType, .TupleRType [.IntRType, .IntRType], .BoolRType, .IntRType,
        .IntRType, .IntRType, .IntRType, .IntRType] .IntRType).stack_argument_size = 24 :=
  ⟨((argument_placement _ _).1 8 (by decide)).trans (by decide),
    ((argument_placement _ _).1 3 (by decide)).trans (by decide),
    ((argument_placement _ _).2.2.2.1 (by decide)).trans (by decide)⟩

/-- C5: the calling convention of a return type `R` is void exactly when `R`
is the empty tuple; otherwise the return location is RAX for Int and Bool,
XMM0 for Float, and STACK with `return_size = calc_stack_size R` for an array
or a non-empty tuple.  In the STACK case no argument is placed in rdi and the
first Int or Bool argument is placed in rsi. -/
theorem return_placement (arguments : List ResolvedType)
    (return_type : ResolvedType) :
    ((create arguments return_type).is_void_return = true ↔ return_type = .TupleRType []) ∧
    (return_type = .IntRType ∨ return_type = .BoolRType →
      (create arguments return_type).is_void_return = false ∧
      (create arguments return_type).return_location = some .RAX) ∧
    (return_type = .FloatRType →
      (create arguments return_type).is_void_return = false ∧
      (create arguments return_type).return_location = some .XMM0) ∧
    ((∃ element_type rank, return_type = .ArrayRType element_type rank) ∨
        (∃ first rest, return_type = .TupleRType (first :: rest)) →
      (create arguments return_type).is_void_return = false ∧
      (create arguments return_type).return_location = some .STACK ∧
      (create arguments return_type).return_size = calc_stack_size return_type ∧
      (∀ d ∈ (create arguments return_type).argument_pop_order, d.location ≠ .RDI) ∧
      (∀ i arg_type, arguments.get? i = some arg_type → is_integral arg_type = true →
        count_before is_integral arguments i = 0 →
        (create arguments return_type).location_of i = some .RSI)) := by
  refine ⟨?_, ?_, ?_, ?_⟩
  · simp only [create]; exact is_void_return_type_iff return_type
  · rintro (h | h) <;> subst h <;>
      simp [create, place_return, is_void_return_type, ResolvedType.eq, ResolvedType.type_name]
  · rintro h; subst h
    simp [create, place_return, is_void_return_type, ResolvedType.eq, ResolvedType.type_name]
  · intro h
    have hres : reserved return_type = 1 := by
      rcases h with ⟨e, r, h⟩ | ⟨t, ts, h⟩ <;> subst h <;> rfl
    have hbasic : (create arguments return_type).is_void_return = false ∧
        (create arguments return_type).return_location = some .STACK ∧
        (create arguments return_type).return_size = calc_stack_size return_type := by
      rcases h with ⟨e, r, h⟩ | ⟨t, ts, h⟩ <;> subst h <;>
        simp [create, place_return, is_void_return_type, ResolvedType.eq, ResolvedType.type_name]
    refine ⟨hbasic.1, hbasic.2.1, hbasic.2.2, ?_, ?_⟩
    · intro d hd
      rw [(create_eq arguments return_type).1] at hd
      have hmem : d ∈ placements return_type arguments := by
        rcases List.mem_append.1 hd with h' | h'
        · exact (List.mem_filter.1 h').1
        · exact (List.mem_filter.1 h').1
      simp only [placements, List.mem_map, List.mem_range, hres] at hmem
      obtain ⟨k, _, hk⟩ := hmem
      rw [← hk]
      exact placement_ne_RDI 0 arguments k
    · intro i arg_type hget hint hcount
      have hi : i < arguments.length := by
        by_contra hh
        have := List.get?_eq_none.2 (Nat.le_of_not_lt hh)
        rw [this] at hget; cases hget
      rw [location_of_create arguments return_type i hi, hres]
      simp only [placement, hget, hint, hcount, ↓reduceIte]
      rfl

/-- The theorem `return_placement` at a function returning `{int}`: the first
integral argument is placed in rsi. -/
theorem return_placement_witness :
    (create [.FloatRType, .IntRType] (.TupleRType [.IntRType])).return_location = some .STACK ∧
    (create [.FloatRType, .IntRType] (.TupleRType [.IntRType])).location_of 1 = some .RSI :=
  ⟨((return_placement [.FloatRType, .IntRType] (.TupleRType [.IntRType])).2.2.2
      (Or.inr ⟨_, _, rfl⟩)).2.1,
    ((return_placement [.FloatRType, .IntRType] (.TupleRType [.IntRType])).2.2.2
      (Or.inr ⟨_, _, rfl⟩)).2.2.2.2 1 .IntRType rfl rfl (by decide)⟩

end CallingConvention


open CallingConvention

set_option maxRecDepth 100000 in
/-- C3, failing input: in the program of the two commands
`fn f() : int {` / `let x = 5` / `return x` / `}` and
`fn g(c : bool) : {int, int} {` / `let x = {1, 2}` /
`return if c then x else {3, 4}` / `}` (`/` is a line break) at optimization
level 2, the then-branch of `g` pushes the 8 bytes of `push qword 5`, the
constant that the propagation pass left on `x` from `f`, the else-branch pushes
16 bytes, and `cg_ifexpr` counts 16 bytes, the size of the type, once.  The
epilogue releases the 40 bytes that the counter records.  On the run that
takes the jump `je .jump1` to the else-branch, the lines between the prologue
and `pop rbp` leave 8 bytes pushed, so `pop rbp` and `ret` read the wrong
words; on the run through the then-branch they leave 0.  At the levels 0 and
1 both runs leave 0. -/
theorem if_branches_counted_once :
    ((compile_source 60
        "fn f() : int \x7b\n let x = 5\n return x\n\x7d\nfn g(c : bool) : \x7bint, int\x7d \x7b\n let x = \x7b1, 2\x7d\n return if c then x else \x7b3, 4\x7d\n\x7d\n"
        2).map (lines_of "g")).toOption = some
      [.push "rdi", .push "rsi", .push "qword 2", .push "qword 1",
        .sub_rsp 8, .other "mov r10, [rbp - 16 + 0]", .other "mov [rsp + 0], r10",
        .pop "rax", .other "cmp rax, 0", .other "je .jump1",
        .push "qword 5", .other "jmp .jump2",
        .other ".jump1:", .push "qword 4", .push "qword 3",
        .other ".jump2:", .other "mov rax, [rbp - 8]",
        .other "mov r10, [rsp + 8]", .other "mov [rax + 8], r10",
        .other "mov r10, [rsp + 0]", .other "mov [rax + 0], r10",
        .add_rsp 40, .pop "rbp", .ret] ∧
    ((compile_source 60
        "fn f() : int \x7b\n let x = 5\n return x\n\x7d\nfn g(c : bool) : \x7bint, int\x7d \x7b\n let x = \x7b1, 2\x7d\n return if c then x else \x7b3, 4\x7d\n\x7d\n"
        2).map (fun assembly =>
          executed_lines (lines_of "g" assembly) 40 [true] (lines_of "g" assembly))).toOption
      = some
      [.push "rdi", .push "rsi", .push "qword 2", .push "qword 1",
        .sub_rsp 8, .other "mov r10, [rbp - 16 + 0]", .other "mov [rsp + 0], r10",
        .pop "rax", .other "cmp rax, 0", .other "je .jump1",
        .push "qword 4", .push "qword 3",
        .other ".jump2:", .other "mov rax, [rbp - 8]",
        .other "mov r10, [rsp + 8]", .other "mov [rax + 8], r10",
        .other "mov r10, [rsp + 0]", .other "mov [rax + 0], r10",
        .add_rsp 40, .pop "rbp", .ret] ∧
    ((compile_source 60
        "fn f() : int \x7b\n let x = 5\n return x\n\x7d\nfn g(c : bool) : \x7bint, int\x7d \x7b\n let x = \x7b1, 2\x7d\n return if c then x else \x7b3, 4\x7d\n\x7d\n"
        2).map (fun assembly =>
          [true, false].map (fun taken =>
            pushed_bytes ((executed_lines (lines_of "g" assembly) 40 [taken]
              (lines_of "g" assembly)).takeWhile (fun line => line ≠ .pop "rbp"))))).toOption
      = some [8, 0] ∧
    [0, 1].map (fun level =>
      ((compile_source 60
        "fn f() : int \x7b\n let x = 5\n return x\n\x7d\nfn g(c : bool) : \x7bint, int\x7d \x7b\n let x = \x7b1, 2\x7d\n return if c then x else \x7b3, 4\x7d\n\x7d\n"
        level).map (fun assembly =>
          [true, false].map (fun taken =>
            pushed_bytes ((executed_lines (lines_of "g" assembly) 40 [taken]
              (lines_of "g" assembly)).takeWhile (fun line => line ≠ .pop "rbp"))))).toOption)
      = [some [0, 0], some [0, 0]] := by
  refine ⟨by decide!, by decide!, by decide!, by decide!⟩

set_option maxRecDepth 100000 in
/-- C6, failing input: in the program of the three commands
`fn f() : int {` / `let x = 5` / `return x` / `}`,
`fn h(a : {int, int}, b : {int, int}) : int {` / `return b{0}` / `}` and
`fn g() : int {` / `let x = {1, 2}` / `return h(x, {3, 4})` / `}`
(`/` is a line break) at optimization level 2, both arguments of `h` are
placed on the stack and have 16 bytes each.  For the call, `g` pushes the two
words of `{3, 4}` and then, for the argument `x`, the single word
`push qword 5`, the constant that the propagation pass left on `x` from `f`:
24 bytes in all, so at `call _h` the second stack argument starts 8 bytes
above the stack pointer, not 16.  The callee `h` binds `a` at the offset -16
and `b` at the offset -32, that is at `rbp + 16` and `rbp + 32`, and reads
`b{0}` from `rbp + 32`, where the caller has put the second word of `b`. -/
theorem stack_argument_short_of_signature :
    ((compile_source 80
        "fn f() : int \x7b\n let x = 5\n return x\n\x7d\nfn h(a : \x7bint, int\x7d, b : \x7bint, int\x7d) : int \x7b\n return b\x7b0\x7d\n\x7d\nfn g() : int \x7b\n let x = \x7b1, 2\x7d\n return h(x, \x7b3, 4\x7d)\n\x7d\n"
        2).map (lines_of "g")).toOption = some
      [.push "qword 2", .push "qword 1",
        .push "qword 4", .push "qword 3", .push "qword 5", .call "_h",
        .add_rsp 16, .add_rsp 16, .push "rax", .pop "rax",
        .add_rsp 8, .pop "rbp", .ret] ∧
    pushed_bytes [.push "qword 4", .push "qword 3", .push "qword 5"] = 24 ∧
    (CallingConvention.create
        [.TupleRType [.IntRType, .IntRType], .TupleRType [.IntRType, .IntRType]]
        .IntRType).argument_pop_order = [⟨.STACK, 0⟩, ⟨.STACK, 1⟩] ∧
    calc_stack_size (.TupleRType [.IntRType, .IntRType]) = 16 ∧
    ((compile_source 80
        "fn f() : int \x7b\n let x = 5\n return x\n\x7d\nfn h(a : \x7bint, int\x7d, b : \x7bint, int\x7d) : int \x7b\n return b\x7b0\x7d\n\x7d\nfn g() : int \x7b\n let x = \x7b1, 2\x7d\n return h(x, \x7b3, 4\x7d)\n\x7d\n"
        2).map (fun assembly => (offset_of "h" "a" assembly, offset_of "h" "b" assembly))).toOption
      = some (some (-16), some (-32)) ∧
    ((compile_source 80
        "fn f() : int \x7b\n let x = 5\n return x\n\x7d\nfn h(a : \x7bint, int\x7d, b : \x7bint, int\x7d) : int \x7b\n return b\x7b0\x7d\n\x7d\nfn g() : int \x7b\n let x = \x7b1, 2\x7d\n return h(x, \x7b3, 4\x7d)\n\x7d\n"
        2).map (lines_of "h")).toOption = some
      [.sub_rsp 16, .other "mov r10, [rbp - -32 + 8]", .other "mov [rsp + 8], r10",
        .other "mov r10, [rbp - -32 + 0]", .other "mov [rsp + 0], r10",
        .other "mov r10, [rsp ]", .other "mov [rsp + 8], r10", .add_rsp 8,
        .pop "rax", .add_rsp 0, .pop "rbp", .ret] := by
  refine ⟨by decide!, by decide, by decide, by decide, by decide!, by decide!⟩

theorem push_back_all_run (lines : List Instr) (g : Generator) :
    (push_back_all lines).run g =
      .ok ((), ⟨g.assembly, ⟨g.fn.name, g.fn.assembly_code ++ lines, g.fn.is_main,
        g.fn.stack_size, g.fn.calls⟩, g.global_stack⟩) := by
  induction lines generalizing g with
  | nil => simp [push_back_all, StateT.run, pure, StateT.pure, Except.pure]
  | cons line rest ih =>
    have h := ih ⟨g.assembly, ⟨g.fn.name, g.fn.assembly_code ++ [line], g.fn.is_main,
        g.fn.stack_size, g.fn.calls⟩, g.global_stack⟩
    simp only [StateT.run] at h ⊢
    simp only [push_back_all, bind, StateT.bind, push_back, modify, modifyGet,
      MonadStateOf.modifyGet, StateT.modifyGet, pure, Except.pure, Except.bind, h,
      List.append_assoc, List.singleton_append]

theorem cg_expr_propagated_reference_run (g : Generator)
    (h : g.assembly.optimization_level = 2) :
    (cg_expr propagated_reference).run g =
      .ok ((), ⟨g.assembly,
        ⟨g.fn.name, g.fn.assembly_code ++ [.push "qword 5"], g.fn.is_main,
          g.fn.stack_size.increment_stack_size 8, g.fn.calls⟩, g.global_stack⟩) := by
  obtain ⟨a, f, gs⟩ := g
  simp only at h
  have h5 : under_32_bits 5 = true := by decide
  have hs : "qword " ++ toString (5 : Int) = "qword 5" := by decide
  simp [cg_expr, propagated_reference, cg_variableexpr, get_optimization_level, h,
    cg_push_constant_int, push_back, increment_stack_size, modify_stack, StateT.run, bind,
    StateT.bind, get, getThe, MonadStateOf.get, StateT.get, pure, StateT.pure, Except.pure,
    Except.bind, modify, modifyGet, MonadStateOf.modifyGet, StateT.modifyGet, MonadState.get,
    h5, hs]

/-- C1, failing input: in the program of the two commands
`fn f() : int {` / `let x = 5` / `return x` / `}` and
`fn g() : {int, int} {` / `let x = {1, 2}` / `return x` / `}`
(`/` is a line break) the resolver and the constant-propagation pass annotate the `x` returned by
`g` with the type `{int, int}`, of stack size 16, and with the integer constant
5 left in the unscoped propagation context by `f`.  At optimization level 2
`cg_expr` on that expression completes with the single line `push qword 5`
and the symbolic counter raised by 8, not 16; the compiled `g` is shown. -/
theorem cg_expr_propagated_reference_size :
    (resolve_and_propagate two_scopes_program).map
        (fun tree => tree.map function_contents_of) =
      .ok [ [ .LetStmtNode (.ArgumentLValue (.VarArgumentNode "x"))
                (.IntExprNode ⟨some .IntRType, .INT 5⟩ 5),
              .ReturnStmtNode (.VariableExprNode ⟨some .IntRType, .INT 5⟩ "x") ],
            [ .LetStmtNode (.ArgumentLValue (.VarArgumentNode "x"))
                (.TupleLiteralExprNode ⟨some (.TupleRType [.IntRType, .IntRType]), .NONE⟩
                  [.IntExprNode ⟨some .IntRType, .INT 1⟩ 1,
                    .IntExprNode ⟨some .IntRType, .INT 2⟩ 2]),
              .ReturnStmtNode propagated_reference ] ] ∧
    propagated_reference.resolvedType = some (.TupleRType [.IntRType, .IntRType]) ∧
    calc_stack_size (.TupleRType [.IntRType, .IntRType]) = 16 ∧
    (∀ g : Generator, g.assembly.optimization_level = 2 →
      ∃ g', (cg_expr propagated_reference).run g = .ok ((), g') ∧
        g'.fn.assembly_code = g.fn.assembly_code ++ [.push "qword 5"] ∧
        g'.fn.stack_size.stack_size = g.fn.stack_size.stack_size + 8) ∧
    (compile two_scopes_program 2).map
        (fun a => (a.functions.get? 1).map (fun (f : AFunction) => (f.name, f.assembly_code))) =
      .ok (some ("g",
        [ .push "rdi", .push "qword 2", .push "qword 1", .push "qword 5",
          .other "mov rax, [rbp - 8]",
          .other "mov r10, [rsp + 8]", .other "mov [rax + 8], r10",
          .other "mov r10, [rsp + 0]", .other "mov [rax + 0], r10",
          .add_rsp 32, .pop "rbp", .ret ])) := by
  refine ⟨by rfl, by rfl, by rfl, ?_, by rfl⟩
  intro g h
  exact ⟨_, cg_expr_propagated_reference_run g h, rfl, rfl⟩

/-- C2, failing input: compiling `show 1.0 % 2.0` at each optimization level
emits `call _fmod` with the symbolic stack size at 8, which is not a multiple
of 16, and then `call _show` with the symbolic stack size at 16. -/
theorem float_mod_call_alignment :
    (compile float_mod_program 0).map calls_of = .ok [("_fmod", 8), ("_show", 16)] ∧
    (compile float_mod_program 1).map calls_of = .ok [("_fmod", 8), ("_show", 16)] ∧
    (compile float_mod_program 2).map calls_of = .ok [("_fmod", 8), ("_show", 16)] ∧
    ¬ ((16 : Int) ∣ 8) :=
  ⟨by rfl, by rfl, by rfl, by decide⟩

/-! ### Powers of two and the products, quotients and remainders by 1 -/

theorem land_pred_eq_zero_iff : ∀ n : Nat, n &&& (n - 1) = 0 ↔ n = 0 ∨ ∃ k : Nat, n = 2 ^ k := by
  intro n
  constructor
  · induction n using Nat.strong_induction_on with
    | _ n ih =>
      intro h
      rcases Nat.eq_zero_or_pos n with h0 | hpos
      · exact Or.inl h0
      · right
        have hdiv : (n &&& (n - 1)) / 2 = n / 2 &&& (n - 1) / 2 := Nat.and_div_two
        rw [h] at hdiv
        rcases Nat.even_or_odd n with he | ho
        · obtain ⟨m, hm⟩ := he
          have hm1 : 1 ≤ m := by omega
          have h1 : n / 2 = m := by omega
          have h2 : (n - 1) / 2 = m - 1 := by omega
          rw [h1, h2] at hdiv
          rcases ih m (by omega) hdiv.symm with h0 | ⟨k, hk⟩
          · omega
          · exact ⟨k + 1, by rw [pow_succ]; omega⟩
        · obtain ⟨m, hm⟩ := ho
          have h1 : n / 2 = m := by omega
          have h2 : (n - 1) / 2 = m := by omega
          rw [h1, h2, Nat.and_self] at hdiv
          exact ⟨0, by simp; omega⟩
  · rintro (h | ⟨k, rfl⟩)
    · subst h; rfl
    · rw [Nat.and_pow_two_sub_one_eq_mod]; exact Nat.mod_self _

theorem Int_land_pred_eq_zero_iff (x : Int) (hx : 0 ≤ x) :
    Int.land x (x - 1) = 0 ↔ x = 0 ∨ ∃ k : Nat, x = 2 ^ k := by
  obtain ⟨n, rfl⟩ := Int.eq_ofNat_of_zero_le hx
  rcases Nat.eq_zero_or_pos n with h0 | hpos
  · subst h0
    constructor
    · intro _; exact Or.inl rfl
    · intro _
      show Int.land (Int.ofNat 0) (Int.negSucc 0) = 0
      simp [Int.land, Nat.ldiff]
  · have hsub : (n : Int) - 1 = ((n - 1 : Nat) : Int) := by omega
    rw [hsub]
    have hland : Int.land (n : Int) ((n - 1 : Nat) : Int) = ((n &&& (n - 1) : Nat) : Int) := rfl
    rw [hland]
    constructor
    · intro h
      have h' : n &&& (n - 1) = 0 := by exact_mod_cast h
      rcases (land_pred_eq_zero_iff n).1 h' with h0 | ⟨k, hk⟩
      · omega
      · exact Or.inr ⟨k, by exact_mod_cast hk⟩
    · rintro (h | ⟨k, hk⟩)
      · omega
      · have hk' : n = 2 ^ k := by exact_mod_cast hk
        have := (land_pred_eq_zero_iff n).2 (Or.inr ⟨k, hk'⟩)
        exact_mod_cast this

theorem is_power_of_two_loop_pow (k : Nat) :
    ∀ fuel power : Nat, power ≤ k → k - power ≤ fuel →
      is_power_of_two_loop (2 ^ k) fuel power = k := by
  intro fuel
  induction fuel with
  | zero =>
    intro power h1 h2
    have : power = k := by omega
    subst this; rfl
  | succ fuel ih =>
    intro power h1 h2
    simp only [is_power_of_two_loop, Int.one_shiftLeft]
    by_cases hlt : power < k
    · have : ((2 ^ power : Nat) : Int) < 2 ^ k := by
        have := Nat.pow_lt_pow_right (a := 2) (by decide) hlt
        exact_mod_cast this
      rw [if_pos this]
      exact ih (power + 1) (by omega) (by omega)
    · have hpk : power = k := by omega
      subst hpk
      have : ¬ (((2 ^ power : Nat) : Int) < 2 ^ power) := by simp
      rw [if_neg this]

/-- C29, counterexample: on 0 the method returns `true`, with the power 0. -/
theorem is_power_of_two_zero : is_power_of_two 0 7 = (true, 0) := by
  have h : Int.land 0 (0 - 1) = 0 := (Int_land_pred_eq_zero_iff 0 (le_refl 0)).2 (Or.inl rfl)
  simp only [is_power_of_two, h]
  rfl

/-- C29, as amended: for every 64-bit signed integer `x`,
`is_power_of_two(x, p)` returns `true` iff `x` is 0 or `x = 2^k` for some
`k >= 0`; for `x = 2^k` it sets `p = k`, for `x = 0` it sets `p = 0`, and in
every other case, the negative values included, it returns `false` and leaves
`p` as it was. -/
theorem is_power_of_two_spec (x : Int) (p : Nat) (hx : x < 2 ^ 63) :
    ((is_power_of_two x p).1 = true ↔ x = 0 ∨ ∃ k : Nat, x = 2 ^ k) ∧
    (∀ k : Nat, x = 2 ^ k → is_power_of_two x p = (true, k)) ∧
    (x = 0 → is_power_of_two x p = (true, 0)) ∧
    (x < 0 → is_power_of_two x p = (false, p)) ∧
    ((is_power_of_two x p).1 = false → is_power_of_two x p = (false, p)) := by
  have hcond : (decide (x ≥ 0) && Int.land x (x - 1) == 0) = true ↔
      x = 0 ∨ ∃ k : Nat, x = 2 ^ k := by
    simp only [Bool.and_eq_true, decide_eq_true_eq, beq_iff_eq, ge_iff_le]
    constructor
    · rintro ⟨h0, h⟩
      exact (Int_land_pred_eq_zero_iff x h0).1 h
    · intro h
      have h0 : 0 ≤ x := by
        rcases h with h | ⟨k, hk⟩
        · omega
        · rw [hk]; positivity
      exact ⟨h0, (Int_land_pred_eq_zero_iff x h0).2 h⟩
  have hpow : ∀ k : Nat, x = 2 ^ k → is_power_of_two x p = (true, k) := by
    intro k hk
    have hk63 : k < 63 := by
      by_contra hge
      have : (2 : Int) ^ 63 ≤ 2 ^ k := pow_le_pow_right₀ (by norm_num) (by omega)
      omega
    have hc := hcond.2 (Or.inr ⟨k, hk⟩)
    simp only [is_power_of_two, hc, if_true]
    rw [hk, is_power_of_two_loop_pow k 64 0 (Nat.zero_le _) (by omega)]
  have hzero : x = 0 → is_power_of_two x p = (true, 0) := by
    intro h0
    have hc := hcond.2 (Or.inl h0)
    simp only [is_power_of_two, hc, if_true]
    subst h0
    rfl
  have hfalse : (decide (x ≥ 0) && Int.land x (x - 1) == 0) = false →
      is_power_of_two x p = (false, p) := by
    intro hc
    simp only [is_power_of_two, hc]
    rfl
  refine ⟨?_, hpow, hzero, ?_, ?_⟩
  · constructor
    · intro h
      by_contra hn
      have hc : (decide (x ≥ 0) && Int.land x (x - 1) == 0) = false := by
        rw [← Bool.not_eq_true]; exact fun hc => hn (hcond.1 hc)
      rw [hfalse hc] at h
      cases h
    · rintro (h | ⟨k, hk⟩)
      · rw [hzero h]
      · rw [hpow k hk]
  · intro hneg
    apply hfalse
    have : ¬ (x ≥ 0) := by omega
    simp [this]
  · intro h
    apply hfalse
    rw [← Bool.not_eq_true]
    intro hc
    rcases hcond.1 hc with h0 | ⟨k, hk⟩
    · rw [hzero h0] at h; cases h
    · rw [hpow k hk] at h; cases h

/-- The theorem `is_power_of_two_spec` at 8, at 6 and at -4. -/
theorem is_power_of_two_spec_witness :
    is_power_of_two 8 0 = (true, 3) ∧ is_power_of_two 6 5 = (false, 5) ∧
      is_power_of_two (-4) 5 = (false, 5) :=
  ⟨(is_power_of_two_spec 8 0 (by norm_num)).2.1 3 (by norm_num),
    (is_power_of_two_spec 6 5 (by norm_num)).2.2.2.2 (by rfl),
    (is_power_of_two_spec (-4) 5 (by norm_num)).2.2.2.1 (by norm_num)⟩

theorem is_power_of_two_one (p : Nat) : is_power_of_two 1 p = (true, 0) := by
  rfl

/-- The strength reduction when the left operand is not recognised as a
power of two other than 0 and the right operand is 1: only the left operand
is lowered. -/
theorem cg_times_shift_one (lhs_value : Option Int) (cg_lhs cg_rhs : CG Unit)
    (h : ∀ v, lhs_value = some v → (is_power_of_two v 0).1 = false ∨ v = 0) :
    cg_times_shift lhs_value (some 1) cg_lhs cg_rhs = (do cg_lhs; pure true) := by
  cases lhs_value with
  | none =>
    simp [cg_times_shift, is_power_of_two_one]
  | some v =>
    rcases h v rfl with hv | hv
    · cases hp : is_power_of_two v 0 with
      | mk flag power =>
        rw [hp] at hv
        simp only at hv
        subst hv
        simp [cg_times_shift, hp, is_power_of_two_one]
    · subst hv
      simp [cg_times_shift, is_power_of_two_one]

/-- The strength reduction when the left operand is recognised as the value
1: only the right operand is lowered. -/
theorem cg_times_shift_left_one (rhs_value : Option Int) (cg_lhs cg_rhs : CG Unit) :
    cg_times_shift (some 1) rhs_value cg_lhs cg_rhs = (do cg_rhs; pure true) := by
  simp [cg_times_shift, is_power_of_two_one]

/-- The strength reduction when the left operand is recognised as a power of
two `2^power` with `power ≠ 0`: the right operand is lowered and shifted. -/
theorem cg_times_shift_left_power (v : Int) (power : Nat) (rhs_value : Option Int)
    (cg_lhs cg_rhs : CG Unit) (hv : is_power_of_two v 0 = (true, power)) (h0 : v ≠ 0)
    (hp : power ≠ 0) :
    cg_times_shift (some v) rhs_value cg_lhs cg_rhs =
      (do
        cg_rhs
        push_back (.pop "rax")
        decrement_stack_size 8
        push_back (.other ("shl rax, " ++ toString power))
        push_back (.push "rax")
        increment_stack_size 8
        pure true) := by
  simp [cg_times_shift, hv, h0, hp]

/-- The integer `*` case at a level of at least 1 when the strength reduction
lowers one operand and returns. -/
theorem cg_times_int_returned (cg_lhs cg_rhs cg_operand : CG Unit) (lhs rhs : ExprNode)
    (g : Generator) (hlevel : 1 ≤ g.assembly.optimization_level)
    (h1 : g.assembly.optimization_level = 1 →
      cg_times_shift (as_int_literal lhs) (as_int_literal rhs) cg_lhs cg_rhs =
        (do cg_operand; pure true))
    (h2 : 1 < g.assembly.optimization_level →
      cg_times_shift (cp_int lhs) (cp_int rhs) cg_lhs cg_rhs = (do cg_operand; pure true)) :
    (cg_times_int cg_lhs cg_rhs lhs rhs).run g = cg_operand.run g := by
  rcases Nat.lt_or_ge 1 g.assembly.optimization_level with hgt | hle
  · have hne : g.assembly.optimization_level ≠ 1 := by omega
    simp only [cg_times_int, h2 hgt]
    simp only [get_optimization_level, StateT.run, bind, StateT.bind, get, getThe,
      MonadStateOf.get, StateT.get, pure, StateT.pure, Except.pure, Except.bind, hne, hgt,
      if_true, if_false]
    cases hres : cg_operand g with
    | error err => simp [hres, StateT.bind, StateT.pure, Except.bind, Except.pure, bind, pure]
    | ok r =>
      obtain ⟨u, g1⟩ := r
      simp [hres, StateT.bind, StateT.pure, Except.bind, Except.pure, bind, pure]
  · have heq : g.assembly.optimization_level = 1 := by omega
    simp only [cg_times_int, h1 heq]
    simp only [get_optimization_level, StateT.run, bind, StateT.bind, get, getThe,
      MonadStateOf.get, StateT.get, pure, StateT.pure, Except.pure, Except.bind, heq,
      if_true, if_false]
    cases hres : cg_operand g with
    | error err => simp [hres, StateT.bind, StateT.pure, Except.bind, Except.pure, bind, pure]
    | ok r =>
      obtain ⟨u, g1⟩ := r
      simp [hres, StateT.bind, StateT.pure, Except.bind, Except.pure, bind, pure]

theorem cg_binopexpr_times_int (cg_lhs cg_rhs : CG Unit) (slots : Slots) (lhs rhs : ExprNode)
    (hInt : slots.resolvedType = some .IntRType) :
    cg_binopexpr cg_lhs cg_rhs slots lhs .TIMES rhs = cg_times_int cg_lhs cg_rhs lhs rhs := by
  simp [cg_binopexpr, hInt, ResolvedType.type_name]

theorem cg_binopexpr_divide_int (cg_lhs cg_rhs : CG Unit) (slots : Slots) (lhs rhs : ExprNode)
    (hInt : slots.resolvedType = some .IntRType) :
    cg_binopexpr cg_lhs cg_rhs slots lhs .DIVIDE rhs =
      (do
        cg_rhs; cg_lhs; pop_two_int_args
        cg_check_divisor "divide by zero"
        push_back (.other "cqo")
        push_back (.other "idiv r10")
        push_rax) := by
  simp [cg_binopexpr, hInt, ResolvedType.type_name]

theorem cg_binopexpr_mod_int (cg_lhs cg_rhs : CG Unit) (slots : Slots) (lhs rhs : ExprNode)
    (hInt : slots.resolvedType = some .IntRType) :
    cg_binopexpr cg_lhs cg_rhs slots lhs .MOD rhs =
      (do
        cg_rhs; cg_lhs; pop_two_int_args
        cg_check_divisor "mod by zero"
        push_back (.other "cqo")
        push_back (.other "idiv r10")
        push_back (.other "mov rax, rdx")
        push_rax) := by
  simp [cg_binopexpr, hInt, ResolvedType.type_name]

/-- The lines an action followed by the end of the integer division leaves. -/
theorem run_then_idiv (m : CG Unit) (g g' : Generator)
    (h : (do
        m
        push_back (.other "cqo")
        push_back (.other "idiv r10")
        push_rax : CG Unit).run g = .ok ((), g')) :
    ∃ g1, m.run g = .ok ((), g1) ∧
      g'.fn.assembly_code =
        g1.fn.assembly_code ++ [.other "cqo", .other "idiv r10", .push "rax"] := by
  simp only [StateT.run, bind, StateT.bind, Except.bind] at h
  cases hm : m g with
  | error err => simp [hm] at h
  | ok r =>
    obtain ⟨u, g1⟩ := r
    simp only [hm, push_rax, push_back, increment_stack_size, modify_stack, modify, modifyGet,
      MonadStateOf.modifyGet, StateT.modifyGet, pure, Except.pure, bind, StateT.bind,
      Except.bind] at h
    cases h
    exact ⟨g1, hm, by simp⟩

/-- The lines an action followed by the end of the integer remainder leaves. -/
theorem run_then_idiv_rdx (m : CG Unit) (g g' : Generator)
    (h : (do
        m
        push_back (.other "cqo")
        push_back (.other "idiv r10")
        push_back (.other "mov rax, rdx")
        push_rax : CG Unit).run g = .ok ((), g')) :
    ∃ g1, m.run g = .ok ((), g1) ∧
      g'.fn.assembly_code =
        g1.fn.assembly_code ++
          [.other "cqo", .other "idiv r10", .other "mov rax, rdx", .push "rax"] := by
  simp only [StateT.run, bind, StateT.bind, Except.bind] at h
  cases hm : m g with
  | error err => simp [hm] at h
  | ok r =>
    obtain ⟨u, g1⟩ := r
    simp only [hm, push_rax, push_back, increment_stack_size, modify_stack, modify, modifyGet,
      MonadStateOf.modifyGet, StateT.modifyGet, pure, Except.pure, bind, StateT.bind,
      Except.bind] at h
    cases h
    exact ⟨g1, hm, by simp⟩

/-- The literal 1 as a right operand is recognised as the value 1 by the
literal test, and by the `cp` test when its annotation is the constant 1. -/
theorem cp_int_literal_one (s : Slots) (h : s.cp = .INT 1) :
    cp_int (.IntExprNode s 1) = some 1 := by
  simp [cp_int, ExprNode.cp, ExprNode.slots, h]

/-- C30, as amended: at a level of at least 1, for an Int-typed product
`e * 1` whose literal is annotated with the constant 1 above level 1, with
"recognised" meaning an integer literal at level 1 and a `cp` constant above:
when `e` is not recognised as a power of two other than 0 only the code of
`e` is emitted; when `e` is recognised as 1 only the code of the literal is
emitted; when `e` is recognised as `2^k` with `k ≠ 0` the literal is
evaluated and shifted left by `k`.  `e / 1` and `e % 1` are lowered by the
general sequence (literal, `e`, the two pops, the zero-divisor check, `cqo`,
`idiv r10`), whose last lines are `cqo`, `idiv r10` (and `mov rax, rdx` for
`%`) and `push rax`. -/
theorem times_one_elided (slots s : Slots) (e : ExprNode) (g : Generator)
    (hInt : slots.resolvedType = some .IntRType)
    (hlevel : 1 ≤ g.assembly.optimization_level)
    (hone : 1 < g.assembly.optimization_level → s.cp = .INT 1) :
    ((g.assembly.optimization_level = 1 →
          ∀ v, as_int_literal e = some v → (is_power_of_two v 0).1 = false ∨ v = 0) →
        (1 < g.assembly.optimization_level →
          ∀ v, cp_int e = some v → (is_power_of_two v 0).1 = false ∨ v = 0) →
        (cg_expr (.BinopExprNode slots e .TIMES (.IntExprNode s 1))).run g = (cg_expr e).run g) ∧
    ((g.assembly.optimization_level = 1 → as_int_literal e = some 1) →
        (1 < g.assembly.optimization_level → cp_int e = some 1) →
        (cg_expr (.BinopExprNode slots e .TIMES (.IntExprNode s 1))).run g =
          (cg_intexpr 1).run g) ∧
    (∀ (v : Int) (k : Nat), is_power_of_two v 0 = (true, k) → v ≠ 0 → k ≠ 0 →
        (g.assembly.optimization_level = 1 → as_int_literal e = some v) →
        (1 < g.assembly.optimization_level → cp_int e = some v) →
        (cg_expr (.BinopExprNode slots e .TIMES (.IntExprNode s 1))).run g =
          (do
            cg_intexpr 1
            push_back (.pop "rax")
            decrement_stack_size 8
            push_back (.other ("shl rax, " ++ toString k))
            push_back (.push "rax")
            increment_stack_size 8 : CG Unit).run g) ∧
    (cg_expr (.BinopExprNode slots e .DIVIDE (.IntExprNode s 1))).run g =
      (do
        cg_intexpr 1; cg_expr e; pop_two_int_args
        cg_check_divisor "divide by zero"
        push_back (.other "cqo")
        push_back (.other "idiv r10")
        push_rax : CG Unit).run g ∧
    (cg_expr (.BinopExprNode slots e .MOD (.IntExprNode s 1))).run g =
      (do
        cg_intexpr 1; cg_expr e; pop_two_int_args
        cg_check_divisor "mod by zero"
        push_back (.other "cqo")
        push_back (.other "idiv r10")
        push_back (.other "mov rax, rdx")
        push_rax : CG Unit).run g ∧
    (∀ g', (cg_expr (.BinopExprNode slots e .DIVIDE (.IntExprNode s 1))).run g = .ok ((), g') →
      ∃ g1, (do
          cg_intexpr 1; cg_expr e; pop_two_int_args
          cg_check_divisor "divide by zero" : CG Unit).run g = .ok ((), g1) ∧
        g'.fn.assembly_code =
          g1.fn.assembly_code ++ [.other "cqo", .other "idiv r10", .push "rax"]) ∧
    (∀ g', (cg_expr (.BinopExprNode slots e .MOD (.IntExprNode s 1))).run g = .ok ((), g') →
      ∃ g1, (do
          cg_intexpr 1; cg_expr e; pop_two_int_args
          cg_check_divisor "mod by zero" : CG Unit).run g = .ok ((), g1) ∧
        g'.fn.assembly_code =
          g1.fn.assembly_code ++
            [.other "cqo", .other "idiv r10", .other "mov rax, rdx", .push "rax"]) := by
  have htimes : cg_expr (.BinopExprNode slots e .TIMES (.IntExprNode s 1)) =
      cg_times_int (cg_expr e) (cg_intexpr 1) e (.IntExprNode s 1) := by
    rw [cg_expr, cg_binopexpr_times_int _ _ _ _ _ hInt]
    rfl
  have hdiv : cg_expr (.BinopExprNode slots e .DIVIDE (.IntExprNode s 1)) =
      (do
        cg_intexpr 1; cg_expr e; pop_two_int_args
        cg_check_divisor "divide by zero"
        push_back (.other "cqo")
        push_back (.other "idiv r10")
        push_rax) := by
    rw [cg_expr, cg_binopexpr_divide_int _ _ _ _ _ hInt]
    rfl
  have hmod : cg_expr (.BinopExprNode slots e .MOD (.IntExprNode s 1)) =
      (do
        cg_intexpr 1; cg_expr e; pop_two_int_args
        cg_check_divisor "mod by zero"
        push_back (.other "cqo")
        push_back (.other "idiv r10")
        push_back (.other "mov rax, rdx")
        push_rax) := by
    rw [cg_expr, cg_binopexpr_mod_int _ _ _ _ _ hInt]
    rfl
  have hlit : as_int_literal (.IntExprNode s 1) = some 1 := rfl
  refine ⟨?_, ?_, ?_, ?_, ?_, ?_, ?_⟩
  · intro h1 h2
    rw [htimes]
    apply cg_times_int_returned _ _ _ _ _ _ hlevel
    · intro hl
      rw [hlit]
      exact cg_times_shift_one _ _ _ (h1 hl)
    · intro hl
      rw [cp_int_literal_one s (hone hl)]
      exact cg_times_shift_one _ _ _ (h2 hl)
  · intro h1 h2
    rw [htimes]
    apply cg_times_int_returned _ _ _ _ _ _ hlevel
    · intro hl
      rw [h1 hl]
      exact cg_times_shift_left_one _ _ _
    · intro hl
      rw [h2 hl]
      exact cg_times_shift_left_one _ _ _
  · intro v k hv h0 hk h1 h2
    rw [htimes]
    apply cg_times_int_returned _ _ _ _ _ _ hlevel
    · intro hl
      rw [h1 hl, cg_times_shift_left_power v k _ _ _ hv h0 hk]
      simp only [bind_assoc]
    · intro hl
      rw [h2 hl, cg_times_shift_left_power v k _ _ _ hv h0 hk]
      simp only [bind_assoc]
  · rw [hdiv]
  · rw [hmod]
  · intro g' h
    rw [hdiv] at h
    have h' := run_then_idiv (do
        cg_intexpr 1; cg_expr e; pop_two_int_args
        cg_check_divisor "divide by zero") g g' (by
      simp only [bind_assoc]
      exact h)
    exact h'
  · intro g' h
    rw [hmod] at h
    have h' := run_then_idiv_rdx (do
        cg_intexpr 1; cg_expr e; pop_two_int_args
        cg_check_divisor "mod by zero") g g' (by
      simp only [bind_assoc]
      exact h)
    exact h'

set_option maxRecDepth 100000 in
/-- C30, counterexample: at level 1 the source `show 6 / 1` is lowered with
the literal 1, the zero-divisor check and `idiv r10`, while `show 6` is
lowered to `push qword 6` and the call of `_show`. -/
theorem divide_by_one_not_elided :
    (compile_source 40 "show 6 / 1\n" 1).map (lines_of "jpl_main") =
      .ok [.push "qword 1", .push "qword 6", .pop "rax", .pop "r10", .other "cmp r10, 0",
        .other "jne .jump1", .sub_rsp 8, .other "lea rdi, [rel const0]",
        .call "_fail_assertion", .add_rsp 8, .other ".jump1:", .other "cqo",
        .other "idiv r10", .push "rax", .other "lea rdi, [rel const1]",
        .other "lea rsi, [rsp]", .call "_show", .add_rsp 8] ∧
    (compile_source 40 "show 6\n" 1).map (lines_of "jpl_main") =
      .ok [.push "qword 6", .other "lea rdi, [rel const0]", .other "lea rsi, [rsp]",
        .call "_show", .add_rsp 8] := by
  constructor <;> rfl

/-- Witness of `times_one_elided` at level 1 in `jpl_main`: `6 * 1` is
lowered as `6`, `4 * 1` as the literal 1 shifted left by 2, and `6 / 1` by
the general sequence. -/
theorem times_one_elided_witness :
    (cg_expr (.BinopExprNode ⟨some .IntRType, .NONE⟩ (.IntExprNode ⟨some .IntRType, .NONE⟩ 6)
        .TIMES (.IntExprNode ⟨some .IntRType, .NONE⟩ 1))).run
      (main_function (Assembly.create create_global_scope 1)) =
    (cg_expr (.IntExprNode ⟨some .IntRType, .NONE⟩ 6)).run
      (main_function (Assembly.create create_global_scope 1)) ∧
    (cg_expr (.BinopExprNode ⟨some .IntRType, .NONE⟩ (.IntExprNode ⟨some .IntRType, .NONE⟩ 4)
        .TIMES (.IntExprNode ⟨some .IntRType, .NONE⟩ 1))).run
      (main_function (Assembly.create create_global_scope 1)) =
    (do
      cg_intexpr 1
      push_back (.pop "rax")
      decrement_stack_size 8
      push_back (.other ("shl rax, " ++ toString 2))
      push_back (.push "rax")
      increment_stack_size 8 : CG Unit).run
      (main_function (Assembly.create create_global_scope 1)) ∧
    (cg_expr (.BinopExprNode ⟨some .IntRType, .NONE⟩ (.IntExprNode ⟨some .IntRType, .NONE⟩ 6)
        .DIVIDE (.IntExprNode ⟨some .IntRType, .NONE⟩ 1))).run
      (main_function (Assembly.create create_global_scope 1)) =
    (do
      cg_intexpr 1; cg_expr (.IntExprNode ⟨some .IntRType, .NONE⟩ 6); pop_two_int_args
      cg_check_divisor "divide by zero"
      push_back (.other "cqo")
      push_back (.other "idiv r10")
      push_rax : CG Unit).run (main_function (Assembly.create create_global_scope 1)) :=
  ⟨(times_one_elided ⟨some .IntRType, .NONE⟩ ⟨some .IntRType, .NONE⟩
      (.IntExprNode ⟨some .IntRType, .NONE⟩ 6)
      (main_function (Assembly.create create_global_scope 1)) rfl (by decide)
      (fun h => absurd h (by decide))).1
      (fun _ v hv => by cases hv; exact Or.inl rfl)
      (fun h => absurd h (by decide)),
    (times_one_elided ⟨some .IntRType, .NONE⟩ ⟨some .IntRType, .NONE⟩
      (.IntExprNode ⟨some .IntRType, .NONE⟩ 4)
      (main_function (Assembly.create create_global_scope 1)) rfl (by decide)
      (fun h => absurd h (by decide))).2.2.1 4 2 rfl (by decide) (by decide)
      (fun _ => rfl) (fun h => absurd h (by decide)),
    (times_one_elided ⟨some .IntRType, .NONE⟩ ⟨some .IntRType, .NONE⟩
      (.IntExprNode ⟨some .IntRType, .NONE⟩ 6)
      (main_function (Assembly.create create_global_scope 1)) rfl (by decide)
      (fun h => absurd h (by decide))).2.2.2.1⟩

/-! ### The layout of an array on the stack -/

namespace StackDescription

theorem temporary?_set_temporary (temporaries : List (String × Int)) (name other : String)
    (offset : Int) :
    temporary? (set_temporary temporaries name offset) other =
      if other = name then some offset else temporary? temporaries other := by
  induction temporaries with
  | nil =>
    by_cases h : other = name
    · simp [set_temporary, temporary?, h]
    · have h' : ¬ name = other := fun e => h e.symm
      simp [set_temporary, temporary?, h, h']
  | cons entry rest ih =>
    obtain ⟨key, old⟩ := entry
    by_cases hk : key = name
    · subst hk
      by_cases h : other = key
      · simp [set_temporary, temporary?, h]
      · have h' : ¬ key = other := fun e => h e.symm
        simp [set_temporary, temporary?, h, h']
    · by_cases h : other = name
      · subst h
        simp [set_temporary, temporary?, hk, ih]
      · by_cases hko : key = other
        · simp [set_temporary, temporary?, hk, hko, h]
        · simp [set_temporary, temporary?, hk, hko, h, ih]

theorem temporary?_add_temporary (d : StackDescription) (name other : String) (offset : Int) :
    temporary? (d.add_temporary name offset).temporaries other =
      if other = name then some offset else temporary? d.temporaries other :=
  temporary?_set_temporary d.temporaries name other offset

end StackDescription

/-- The steps of `cg_loopexpr` on an array comprehension, one after the
other: the 8 bytes of the pointer are reserved first, the bounds loop
`cg_loop_bounds` comes next, and the pointer that `_jpl_alloc` returns is
stored at `[rsp + 8 * size]`, above the `size` bounds. -/
theorem cg_expr_array_loop (slots : Slots) (bounds : List (String × ExprNode))
    (loop_expression : ExprNode) :
    cg_expr (.ArrayLoopExprNode slots bounds loop_expression) =
      (do
        let level ← get_optimization_level
        push_back (.sub_rsp 8)
        increment_stack_size 8
        cg_loop_bounds (cg_bounds bounds)
        let element_size := calc_stack_size (← resolved loop_expression)
        push_back (.other ("mov rdi, " ++ toString element_size))
        cg_loop_heap_size bounds.length 0
        let needs_alignment ← FUNCTION_CALL_ALIGNMENT_CHECK 0
        push_back_call "_jpl_alloc"
        FUNCTION_CALL_ALIGNMENT_CLOSE needs_alignment
        push_back (.other ("mov [rsp + " ++ toString ((bounds.length : Int) * 8) ++ "], rax"))
        cg_loop_indices bounds
        let loop_body_jump ← get_new_jump
        push_back (.other (loop_body_jump ++ ":"))
        cg_expr loop_expression
        let element_size := calc_stack_size (← resolved loop_expression)
        if level < 1 then
          push_back (.other "mov rax, 0")
          push_back_all (loop_storage_lines_plain element_size ((bounds.length : Int) * 8)
            bounds.length 0)
        else
          push_back (.other ("mov rax, [rsp + " ++ toString element_size ++ "]"))
          match loop_storage_lines level element_size ((bounds.length : Int) * 8)
              (bounds.drop 1) 1 with
          | .ok lines => push_back_all lines
          | .error message => throw message
        push_back (scale_line level element_size)
        push_back (.other ("add rax, [rsp + "
          ++ toString ((element_size : Int) + (bounds.length : Int) * 8 * 2) ++ "]"))
        move_bytes element_size "rsp" "rax"
        push_back (.add_rsp element_size)
        decrement_stack_size element_size
        push_back_all (loop_increment_lines loop_body_jump ((bounds.length : Int) * 8)
          bounds.length)
        push_back (.add_rsp ((bounds.length : Int) * 8))
        decrement_stack_size ((bounds.length : Int) * 8)) := by
  rw [cg_expr]
  rfl

/-- The steps of `cg_loopexpr` on a sum comprehension, one after the other:
the 8 bytes of the sum are reserved first and the bounds loop `cg_loop_bounds`
comes next. -/
theorem cg_expr_sum_loop (slots : Slots) (bounds : List (String × ExprNode))
    (loop_expression : ExprNode) :
    cg_expr (.SumLoopExprNode slots bounds loop_expression) =
      (do
        let _ ← get_optimization_level
        push_back (.sub_rsp 8)
        increment_stack_size 8
        let sum_is_int ←
          match slots.resolvedType with
          | some r_type => pure (decide (r_type.type_name = .INT))
          | none => throw "resolvedType is null"
        cg_loop_bounds (cg_bounds bounds)
        push_back (.other "mov rax, 0")
        push_back (.other ("mov [rsp + " ++ toString (bounds.length * 8) ++ "], rax"))
        cg_loop_indices bounds
        let loop_body_jump ← get_new_jump
        push_back (.other (loop_body_jump ++ ":"))
        cg_expr loop_expression
        if sum_is_int then
          push_back (.pop "rax")
          decrement_stack_size 8
          push_back (.other ("add [rsp + " ++ toString ((bounds.length : Int) * 8 * 2)
            ++ "], rax"))
        else
          push_back (.other "movsd xmm0, [rsp]")
          push_back (.add_rsp 8)
          decrement_stack_size 8
          push_back (.other ("addsd xmm0, [rsp + " ++ toString ((bounds.length : Int) * 8 * 2)
            ++ "]"))
          push_back (.other ("movsd [rsp + " ++ toString ((bounds.length : Int) * 8 * 2)
            ++ "], xmm0"))
        push_back_all (loop_increment_lines loop_body_jump ((bounds.length : Int) * 8)
          bounds.length)
        push_back (.add_rsp ((bounds.length : Int) * 8))
        decrement_stack_size ((bounds.length : Int) * 8)
        push_back (.add_rsp ((bounds.length : Int) * 8))
        decrement_stack_size ((bounds.length : Int) * 8)) := by
  rw [cg_expr]
  cases h : slots.resolvedType with
  | none => simp [cg_loopexpr, h]; rfl
  | some r_type => simp [cg_loopexpr, h]

/-- The bounds loop of `cg_loopexpr` on two lists of bounds one after the
other: the second list is lowered first. -/
theorem cg_loop_bounds_append (xs ys : List (CG Unit)) :
    cg_loop_bounds (xs ++ ys) = (do cg_loop_bounds ys; cg_loop_bounds xs) := by
  induction xs with
  | nil => simp [cg_loop_bounds]
  | cons x xs ih => simp only [List.cons_append, cg_loop_bounds, List.append_eq, ih, bind_assoc]

theorem cg_bounds_append (xs ys : List (String × ExprNode)) :
    cg_bounds (xs ++ ys) = cg_bounds xs ++ cg_bounds ys := by
  induction xs with
  | nil => simp [cg_bounds]
  | cons x xs ih =>
    obtain ⟨name, bound⟩ := x
    simp [cg_bounds, ih]

set_option maxRecDepth 100000 in
/-- C31, counterexample: in `show sum[i : 2, j : 3] i` at level 1 the code of
the bound of `j`, `push qword 3` with its positivity check, comes before the
code of the bound of `i`, `push qword 2` with its check. -/
theorem loop_bounds_last_first :
    ((compile_source 60 "show sum[i : 2, j : 3] i\n" 1).map
        (fun assembly => (lines_of "jpl_main" assembly).take 17)).toOption = some
      [.sub_rsp 8,
        .push "qword 3", .other "mov rax, [rsp]", .other "cmp rax, 0", .other "jg .jump1",
        .sub_rsp 8, .other "lea rdi, [rel const0]", .call "_fail_assertion", .add_rsp 8,
        .other ".jump1:",
        .push "qword 2", .other "mov rax, [rsp]", .other "cmp rax, 0", .other "jg .jump2",
        .other "lea rdi, [rel const0]", .call "_fail_assertion", .other ".jump2:"] := by
  decide!

/-- C31, as amended: an array comprehension and a sum comprehension reserve
8 bytes and then run the bounds loop `cg_loop_bounds` on the bounds in source
order, before every other step of `cg_loopexpr`; the bounds loop emits the
evaluation code and positivity check of the bounds from the last bound to the
first: for bounds `b_i` before `b_j` in the source, the code of `b_j` precedes
the code of `b_i`. -/
theorem cg_loop_bounds_order (before between following : List (String × ExprNode))
    (b_i b_j : String × ExprNode) :
    (∀ (slots : Slots) (bounds : List (String × ExprNode)) (loop_expression : ExprNode),
      cg_expr (.ArrayLoopExprNode slots bounds loop_expression) =
        (do
          let level ← get_optimization_level
          push_back (.sub_rsp 8)
          increment_stack_size 8
          cg_loop_bounds (cg_bounds bounds)
          let element_size := calc_stack_size (← resolved loop_expression)
          push_back (.other ("mov rdi, " ++ toString element_size))
          cg_loop_heap_size bounds.length 0
          let needs_alignment ← FUNCTION_CALL_ALIGNMENT_CHECK 0
          push_back_call "_jpl_alloc"
          FUNCTION_CALL_ALIGNMENT_CLOSE needs_alignment
          push_back (.other ("mov [rsp + " ++ toString ((bounds.length : Int) * 8) ++ "], rax"))
          cg_loop_indices bounds
          let loop_body_jump ← get_new_jump
          push_back (.other (loop_body_jump ++ ":"))
          cg_expr loop_expression
          let element_size := calc_stack_size (← resolved loop_expression)
          if level < 1 then
            push_back (.other "mov rax, 0")
            push_back_all (loop_storage_lines_plain element_size ((bounds.length : Int) * 8)
              bounds.length 0)
          else
            push_back (.other ("mov rax, [rsp + " ++ toString element_size ++ "]"))
            match loop_storage_lines level element_size ((bounds.length : Int) * 8)
                (bounds.drop 1) 1 with
            | .ok lines => push_back_all lines
            | .error message => throw message
          push_back (scale_line level element_size)
          push_back (.other ("add rax, [rsp + "
            ++ toString ((element_size : Int) + (bounds.length : Int) * 8 * 2) ++ "]"))
          move_bytes element_size "rsp" "rax"
          push_back (.add_rsp element_size)
          decrement_stack_size element_size
          push_back_all (loop_increment_lines loop_body_jump ((bounds.length : Int) * 8)
            bounds.length)
          push_back (.add_rsp ((bounds.length : Int) * 8))
          decrement_stack_size ((bounds.length : Int) * 8))) ∧
    (∀ (slots : Slots) (bounds : List (String × ExprNode)) (loop_expression : ExprNode),
      cg_expr (.SumLoopExprNode slots bounds loop_expression) =
        (do
          let _ ← get_optimization_level
          push_back (.sub_rsp 8)
          increment_stack_size 8
          let sum_is_int ←
            match slots.resolvedType with
            | some r_type => pure (decide (r_type.type_name = .INT))
            | none => throw "resolvedType is null"
          cg_loop_bounds (cg_bounds bounds)
          push_back (.other "mov rax, 0")
          push_back (.other ("mov [rsp + " ++ toString (bounds.length * 8) ++ "], rax"))
          cg_loop_indices bounds
          let loop_body_jump ← get_new_jump
          push_back (.other (loop_body_jump ++ ":"))
          cg_expr loop_expression
          if sum_is_int then
            push_back (.pop "rax")
            decrement_stack_size 8
            push_back (.other ("add [rsp + " ++ toString ((bounds.length : Int) * 8 * 2)
              ++ "], rax"))
          else
            push_back (.other "movsd xmm0, [rsp]")
            push_back (.add_rsp 8)
            decrement_stack_size 8
            push_back (.other ("addsd xmm0, [rsp + " ++ toString ((bounds.length : Int) * 8 * 2)
              ++ "]"))
            push_back (.other ("movsd [rsp + " ++ toString ((bounds.length : Int) * 8 * 2)
              ++ "], xmm0"))
          push_back_all (loop_increment_lines loop_body_jump ((bounds.length : Int) * 8)
            bounds.length)
          push_back (.add_rsp ((bounds.length : Int) * 8))
          decrement_stack_size ((bounds.length : Int) * 8)
          push_back (.add_rsp ((bounds.length : Int) * 8))
          decrement_stack_size ((bounds.length : Int) * 8))) ∧
    cg_loop_bounds (cg_bounds (before ++ b_i :: (between ++ b_j :: following))) =
      (do
        cg_loop_bounds (cg_bounds following)
        cg_loop_bounds [cg_expr b_j.2]
        cg_loop_bounds (cg_bounds between)
        cg_loop_bounds [cg_expr b_i.2]
        cg_loop_bounds (cg_bounds before)) ∧
    ∀ cg_bound : CG Unit, cg_loop_bounds [cg_bound] =
      (do
        cg_bound
        let valid_jump ← get_new_jump
        push_back (.other "mov rax, [rsp]")
        push_back (.other "cmp rax, 0")
        push_back (.other ("jg " ++ valid_jump))
        let needs_alignment ← FUNCTION_CALL_ALIGNMENT_CHECK 0
        let invalid_bound_expt_const ← add_constant_string "non-positive loop bound"
        push_back (.other ("lea rdi, [rel " ++ invalid_bound_expt_const ++ "]"))
        push_back_call "_fail_assertion"
        FUNCTION_CALL_ALIGNMENT_CLOSE needs_alignment
        push_back (.other (valid_jump ++ ":"))) := by
  refine ⟨cg_expr_array_loop, cg_expr_sum_loop, ?_, ?_⟩
  · have hi : cg_bounds [b_i] = [cg_expr b_i.2] := by
      obtain ⟨name, bound⟩ := b_i
      simp [cg_bounds]
    have hj : cg_bounds [b_j] = [cg_expr b_j.2] := by
      obtain ⟨name, bound⟩ := b_j
      simp [cg_bounds]
    have h1 : before ++ b_i :: (between ++ b_j :: following) =
        before ++ ([b_i] ++ (between ++ ([b_j] ++ following))) := by simp
    rw [h1, cg_bounds_append, cg_bounds_append, cg_bounds_append, cg_bounds_append,
      cg_loop_bounds_append, cg_loop_bounds_append, cg_loop_bounds_append,
      cg_loop_bounds_append, hi, hj]
    simp only [bind_assoc]
  · intro cg_bound
    simp [cg_loop_bounds]

/-- The sum of the sizes of the elements of a tuple split at element `i`: the
elements before it, the element and the elements after it. -/
theorem calc_stack_size_map_split (element_types : List ResolvedType) (i : Nat)
    (h : i < element_types.length) :
    (element_types.map calc_stack_size).sum =
      ((element_types.take i).map calc_stack_size).sum + calc_stack_size element_types[i] +
        ((element_types.drop (i + 1)).map calc_stack_size).sum := by
  have hsplit : element_types =
      element_types.take i ++ element_types[i] :: element_types.drop (i + 1) := by
    rw [List.getElem_cons_drop, List.take_append_drop]
  conv_lhs => rw [hsplit]
  simp only [List.map_append, List.map_cons, List.sum_append, List.sum_cons]
  omega

/-- The run of `cg_tupleaccessexpr` on a tuple type at a valid index: after
the code of the tuple it emits the copy lines and `add rsp` with the
`unsigned int` difference of the tuple size and the element size, by which it
lowers the symbolic counter. -/
theorem cg_tupleaccessexpr_run (element_types : List ResolvedType) (i : Nat)
    (h : i < element_types.length) (cg_tuple_expression : CG Unit)
    (tuple_expression : ExprNode) (g g1 : Generator)
    (htype : tuple_expression.resolvedType = some (.TupleRType element_types))
    (hrun : cg_tuple_expression.run g = .ok ((), g1)) :
    (cg_tupleaccessexpr cg_tuple_expression tuple_expression i).run g =
      .ok ((), ⟨g1.assembly,
        ⟨g1.fn.name,
          g1.fn.assembly_code ++
            (move_element_lines (calc_stack_size_sum (element_types.take i))
              ((calc_stack_size (.TupleRType element_types) + 2 ^ 32
                - calc_stack_size element_types[i]) % 2 ^ 32)
              (calc_stack_size element_types[i] / 8) ++
            [.add_rsp (((calc_stack_size (.TupleRType element_types) + 2 ^ 32
                - calc_stack_size element_types[i]) % 2 ^ 32 : Nat) : Int)]),
          g1.fn.is_main,
          g1.fn.stack_size.decrement_stack_size
            (((calc_stack_size (.TupleRType element_types) + 2 ^ 32
                - calc_stack_size element_types[i]) % 2 ^ 32 : Nat) : Int),
          g1.fn.calls⟩,
        g1.global_stack⟩) := by
  have hget : element_types.get? i = some element_types[i] := by
    rw [List.get?_eq_getElem?]
    exact List.getElem?_eq_getElem h
  simp only [StateT.run] at hrun
  simp only [cg_tupleaccessexpr, resolved, htype, StateT.run, bind, StateT.bind, hrun,
    Except.bind, pure, StateT.pure, Except.pure, Int.toNat_ofNat, hget,
    show ¬ ((i : Int) < 0) from by omega, if_false]
  have h1 := push_back_all_run
    (move_element_lines (calc_stack_size_sum (element_types.take i))
      ((calc_stack_size (.TupleRType element_types) + 2 ^ 32
        - calc_stack_size element_types[i]) % 2 ^ 32)
      (calc_stack_size element_types[i] / 8)) g1
  simp only [StateT.run] at h1
  simp only [h1, push_back, decrement_stack_size, modify_stack, modify, modifyGet,
    MonadStateOf.modifyGet, StateT.modifyGet, pure, Except.pure, List.append_assoc]

set_option maxRecDepth 100000 in
/-- C40, counterexample: for the tuple type `{t6, int, t6}`, where `t6` is the
type of size `2^31` of the commands `type t0 = int[,...,]` (rank 1023),
`type t1 = {t0, t0, t0, t0, t0, t0, t0, t0}`, ..., `type t6 = {t5, ..., t5}`,
and the index 1, the tuple size is 8 as an `unsigned int` and the source offset
of the element is `2^31`: `cg_tupleaccessexpr` copies the word at
`[rsp + 2147483648]` to the destination offset 0, below the source, and
releases 0 bytes. -/
theorem tuple_access_destination_below_source :
    calc_stack_size (wide_type 6) = 2 ^ 31 ∧
    calc_stack_size (.TupleRType [wide_type 6, .IntRType, wide_type 6]) = 8 ∧
    calc_stack_size_sum ([wide_type 6, .IntRType, wide_type 6].take 1) = 2 ^ 31 ∧
    ((cg_tupleaccessexpr (pure ())
        (.VariableExprNode ⟨some (.TupleRType [wide_type 6, .IntRType, wide_type 6]), .NONE⟩ "x")
        1).run (main_function (Assembly.create create_global_scope 0))).toOption.map
        (fun result => result.2.fn.assembly_code) =
      some [.other "mov r10, [rsp + 2147483648]", .other "mov [rsp ], r10", .add_rsp 0] := by
  have h6 : calc_stack_size (wide_type 6) = 2 ^ 31 := by
    rw [calc_stack_size_wide_type]; norm_num
  have hint : calc_stack_size .IntRType = 8 := rfl
  have htotal : calc_stack_size (.TupleRType [wide_type 6, .IntRType, wide_type 6]) = 8 := by
    rw [show calc_stack_size (.TupleRType [wide_type 6, .IntRType, wide_type 6]) =
      calc_stack_size_sum [wide_type 6, .IntRType, wide_type 6] from rfl, calc_stack_size_sum_eq]
    simp only [List.map_cons, List.map_nil, List.sum_cons, List.sum_nil, h6, hint]
    norm_num
  have hoffset : calc_stack_size_sum ([wide_type 6, .IntRType, wide_type 6].take 1) = 2 ^ 31 := by
    rw [show ([wide_type 6, .IntRType, wide_type 6].take 1) = [wide_type 6] from rfl,
      calc_stack_size_sum_eq]
    simp only [List.map_cons, List.map_nil, List.sum_cons, List.sum_nil, h6]
    norm_num
  refine ⟨h6, htotal, hoffset, ?_⟩
  have hrun := cg_tupleaccessexpr_run [wide_type 6, .IntRType, wide_type 6] 1 (by decide)
    (pure ())
    (.VariableExprNode ⟨some (.TupleRType [wide_type 6, .IntRType, wide_type 6]), .NONE⟩ "x")
    (main_function (Assembly.create create_global_scope 0))
    (main_function (Assembly.create create_global_scope 0)) rfl rfl
  have hi : ((1 : Nat) : Int) = 1 := rfl
  have helement : calc_stack_size
      ([wide_type 6, .IntRType, wide_type 6] : List ResolvedType)[1] = 8 := rfl
  rw [hi, htotal, hoffset, helement] at hrun
  rw [hrun]
  decide

/-- C40, as amended: for a tuple type whose element sizes sum to less than
`2^32` and a valid index `i`, the tuple size is that sum and the source offset
of `cg_tupleaccessexpr` is the sum of the sizes of the elements before `i`; the
destination offset, the tuple size minus the size of element `i`, is at least
the source offset; the words are copied from the highest to the lowest, and
the destination of a word lies above every source word that is copied after
it; no offset of a copied word is reduced modulo `2^32`; and after the code of
the tuple the method emits exactly the copy lines and `add rsp` with the tuple
size minus the element size, by which it lowers the symbolic counter. -/
theorem cg_tupleaccessexpr_copy (element_types : List ResolvedType) (i : Nat)
    (h : i < element_types.length)
    (hsum : (element_types.map calc_stack_size).sum < 2 ^ 32) :
    calc_stack_size (.TupleRType element_types) = (element_types.map calc_stack_size).sum ∧
    calc_stack_size_sum (element_types.take i) =
      ((element_types.take i).map calc_stack_size).sum ∧
    calc_stack_size element_types[i] ≤ calc_stack_size (.TupleRType element_types) ∧
    (calc_stack_size (.TupleRType element_types) + 2 ^ 32
        - calc_stack_size element_types[i]) % 2 ^ 32 =
      calc_stack_size (.TupleRType element_types) - calc_stack_size element_types[i] ∧
    calc_stack_size_sum (element_types.take i) ≤
      calc_stack_size (.TupleRType element_types) - calc_stack_size element_types[i] ∧
    (∀ a b : Nat, a < b →
      calc_stack_size_sum (element_types.take i) + a * 8 <
        calc_stack_size (.TupleRType element_types) - calc_stack_size element_types[i] + b * 8) ∧
    (∀ a : Nat, a < calc_stack_size element_types[i] / 8 →
      (calc_stack_size_sum (element_types.take i) + a * 8) % 2 ^ 32 =
        calc_stack_size_sum (element_types.take i) + a * 8 ∧
      (calc_stack_size (.TupleRType element_types) - calc_stack_size element_types[i]
          + a * 8) % 2 ^ 32 =
        calc_stack_size (.TupleRType element_types) - calc_stack_size element_types[i] + a * 8) ∧
    (∀ element_offset stack_size_removed m : Nat,
      move_element_lines element_offset stack_size_removed (m + 1) =
        [.other ("mov r10, " ++ rsp_operand ((element_offset + m * 8) % 2 ^ 32)),
          .other ("mov " ++ rsp_operand ((stack_size_removed + m * 8) % 2 ^ 32) ++ ", r10")]
          ++ move_element_lines element_offset stack_size_removed m) ∧
    (∀ (cg_tuple_expression : CG Unit) (tuple_expression : ExprNode) (g g1 : Generator),
      tuple_expression.resolvedType = some (.TupleRType element_types) →
      cg_tuple_expression.run g = .ok ((), g1) →
      (cg_tupleaccessexpr cg_tuple_expression tuple_expression i).run g =
        .ok ((), ⟨g1.assembly,
          ⟨g1.fn.name,
            g1.fn.assembly_code ++
              (move_element_lines (calc_stack_size_sum (element_types.take i))
                (calc_stack_size (.TupleRType element_types) - calc_stack_size element_types[i])
                (calc_stack_size element_types[i] / 8) ++
              [.add_rsp ((calc_stack_size (.TupleRType element_types) -
                calc_stack_size element_types[i] : Nat) : Int)]),
            g1.fn.is_main,
            g1.fn.stack_size.decrement_stack_size
              ((calc_stack_size (.TupleRType element_types) -
                calc_stack_size element_types[i] : Nat) : Int),
            g1.fn.calls⟩,
          g1.global_stack⟩)) := by
  have hsplit := calc_stack_size_map_split element_types i h
  have htotal : calc_stack_size (.TupleRType element_types) =
      (element_types.map calc_stack_size).sum := by
    simp only [calc_stack_size]
    rw [calc_stack_size_sum_eq, Nat.mod_eq_of_lt hsum]
  have htake : calc_stack_size_sum (element_types.take i) =
      ((element_types.take i).map calc_stack_size).sum := by
    rw [calc_stack_size_sum_eq]
    apply Nat.mod_eq_of_lt
    omega
  have hremoved : (calc_stack_size (.TupleRType element_types) + 2 ^ 32
        - calc_stack_size element_types[i]) % 2 ^ 32 =
      calc_stack_size (.TupleRType element_types) - calc_stack_size element_types[i] := by
    rw [htotal]
    omega
  have h8 := Nat.div_mul_le_self (calc_stack_size element_types[i]) 8
  refine ⟨htotal, htake, by omega, hremoved, by omega, fun a b hab => by omega, ?_,
    fun _ _ _ => rfl, ?_⟩
  · intro a ha
    constructor
    · apply Nat.mod_eq_of_lt
      omega
    · apply Nat.mod_eq_of_lt
      omega
  · intro cg_tuple_expression tuple_expression g g1 htype hrun
    rw [cg_tupleaccessexpr_run element_types i h cg_tuple_expression tuple_expression g g1
      htype hrun, hremoved]

/-- The theorem `cg_tupleaccessexpr_copy` at the element 1 of the type
`{int, {float, bool}, int}`: the element of 16 bytes at offset 8 is copied to
offset 16, the word at 16 first, and 16 bytes are released. -/
theorem cg_tupleaccessexpr_copy_witness :
    calc_stack_size_sum
        ([.IntRType, .TupleRType [.FloatRType, .BoolRType], .IntRType].take 1) ≤
      calc_stack_size (.TupleRType [.IntRType, .TupleRType [.FloatRType, .BoolRType], .IntRType])
        - calc_stack_size (.TupleRType [.FloatRType, .BoolRType]) ∧
    move_element_lines 8 16 2 =
      [.other "mov r10, [rsp + 16]", .other "mov [rsp + 24], r10",
        .other "mov r10, [rsp + 8]", .other "mov [rsp + 16], r10"] :=
  ⟨(cg_tupleaccessexpr_copy
      [.IntRType, .TupleRType [.FloatRType, .BoolRType], .IntRType] 1 (by decide)
      (by decide)).2.2.2.2.1,
    by rfl⟩

/-! ### Array accesses in a function at level 1 -/

set_option maxRecDepth 100000 in
/-- C32, failing input: in the program of the two commands
`let a = array[i : 2, j : 3] i + j` and
`fn f(i : int, j : int) : int {` / `return a[i, j]` / `}` (`/` is a line
break) the function indexes the global array `a`.  At level 0 the descriptor
of `a` is copied on the stack below the arguments and the offset is computed
from its length words, `[rsp + 16]` and `[rsp + 24]`.  At level 1 the copy is
left out and the position of the descriptor is taken from the frame of `f`,
which holds no `a`: with 32 bytes pushed since the prologue, the index `i` is
multiplied by the word `[rsp + 40]`, the return address of `f`, not by the
length 3 of the second dimension, and the checks compare with `[rsp + 32]`,
the saved `rbp`, and `[rsp + 40]`. -/
theorem level_one_multiplies_by_return_address :
    ((compile_source 80
        "let a = array[i : 2, j : 3] i + j\nfn f(i : int, j : int) : int \x7b\n return a[i, j]\n\x7d\n"
        1).map (lines_of "f")).toOption = some
      [.push "rdi", .push "rsi",
        .sub_rsp 8, .other "mov r10, [rbp - 16 + 0]", .other "mov [rsp + 0], r10",
        .sub_rsp 8, .other "mov r10, [rbp - 8 + 0]", .other "mov [rsp + 0], r10",
        .other "mov rax, [rsp + 0]", .other "cmp rax, 0", .other "jge .jump6",
        .other "lea rdi, [rel const2]", .call "_fail_assertion", .other ".jump6:",
        .other "cmp rax, [rsp + 32]", .other "jl .jump7",
        .other "lea rdi, [rel const3]", .call "_fail_assertion", .other ".jump7:",
        .other "mov rax, [rsp + 8]", .other "cmp rax, 0", .other "jge .jump8",
        .other "lea rdi, [rel const2]", .call "_fail_assertion", .other ".jump8:",
        .other "cmp rax, [rsp + 40]", .other "jl .jump9",
        .other "lea rdi, [rel const3]", .call "_fail_assertion", .other ".jump9:",
        .other "mov rax, [rsp]", .other "imul rax, [rsp + 40]", .other "add rax, [rsp + 8]",
        .other "shl rax, 3", .other "add rax, [rsp + 48]",
        .add_rsp 16, .sub_rsp 8, .other "mov r10, [rax + 0]", .other "mov [rsp + 0], r10",
        .pop "rax", .add_rsp 16, .pop "rbp", .ret] ∧
    ((compile_source 80
        "let a = array[i : 2, j : 3] i + j\nfn f(i : int, j : int) : int \x7b\n return a[i, j]\n\x7d\n"
        1).map (fun assembly =>
          pushed_bytes ((lines_of "f" assembly).takeWhile
            (fun line => line ≠ .other "imul rax, [rsp + 40]")))).toOption = some 32 ∧
    ((compile_source 80
        "let a = array[i : 2, j : 3] i + j\nfn f(i : int, j : int) : int \x7b\n return a[i, j]\n\x7d\n"
        0).map (lines_of "f")).toOption = some
      [.push "rdi", .push "rsi",
        .sub_rsp 24, .other "mov r10, [r12 - 32 + 16]", .other "mov [rsp + 16], r10",
        .other "mov r10, [r12 - 32 + 8]", .other "mov [rsp + 8], r10",
        .other "mov r10, [r12 - 32 + 0]", .other "mov [rsp + 0], r10",
        .sub_rsp 8, .other "mov r10, [rbp - 16 + 0]", .other "mov [rsp + 0], r10",
        .sub_rsp 8, .other "mov r10, [rbp - 8 + 0]", .other "mov [rsp + 0], r10",
        .other "mov rax, [rsp + 0]", .other "cmp rax, 0", .other "jge .jump6",
        .sub_rsp 8, .other "lea rdi, [rel const4]", .call "_fail_assertion", .add_rsp 8,
        .other ".jump6:",
        .other "cmp rax, [rsp + 16]", .other "jl .jump7",
        .sub_rsp 8, .other "lea rdi, [rel const5]", .call "_fail_assertion", .add_rsp 8,
        .other ".jump7:",
        .other "mov rax, [rsp + 8]", .other "cmp rax, 0", .other "jge .jump8",
        .sub_rsp 8, .other "lea rdi, [rel const4]", .call "_fail_assertion", .add_rsp 8,
        .other ".jump8:",
        .other "cmp rax, [rsp + 24]", .other "jl .jump9",
        .sub_rsp 8, .other "lea rdi, [rel const5]", .call "_fail_assertion", .add_rsp 8,
        .other ".jump9:",
        .other "mov rax, 0", .other "imul rax, [rsp + 16]", .other "add rax, [rsp + 0]",
        .other "imul rax, [rsp + 24]", .other "add rax, [rsp + 8]",
        .other "imul rax, 8", .other "add rax, [rsp + 32]",
        .add_rsp 8, .add_rsp 8, .add_rsp 24,
        .sub_rsp 8, .other "mov r10, [rax + 0]", .other "mov [rsp + 0], r10",
        .pop "rax", .add_rsp 16, .pop "rbp", .ret] := by
  refine ⟨by decide!, by decide!, by decide!⟩

set_option maxRecDepth 100000 in
/-- C38, failing input: in the program of the two commands
`let a = array[i : 4, j : 5] i * j` and
`fn get(p : {int, int}) : int {` / `return a[p{0}, p{1}]` / `}` (`/` is a
line break) at optimization level 1, the function has pushed 16 bytes, the two
indices, when the checks begin.  The bounds checks compare the indices with
the words `[rsp + 16]` and `[rsp + 24]`, the saved `rbp` and the return
address of `get`, not with the lengths 4 and 5; the offset is the first index
times the word `[rsp + 24]` plus the second index; and the word added as the
heap pointer is `[rsp + 32]`, the first word of the argument `p`. -/
theorem level_one_checks_against_frame_words :
    ((compile_source 80
        "let a = array[i : 4, j : 5] i * j\nfn get(p : \x7bint, int\x7d) : int \x7b\n return a[p\x7b0\x7d, p\x7b1\x7d]\n\x7d\n"
        1).map (lines_of "get")).toOption = some
      [.sub_rsp 16, .other "mov r10, [rbp - -16 + 8]", .other "mov [rsp + 8], r10",
        .other "mov r10, [rbp - -16 + 0]", .other "mov [rsp + 0], r10",
        .other "mov r10, [rsp + 8]", .other "mov [rsp + 8], r10", .add_rsp 8,
        .sub_rsp 16, .other "mov r10, [rbp - -16 + 8]", .other "mov [rsp + 8], r10",
        .other "mov r10, [rbp - -16 + 0]", .other "mov [rsp + 0], r10",
        .other "mov r10, [rsp ]", .other "mov [rsp + 8], r10", .add_rsp 8,
        .other "mov rax, [rsp + 0]", .other "cmp rax, 0", .other "jge .jump6",
        .other "lea rdi, [rel const2]", .call "_fail_assertion", .other ".jump6:",
        .other "cmp rax, [rsp + 16]", .other "jl .jump7",
        .other "lea rdi, [rel const3]", .call "_fail_assertion", .other ".jump7:",
        .other "mov rax, [rsp + 8]", .other "cmp rax, 0", .other "jge .jump8",
        .other "lea rdi, [rel const2]", .call "_fail_assertion", .other ".jump8:",
        .other "cmp rax, [rsp + 24]", .other "jl .jump9",
        .other "lea rdi, [rel const3]", .call "_fail_assertion", .other ".jump9:",
        .other "mov rax, [rsp]", .other "imul rax, [rsp + 24]", .other "add rax, [rsp + 8]",
        .other "shl rax, 3", .other "add rax, [rsp + 32]",
        .add_rsp 16, .sub_rsp 8, .other "mov r10, [rax + 0]", .other "mov [rsp + 0], r10",
        .pop "rax", .add_rsp 0, .pop "rbp", .ret] ∧
    ((compile_source 80
        "let a = array[i : 4, j : 5] i * j\nfn get(p : \x7bint, int\x7d) : int \x7b\n return a[p\x7b0\x7d, p\x7b1\x7d]\n\x7d\n"
        1).map (fun assembly =>
          pushed_bytes ((lines_of "get" assembly).takeWhile
            (fun line => line ≠ .other "mov rax, [rsp + 0]")))).toOption = some 16 ∧
    ((compile_source 80
        "let a = array[i : 4, j : 5] i * j\nfn get(p : \x7bint, int\x7d) : int \x7b\n return a[p\x7b0\x7d, p\x7b1\x7d]\n\x7d\n"
        1).map (offset_of "get" "p")).toOption = some (some (-16)) := by
  refine ⟨by decide!, by decide!, by decide!⟩

end Compiler

/-! ## Properties of the parser -/

namespace Parser
open Lexer

theorem spec_precedence_level_cases (o : BinopType) :
    spec_precedence_level o = 1 ∨ spec_precedence_level o = 2 ∨
      spec_precedence_level o = 3 ∨ spec_precedence_level o = 4 := by
  cases o <;> simp [spec_precedence_level]

theorem tokenToBinopType_binopTypeToString (o : BinopType) :
    tokenToBinopType ⟨.OP, binopTypeToString o⟩ = .ok o := by
  cases o <;> rfl

theorem parseMultExprCont_stop (fuel : Nat) (head : ExprNode) (tokens : List token)
    (following : TokenType) (h : peekToken tokens = .ok following) (hne : following ≠ .OP) :
    parseMultExprCont (fuel + 1) head tokens = .ok (head, tokens) := by
  simp [parseMultExprCont, h, hne, bind, Except.bind, pure, Except.pure]

theorem parseAddExprCont_stop (fuel : Nat) (head : ExprNode) (tokens : List token)
    (following : TokenType) (h : peekToken tokens = .ok following) (hne : following ≠ .OP) :
    parseAddExprCont (fuel + 1) head tokens = .ok (head, tokens) := by
  simp [parseAddExprCont, h, hne, bind, Except.bind, pure, Except.pure]

theorem parseComparisonExprCont_stop (fuel : Nat) (head : ExprNode) (tokens : List token)
    (following : TokenType) (h : peekToken tokens = .ok following) (hne : following ≠ .OP) :
    parseComparisonExprCont (fuel + 1) head tokens = .ok (head, tokens) := by
  simp [parseComparisonExprCont, h, hne, bind, Except.bind, pure, Except.pure]

theorem parseBoolopExprCont_stop (fuel : Nat) (head : ExprNode) (tokens : List token)
    (following : TokenType) (h : peekToken tokens = .ok following) (hne : following ≠ .OP) :
    parseBoolopExprCont (fuel + 1) head tokens = .ok (head, tokens) := by
  simp [parseBoolopExprCont, h, hne, bind, Except.bind, pure, Except.pure]

theorem parseMultExprCont_op (fuel : Nat) (head : ExprNode) (o : BinopType) (tl : List token) :
    parseMultExprCont (fuel + 1) head (⟨.OP, binopTypeToString o⟩ :: tl) =
      if spec_precedence_level o = 4 then
        (do
          let (_rhs, rest) ← parseUnopExpr fuel tl
          parseMultExprCont fuel (.BinopExprNode .fresh head o _rhs) rest)
      else .ok (head, ⟨.OP, binopTypeToString o⟩ :: tl) := by
  cases o <;>
    simp +decide [parseMultExprCont, peekToken, consumeToken, binopTypeToString,
      spec_precedence_level, new_BinopExprNode, tokenToBinopType, bind, Except.bind, pure,
      Except.pure]

theorem parseAddExprCont_op (fuel : Nat) (head : ExprNode) (o : BinopType) (tl : List token) :
    parseAddExprCont (fuel + 1) head (⟨.OP, binopTypeToString o⟩ :: tl) =
      if spec_precedence_level o = 3 then
        (do
          let (_rhs, rest) ← parseMultExpr fuel tl
          parseAddExprCont fuel (.BinopExprNode .fresh head o _rhs) rest)
      else .ok (head, ⟨.OP, binopTypeToString o⟩ :: tl) := by
  cases o <;>
    simp +decide [parseAddExprCont, peekToken, consumeToken, binopTypeToString,
      spec_precedence_level, new_BinopExprNode, tokenToBinopType, bind, Except.bind, pure,
      Except.pure]

theorem parseComparisonExprCont_op (fuel : Nat) (head : ExprNode) (o : BinopType)
    (tl : List token) :
    parseComparisonExprCont (fuel + 1) head (⟨.OP, binopTypeToString o⟩ :: tl) =
      if spec_precedence_level o = 2 then
        (do
          let (_rhs, rest) ← parseAddExpr fuel tl
          parseComparisonExprCont fuel (.BinopExprNode .fresh head o _rhs) rest)
      else .ok (head, ⟨.OP, binopTypeToString o⟩ :: tl) := by
  cases o <;>
    simp +decide [parseComparisonExprCont, peekToken, consumeToken, binopTypeToString,
      spec_precedence_level, new_BinopExprNode, tokenToBinopType, bind, Except.bind, pure,
      Except.pure]

theorem parseBoolopExprCont_op (fuel : Nat) (head : ExprNode) (o : BinopType)
    (tl : List token) :
    parseBoolopExprCont (fuel + 1) head (⟨.OP, binopTypeToString o⟩ :: tl) =
      if spec_precedence_level o = 1 then
        (do
          let (_rhs, rest) ← parseComparisonExpr fuel tl
          parseBoolopExprCont fuel (.BinopExprNode .fresh head o _rhs) rest)
      else .ok (head, ⟨.OP, binopTypeToString o⟩ :: tl) := by
  cases o <;>
    simp +decide [parseBoolopExprCont, peekToken, consumeToken, binopTypeToString,
      spec_precedence_level, new_BinopExprNode, tokenToBinopType, bind, Except.bind, pure,
      Except.pure]

/-- A successful `parseBaseExpr` starts at a token that is not an operator, so
`parseUnopExpr` is the same parse. -/
theorem parseUnopExpr_of_parseBaseExpr (fuel : Nat) (tokens : List token)
    (r : ExprNode × List token) (h : parseBaseExpr fuel tokens = .ok r) :
    parseUnopExpr (fuel + 1) tokens = .ok r := by
  match fuel, tokens, h with
  | 0, _, h => simp [parseBaseExpr, throw, throwThe, MonadExceptOf.throw] at h
  | 1, _, h =>
    simp [parseBaseExpr, parseBaseExprHead, throw, throwThe, MonadExceptOf.throw, bind,
      Except.bind] at h
  | fuel + 2, [], h =>
    simp [parseBaseExpr, parseBaseExprHead, peekToken, throw, throwThe, MonadExceptOf.throw,
      bind, Except.bind] at h
  | fuel + 2, t :: tl, h =>
    have hne : t.type ≠ .OP := by
      intro hop
      simp [parseBaseExpr, parseBaseExprHead, peekToken, hop, throw, throwThe,
        MonadExceptOf.throw, bind, Except.bind, pure, Except.pure] at h
    simp [parseUnopExpr, peekToken, hne, bind, Except.bind, pure, Except.pure, h]

theorem parseUnopExpr_negation (fuel : Nat) (tl : List token) :
    parseUnopExpr (fuel + 2) (⟨.OP, "-"⟩ :: tl) =
      (do
        let (expr, rest) ← parseUnopExpr fuel tl
        pure (.UnopExprNode .fresh .NEGATION expr, rest)) := by
  simp +decide [parseUnopExpr, new_UnopExprNode, peekToken, consumeToken, tokenToUnopType,
    bind, Except.bind, pure, Except.pure]

theorem parseUnopExpr_not (fuel : Nat) (tl : List token) :
    parseUnopExpr (fuel + 2) (⟨.OP, "!"⟩ :: tl) =
      (do
        let (expr, rest) ← parseUnopExpr fuel tl
        pure (.UnopExprNode .fresh .NOT expr, rest)) := by
  simp +decide [parseUnopExpr, new_UnopExprNode, peekToken, consumeToken, tokenToUnopType,
    bind, Except.bind, pure, Except.pure]

theorem Except_bind_ok {α β : Type} (x : Except String α) (f : α → Except String β) (r : β)
    (h : (x >>= f) = .ok r) : ∃ v, x = .ok v := by
  cases x with
  | error e => cases h
  | ok v => exact ⟨v, rfl⟩

/-- The token at which a successful `parseBaseExprHead` starts is neither an
operator nor a closing square bracket. -/
theorem parseBaseExprHead_first (fuel : Nat) (tokens : List token) (r : ExprNode × List token)
    (h : parseBaseExprHead fuel tokens = .ok r) :
    ∃ t tl, tokens = t :: tl ∧ t.type ≠ .OP ∧ t.type ≠ .RSQUARE := by
  match fuel, tokens, h with
  | 0, _, h => simp [parseBaseExprHead, throw, throwThe, MonadExceptOf.throw] at h
  | fuel + 1, [], h =>
    simp [parseBaseExprHead, peekToken, throw, throwThe, MonadExceptOf.throw,
      bind, Except.bind] at h
  | fuel + 1, t :: tl, h =>
    refine ⟨t, tl, rfl, ?_, ?_⟩ <;>
    · intro hop
      simp [parseBaseExprHead, peekToken, hop, throw, throwThe,
        MonadExceptOf.throw, bind, Except.bind, pure, Except.pure] at h

theorem parseUnopExpr_of_parseBaseExprHead (fuel : Nat) (tokens : List token)
    (r : ExprNode × List token) (h : parseBaseExprHead fuel tokens = .ok r) :
    parseUnopExpr (fuel + 2) tokens = parseBaseExpr (fuel + 1) tokens := by
  obtain ⟨t, tl, rfl, hne, _⟩ := parseBaseExprHead_first fuel tokens r h
  simp [parseUnopExpr, peekToken, hne, bind, Except.bind, pure, Except.pure]

theorem parseBaseExpr_first (fuel : Nat) (tokens : List token) (r : ExprNode × List token)
    (h : parseBaseExpr fuel tokens = .ok r) :
    ∃ t tl, tokens = t :: tl ∧ t.type ≠ .RSQUARE := by
  cases fuel with
  | zero => simp [parseBaseExpr, throw, throwThe, MonadExceptOf.throw] at h
  | succ fuel =>
    simp only [parseBaseExpr] at h
    obtain ⟨v, hv⟩ := Except_bind_ok _ _ _ h
    obtain ⟨t, tl, rfl, _, hne⟩ := parseBaseExprHead_first fuel tokens v hv
    exact ⟨t, tl, rfl, hne⟩

theorem parseUnopExpr_first (fuel : Nat) (tokens : List token) (r : ExprNode × List token)
    (h : parseUnopExpr fuel tokens = .ok r) :
    ∃ t tl, tokens = t :: tl ∧ t.type ≠ .RSQUARE := by
  match fuel, tokens, h with
  | 0, _, h => simp [parseUnopExpr, throw, throwThe, MonadExceptOf.throw] at h
  | fuel + 1, [], h =>
    simp [parseUnopExpr, peekToken, throw, throwThe, MonadExceptOf.throw,
      bind, Except.bind] at h
  | fuel + 1, t :: tl, h =>
    by_cases hop : t.type = .OP
    · exact ⟨t, tl, rfl, by simp [hop]⟩
    · simp only [parseUnopExpr, peekToken, bind, Except.bind, pure, Except.pure, ne_eq, hop,
        not_false_eq_true, if_true] at h
      exact parseBaseExpr_first fuel _ r h

theorem parseMultExpr_first (fuel : Nat) (tokens : List token) (r : ExprNode × List token)
    (h : parseMultExpr fuel tokens = .ok r) :
    ∃ t tl, tokens = t :: tl ∧ t.type ≠ .RSQUARE := by
  cases fuel with
  | zero => simp [parseMultExpr, throw, throwThe, MonadExceptOf.throw] at h
  | succ fuel =>
    simp only [parseMultExpr] at h
    obtain ⟨v, hv⟩ := Except_bind_ok _ _ _ h
    exact parseUnopExpr_first fuel tokens v hv

theorem parseAddExpr_first (fuel : Nat) (tokens : List token) (r : ExprNode × List token)
    (h : parseAddExpr fuel tokens = .ok r) :
    ∃ t tl, tokens = t :: tl ∧ t.type ≠ .RSQUARE := by
  cases fuel with
  | zero => simp [parseAddExpr, throw, throwThe, MonadExceptOf.throw] at h
  | succ fuel =>
    simp only [parseAddExpr] at h
    obtain ⟨v, hv⟩ := Except_bind_ok _ _ _ h
    exact parseMultExpr_first fuel tokens v hv

theorem parseComparisonExpr_first (fuel : Nat) (tokens : List token)
    (r : ExprNode × List token) (h : parseComparisonExpr fuel tokens = .ok r) :
    ∃ t tl, tokens = t :: tl ∧ t.type ≠ .RSQUARE := by
  cases fuel with
  | zero => simp [parseComparisonExpr, throw, throwThe, MonadExceptOf.throw] at h
  | succ fuel =>
    simp only [parseComparisonExpr] at h
    obtain ⟨v, hv⟩ := Except_bind_ok _ _ _ h
    exact parseAddExpr_first fuel tokens v hv

theorem parseBoolopExpr_first (fuel : Nat) (tokens : List token) (r : ExprNode × List token)
    (h : parseBoolopExpr fuel tokens = .ok r) :
    ∃ t tl, tokens = t :: tl ∧ t.type ≠ .RSQUARE := by
  cases fuel with
  | zero => simp [parseBoolopExpr, throw, throwThe, MonadExceptOf.throw] at h
  | succ fuel =>
    simp only [parseBoolopExpr] at h
    obtain ⟨v, hv⟩ := Except_bind_ok _ _ _ h
    exact parseComparisonExpr_first fuel tokens v hv

/-- The token at which a successful `parseExpr` starts is not a closing square
bracket. -/
theorem parseExpr_first (fuel : Nat) (tokens : List token) (r : ExprNode × List token)
    (h : parseExpr fuel tokens = .ok r) :
    ∃ t tl, tokens = t :: tl ∧ t.type ≠ .RSQUARE := by
  cases fuel with
  | zero => simp [parseExpr, throw, throwThe, MonadExceptOf.throw] at h
  | succ fuel =>
    simp only [parseExpr] at h
    exact parseBoolopExpr_first fuel tokens r h

/-- The index list `[ i ]` of one expression. -/
theorem new_ArrayIndexExprNode_single (fuel : Nat) (head i : ExprNode) (ti tl : List token)
    (h : parseExpr (fuel + 1) (ti ++ ⟨.RSQUARE, "]"⟩ :: tl) = .ok (i, ⟨.RSQUARE, "]"⟩ :: tl)) :
    new_ArrayIndexExprNode (fuel + 3) head
        (⟨.LSQUARE, "["⟩ :: (ti ++ ⟨.RSQUARE, "]"⟩ :: tl)) =
      .ok (.ArrayIndexExprNode .fresh head [i], tl) := by
  obtain ⟨t, tl', htl, hne⟩ := parseExpr_first _ _ _ h
  simp only [new_ArrayIndexExprNode, consumeToken, parse_expressions, bind, Except.bind, pure,
    Except.pure, ne_eq, not_true_eq_false, if_false]
  rw [htl] at h ⊢
  simp [peekToken, hne, h, consumeToken, parse_expressions, bind, Except.bind, pure,
    Except.pure]

/-- The tuple index `{ k }`. -/
theorem new_TupleIndexExprNode_run (head : ExprNode) (text : String) (k : Int)
    (tl : List token) (h : castStringToInt text = .ok k) :
    new_TupleIndexExprNode head (⟨.LCURLY, "\x7b"⟩ :: ⟨.INTVAL, text⟩ :: ⟨.RCURLY, "\x7d"⟩ :: tl) =
      .ok (.TupleIndexExprNode .fresh head k, tl) := by
  simp [new_TupleIndexExprNode, consumeToken, h, bind, Except.bind, pure, Except.pure]

theorem parseBaseExprCont_stop (fuel : Nat) (head : ExprNode) (tokens : List token)
    (following : TokenType) (h : peekToken tokens = .ok following)
    (h1 : following ≠ .LCURLY) (h2 : following ≠ .LSQUARE) :
    parseBaseExprCont (fuel + 1) head tokens = .ok (head, tokens) := by
  simp only [parseBaseExprCont, h, bind, Except.bind]
  rfl

theorem parseBaseExprCont_LSQUARE (fuel : Nat) (head : ExprNode) (tl : List token) :
    parseBaseExprCont (fuel + 1) head (⟨.LSQUARE, "["⟩ :: tl) =
      (do
        let (indexed, rest) ← new_ArrayIndexExprNode fuel head (⟨.LSQUARE, "["⟩ :: tl)
        parseBaseExprCont fuel indexed rest) := by
  simp [parseBaseExprCont, peekToken, bind, Except.bind, pure, Except.pure]

theorem parseBaseExprCont_LCURLY (fuel : Nat) (head : ExprNode) (tl : List token) :
    parseBaseExprCont (fuel + 1) head (⟨.LCURLY, "\x7b"⟩ :: tl) =
      (do
        let (indexed, rest) ← new_TupleIndexExprNode head (⟨.LCURLY, "\x7b"⟩ :: tl)
        parseBaseExprCont fuel indexed rest) := by
  simp [parseBaseExprCont, peekToken, bind, Except.bind, pure, Except.pure]

theorem parseBaseExprHead_LPAREN (fuel : Nat) (tl : List token) :
    parseBaseExprHead (fuel + 1) (⟨.LPAREN, "("⟩ :: tl) =
      (do
        let (expr, rest) ← parseExpr fuel tl
        let (_, rest) ← consumeToken .RPAREN rest
        pure (expr, rest)) := by
  simp [parseBaseExprHead, peekToken, consumeToken, bind, Except.bind, pure, Except.pure]

theorem parseUnopExpr_LPAREN (fuel : Nat) (tl : List token) :
    parseUnopExpr (fuel + 1) (⟨.LPAREN, "("⟩ :: tl) =
      parseBaseExpr fuel (⟨.LPAREN, "("⟩ :: tl) := by
  simp [parseUnopExpr, peekToken, bind, Except.bind, pure, Except.pure]

/-- C18, counterexample: `if true then 1 else 2`, `3` and `4` are base
expressions and `*` binds tighter than `+`, but the tokens
`if true then 1 else 2 + 3 * 4` parse as the `if` expression whose else branch
is `2 + 3 * 4`, not as `Binop(if true then 1 else 2, +, Binop(3, *, 4))`. -/
theorem parseExpr_if_operand_is_greedy :
    parseBaseExpr 20 ([⟨.IF, "if"⟩, ⟨.TRUE, "true"⟩, ⟨.THEN, "then"⟩, ⟨.INTVAL, "1"⟩,
        ⟨.ELSE, "else"⟩, ⟨.INTVAL, "2"⟩] ++ [⟨.NEWLINE, "\n"⟩]) =
      .ok (.IfExprNode .fresh (.TrueExprNode .fresh) (.IntExprNode .fresh 1)
        (.IntExprNode .fresh 2), [⟨.NEWLINE, "\n"⟩]) ∧
    parseBaseExpr 20 ([⟨.INTVAL, "3"⟩] ++ [⟨.NEWLINE, "\n"⟩]) =
      .ok (.IntExprNode .fresh 3, [⟨.NEWLINE, "\n"⟩]) ∧
    parseBaseExpr 20 ([⟨.INTVAL, "4"⟩] ++ [⟨.NEWLINE, "\n"⟩]) =
      .ok (.IntExprNode .fresh 4, [⟨.NEWLINE, "\n"⟩]) ∧
    spec_precedence_level .PLUS < spec_precedence_level .TIMES ∧
    parseExpr 20 ([⟨.IF, "if"⟩, ⟨.TRUE, "true"⟩, ⟨.THEN, "then"⟩, ⟨.INTVAL, "1"⟩,
        ⟨.ELSE, "else"⟩, ⟨.INTVAL, "2"⟩] ++ ⟨.OP, "+"⟩ :: ([⟨.INTVAL, "3"⟩] ++ ⟨.OP, "*"⟩ ::
          ([⟨.INTVAL, "4"⟩] ++ [⟨.NEWLINE, "\n"⟩]))) =
      .ok (.IfExprNode .fresh (.TrueExprNode .fresh) (.IntExprNode .fresh 1)
        (.BinopExprNode .fresh (.IntExprNode .fresh 2) .PLUS
          (.BinopExprNode .fresh (.IntExprNode .fresh 3) .TIMES (.IntExprNode .fresh 4))),
        [⟨.NEWLINE, "\n"⟩]) ∧
    parseExpr 20 ([⟨.IF, "if"⟩, ⟨.TRUE, "true"⟩, ⟨.THEN, "then"⟩, ⟨.INTVAL, "1"⟩,
        ⟨.ELSE, "else"⟩, ⟨.INTVAL, "2"⟩] ++ ⟨.OP, "+"⟩ :: ([⟨.INTVAL, "3"⟩] ++ ⟨.OP, "*"⟩ ::
          ([⟨.INTVAL, "4"⟩] ++ [⟨.NEWLINE, "\n"⟩]))) ≠
      .ok (.BinopExprNode .fresh
        (.IfExprNode .fresh (.TrueExprNode .fresh) (.IntExprNode .fresh 1)
          (.IntExprNode .fresh 2)) .PLUS
        (.BinopExprNode .fresh (.IntExprNode .fresh 3) .TIMES (.IntExprNode .fresh 4)),
        [⟨.NEWLINE, "\n"⟩]) :=
  ⟨rfl, rfl, rfl, by decide, rfl, fun h => by cases h⟩

/-- C18, as amended: let `a` and `b` be base expressions whose parse stops at
an operator token that follows their tokens, `c` a base expression whose parse
stops at the tokens `rest` that follow it, and let `rest` start with a token
that is not an operator.  With a recursion budget of at least `n + 10`,
`parseExpr` on the tokens `a op1 b op2 c` returns
`Binop(Binop(a, op1, b), op2, c)` when the level of `op1` is at least the
level of `op2` and `Binop(a, op1, Binop(b, op2, c))` when `op2` binds tighter,
with the levels `* / %` > `+ -` > comparisons > `&& ||`; and on `- a op1 c` and
`! a op1 c` it returns `Binop(Unop(-, a), op1, c)` and
`Binop(Unop(!, a), op1, c)`.  Each parse leaves exactly `rest`. -/
theorem parseExpr_precedence (n : Nat) (ta tb tc rest : List token) (a b c : ExprNode)
    (op1 op2 : BinopType) (following : TokenType)
    (ha : ∀ fuel, n ≤ fuel → ∀ text tl,
      parseBaseExpr fuel (ta ++ ⟨.OP, text⟩ :: tl) = .ok (a, ⟨.OP, text⟩ :: tl))
    (hb : ∀ fuel, n ≤ fuel → ∀ text tl,
      parseBaseExpr fuel (tb ++ ⟨.OP, text⟩ :: tl) = .ok (b, ⟨.OP, text⟩ :: tl))
    (hc : ∀ fuel, n ≤ fuel → parseBaseExpr fuel (tc ++ rest) = .ok (c, rest))
    (hrest : peekToken rest = .ok following) (hfollowing : following ≠ .OP) :
    ∀ fuel, n + 10 ≤ fuel →
      parseExpr fuel
          (ta ++ ⟨.OP, binopTypeToString op1⟩ :: (tb ++ ⟨.OP, binopTypeToString op2⟩ ::
            (tc ++ rest))) =
        .ok (if spec_precedence_level op2 ≤ spec_precedence_level op1 then
            .BinopExprNode .fresh (.BinopExprNode .fresh a op1 b) op2 c
          else .BinopExprNode .fresh a op1 (.BinopExprNode .fresh b op2 c), rest) ∧
      parseExpr fuel (⟨.OP, "-"⟩ :: (ta ++ ⟨.OP, binopTypeToString op1⟩ :: (tc ++ rest))) =
        .ok (.BinopExprNode .fresh (.UnopExprNode .fresh .NEGATION a) op1 c, rest) ∧
      parseExpr fuel (⟨.OP, "!"⟩ :: (ta ++ ⟨.OP, binopTypeToString op1⟩ :: (tc ++ rest))) =
        .ok (.BinopExprNode .fresh (.UnopExprNode .fresh .NOT a) op1 c, rest) := by
  intro fuel hfuel
  obtain ⟨m, rfl, hm⟩ : ∃ m, fuel = m + 10 ∧ n ≤ m := ⟨fuel - 10, by omega, by omega⟩
  have ua : ∀ fuel, n ≤ fuel → ∀ text tl,
      parseUnopExpr (fuel + 1) (ta ++ ⟨.OP, text⟩ :: tl) = .ok (a, ⟨.OP, text⟩ :: tl) :=
    fun fuel h text tl => parseUnopExpr_of_parseBaseExpr _ _ _ (ha fuel h text tl)
  have ub : ∀ fuel, n ≤ fuel → ∀ text tl,
      parseUnopExpr (fuel + 1) (tb ++ ⟨.OP, text⟩ :: tl) = .ok (b, ⟨.OP, text⟩ :: tl) :=
    fun fuel h text tl => parseUnopExpr_of_parseBaseExpr _ _ _ (hb fuel h text tl)
  have uc : ∀ fuel, n ≤ fuel → parseUnopExpr (fuel + 1) (tc ++ rest) = .ok (c, rest) :=
    fun fuel h => parseUnopExpr_of_parseBaseExpr _ _ _ (hc fuel h)
  have sM := fun fuel head => parseMultExprCont_stop fuel head rest following hrest hfollowing
  have sA := fun fuel head => parseAddExprCont_stop fuel head rest following hrest hfollowing
  have sC := fun fuel head =>
    parseComparisonExprCont_stop fuel head rest following hrest hfollowing
  have sB := fun fuel head => parseBoolopExprCont_stop fuel head rest following hrest hfollowing
  rcases spec_precedence_level_cases op1 with h1 | h1 | h1 | h1 <;>
    rcases spec_precedence_level_cases op2 with h2 | h2 | h2 | h2 <;>
    simp (disch := omega) [parseExpr, parseBoolopExpr, parseComparisonExpr, parseAddExpr,
      parseMultExpr, parseMultExprCont_op, parseAddExprCont_op, parseComparisonExprCont_op,
      parseBoolopExprCont_op, parseUnopExpr_negation, parseUnopExpr_not, ua, ub, uc, sM, sA, sC, sB, h1, h2, bind, Except.bind, pure, Except.pure]

/-- The theorem `parseExpr_precedence` at the variables `x`, `y`, `z` with
`*` and `+`: the tokens `x * y + z` and `- x * z`, each followed by a
`NEWLINE` token. -/
theorem parseExpr_precedence_witness :
    parseExpr 13 ([⟨.VARIABLE, "x"⟩] ++ ⟨.OP, "*"⟩ :: ([⟨.VARIABLE, "y"⟩] ++ ⟨.OP, "+"⟩ ::
        ([⟨.VARIABLE, "z"⟩] ++ [⟨.NEWLINE, "\n"⟩]))) =
      .ok (.BinopExprNode .fresh
        (.BinopExprNode .fresh (.VariableExprNode .fresh "x") .TIMES
          (.VariableExprNode .fresh "y")) .PLUS (.VariableExprNode .fresh "z"),
        [⟨.NEWLINE, "\n"⟩]) ∧
    parseExpr 13 (⟨.OP, "-"⟩ :: ([⟨.VARIABLE, "x"⟩] ++ ⟨.OP, "*"⟩ ::
        ([⟨.VARIABLE, "z"⟩] ++ [⟨.NEWLINE, "\n"⟩]))) =
      .ok (.BinopExprNode .fresh
        (.UnopExprNode .fresh .NEGATION (.VariableExprNode .fresh "x")) .TIMES
        (.VariableExprNode .fresh "z"), [⟨.NEWLINE, "\n"⟩]) :=
  have h := parseExpr_precedence 3 [⟨.VARIABLE, "x"⟩] [⟨.VARIABLE, "y"⟩] [⟨.VARIABLE, "z"⟩]
    [⟨.NEWLINE, "\n"⟩] (.VariableExprNode .fresh "x") (.VariableExprNode .fresh "y")
    (.VariableExprNode .fresh "z") .TIMES .PLUS .NEWLINE
    (fun fuel hfuel text tl => by
      obtain ⟨k, rfl⟩ : ∃ k, fuel = k + 3 := ⟨fuel - 3, by omega⟩
      rfl)
    (fun fuel hfuel text tl => by
      obtain ⟨k, rfl⟩ : ∃ k, fuel = k + 3 := ⟨fuel - 3, by omega⟩
      rfl)
    (fun fuel hfuel => by
      obtain ⟨k, rfl⟩ : ∃ k, fuel = k + 3 := ⟨fuel - 3, by omega⟩
      rfl)
    rfl (by decide) 13 (by decide)
  ⟨h.1, h.2.1⟩

/-- C19, counterexample: `if true then x else y` is a base expression and
`0` an index, but the tokens `- if true then x else y [ 0 ]` parse with the
index attached to the else branch `y`, not as
`Unop(-, ArrayIndex(if true then x else y, [0]))`. -/
theorem parseExpr_if_takes_suffix :
    parseBaseExpr 40 ([⟨.IF, "if"⟩, ⟨.TRUE, "true"⟩, ⟨.THEN, "then"⟩, ⟨.VARIABLE, "x"⟩,
        ⟨.ELSE, "else"⟩, ⟨.VARIABLE, "y"⟩] ++ [⟨.NEWLINE, "\n"⟩]) =
      .ok (.IfExprNode .fresh (.TrueExprNode .fresh) (.VariableExprNode .fresh "x")
        (.VariableExprNode .fresh "y"), [⟨.NEWLINE, "\n"⟩]) ∧
    parseExpr 40 ([⟨.INTVAL, "0"⟩] ++ [⟨.RSQUARE, "]"⟩, ⟨.NEWLINE, "\n"⟩]) =
      .ok (.IntExprNode .fresh 0, [⟨.RSQUARE, "]"⟩, ⟨.NEWLINE, "\n"⟩]) ∧
    parseExpr 40 (⟨.OP, "-"⟩ :: ([⟨.IF, "if"⟩, ⟨.TRUE, "true"⟩, ⟨.THEN, "then"⟩,
        ⟨.VARIABLE, "x"⟩, ⟨.ELSE, "else"⟩, ⟨.VARIABLE, "y"⟩] ++ ⟨.LSQUARE, "["⟩ ::
          ([⟨.INTVAL, "0"⟩] ++ ⟨.RSQUARE, "]"⟩ :: [⟨.NEWLINE, "\n"⟩]))) =
      .ok (.UnopExprNode .fresh .NEGATION
        (.IfExprNode .fresh (.TrueExprNode .fresh) (.VariableExprNode .fresh "x")
          (.ArrayIndexExprNode .fresh (.VariableExprNode .fresh "y") [.IntExprNode .fresh 0])),
        [⟨.NEWLINE, "\n"⟩]) ∧
    parseExpr 40 (⟨.OP, "-"⟩ :: ([⟨.IF, "if"⟩, ⟨.TRUE, "true"⟩, ⟨.THEN, "then"⟩,
        ⟨.VARIABLE, "x"⟩, ⟨.ELSE, "else"⟩, ⟨.VARIABLE, "y"⟩] ++ ⟨.LSQUARE, "["⟩ ::
          ([⟨.INTVAL, "0"⟩] ++ ⟨.RSQUARE, "]"⟩ :: [⟨.NEWLINE, "\n"⟩]))) ≠
      .ok (.UnopExprNode .fresh .NEGATION
        (.ArrayIndexExprNode .fresh
          (.IfExprNode .fresh (.TrueExprNode .fresh) (.VariableExprNode .fresh "x")
            (.VariableExprNode .fresh "y")) [.IntExprNode .fresh 0]),
        [⟨.NEWLINE, "\n"⟩]) :=
  ⟨rfl, rfl, rfl, fun h => by cases h⟩

/-- C19, as amended: let `a` and `b` be base expressions whose own parse
(`parseBaseExprHead`) stops where their tokens end, whatever token other than
`(` follows, `i` an expression whose parse stops at a following `]`, and let
`rest` start with a token that is neither an operator nor `{` nor `[`.  With a
recursion budget of at least `n + 18`, `- a [ i ]` parses as
`Unop(-, ArrayIndex(a, [i]))` (and likewise for `!`), `a op b { k }` as
`Binop(a, op, TupleIndex(b, k))`, `a op b [ i ]` as
`Binop(a, op, ArrayIndex(b, [i]))`, `( a op b ) [ i ]` as
`ArrayIndex(Binop(a, op, b), [i])`, and the chains `a [ i ] { k }` and
`a { k } [ i ]` as `TupleIndex(ArrayIndex(a, [i]), k)` and
`ArrayIndex(TupleIndex(a, k), [i])`.  Each parse leaves exactly `rest`. -/
theorem parseExpr_suffix (n : Nat) (ta tb ti rest : List token) (a b i : ExprNode)
    (op : BinopType) (text : String) (k : Int) (following : TokenType)
    (ha : ∀ fuel, n ≤ fuel → ∀ t tl, t.type ≠ .LPAREN →
      parseBaseExprHead fuel (ta ++ t :: tl) = .ok (a, t :: tl))
    (hb : ∀ fuel, n ≤ fuel → ∀ t tl, t.type ≠ .LPAREN →
      parseBaseExprHead fuel (tb ++ t :: tl) = .ok (b, t :: tl))
    (hi : ∀ fuel, n ≤ fuel → ∀ tl,
      parseExpr fuel (ti ++ ⟨.RSQUARE, "]"⟩ :: tl) = .ok (i, ⟨.RSQUARE, "]"⟩ :: tl))
    (hk : castStringToInt text = .ok k)
    (hrest : peekToken rest = .ok following) (hOP : following ≠ .OP)
    (hLCURLY : following ≠ .LCURLY) (hLSQUARE : following ≠ .LSQUARE) :
    ∀ fuel, n + 18 ≤ fuel →
      parseExpr fuel (⟨.OP, "-"⟩ :: (ta ++ ⟨.LSQUARE, "["⟩ :: (ti ++ ⟨.RSQUARE, "]"⟩ :: rest))) =
        .ok (.UnopExprNode .fresh .NEGATION (.ArrayIndexExprNode .fresh a [i]), rest) ∧
      parseExpr fuel (⟨.OP, "!"⟩ :: (ta ++ ⟨.LSQUARE, "["⟩ :: (ti ++ ⟨.RSQUARE, "]"⟩ :: rest))) =
        .ok (.UnopExprNode .fresh .NOT (.ArrayIndexExprNode .fresh a [i]), rest) ∧
      parseExpr fuel (ta ++ ⟨.OP, binopTypeToString op⟩ ::
          (tb ++ ⟨.LCURLY, "\x7b"⟩ :: ⟨.INTVAL, text⟩ :: ⟨.RCURLY, "\x7d"⟩ :: rest)) =
        .ok (.BinopExprNode .fresh a op (.TupleIndexExprNode .fresh b k), rest) ∧
      parseExpr fuel (ta ++ ⟨.OP, binopTypeToString op⟩ ::
          (tb ++ ⟨.LSQUARE, "["⟩ :: (ti ++ ⟨.RSQUARE, "]"⟩ :: rest))) =
        .ok (.BinopExprNode .fresh a op (.ArrayIndexExprNode .fresh b [i]), rest) ∧
      parseExpr fuel (⟨.LPAREN, "("⟩ :: (ta ++ ⟨.OP, binopTypeToString op⟩ ::
          (tb ++ ⟨.RPAREN, ")"⟩ :: ⟨.LSQUARE, "["⟩ :: (ti ++ ⟨.RSQUARE, "]"⟩ :: rest)))) =
        .ok (.ArrayIndexExprNode .fresh (.BinopExprNode .fresh a op b) [i], rest) ∧
      parseExpr fuel (ta ++ ⟨.LSQUARE, "["⟩ :: (ti ++ ⟨.RSQUARE, "]"⟩ ::
          ⟨.LCURLY, "\x7b"⟩ :: ⟨.INTVAL, text⟩ :: ⟨.RCURLY, "\x7d"⟩ :: rest)) =
        .ok (.TupleIndexExprNode .fresh (.ArrayIndexExprNode .fresh a [i]) k, rest) ∧
      parseExpr fuel (ta ++ ⟨.LCURLY, "\x7b"⟩ :: ⟨.INTVAL, text⟩ :: ⟨.RCURLY, "\x7d"⟩ ::
          ⟨.LSQUARE, "["⟩ :: (ti ++ ⟨.RSQUARE, "]"⟩ :: rest)) =
        .ok (.ArrayIndexExprNode .fresh (.TupleIndexExprNode .fresh a k) [i], rest) := by
  intro fuel hfuel
  obtain ⟨m, rfl, hm⟩ : ∃ m, fuel = m + 18 ∧ n ≤ m := ⟨fuel - 18, by omega, by omega⟩
  have ua : ∀ fuel, n ≤ fuel → ∀ t tl, t.type ≠ .LPAREN →
      parseUnopExpr (fuel + 2) (ta ++ t :: tl) = parseBaseExprCont fuel a (t :: tl) := by
    intro fuel h t tl ht
    rw [parseUnopExpr_of_parseBaseExprHead fuel _ _ (ha fuel h t tl ht)]
    simp [parseBaseExpr, ha fuel h t tl ht, bind, Except.bind]
  have ub : ∀ fuel, n ≤ fuel → ∀ t tl, t.type ≠ .LPAREN →
      parseUnopExpr (fuel + 2) (tb ++ t :: tl) = parseBaseExprCont fuel b (t :: tl) := by
    intro fuel h t tl ht
    rw [parseUnopExpr_of_parseBaseExprHead fuel _ _ (hb fuel h t tl ht)]
    simp [parseBaseExpr, hb fuel h t tl ht, bind, Except.bind]
  have ai := fun fuel head tl (hf : n ≤ fuel + 1) =>
    new_ArrayIndexExprNode_single fuel head i ti tl (hi (fuel + 1) hf tl)
  have tx := fun head tl => new_TupleIndexExprNode_run head text k tl hk
  have sX := fun fuel head =>
    parseBaseExprCont_stop fuel head rest following hrest hLCURLY hLSQUARE
  have sM := fun fuel head => parseMultExprCont_stop fuel head rest following hrest hOP
  have sA := fun fuel head => parseAddExprCont_stop fuel head rest following hrest hOP
  have sC := fun fuel head => parseComparisonExprCont_stop fuel head rest following hrest hOP
  have sB := fun fuel head => parseBoolopExprCont_stop fuel head rest following hrest hOP
  have pX := fun fuel head tl =>
    parseBaseExprCont_stop fuel head (⟨.RPAREN, ")"⟩ :: tl) .RPAREN rfl (by decide) (by decide)
  have pM := fun fuel head tl =>
    parseMultExprCont_stop fuel head (⟨.RPAREN, ")"⟩ :: tl) .RPAREN rfl (by decide)
  have pA := fun fuel head tl =>
    parseAddExprCont_stop fuel head (⟨.RPAREN, ")"⟩ :: tl) .RPAREN rfl (by decide)
  have pC := fun fuel head tl =>
    parseComparisonExprCont_stop fuel head (⟨.RPAREN, ")"⟩ :: tl) .RPAREN rfl (by decide)
  have pB := fun fuel head tl =>
    parseBoolopExprCont_stop fuel head (⟨.RPAREN, ")"⟩ :: tl) .RPAREN rfl (by decide)
  have oX := fun fuel head text tl =>
    parseBaseExprCont_stop fuel head (⟨.OP, text⟩ :: tl) .OP rfl (by decide) (by decide)
  rcases spec_precedence_level_cases op with h1 | h1 | h1 | h1 <;>
    simp (disch := first | omega | simp) [parseExpr, parseBoolopExpr, parseComparisonExpr,
      parseAddExpr, parseMultExpr, parseMultExprCont_op, parseAddExprCont_op,
      parseComparisonExprCont_op, parseBoolopExprCont_op, parseUnopExpr_negation,
      parseUnopExpr_not, parseBaseExprCont_LSQUARE, parseBaseExprCont_LCURLY,
      parseUnopExpr_LPAREN, parseBaseExprHead_LPAREN, parseBaseExpr, consumeToken,
      ua, ub, ai, tx, sX, sM, sA, sC, sB, pX, pM, pA, pC, pB, oX, h1, bind,
      Except.bind, pure, Except.pure]

/-- The theorem `parseExpr_suffix` at the variables `a`, `b`, `i`, the
operator `+` and the tuple index `0`: the tokens `- a [ i ]`, `a + b { 0 }` and
`( a + b ) [ i ]`, each followed by a `NEWLINE` token. -/
theorem parseExpr_suffix_witness :
    parseExpr 28 (⟨.OP, "-"⟩ :: ([⟨.VARIABLE, "a"⟩] ++ ⟨.LSQUARE, "["⟩ ::
        ([⟨.VARIABLE, "i"⟩] ++ ⟨.RSQUARE, "]"⟩ :: [⟨.NEWLINE, "\n"⟩]))) =
      .ok (.UnopExprNode .fresh .NEGATION
        (.ArrayIndexExprNode .fresh (.VariableExprNode .fresh "a")
          [.VariableExprNode .fresh "i"]), [⟨.NEWLINE, "\n"⟩]) ∧
    parseExpr 28 ([⟨.VARIABLE, "a"⟩] ++ ⟨.OP, "+"⟩ :: ([⟨.VARIABLE, "b"⟩] ++
        ⟨.LCURLY, "\x7b"⟩ :: ⟨.INTVAL, "0"⟩ :: ⟨.RCURLY, "\x7d"⟩ :: [⟨.NEWLINE, "\n"⟩])) =
      .ok (.BinopExprNode .fresh (.VariableExprNode .fresh "a") .PLUS
        (.TupleIndexExprNode .fresh (.VariableExprNode .fresh "b") 0), [⟨.NEWLINE, "\n"⟩]) ∧
    parseExpr 28 (⟨.LPAREN, "("⟩ :: ([⟨.VARIABLE, "a"⟩] ++ ⟨.OP, "+"⟩ ::
        ([⟨.VARIABLE, "b"⟩] ++ ⟨.RPAREN, ")"⟩ :: ⟨.LSQUARE, "["⟩ ::
          ([⟨.VARIABLE, "i"⟩] ++ ⟨.RSQUARE, "]"⟩ :: [⟨.NEWLINE, "\n"⟩])))) =
      .ok (.ArrayIndexExprNode .fresh
        (.BinopExprNode .fresh (.VariableExprNode .fresh "a") .PLUS
          (.VariableExprNode .fresh "b")) [.VariableExprNode .fresh "i"],
        [⟨.NEWLINE, "\n"⟩]) :=
  have h := parseExpr_suffix 10 [⟨.VARIABLE, "a"⟩] [⟨.VARIABLE, "b"⟩] [⟨.VARIABLE, "i"⟩]
    [⟨.NEWLINE, "\n"⟩] (.VariableExprNode .fresh "a") (.VariableExprNode .fresh "b")
    (.VariableExprNode .fresh "i") .PLUS "0" 0 .NEWLINE
    (fun fuel hfuel t tl ht => by
      obtain ⟨k, rfl⟩ : ∃ k, fuel = k + 10 := ⟨fuel - 10, by omega⟩
      obtain ⟨type, text⟩ := t
      cases type <;> first | rfl | exact absurd rfl ht)
    (fun fuel hfuel t tl ht => by
      obtain ⟨k, rfl⟩ : ∃ k, fuel = k + 10 := ⟨fuel - 10, by omega⟩
      obtain ⟨type, text⟩ := t
      cases type <;> first | rfl | exact absurd rfl ht)
    (fun fuel hfuel tl => by
      obtain ⟨k, rfl⟩ : ∃ k, fuel = k + 10 := ⟨fuel - 10, by omega⟩
      rfl)
    rfl rfl (by decide) (by decide) (by decide) 28 (by decide)
  ⟨h.1, h.2.2.1, h.2.2.2.2.1⟩

/-- The token at which a successful `parseCmd` starts is neither a `NEWLINE`
nor the `END_OF_FILE` token. -/
theorem parseCmd_first (fuel : Nat) (tokens : List token) (r : CmdNode × List token)
    (h : parseCmd fuel tokens = .ok r) :
    ∃ t tl, tokens = t :: tl ∧ t.type ≠ .NEWLINE ∧ t.type ≠ .END_OF_FILE := by
  match fuel, tokens, h with
  | 0, _, h => simp [parseCmd, throw, throwThe, MonadExceptOf.throw] at h
  | fuel + 1, [], h =>
    simp [parseCmd, peekToken, throw, throwThe, MonadExceptOf.throw, bind, Except.bind] at h
  | fuel + 1, t :: tl, h =>
    refine ⟨t, tl, rfl, ?_, ?_⟩ <;>
    · intro hop
      simp [parseCmd, peekToken, hop, throw, throwThe, MonadExceptOf.throw, bind, Except.bind,
        pure, Except.pure] at h

/-- The loop of `parseAllTokens` over commands that each end at a `NEWLINE`
token. -/
theorem parse_cmds_run (n : Nat) (cmds : List (List token × CmdNode))
    (h : ∀ p ∈ cmds, ∀ fuel, n ≤ fuel → ∀ tl,
      parseCmd fuel (p.1 ++ ⟨.NEWLINE, "\n"⟩ :: tl) = .ok (p.2, ⟨.NEWLINE, "\n"⟩ :: tl)) :
    ∀ fuel, n + cmds.length + 1 ≤ fuel →
      parse_cmds fuel
          (cmds.foldr (fun p following => p.1 ++ ⟨.NEWLINE, "\n"⟩ :: following)
            [⟨.END_OF_FILE, ""⟩]) =
        .ok (cmds.map Prod.snd, [⟨.END_OF_FILE, ""⟩]) := by
  induction cmds with
  | nil =>
    intro fuel hfuel
    obtain ⟨m, rfl⟩ : ∃ m, fuel = m + 1 := ⟨fuel - 1, by simp at hfuel; omega⟩
    simp [parse_cmds, peekToken, bind, Except.bind, pure, Except.pure]
  | cons p cmds ih =>
    intro fuel hfuel
    simp only [List.length_cons] at hfuel
    obtain ⟨m, rfl⟩ : ∃ m, fuel = m + 1 := ⟨fuel - 1, by omega⟩
    have hp := h p (List.mem_cons_self _ _) m (by omega)
    have ih' := ih (fun q hq => h q (List.mem_cons_of_mem _ hq)) m (by omega)
    simp only [List.foldr_cons, List.map_cons]
    obtain ⟨t, tl, htl, hnl, heof⟩ := parseCmd_first _ _ _ (hp
      (cmds.foldr (fun p following => p.1 ++ ⟨.NEWLINE, "\n"⟩ :: following)
        [⟨.END_OF_FILE, ""⟩]))
    have hpeek : peekToken (p.1 ++ ⟨.NEWLINE, "\n"⟩ ::
        cmds.foldr (fun p following => p.1 ++ ⟨.NEWLINE, "\n"⟩ :: following)
          [⟨.END_OF_FILE, ""⟩]) = .ok t.type := by
      rw [htl]; rfl
    simp [parse_cmds, hpeek, heof, hp, ih', consumeToken, bind, Except.bind, pure, Except.pure]

/-- C20, counterexample: the tokens of `show 1+2` followed directly by
`END_OF_FILE` are one well-formed command, which `parseCmd` returns, but
`parse` ends in the error of the missing `NEWLINE` token. -/
theorem parse_missing_final_newline :
    parseCmd 20 [⟨.SHOW, "show"⟩, ⟨.INTVAL, "1"⟩, ⟨.OP, "+"⟩, ⟨.INTVAL, "2"⟩,
        ⟨.END_OF_FILE, ""⟩] =
      .ok (.ShowCmdNode (.BinopExprNode .fresh (.IntExprNode .fresh 1) .PLUS
        (.IntExprNode .fresh 2)), [⟨.END_OF_FILE, ""⟩]) ∧
    parse 20 [⟨.SHOW, "show"⟩, ⟨.INTVAL, "1"⟩, ⟨.OP, "+"⟩, ⟨.INTVAL, "2"⟩,
        ⟨.END_OF_FILE, ""⟩] =
      .error "Expected token of type NEWLINE, but got a token of type END_OF_FILE." :=
  ⟨rfl, rfl⟩

/-- C20, as amended: for every sequence of well-formed commands, each
followed by one `NEWLINE` token and the last `NEWLINE` followed by
`END_OF_FILE`, `parse` with a recursion budget of at least
`n + cmds.length + 1` succeeds and returns exactly those commands in order.  A
command is well formed when `parseCmd` with a budget of at least `n` returns it
from its tokens and stops at the `NEWLINE` token that follows. -/
theorem parse_newline_separated (n : Nat) (cmds : List (List token × CmdNode))
    (h : ∀ p ∈ cmds, ∀ fuel, n ≤ fuel → ∀ tl,
      parseCmd fuel (p.1 ++ ⟨.NEWLINE, "\n"⟩ :: tl) = .ok (p.2, ⟨.NEWLINE, "\n"⟩ :: tl)) :
    ∀ fuel, n + cmds.length + 1 ≤ fuel →
      parse fuel
          (cmds.foldr (fun p following => p.1 ++ ⟨.NEWLINE, "\n"⟩ :: following)
            [⟨.END_OF_FILE, ""⟩]) =
        .ok (cmds.map Prod.snd) := by
  intro fuel hfuel
  have hrun := parse_cmds_run n cmds h fuel hfuel
  have hpeek : ∃ ty, peekToken (cmds.foldr
      (fun p following => p.1 ++ ⟨.NEWLINE, "\n"⟩ :: following) [⟨.END_OF_FILE, ""⟩]) = .ok ty ∧
      ty ≠ .NEWLINE := by
    cases cmds with
    | nil => exact ⟨.END_OF_FILE, rfl, by decide⟩
    | cons p cmds =>
      obtain ⟨t, tl, htl, hnl, _⟩ := parseCmd_first _ _ _ (h p (List.mem_cons_self _ _) n
        (le_refl n) (cmds.foldr (fun p following => p.1 ++ ⟨.NEWLINE, "\n"⟩ :: following)
          [⟨.END_OF_FILE, ""⟩]))
      refine ⟨t.type, ?_, hnl⟩
      simp only [List.foldr_cons]
      rw [htl]; rfl
  obtain ⟨ty, hty, hne⟩ := hpeek
  simp [parse, parseAllTokens, hty, hne, hrun, bind, Except.bind, pure, Except.pure]

/-- The theorem `parse_newline_separated` at the two commands `show 1+2`
and `print "done"`, each followed by a `NEWLINE` token. -/
theorem parse_newline_separated_witness :
    parse 14 [⟨.SHOW, "show"⟩, ⟨.INTVAL, "1"⟩, ⟨.OP, "+"⟩, ⟨.INTVAL, "2"⟩, ⟨.NEWLINE, "\n"⟩,
        ⟨.PRINT, "print"⟩, ⟨.STRING, "\"done\""⟩, ⟨.NEWLINE, "\n"⟩, ⟨.END_OF_FILE, ""⟩] =
      .ok [.ShowCmdNode (.BinopExprNode .fresh (.IntExprNode .fresh 1) .PLUS
        (.IntExprNode .fresh 2)), .PrintCmdNode "done"] :=
  parse_newline_separated 11
    [([⟨.SHOW, "show"⟩, ⟨.INTVAL, "1"⟩, ⟨.OP, "+"⟩, ⟨.INTVAL, "2"⟩],
        .ShowCmdNode (.BinopExprNode .fresh (.IntExprNode .fresh 1) .PLUS
          (.IntExprNode .fresh 2))),
      ([⟨.PRINT, "print"⟩, ⟨.STRING, "\"done\""⟩], .PrintCmdNode "done")]
    (fun p hp fuel hfuel tl => by
      obtain ⟨k, rfl⟩ : ∃ k, fuel = k + 11 := ⟨fuel - 11, by omega⟩
      simp only [List.mem_cons, List.mem_singleton, List.not_mem_nil, or_false] at hp
      rcases hp with rfl | rfl <;> rfl)
    14 (by decide)

set_option maxRecDepth 10000 in
/-- The tokens of the two function definitions of `two_scopes_program`, with
the `NEWLINE` tokens the parser asks for after the opening brace, after every
statement and after every command, parse to that program. -/
theorem two_scopes_program_parse :
    parse 40 [⟨.FN, "fn"⟩, ⟨.VARIABLE, "f"⟩, ⟨.LPAREN, "("⟩, ⟨.RPAREN, ")"⟩, ⟨.COLON, ":"⟩,
        ⟨.INT, "int"⟩, ⟨.LCURLY, "\x7b"⟩, ⟨.NEWLINE, "\n"⟩,
        ⟨.LET, "let"⟩, ⟨.VARIABLE, "x"⟩, ⟨.EQUALS, "="⟩, ⟨.INTVAL, "5"⟩, ⟨.NEWLINE, "\n"⟩,
        ⟨.RETURN, "return"⟩, ⟨.VARIABLE, "x"⟩, ⟨.NEWLINE, "\n"⟩,
        ⟨.RCURLY, "\x7d"⟩, ⟨.NEWLINE, "\n"⟩,
        ⟨.FN, "fn"⟩, ⟨.VARIABLE, "g"⟩, ⟨.LPAREN, "("⟩, ⟨.RPAREN, ")"⟩, ⟨.COLON, ":"⟩,
        ⟨.LCURLY, "\x7b"⟩, ⟨.INT, "int"⟩, ⟨.COMMA, ","⟩, ⟨.INT, "int"⟩, ⟨.RCURLY, "\x7d"⟩,
        ⟨.LCURLY, "\x7b"⟩, ⟨.NEWLINE, "\n"⟩,
        ⟨.LET, "let"⟩, ⟨.VARIABLE, "x"⟩, ⟨.EQUALS, "="⟩, ⟨.LCURLY, "\x7b"⟩, ⟨.INTVAL, "1"⟩,
        ⟨.COMMA, ","⟩, ⟨.INTVAL, "2"⟩, ⟨.RCURLY, "\x7d"⟩, ⟨.NEWLINE, "\n"⟩,
        ⟨.RETURN, "return"⟩, ⟨.VARIABLE, "x"⟩, ⟨.NEWLINE, "\n"⟩,
        ⟨.RCURLY, "\x7d"⟩, ⟨.NEWLINE, "\n"⟩, ⟨.END_OF_FILE, ""⟩] =
      .ok Compiler.two_scopes_program :=
  rfl

/-! ### Bounds lists -/

/-- The loop of `parseBounds` on the pairs `x : e` of a bounds list, the first
one followed by the others with a comma before each, up to the tokens `last`
that follow the final pair: a closing bracket ends the list, a comma before
the closing bracket is the trailing-comma error. -/
theorem parse_bounds_run (n : Nat) (others : List (String × List token × ExprNode))
    (rest : List token) :
    ∀ (first : String × List token × ExprNode),
    (∀ p ∈ first :: others, ∀ fuel, n ≤ fuel → ∀ t tl,
      t.type = .COMMA ∨ t.type = .RSQUARE →
      parseExpr fuel (p.2.1 ++ t :: tl) = .ok (p.2.2, t :: tl)) →
    ∀ fuel, n + others.length + 2 ≤ fuel →
      parse_bounds fuel (⟨.VARIABLE, first.1⟩ :: ⟨.COLON, ":"⟩ :: (first.2.1 ++
          others.foldr
            (fun p following =>
              ⟨.COMMA, ","⟩ :: ⟨.VARIABLE, p.1⟩ :: ⟨.COLON, ":"⟩ :: (p.2.1 ++ following))
            (⟨.RSQUARE, "]"⟩ :: rest))) =
        .ok ((first :: others).map (fun p => (p.1, p.2.2)), ⟨.RSQUARE, "]"⟩ :: rest) ∧
      parse_bounds fuel (⟨.VARIABLE, first.1⟩ :: ⟨.COLON, ":"⟩ :: (first.2.1 ++
          others.foldr
            (fun p following =>
              ⟨.COMMA, ","⟩ :: ⟨.VARIABLE, p.1⟩ :: ⟨.COLON, ":"⟩ :: (p.2.1 ++ following))
            (⟨.COMMA, ","⟩ :: ⟨.RSQUARE, "]"⟩ :: rest))) =
        .error " Trailing comma detected." := by
  induction others with
  | nil =>
    intro first h fuel hfuel
    obtain ⟨m, rfl⟩ : ∃ m, fuel = m + 2 := ⟨fuel - 2, by simp at hfuel; omega⟩
    have h1 := h first (List.mem_cons_self _ _) (m + 1) (by simp at hfuel; omega)
    simp [parse_bounds, peekToken, consumeToken, h1, bind, Except.bind, pure, Except.pure,
      throw, throwThe, MonadExceptOf.throw]
  | cons second others ih =>
    intro first h fuel hfuel
    simp only [List.length_cons] at hfuel
    obtain ⟨m, rfl⟩ : ∃ m, fuel = m + 1 := ⟨fuel - 1, by omega⟩
    have h1 := h first (List.mem_cons_self _ _) m (by omega)
    have ih' := ih second (fun p hp => h p (List.mem_cons_of_mem _ hp)) m (by omega)
    simp only [List.foldr_cons, List.map_cons] at ih' ⊢
    simp [parse_bounds, peekToken, consumeToken, h1, ih'.1, ih'.2, bind, Except.bind, pure,
      Except.pure]

/-- C22: for a bounds list of the pairs `x1 : e1, ..., xk : ek`, `k >= 1`,
whose bound expressions parse up to the comma or closing bracket that follows
them, `parseBounds` returns exactly the pairs `(xi, ei)` in source order, and
with enough recursion budget an `array` or `sum` comprehension over them and a
body parses to the loop node with these bounds; with a comma right before the
closing bracket `parseBounds`, and with it the `array` and the `sum`
comprehension, fail with the trailing-comma `ParserException`.  The empty list
`[]` gives no pair, and `[,]` fails as well. -/
theorem parseBounds_pairs (n : Nat) (first : String × List token × ExprNode)
    (others : List (String × List token × ExprNode)) (rest : List token)
    (h : ∀ p ∈ first :: others, ∀ fuel, n ≤ fuel → ∀ t tl,
      t.type = .COMMA ∨ t.type = .RSQUARE →
      parseExpr fuel (p.2.1 ++ t :: tl) = .ok (p.2.2, t :: tl)) :
    ∀ fuel, n + others.length + 3 ≤ fuel →
      parseBounds fuel (⟨.LSQUARE, "["⟩ :: ⟨.VARIABLE, first.1⟩ :: ⟨.COLON, ":"⟩ ::
          (first.2.1 ++ others.foldr
            (fun p following =>
              ⟨.COMMA, ","⟩ :: ⟨.VARIABLE, p.1⟩ :: ⟨.COLON, ":"⟩ :: (p.2.1 ++ following))
            (⟨.RSQUARE, "]"⟩ :: rest))) =
        .ok ((first :: others).map (fun p => (p.1, p.2.2)), rest) ∧
      (∀ body, parseExpr fuel rest = .ok body →
        new_ArrayLoopExprNode (fuel + 1) (⟨.ARRAY, "array"⟩ :: ⟨.LSQUARE, "["⟩ ::
            ⟨.VARIABLE, first.1⟩ :: ⟨.COLON, ":"⟩ :: (first.2.1 ++ others.foldr
              (fun p following =>
                ⟨.COMMA, ","⟩ :: ⟨.VARIABLE, p.1⟩ :: ⟨.COLON, ":"⟩ :: (p.2.1 ++ following))
              (⟨.RSQUARE, "]"⟩ :: rest))) =
          .ok (.ArrayLoopExprNode .fresh ((first :: others).map (fun p => (p.1, p.2.2)))
            body.1, body.2) ∧
        new_SumLoopExprNode (fuel + 1) (⟨.SUM, "sum"⟩ :: ⟨.LSQUARE, "["⟩ ::
            ⟨.VARIABLE, first.1⟩ :: ⟨.COLON, ":"⟩ :: (first.2.1 ++ others.foldr
              (fun p following =>
                ⟨.COMMA, ","⟩ :: ⟨.VARIABLE, p.1⟩ :: ⟨.COLON, ":"⟩ :: (p.2.1 ++ following))
              (⟨.RSQUARE, "]"⟩ :: rest))) =
          .ok (.SumLoopExprNode .fresh ((first :: others).map (fun p => (p.1, p.2.2)))
            body.1, body.2)) ∧
      parseBounds fuel (⟨.LSQUARE, "["⟩ :: ⟨.VARIABLE, first.1⟩ :: ⟨.COLON, ":"⟩ ::
          (first.2.1 ++ others.foldr
            (fun p following =>
              ⟨.COMMA, ","⟩ :: ⟨.VARIABLE, p.1⟩ :: ⟨.COLON, ":"⟩ :: (p.2.1 ++ following))
            (⟨.COMMA, ","⟩ :: ⟨.RSQUARE, "]"⟩ :: rest))) =
        .error " Trailing comma detected." ∧
      new_ArrayLoopExprNode (fuel + 1) (⟨.ARRAY, "array"⟩ :: ⟨.LSQUARE, "["⟩ ::
          ⟨.VARIABLE, first.1⟩ :: ⟨.COLON, ":"⟩ :: (first.2.1 ++ others.foldr
            (fun p following =>
              ⟨.COMMA, ","⟩ :: ⟨.VARIABLE, p.1⟩ :: ⟨.COLON, ":"⟩ :: (p.2.1 ++ following))
            (⟨.COMMA, ","⟩ :: ⟨.RSQUARE, "]"⟩ :: rest))) =
        .error " Trailing comma detected." ∧
      new_SumLoopExprNode (fuel + 1) (⟨.SUM, "sum"⟩ :: ⟨.LSQUARE, "["⟩ ::
          ⟨.VARIABLE, first.1⟩ :: ⟨.COLON, ":"⟩ :: (first.2.1 ++ others.foldr
            (fun p following =>
              ⟨.COMMA, ","⟩ :: ⟨.VARIABLE, p.1⟩ :: ⟨.COLON, ":"⟩ :: (p.2.1 ++ following))
            (⟨.COMMA, ","⟩ :: ⟨.RSQUARE, "]"⟩ :: rest))) =
        .error " Trailing comma detected." ∧
      parseBounds fuel (⟨.LSQUARE, "["⟩ :: ⟨.RSQUARE, "]"⟩ :: rest) = .ok ([], rest) ∧
      parseBounds fuel (⟨.LSQUARE, "["⟩ :: ⟨.COMMA, ","⟩ :: ⟨.RSQUARE, "]"⟩ :: rest) =
        .error "Expected token of type VARIABLE, but got a token of type COMMA." := by
  intro fuel hfuel
  obtain ⟨m, rfl⟩ : ∃ m, fuel = m + 3 := ⟨fuel - 3, by omega⟩
  obtain ⟨hok, herr⟩ := parse_bounds_run n others rest first h (m + 2) (by omega)
  have hB : parseBounds (m + 3) (⟨.LSQUARE, "["⟩ :: ⟨.VARIABLE, first.1⟩ :: ⟨.COLON, ":"⟩ ::
      (first.2.1 ++ others.foldr
        (fun p following =>
          ⟨.COMMA, ","⟩ :: ⟨.VARIABLE, p.1⟩ :: ⟨.COLON, ":"⟩ :: (p.2.1 ++ following))
        (⟨.RSQUARE, "]"⟩ :: rest))) =
      .ok ((first :: others).map (fun p => (p.1, p.2.2)), rest) := by
    simp [parseBounds, consumeToken, hok, bind, Except.bind, pure, Except.pure]
  have hE : parseBounds (m + 3) (⟨.LSQUARE, "["⟩ :: ⟨.VARIABLE, first.1⟩ :: ⟨.COLON, ":"⟩ ::
      (first.2.1 ++ others.foldr
        (fun p following =>
          ⟨.COMMA, ","⟩ :: ⟨.VARIABLE, p.1⟩ :: ⟨.COLON, ":"⟩ :: (p.2.1 ++ following))
        (⟨.COMMA, ","⟩ :: ⟨.RSQUARE, "]"⟩ :: rest))) =
      .error " Trailing comma detected." := by
    simp [parseBounds, consumeToken, herr, bind, Except.bind, pure, Except.pure]
  refine ⟨hB, ?_, hE, ?_, ?_, ?_, ?_⟩
  · intro body hbody
    constructor
    · simp [new_ArrayLoopExprNode, consumeToken, hB, hbody, bind, Except.bind, pure,
        Except.pure]
    · simp [new_SumLoopExprNode, consumeToken, hB, hbody, bind, Except.bind, pure,
        Except.pure]
  · simp [new_ArrayLoopExprNode, consumeToken, hE, bind, Except.bind, pure, Except.pure]
  · simp [new_SumLoopExprNode, consumeToken, hE, bind, Except.bind, pure, Except.pure]
  · simp [parseBounds, parse_bounds, peekToken, consumeToken, bind, Except.bind, pure,
      Except.pure]
  · simp +decide [parseBounds, parse_bounds, peekToken, consumeToken, bind, Except.bind, pure,
      Except.pure, throw, throwThe, MonadExceptOf.throw, tokenTypeToString]

/-- The theorem `parseBounds_pairs` at the bounds `i : 3, j : n` of
`array[i : 3, j : n] i` and of `sum[i : 3, j : n,] i`. -/
theorem parseBounds_pairs_witness :
    new_ArrayLoopExprNode 15 [⟨.ARRAY, "array"⟩, ⟨.LSQUARE, "["⟩, ⟨.VARIABLE, "i"⟩,
        ⟨.COLON, ":"⟩, ⟨.INTVAL, "3"⟩, ⟨.COMMA, ","⟩, ⟨.VARIABLE, "j"⟩, ⟨.COLON, ":"⟩,
        ⟨.VARIABLE, "n"⟩, ⟨.RSQUARE, "]"⟩, ⟨.VARIABLE, "i"⟩, ⟨.NEWLINE, "\n"⟩] =
      .ok (.ArrayLoopExprNode .fresh
        [("i", .IntExprNode .fresh 3), ("j", .VariableExprNode .fresh "n")]
        (.VariableExprNode .fresh "i"), [⟨.NEWLINE, "\n"⟩]) ∧
    new_SumLoopExprNode 15 [⟨.SUM, "sum"⟩, ⟨.LSQUARE, "["⟩, ⟨.VARIABLE, "i"⟩,
        ⟨.COLON, ":"⟩, ⟨.INTVAL, "3"⟩, ⟨.COMMA, ","⟩, ⟨.VARIABLE, "j"⟩, ⟨.COLON, ":"⟩,
        ⟨.VARIABLE, "n"⟩, ⟨.COMMA, ","⟩, ⟨.RSQUARE, "]"⟩, ⟨.VARIABLE, "i"⟩,
        ⟨.NEWLINE, "\n"⟩] =
      .error " Trailing comma detected." :=
  have h := parseBounds_pairs 10 ("i", [⟨.INTVAL, "3"⟩], .IntExprNode .fresh 3)
    [("j", [⟨.VARIABLE, "n"⟩], .VariableExprNode .fresh "n")]
    [⟨.VARIABLE, "i"⟩, ⟨.NEWLINE, "\n"⟩]
    (fun p hp fuel hfuel t tl ht => by
      obtain ⟨k, rfl⟩ : ∃ k, fuel = k + 10 := ⟨fuel - 10, by omega⟩
      obtain ⟨type, text⟩ := t
      simp only [List.mem_cons, List.mem_singleton, List.not_mem_nil, or_false] at hp
      rcases hp with rfl | rfl <;> rcases ht with ht | ht <;> cases ht <;> rfl)
    14 (by decide)
  ⟨(h.2.1 (.VariableExprNode .fresh "i", [⟨.NEWLINE, "\n"⟩]) rfl).1, h.2.2.2.2.1⟩

end Parser

/-! ## Properties of the lexer -/

namespace Lexer

/-- C23, failing input: in `x /*//*/\` followed by a line break and `y` the
only newline of the run between `x` and `y` is line-continued, and `lexAll`
returns a NEWLINE token between the two variables; with the comment
`/* a */` in the same place it returns none. -/
theorem continued_newline_after_comment :
    lexAll "x /*//*/\\\ny" =
      .ok [⟨.VARIABLE, "x"⟩, ⟨.NEWLINE, "\n"⟩, ⟨.VARIABLE, "y"⟩, ⟨.END_OF_FILE, ""⟩] ∧
    lexAll "x /* a */\\\ny" =
      .ok [⟨.VARIABLE, "x"⟩, ⟨.VARIABLE, "y"⟩, ⟨.END_OF_FILE, ""⟩] := by
  constructor <;> rfl

/-- C24, failing input: `lexAll` throws on `int.x` and splits `int.5` into the
keyword token INT and a FLOATVAL, while `int_x` is one VARIABLE token. -/
theorem keyword_before_dot :
    lexAll "int.x" = .error "Could not recognize token." ∧
    lexAll "int.5" = .ok [⟨.INT, "int"⟩, ⟨.FLOATVAL, ".5"⟩, ⟨.END_OF_FILE, ""⟩] ∧
    lexAll "int_x" = .ok [⟨.VARIABLE, "int_x"⟩, ⟨.END_OF_FILE, ""⟩] ∧
    lexVariable "int.x".toList = .ok (⟨.VARIABLE, "int.x"⟩, []) := by
  refine ⟨?_, ?_, ?_, ?_⟩ <;> rfl

/-- C25, failing input: `lexAll` throws on the line `print "hello world"`,
which `lexPrintAll` lexes as PRINT, STRING, NEWLINE, END_OF_FILE; without the
space in the string `lexAll` returns these tokens. -/
theorem string_with_space :
    lexAll "print \"hello world\"\n" = .error "Could not recognize token." ∧
    lexPrintAll "print \"hello world\"\n" =
      .ok [⟨.PRINT, "print"⟩, ⟨.STRING, "\"hello world\""⟩, ⟨.NEWLINE, "\n"⟩,
        ⟨.END_OF_FILE, ""⟩] ∧
    lexAll "print \"hello\"\n" =
      .ok [⟨.PRINT, "print"⟩, ⟨.STRING, "\"hello\""⟩, ⟨.NEWLINE, "\n"⟩,
        ⟨.END_OF_FILE, ""⟩] := by
  refine ⟨?_, ?_, ?_⟩ <;> rfl

/-- C26, failing input: on the line `show 1//one` the function `lexAll`
returns the comment as the tokens `/`, `/` and `one`, so the token texts
concatenate to `show1//one`; `lexPrintAll` prints SHOW, INTVAL, NEWLINE,
END_OF_FILE for it. -/
theorem comment_after_token :
    lexAll "show 1//one\n" =
      .ok [⟨.SHOW, "show"⟩, ⟨.INTVAL, "1"⟩, ⟨.OP, "/"⟩, ⟨.OP, "/"⟩, ⟨.VARIABLE, "one"⟩,
        ⟨.NEWLINE, "\n"⟩, ⟨.END_OF_FILE, ""⟩] ∧
    (lexAll "show 1//one\n").map token_texts = .ok "show1//one" ∧
    lexPrintAll "show 1//one\n" =
      .ok [⟨.SHOW, "show"⟩, ⟨.INTVAL, "1"⟩, ⟨.NEWLINE, "\n"⟩, ⟨.END_OF_FILE, ""⟩] := by
  refine ⟨?_, ?_, ?_⟩ <;> rfl

/-- C37, failing input: on each of the lines `x/**/`, `show x//c` and
`print "a b"` the functions `lexAll` and `lexPrintAll` differ: `lexAll` throws
on the first and on the third, which `lexPrintAll` lexes, and on the second
`lexAll` returns the comment as the tokens `/`, `/`, `c`, which `lexPrintAll`
skips. -/
theorem lexAll_differs_from_lexPrintAll :
    lexAll "x/**/\n" = .error "Could not recognize token." ∧
    lexPrintAll "x/**/\n" =
      .ok [⟨.VARIABLE, "x"⟩, ⟨.NEWLINE, "\n"⟩, ⟨.END_OF_FILE, ""⟩] ∧
    lexAll "show x//c\n" =
      .ok [⟨.SHOW, "show"⟩, ⟨.VARIABLE, "x"⟩, ⟨.OP, "/"⟩, ⟨.OP, "/"⟩, ⟨.VARIABLE, "c"⟩,
        ⟨.NEWLINE, "\n"⟩, ⟨.END_OF_FILE, ""⟩] ∧
    lexPrintAll "show x//c\n" =
      .ok [⟨.SHOW, "show"⟩, ⟨.VARIABLE, "x"⟩, ⟨.NEWLINE, "\n"⟩, ⟨.END_OF_FILE, ""⟩] ∧
    lexAll "print \"a b\"\n" = .error "Could not recognize token." ∧
    lexPrintAll "print \"a b\"\n" =
      .ok [⟨.PRINT, "print"⟩, ⟨.STRING, "\"a b\""⟩, ⟨.NEWLINE, "\n"⟩,
        ⟨.END_OF_FILE, ""⟩] := by
  refine ⟨?_, ?_, ?_, ?_, ?_, ?_⟩ <;> rfl

end Lexer

/-! ## Properties of the driver -/

open Typechecker Parser Compiler

set_option maxRecDepth 100000 in
/-- C21, counterexample: the one-line definition
`fn sq(x:int):int { return x*x }` followed by a line break and
`show sq(7)` passes the lexer and is refused by the parser, which expects a
NEWLINE after the opening brace; a final line break changes nothing. -/
theorem one_line_function_refused :
    Lexer.lexAll "fn sq(x:int):int \x7b return x*x \x7d\nshow sq(7)" = .ok
      [⟨.FN, "fn"⟩, ⟨.VARIABLE, "sq"⟩, ⟨.LPAREN, "("⟩, ⟨.VARIABLE, "x"⟩, ⟨.COLON, ":"⟩,
        ⟨.INT, "int"⟩, ⟨.RPAREN, ")"⟩, ⟨.COLON, ":"⟩, ⟨.INT, "int"⟩, ⟨.LCURLY, "\x7b"⟩,
        ⟨.RETURN, "return"⟩, ⟨.VARIABLE, "x"⟩, ⟨.OP, "*"⟩, ⟨.VARIABLE, "x"⟩,
        ⟨.RCURLY, "\x7d"⟩, ⟨.NEWLINE, "\n"⟩, ⟨.SHOW, "show"⟩, ⟨.VARIABLE, "sq"⟩,
        ⟨.LPAREN, "("⟩, ⟨.INTVAL, "7"⟩, ⟨.RPAREN, ")"⟩, ⟨.END_OF_FILE, ""⟩] ∧
    front_end 40 "fn sq(x:int):int \x7b return x*x \x7d\nshow sq(7)" =
      .error "Expected token of type NEWLINE, but got a token of type RETURN." ∧
    front_end 40 "fn sq(x:int):int \x7b return x*x \x7d\nshow sq(7)\n" =
      .error "Expected token of type NEWLINE, but got a token of type RETURN." := by
  refine ⟨?_, ?_, ?_⟩ <;> rfl

set_option maxRecDepth 100000 in
/-- C21, as amended: the definition of `sq` written with a line break after
the opening brace and after the statement, followed by `show sq(7)` and a
line break, passes the lexer, the parser and the type resolver, and the call
`sq(7)` is given the type Int. -/
theorem function_on_lines_accepted :
    front_end 40 "fn sq(x:int):int \x7b\n return x*x\n\x7d\nshow sq(7)\n" = .ok
      [ .FnCmd "sq" [.VarBindingNode (.VarArgumentNode "x") .IntTypeNode] .IntTypeNode
          [ .ReturnStmtNode (.BinopExprNode .fresh (.VariableExprNode .fresh "x") .TIMES
              (.VariableExprNode .fresh "x")) ],
        .ShowCmdNode (.CallExprNode .fresh "sq" [.IntExprNode .fresh 7]) ] ∧
    resolve_source 40 "fn sq(x:int):int \x7b\n return x*x\n\x7d\nshow sq(7)\n" = .ok
      [ .FnCmd "sq" [.VarBindingNode (.VarArgumentNode "x") .IntTypeNode] .IntTypeNode
          [ .ReturnStmtNode (.BinopExprNode ⟨some .IntRType, .NONE⟩
              (.VariableExprNode ⟨some .IntRType, .NONE⟩ "x") .TIMES
              (.VariableExprNode ⟨some .IntRType, .NONE⟩ "x")) ],
        .ShowCmdNode (.CallExprNode ⟨some .IntRType, .NONE⟩ "sq"
          [.IntExprNode ⟨some .IntRType, .NONE⟩ 7]) ] := by
  constructor <;> rfl

set_option maxRecDepth 100000 in
/-- C27, failing input: in the program of `fn f() : int` with the body
`let x = 5`, `return x` and `fn g(x : float) : float` with the body
`return x`, the pass annotates the reference to the parameter `x` of `g`,
of type Float, with the constant 5, and at level 2 `g` pushes the literal 5
where at level 1 it copies the parameter. -/
theorem parameter_annotated_constant :
    (front_end 40
        "fn f() : int \x7b\n let x = 5\n return x\n\x7d\nfn g(x : float) : float \x7b\n return x\n\x7d\n"
      >>= resolve_and_propagate) = .ok
      [ .FnCmd "f" [] .IntTypeNode
          [ .LetStmtNode (.ArgumentLValue (.VarArgumentNode "x"))
              (.IntExprNode ⟨some .IntRType, .INT 5⟩ 5),
            .ReturnStmtNode (.VariableExprNode ⟨some .IntRType, .INT 5⟩ "x") ],
        .FnCmd "g" [.VarBindingNode (.VarArgumentNode "x") .FloatTypeNode] .FloatTypeNode
          [ .ReturnStmtNode (.VariableExprNode ⟨some .FloatRType, .INT 5⟩ "x") ] ] ∧
    (compile_source 40
        "fn f() : int \x7b\n let x = 5\n return x\n\x7d\nfn g(x : float) : float \x7b\n return x\n\x7d\n"
        2).map (lines_of "g") = .ok
      [.sub_rsp 8, .other "movsd [rsp], xmm0", .push "qword 5", .other "movsd xmm0, [rsp]",
        .add_rsp 8, .add_rsp 8, .pop "rbp", .ret] ∧
    ((compile_source 40
        "fn f() : int \x7b\n let x = 5\n return x\n\x7d\nfn g(x : float) : float \x7b\n return x\n\x7d\n"
        1).map (lines_of "g")).toOption = some
      [.sub_rsp 8, .other "movsd [rsp], xmm0", .sub_rsp 8, .other "mov r10, [rbp - 8 + 0]",
        .other "mov [rsp + 0], r10", .other "movsd xmm0, [rsp]", .add_rsp 8, .add_rsp 8,
        .pop "rbp", .ret] :=
  ⟨by rfl, by rfl, by decide!⟩

set_option maxRecDepth 100000 in
/-- C28, failing input: `visit_let_stmt` on `let x = y`, whose right-hand
side has the cp value None, leaves the entry of `x` at the constant 5, where
`visit_let_cmd` replaces it by None; in the program of `fn f() : int` with
the body `let x = 5`, `return x` and `fn g(y : int) : int` with the body
`let x = y`, `return x`, the reference to `x` in `g` is annotated with the
constant 5 and at level 2 `g` returns the literal 5. -/
theorem let_stmt_keeps_entry :
    (Optimization.visit_let_stmt (.ArgumentLValue (.VarArgumentNode "x"))
        (.VariableExprNode ⟨some .IntRType, .NONE⟩ "y") [("x", .INT 5)]).map (·.2) =
      .ok [("x", .INT 5)] ∧
    (Optimization.visit_let_cmd (.ArgumentLValue (.VarArgumentNode "x"))
        (.VariableExprNode ⟨some .IntRType, .NONE⟩ "y") [("x", .INT 5)]).map (·.2) =
      .ok [("x", .NONE)] ∧
    (front_end 40
        "fn f() : int \x7b\n let x = 5\n return x\n\x7d\nfn g(y : int) : int \x7b\n let x = y\n return x\n\x7d\n"
      >>= resolve_and_propagate) = .ok
      [ .FnCmd "f" [] .IntTypeNode
          [ .LetStmtNode (.ArgumentLValue (.VarArgumentNode "x"))
              (.IntExprNode ⟨some .IntRType, .INT 5⟩ 5),
            .ReturnStmtNode (.VariableExprNode ⟨some .IntRType, .INT 5⟩ "x") ],
        .FnCmd "g" [.VarBindingNode (.VarArgumentNode "y") .IntTypeNode] .IntTypeNode
          [ .LetStmtNode (.ArgumentLValue (.VarArgumentNode "x"))
              (.VariableExprNode ⟨some .IntRType, .NONE⟩ "y"),
            .ReturnStmtNode (.VariableExprNode ⟨some .IntRType, .INT 5⟩ "x") ] ] ∧
    ((compile_source 40
        "fn f() : int \x7b\n let x = 5\n return x\n\x7d\nfn g(y : int) : int \x7b\n let x = y\n return x\n\x7d\n"
        2).map (lines_of "g")).toOption = some
      [.push "rdi", .sub_rsp 8, .other "mov r10, [rbp - 8 + 0]", .other "mov [rsp + 0], r10",
        .push "qword 5", .pop "rax", .add_rsp 16, .pop "rbp", .ret] :=
  ⟨by rfl, by rfl, by rfl, by decide!⟩

set_option maxRecDepth 100000 in
/-- C34, failing input: the definition `fn f(f : int) : int` with the body
`return f`, followed by `show f(3)`, passes the type resolver: in the body `f`
is the parameter, of type Int, and in the following command `f` is the
function.  A parameter with the name of an earlier global, and a `let` in the
body with the name of the function, are both refused. -/
theorem parameter_named_as_function :
    resolve_source 60 "fn f(f : int) : int \x7b\n return f\n\x7d\nshow f(3)\n" = .ok
      [ .FnCmd "f" [.VarBindingNode (.VarArgumentNode "f") .IntTypeNode] .IntTypeNode
          [ .ReturnStmtNode (.VariableExprNode ⟨some .IntRType, .NONE⟩ "f") ],
        .ShowCmdNode (.CallExprNode ⟨some .IntRType, .NONE⟩ "f"
          [.IntExprNode ⟨some .IntRType, .NONE⟩ 3]) ] ∧
    resolve_source 60 "let g = 1\nfn f(g : int) : int \x7b\n return g\n\x7d\n" =
      .error "Caught argument with already defined name" ∧
    resolve_source 60 "fn f(x : int) : int \x7b\n let f = 2\n return x\n\x7d\n" =
      .error "Caught argument with already defined name" := by
  refine ⟨?_, ?_, ?_⟩ <;> rfl

set_option maxRecDepth 100000 in
/-- C35, failing input: at level 1 the generator crashes on
`array[i : 2, j : n] 0` with `n` a variable, where it reads
`bound_constant->value` through the null result of the failed cast; at the
levels 0 and 2 it completes, and at level 1 it completes when both bounds are
literals. -/
theorem loop_bound_cast_unchecked :
    (match compile_source 60 "let n = 3\nshow array[i : 2, j : n] 0\n" 1 with
      | .error message => some message
      | .ok _ => none) = some "bound_constant is null" ∧
    loop_storage_lines 1 8 16 [("j", .VariableExprNode ⟨some .IntRType, .NONE⟩ "n")] 1 =
      .error "bound_constant is null" ∧
    (compile_source 60 "let n = 3\nshow array[i : 2, j : n] 0\n" 0).toOption.isSome = true ∧
    (compile_source 60 "let n = 3\nshow array[i : 2, j : n] 0\n" 2).toOption.isSome = true ∧
    (compile_source 60 "let n = 3\nshow array[i : 2, j : 3] 0\n" 1).toOption.isSome = true :=
  ⟨by decide!, by rfl, by decide!, by decide!, by decide!⟩

set_option maxRecDepth 100000 in
/-- C39, failing input: `get_offset` on a name that was never added returns
the offset of a zero entry and leaves the name registered, so that
`has_temporary` holds afterwards; in the program of `let a = [1, 2]` and
`fn f(k : int) : int` with the body `let x = a[0]`, `let b = a`, `return x`,
compiled at level 1, the copy of the global `a` after `a[0]` reads the frame
of `f` through `rbp`, where at level 0 it reads the global frame through
`r12`. -/
theorem get_offset_registers_name :
    (∀ (d : StackDescription) (name : String), d.has_temporary name = false →
      (d.get_offset name).1 = 0 + d.init_stack_size ∧
      (d.get_offset name).2.has_temporary name = true) ∧
    (StackDescription.create 0).has_temporary "a" = false ∧
    ((StackDescription.create 0).get_offset "a").1 = 0 ∧
    ((StackDescription.create 0).get_offset "a").2.has_temporary "a" = true ∧
    ((compile_source 60
        "let a = [1, 2]\nfn f(k : int) : int \x7b\n let x = a[0]\n let b = a\n return x\n\x7d\n"
        1).map (lines_of "f")).toOption = some
      [.push "rdi", .push "qword 0", .other "mov rax, [rsp + 0]", .other "cmp rax, 0",
        .other "jge .jump1", .other "lea rdi, [rel const0]", .call "_fail_assertion",
        .other ".jump1:", .other "cmp rax, [rsp + 16]", .other "jl .jump2",
        .other "lea rdi, [rel const1]", .call "_fail_assertion", .other ".jump2:",
        .other "mov rax, [rsp]", .other "shl rax, 3", .other "add rax, [rsp + 24]",
        .add_rsp 8, .sub_rsp 8, .other "mov r10, [rax + 0]", .other "mov [rsp + 0], r10",
        .sub_rsp 16, .other "mov r10, [rbp - 0 + 8]", .other "mov [rsp + 8], r10",
        .other "mov r10, [rbp - 0 + 0]", .other "mov [rsp + 0], r10",
        .sub_rsp 8, .other "mov r10, [rbp - 16 + 0]", .other "mov [rsp + 0], r10",
        .pop "rax", .add_rsp 32, .pop "rbp", .ret] ∧
    ((compile_source 60
        "let a = [1, 2]\nfn f(k : int) : int \x7b\n let x = a[0]\n let b = a\n return x\n\x7d\n"
        0).map (fun assembly => (lines_of "f" assembly).drop 29)).toOption = some
      [.sub_rsp 16, .other "mov r10, [r12 - 24 + 8]", .other "mov [rsp + 8], r10",
        .other "mov r10, [r12 - 24 + 0]", .other "mov [rsp + 0], r10",
        .sub_rsp 8, .other "mov r10, [rbp - 16 + 0]", .other "mov [rsp + 0], r10",
        .pop "rax", .add_rsp 32, .pop "rbp", .ret] :=
  ⟨fun d name h => by
      have hnone : StackDescription.temporary? d.temporaries name = none := by
        simpa [StackDescription.has_temporary] using h
      simp [StackDescription.get_offset, hnone, StackDescription.has_temporary,
        StackDescription.temporary?_add_temporary],
    by rfl, by rfl, by rfl, by decide!, by decide!⟩
